import Mathlib

/-!
# C2VDAComponent: a shallow embedding

A verification development for `C2VDAComponent.cpp`, the Codec2 component that sits between
the media framework and a video decode accelerator (VDA).

Conventions of the embedding.

* The members of `C2VDAComponent` are the fields of `Component`.  A handler that runs on the
  component thread is a function `Component → Option Component`; `none` is a failed `CHECK`
  (the process aborts) or a dereference of a null or missing object.
* Calls that leave the component (VDA commands, listener callbacks, `PostTask`, signalling a
  waitable event) are appended, in program order, to the field `log`.
* Results of calls into the environment (`dup`, the block pool, `initialize`) are arguments of
  the handler that makes the call.
* Machine integers are `Nat`/`Int` with explicit reduction modulo `2^w` where the width matters.
-/

namespace C2VDA

/-! ## Codec2 and VDA types used by the component -/

/-- Modelled from the spec: `c2_status_t` is declared in the Codec2 headers, which are not part
of the sources; these are the codes that the component and the spec name. -/
inductive c2_status_t
  | C2_OK | C2_BAD_VALUE | C2_BAD_STATE | C2_NOT_FOUND | C2_CORRUPTED
  | C2_NO_MEMORY | C2_OMITTED | C2_TIMED_OUT | C2_NO_INIT
  deriving DecidableEq, Repr

/-- Modelled from the spec: `VideoDecodeAcceleratorAdaptor::Result`, declared in
`VideoDecodeAcceleratorAdaptor.h`; the spec lists the five error codes, the component also
names `SUCCESS`. -/
inductive VDAResult
  | SUCCESS | ILLEGAL_STATE | INVALID_ARGUMENT | UNREADABLE_INPUT
  | PLATFORM_FAILURE | INSUFFICIENT_RESOURCES
  deriving DecidableEq, Repr

/-- The state machine enumeration on parent thread (`C2VDAComponent::State`). -/
inductive State
  | UNLOADED | LOADED | RUNNING | ERROR
  deriving DecidableEq, Repr

/-- The state machine enumeration on component thread (`C2VDAComponent::ComponentState`);
`DRAINING` is used throughout `C2VDAComponent.cpp`. -/
inductive ComponentState
  | UNINITIALIZED | STARTED | DRAINING | FLUSHING | STOPPING | ERROR
  deriving DecidableEq, Repr

/-- Modelled from the spec: the drain mark of a queued work, `drain_mode_t` of the Codec2
headers together with the component's own `NO_DRAIN`, which differs from every `drain_mode_t`
value. -/
inductive DrainMode
  | NO_DRAIN | DRAIN_COMPONENT_WITH_EOS | DRAIN_COMPONENT_NO_EOS | DRAIN_CHAIN
  deriving DecidableEq, Repr

/-- Modelled from the spec: `flush_mode_t` of the Codec2 headers. -/
inductive flush_mode_t
  | FLUSH_COMPONENT | FLUSH_CHAIN
  deriving DecidableEq, Repr

/-- Ownership of an output buffer (`GraphicBlockInfo::State`). -/
inductive GBState
  | OWNED_BY_COMPONENT | OWNED_BY_ACCELERATOR | OWNED_BY_CLIENT
  deriving DecidableEq, Repr

/-- Modelled from the spec: `HalPixelFormat` and `resolveBufferFormat` are declared in
`C2VDAPixelFormat.h`; the spec says the code is resolved from the (CrCb, semi-planar) axes, so a
resolved format records the two axes. -/
inductive HalPixelFormat
  | UNKNOWN | YCbCr_420_888 | YV12 | NV12
  | resolved (crcb semiplanar : Bool)
  deriving DecidableEq, Repr

/-- Modelled from the spec: `C2FrameData::FLAG_END_OF_STREAM`, a single bit of the flags
bitset declared in the Codec2 headers. -/
def FLAG_END_OF_STREAM : Nat := 2

/-- Modelled from the spec: `C2FrameData::FLAG_CODEC_CONFIG`, a single bit of the flags
bitset declared in the Codec2 headers, different from `FLAG_END_OF_STREAM`. -/
def FLAG_CODEC_CONFIG : Nat := 2147483648

/-- The test `flags & bit` of the C++ code. -/
def hasFlag (flags bit : Nat) : Bool := (flags &&& bit) != 0

/-- A linear block of compressed input: the fd of its handle, offset and size. -/
structure C2ConstLinearBlock where
  fd : Int
  offset : Nat
  size : Nat
  deriving DecidableEq, Repr

/-- One plane of a `C2PlanarLayout`. -/
structure C2PlaneInfo where
  colInc : Int
  rowInc : Int
  deriving DecidableEq, Repr

/-- A graphic block fetched from the block pool: geometry, the fd of its handle, and what
mapping it shows: `data` are the plane addresses (`none` for a null `data()`), `numPlanes` and
`planes` are the layout. -/
structure C2GraphicBlock where
  width : Nat
  height : Nat
  handleFd : Int
  data : Option (List Int)
  numPlanes : Nat
  planes : List C2PlaneInfo
  deriving DecidableEq, Repr

/-- A shared view of a graphic block, cropped to `C2Rect(cropWidth, cropHeight)`. -/
structure C2ConstGraphicBlock where
  block : C2GraphicBlock
  cropWidth : Nat
  cropHeight : Nat
  deriving DecidableEq, Repr

/-- A `C2Buffer` holds linear or graphic data. -/
inductive C2Buffer
  | linear (blk : C2ConstLinearBlock)
  | graphic (blk : C2ConstGraphicBlock)
  deriving DecidableEq, Repr

/-- The ordinal of a frame (`C2WorkOrdinalStruct`); `frameIndex` is a 64-bit counter. -/
structure C2WorkOrdinal where
  frameIndex : Nat
  timestamp : Nat
  customOrdinal : Nat
  deriving DecidableEq, Repr

/-- The input or output side of a work (`C2FrameData`); an element of `buffers` is a shared
pointer, `none` when it is null. -/
structure C2FrameData where
  flags : Nat
  ordinal : C2WorkOrdinal
  buffers : List (Option C2Buffer)
  deriving DecidableEq, Repr

/-- A worklet: only its output is used by the component. -/
structure C2Worklet where
  output : C2FrameData
  deriving DecidableEq, Repr

/-- A unit of work submitted by the framework (`C2Work`). -/
structure C2Work where
  input : C2FrameData
  worklets : List C2Worklet
  workletsProcessed : Nat
  result : c2_status_t
  deriving DecidableEq, Repr

/-- An element of `mQueue` (`C2VDAComponent::WorkEntry`). -/
structure WorkEntry where
  mWork : C2Work
  mDrainMode : DrainMode
  deriving DecidableEq, Repr

/-- A plane passed to the VDA on import (`VideoFramePlane`). -/
structure VideoFramePlane where
  mOffset : Nat
  mStride : Nat
  deriving DecidableEq, Repr

/-- The record kept for every output buffer (`C2VDAComponent::GraphicBlockInfo`).
Modelled from the spec: the declaration of the struct is not part of the sources; a new record
is owned by the component (`sendOutputBufferToAccelerator` checks this right after
allocation).  `mHandle` is the duplicated fd, `none` once it has been released to the VDA. -/
structure GraphicBlockInfo where
  mBlockId : Int
  mPoolId : Nat
  mState : GBState := GBState.OWNED_BY_COMPONENT
  mGraphicBlock : Option C2GraphicBlock
  mPixelFormat : HalPixelFormat
  mHandle : Option Int
  mPlanes : List VideoFramePlane
  deriving DecidableEq, Repr

/-- A rectangle of `media::Rect`: origin and size.  The component compares rectangles as a
whole and reads width and height; `media::Rect(size)` and `media::Rect()` have the origin
`(0, 0)`, which is the default here. -/
structure Rect where
  x : Int := 0
  y : Int := 0
  width : Nat
  height : Nat
  deriving DecidableEq, Repr

/-- A size of `media::Size`. -/
structure Size where
  width : Nat
  height : Nat
  deriving DecidableEq, Repr

/-- The output format (`C2VDAComponent::VideoFormat`). -/
structure VideoFormat where
  mPixelFormat : HalPixelFormat
  mMinNumBuffers : Nat
  mCodedSize : Size
  mVisibleRect : Rect
  deriving DecidableEq, Repr

/-- A task posted to the component thread with `mTaskRunner->PostTask`. -/
inductive Task
  | onStart (profile : Int)
  | onStop
  | onQueueWork (work : C2Work)
  | onDequeueWork
  | onInputBufferDone (bitstreamId : Int)
  | onOutputBufferReturned (block : C2GraphicBlock) (poolId : Nat)
  | onOutputBufferDone (pictureBufferId bitstreamId : Int)
  | onDrain (drainMode : DrainMode)
  | onDrainDone
  | onFlush
  | onResetDone
  | onOutputFormatChanged (format : VideoFormat)
  | onVisibleRectChanged (cropRect : Rect)
  deriving DecidableEq, Repr

/-- A call that leaves the component, in the order in which the code makes it. -/
inductive Effect
  | vdaInitialize (secure : Bool)
  | vdaDecode (bitstreamId : Int) (fd : Int) (offset size : Nat)
  | vdaAssignPictureBuffers (count : Nat)
  | vdaImportBufferForPicture (blockId : Int) (format : HalPixelFormat) (fd : Int)
      (planes : List VideoFramePlane)
  | vdaReusePictureBuffer (blockId : Int)
  | vdaFlush
  | vdaReset
  | vdaDestroy
  | onWorkDone_nb (works : List C2Work)
  | onError_nb (error : c2_status_t)
  | postTask (task : Task)
  | signalStartDone
  | signalStopDone
  deriving DecidableEq, Repr

/-- The members of `C2VDAComponent` that the handlers read or write, and the log of the calls
made so far.  `mVDAAdaptor` and `mStopDoneEvent` tell whether the pointer is set;
`mDequeueThreadRunning` is `mDequeueThread.IsRunning()`. -/
structure Component where
  mState : State
  mComponentState : ComponentState
  mVDAInitResult : VDAResult
  mVDAAdaptor : Bool
  mStopDoneEvent : Bool
  mSecureMode : Bool
  mCodecProfile : Int
  mQueue : List WorkEntry
  mPendingWorks : List C2Work
  mAbandonedWorks : List C2Work
  mPendingOutputEOS : Bool
  mGraphicBlocks : List GraphicBlockInfo
  mBuffersInClient : Nat
  mOutputFormat : VideoFormat
  mPendingOutputFormat : Option VideoFormat
  mRequestedVisibleRect : Rect
  mDequeueThreadRunning : Bool
  mDequeueLoopStop : Bool
  log : List Effect
  deriving DecidableEq, Repr

/-! ## Helpers -/

/-- The conversion `static_cast<int32_t>` of an unsigned value. -/
def static_cast_int32 (x : Nat) : Int :=
  if x % 2 ^ 32 < 2 ^ 31 then ((x % 2 ^ 32 : Nat) : Int) else ((x % 2 ^ 32 : Nat) : Int) - 2 ^ 32

/-- Mask against 30 bits to avoid (undefined) wraparound on signed integer.  `frameIndex` is a
`c2_cntr64_t`, `peeku()` is its value as an unsigned 64-bit integer. -/
def frameIndexToBitstreamId (frameIndex : Nat) : Int :=
  static_cast_int32 ((frameIndex % 2 ^ 64) &&& 0x3FFFFFFF)

/-- The value of `n - 1` in unsigned 32-bit arithmetic, for `n < 2^32`. -/
def uint32_pred (n : Nat) : Nat := if n = 0 then 4294967295 else n - 1

def kDpbOutputBufferExtraCount : Nat := 3

def kAllocateBufferMaxRetries : Nat := 10

/-- Append a call to the log. -/
def emit (e : Effect) (c : Component) : Component :=
  { c with log := c.log ++ [e] }

/-- The body of `reportError`: one call of `mListener->onError_nb`. -/
def reportError (error : c2_status_t) (c : Component) : Component :=
  emit (Effect.onError_nb error) c

/-- The macro `EXPECT_RUNNING_OR_RETURN_ON_ERROR()` followed by the rest `k` of the handler. -/
def EXPECT_RUNNING_OR_RETURN_ON_ERROR (c : Component) (k : Option Component) :
    Option Component :=
  if c.mComponentState = ComponentState.ERROR then some c
  else if c.mComponentState = ComponentState.UNINITIALIZED then none
  else k

/-- Index of the first element that satisfies `p` (`std::find_if`). -/
def findFirst {α : Type} (p : α → Bool) : List α → Option Nat
  | [] => none
  | a :: l => if p a then some 0 else (findFirst p l).map (· + 1)

/-- The bitstream id of a work. -/
def bitstreamIdOf (w : C2Work) : Int :=
  frameIndexToBitstreamId w.input.ordinal.frameIndex

/-- `getPendingWorkByBitstreamId`: the position in `mPendingWorks` of the first work with
that bitstream id, `none` for `nullptr`. -/
def getPendingWorkByBitstreamId (bitstreamId : Int) (c : Component) : Option Nat :=
  findFirst (fun w => bitstreamIdOf w == bitstreamId) c.mPendingWorks

/-- `getGraphicBlockById`: the position in `mGraphicBlocks`, `none` for `nullptr`. -/
def getGraphicBlockById (blockId : Int) (c : Component) : Option Nat :=
  if blockId < 0 ∨ blockId ≥ static_cast_int32 c.mGraphicBlocks.length then none
  else some blockId.toNat

/-- `getGraphicBlockByPoolId`: the position in `mGraphicBlocks` of the first record with
that pool id, `none` for `nullptr`. -/
def getGraphicBlockByPoolId (poolId : Nat) (c : Component) : Option Nat :=
  findFirst (fun gb => gb.mPoolId == poolId) c.mGraphicBlocks

/-- `buffers.front().reset()`: the first slot becomes null. -/
def resetFront : List (Option C2Buffer) → Option (List (Option C2Buffer))
  | [] => none
  | _ :: bs => some (none :: bs)

/-! ## Reporting works -/

/-- `isWorkDone`, reading `mPendingOutputEOS` and `mPendingWorks.size()` from the component;
`none` when `front()` is taken of an empty container. -/
def isWorkDone (c : Component) (work : C2Work) : Option Bool :=
  if hasFlag work.input.flags FLAG_END_OF_STREAM then some false
  else match work.input.buffers with
    | [] => none
    | some _ :: _ => some false
    | none :: _ =>
      if c.mPendingOutputEOS && c.mPendingWorks.length == 1 then some false
      else if hasFlag work.input.flags FLAG_CODEC_CONFIG then some true
      else match work.worklets with
        | [] => none
        | wl :: _ => some (!wl.output.buffers.isEmpty)

/-- The loop of `reportFinishedWorkIfAny`: `kept` are the works before the iterator that stay
in `mPendingWorks`, the second list are the works from the iterator on, `finished` is
`finishedWorks`.  At every test `mPendingWorks` is `kept` followed by the rest. -/
def reportFinishedWorkLoop (c : Component) :
    List C2Work → List C2Work → List C2Work → Option (List C2Work × List C2Work)
  | kept, [], finished => some (kept, finished)
  | kept, w :: rest, finished =>
    match isWorkDone { c with mPendingWorks := kept ++ w :: rest } w with
    | none => none
    | some true =>
      reportFinishedWorkLoop c kept rest
        (finished ++ [{ w with result := c2_status_t.C2_OK,
                               workletsProcessed := w.worklets.length % 2 ^ 32 }])
    | some false => reportFinishedWorkLoop c (kept ++ [w]) rest finished

def reportFinishedWorkIfAny (c : Component) : Option Component :=
  match reportFinishedWorkLoop c [] c.mPendingWorks [] with
  | none => none
  | some (kept, finished) =>
    let c1 := { c with mPendingWorks := kept }
    if !finished.isEmpty then some (emit (Effect.onWorkDone_nb finished) c1) else some c1

/-- Result `C2_NOT_FOUND` and a cleared first input slot, as both loops of
`reportAbandonedWorks` do it. -/
def abandonWork (work : C2Work) : C2Work :=
  { work with
    result := c2_status_t.C2_NOT_FOUND
    input := { work.input with
      buffers := match work.input.buffers with
        | [] => []
        | _ :: bs => none :: bs } }

def reportAbandonedWorks (c : Component) : Component :=
  let abandonedWorks := c.mPendingWorks.map abandonWork ++ c.mAbandonedWorks.map abandonWork
  let c1 := { c with mPendingWorks := [], mAbandonedWorks := [], mPendingOutputEOS := false }
  if !abandonedWorks.isEmpty then emit (Effect.onWorkDone_nb abandonedWorks) c1 else c1

/-- `reportEOSWork`; `none` when `worklets.front()` is taken of an empty list. -/
def reportEOSWork (c : Component) : Option Component :=
  match c.mPendingWorks with
  | [eosWork] =>
    match eosWork.worklets with
    | [] => none
    | wl :: wls =>
      let eosWork1 : C2Work :=
        { input := { eosWork.input with
            buffers := match eosWork.input.buffers with
              | [] => []
              | _ :: bs => none :: bs }
          result := c2_status_t.C2_OK
          workletsProcessed := eosWork.worklets.length % 2 ^ 32
          worklets := { wl with output := { wl.output with flags := FLAG_END_OF_STREAM } } :: wls }
      some (emit (Effect.onWorkDone_nb [eosWork1])
        { c with mPendingOutputEOS := false, mPendingWorks := [] })
  | _ => some (reportError c2_status_t.C2_CORRUPTED c)

/-! ## Handlers of the work pipeline -/

/-- `onStart`; `initResult` is what `mVDAAdaptor->initialize` returns. -/
def onStart (initResult : VDAResult) (c : Component) : Option Component :=
  if c.mComponentState ≠ ComponentState.UNINITIALIZED then none
  else
    let c1 := emit (Effect.vdaInitialize c.mSecureMode)
      { c with mVDAAdaptor := true, mVDAInitResult := initResult }
    let c2 := if initResult = VDAResult.SUCCESS then
      { c1 with mComponentState := ComponentState.STARTED } else c1
    some (emit Effect.signalStartDone c2)

def onQueueWork (work : C2Work) (c : Component) : Option Component :=
  EXPECT_RUNNING_OR_RETURN_ON_ERROR c <|
    let drainMode :=
      if hasFlag work.input.flags FLAG_END_OF_STREAM then DrainMode.DRAIN_COMPONENT_WITH_EOS
      else DrainMode.NO_DRAIN
    some (emit (Effect.postTask Task.onDequeueWork)
      { c with mQueue := c.mQueue ++ [{ mWork := work, mDrainMode := drainMode }] })

/-- `sendInputBufferToAccelerator`; `dupFd` is what `dup` returns. -/
def sendInputBufferToAccelerator (dupFd : Int) (input : C2ConstLinearBlock) (bitstreamId : Int)
    (c : Component) : Component :=
  if dupFd < 0 then reportError c2_status_t.C2_CORRUPTED c
  else emit (Effect.vdaDecode bitstreamId dupFd input.offset input.size) c

/-- The statements of `onDequeueWork` about the input buffers of the dequeued work: the
size check, the placeholder for a work without input buffer, the decode command otherwise. -/
def dequeueInput (dupFd : Int) (drainMode : DrainMode) (work : C2Work) (c : Component) :
    Option (C2Work × Component) :=
  if ¬ work.input.buffers.length ≤ 1 then none
  else
    match work.input.buffers with
    | [] =>
      if drainMode ≠ DrainMode.NO_DRAIN ∨ hasFlag work.input.flags FLAG_CODEC_CONFIG
      then some ({ work with input := { work.input with buffers := [none] } }, c)
      else none
    | some (C2Buffer.linear linearBlock) :: _ =>
      if linearBlock.size > 0 then
        some (work, sendInputBufferToAccelerator dupFd linearBlock
          (frameIndexToBitstreamId work.input.ordinal.frameIndex) c)
      else none
    | _ => none

/-- The statements of `onDequeueWork` from the reset of the worklet output on. -/
def dequeueOutput (drainMode : DrainMode) (work : C2Work) (c : Component) : Option Component :=
  match work.worklets with
  | [wl] =>
    let work2 := { work with
      worklets := [{ wl with
        output := { flags := 0, buffers := [], ordinal := work.input.ordinal } }] }
    let c3 :=
      if drainMode ≠ DrainMode.NO_DRAIN then
        { emit Effect.vdaFlush c with
          mComponentState := ComponentState.DRAINING
          mPendingOutputEOS := drainMode == DrainMode.DRAIN_COMPONENT_WITH_EOS }
      else c
    let c4 := { c3 with mPendingWorks := c3.mPendingWorks ++ [work2] }
    if !c4.mQueue.isEmpty then some (emit (Effect.postTask Task.onDequeueWork) c4)
    else some c4
  | _ => none

/-- `onDequeueWork`; `dupFd` is what `dup` returns if an input buffer is sent. -/
def onDequeueWork (dupFd : Int) (c : Component) : Option Component :=
  EXPECT_RUNNING_OR_RETURN_ON_ERROR c <|
    match c.mQueue with
    | [] => some c
    | entry :: rest =>
      if c.mComponentState = ComponentState.DRAINING ∨
          c.mComponentState = ComponentState.FLUSHING then some c
      else if c.mComponentState ≠ ComponentState.STARTED then some c
      else
        match dequeueInput dupFd entry.mDrainMode entry.mWork { c with mQueue := rest } with
        | none => none
        | some (work1, c2) => dequeueOutput entry.mDrainMode work1 c2

def onInputBufferDone (bitstreamId : Int) (c : Component) : Option Component :=
  EXPECT_RUNNING_OR_RETURN_ON_ERROR c <|
    match getPendingWorkByBitstreamId bitstreamId c with
    | none => some (reportError c2_status_t.C2_CORRUPTED c)
    | some i =>
      match c.mPendingWorks[i]? with
      | none => none
      | some work =>
        match resetFront work.input.buffers with
        | none => none
        | some bs =>
          reportFinishedWorkIfAny
            { c with mPendingWorks :=
                c.mPendingWorks.set i { work with input := { work.input with buffers := bs } } }

def onDrain (drainMode : DrainMode) (c : Component) : Option Component :=
  EXPECT_RUNNING_OR_RETURN_ON_ERROR c <|
    match c.mQueue.getLast? with
    | some back =>
      if back.mDrainMode = DrainMode.NO_DRAIN then
        some { c with mQueue := c.mQueue.dropLast ++ [{ back with mDrainMode := drainMode }] }
      else some c
    | none =>
      if !c.mPendingWorks.isEmpty then
        if c.mComponentState = ComponentState.STARTED then
          some { emit Effect.vdaFlush c with
            mComponentState := ComponentState.DRAINING
            mPendingOutputEOS := drainMode == DrainMode.DRAIN_COMPONENT_WITH_EOS }
        else some c
      else some c

/-- The statements of `onDrainDone` that follow the tests of the state. -/
def onDrainDoneTail (c : Component) : Option Component :=
  match (if c.mPendingOutputEOS then reportEOSWork c else some c) with
  | none => none
  | some c1 =>
    if !c1.mPendingWorks.isEmpty then none
    else some (emit (Effect.postTask Task.onDequeueWork) c1)

def onDrainDone (c : Component) : Option Component :=
  if c.mComponentState = ComponentState.DRAINING then
    onDrainDoneTail { c with mComponentState := ComponentState.STARTED }
  else if c.mComponentState = ComponentState.STOPPING then some c
  else if c.mComponentState ≠ ComponentState.FLUSHING then
    some (reportError c2_status_t.C2_BAD_STATE c)
  else onDrainDoneTail c

/-- The loop shared by `onFlush` and `onStop`: pop all works in `mQueue` and put them into
`mAbandonedWorks`. -/
def abandonQueue (c : Component) : Component :=
  { c with mAbandonedWorks := c.mAbandonedWorks ++ c.mQueue.map (·.mWork), mQueue := [] }

def onFlush (c : Component) : Option Component :=
  if c.mComponentState = ComponentState.FLUSHING ∨
      c.mComponentState = ComponentState.STOPPING then some c
  else EXPECT_RUNNING_OR_RETURN_ON_ERROR c <|
    some { abandonQueue (emit Effect.vdaReset c) with
      mComponentState := ComponentState.FLUSHING }

def onStop (c : Component) : Option Component :=
  EXPECT_RUNNING_OR_RETURN_ON_ERROR c <|
    let c1 := if c.mComponentState ≠ ComponentState.FLUSHING then emit Effect.vdaReset c else c
    some { abandonQueue c1 with
      mStopDoneEvent := true
      mComponentState := ComponentState.STOPPING }

def stopDequeueThread (c : Component) : Component :=
  if c.mDequeueThreadRunning then
    { c with mDequeueLoopStop := true, mDequeueThreadRunning := false }
  else c

def onFlushDone (c : Component) : Option Component :=
  let c1 := reportAbandonedWorks c
  some (emit (Effect.postTask Task.onDequeueWork)
    { c1 with mComponentState := ComponentState.STARTED })

def onStopDone (c : Component) : Option Component :=
  if !c.mStopDoneEvent then none
  else
    let c1 := reportAbandonedWorks c
    let c2 := { c1 with mPendingOutputFormat := none }
    let c3 :=
      if c2.mVDAAdaptor then { emit Effect.vdaDestroy c2 with mVDAAdaptor := false } else c2
    let c4 := stopDequeueThread { c3 with mGraphicBlocks := [] }
    some { emit Effect.signalStopDone c4 with
      mStopDoneEvent := false
      mComponentState := ComponentState.UNINITIALIZED }

def onResetDone (c : Component) : Option Component :=
  if c.mComponentState = ComponentState.ERROR then some c
  else if c.mComponentState = ComponentState.FLUSHING then onFlushDone c
  else if c.mComponentState = ComponentState.STOPPING then onStopDone c
  else some (reportError c2_status_t.C2_CORRUPTED c)

/-! ## The buffer registry -/

/-- What the environment answers during one run of `allocateBuffersFromBlockAllocator`:
the result of `GetCodec2BlockPool`, whether the pool is bufferqueue-backed, whether the pointer
cast to the pool class is non-null, the result of `requestNewBufferSet`, the result of the
n-th call of `fetchGraphicBlock` (the block is meaningful for `C2_OK`), the pool id of a
block, the result of `dup` for the i-th buffer, whether the build defines `V4L2_CODEC2_ARC`,
the platform pixel format, and whether the dequeue thread starts. -/
structure BlockPoolEnv where
  getCodec2BlockPool : c2_status_t
  useBufferQueue : Bool
  poolCast : Bool
  requestNewBufferSet : c2_status_t
  fetchGraphicBlock : Nat → c2_status_t × C2GraphicBlock
  getPoolIdFromGraphicBlock : C2GraphicBlock → c2_status_t × Nat
  dup : Nat → Int
  arcBuild : Bool
  getPlatformPixelFormat : HalPixelFormat
  dequeueThreadStart : Bool

def PLANE_U : Nat := 1

def PLANE_V : Nat := 2

/-- Modelled from the spec: `resolveBufferFormat` of `C2VDAPixelFormat.h`. -/
def resolveBufferFormat (crcb semiplanar : Bool) : HalPixelFormat :=
  HalPixelFormat.resolved crcb semiplanar

/-- The array `offsets` of `appendOutputBuffer` before the swap:
`static_cast<uint32_t>(planeAddress - baseAddress)` for the first `numPlanes` planes; `none`
when an address that the loop reads is missing. -/
def planeOffsets (data : List Int) (numPlanes : Nat) : Option (List Nat) :=
  match data with
  | [] => none
  | baseAddress :: _ =>
    if numPlanes ≤ data.length then
      some ((data.take numPlanes).map fun planeAddress =>
        ((planeAddress - baseAddress) % 2 ^ 32).toNat)
    else none

/-- The swap `std::swap(offsets[PLANE_U], offsets[PLANE_V])` on a three-plane array. -/
def swapUV : List Nat → List Nat
  | [y, u, v] => [y, v, u]
  | l => l

/-- The loop that fills `passedPlanes`: planes `i, i+1, ...`, `n` of them. -/
def passedPlanesFrom (offsets : List Nat) (planes : List C2PlaneInfo) :
    Nat → Nat → Option (List VideoFramePlane)
  | 0, _ => some []
  | n + 1, i =>
    match offsets[i]? with
    | none => none
    | some o =>
      let rowInc := (planes.getD i { colInc := 0, rowInc := 0 }).rowInc
      if rowInc > 0 then
        (passedPlanesFrom offsets planes n (i + 1)).map
          (fun l => { mOffset := o, mStride := rowInc.toNat % 2 ^ 32 } :: l)
      else none

/-- What `appendOutputBuffer` derives from the mapped layout before it duplicates the fd:
the array `offsets` after the swap, the flags `crcb` and `semiplanar`, and `passedNumPlanes`. -/
structure PlaneLayout where
  offsets : List Nat
  crcb : Bool
  semiplanar : Bool
  passedNumPlanes : Nat
  deriving DecidableEq, Repr

/-- The statements of `appendOutputBuffer` from the mapping of the block to the resolution of
the pixel format; `none` when `data` is null or a plane address is missing. -/
def planeLayout (block : C2GraphicBlock) : Option PlaneLayout :=
  match block.data with
  | none => none
  | some data =>
    match planeOffsets data block.numPlanes with
    | none => none
    | some offsets0 =>
      let crcb : Bool := block.numPlanes == 3 &&
        decide (offsets0.getD PLANE_U 0 > offsets0.getD PLANE_V 0)
      let semiplanar : Bool :=
        (block.planes.getD PLANE_U { colInc := 0, rowInc := 0 }).colInc == 2
      some
        { offsets := if crcb then swapUV offsets0 else offsets0
          crcb := crcb
          semiplanar := semiplanar
          passedNumPlanes :=
            if semiplanar then uint32_pred block.numPlanes else block.numPlanes }

/-- `appendOutputBuffer`; `dupFd` is what `dup` returns. -/
def appendOutputBuffer (dupFd : Int) (block : C2GraphicBlock) (poolId : Nat) (c : Component) :
    Option Component :=
  match planeLayout block with
  | none => none
  | some layout =>
    if dupFd < 0 then some (reportError c2_status_t.C2_CORRUPTED c)
    else
      match passedPlanesFrom layout.offsets block.planes layout.passedNumPlanes 0 with
      | none => none
      | some passedPlanes =>
        some { c with mGraphicBlocks := c.mGraphicBlocks ++ [
          { mBlockId := static_cast_int32 c.mGraphicBlocks.length
            mPoolId := poolId
            mGraphicBlock := some block
            mPixelFormat := resolveBufferFormat layout.crcb layout.semiplanar
            mHandle := some dupFd
            mPlanes := passedPlanes }] }

/-- `appendSecureOutputBuffer`; `arcBuild` tells whether `V4L2_CODEC2_ARC` is defined,
`platformFormat` is what `getPlatformPixelFormat` returns. -/
def appendSecureOutputBuffer (arcBuild : Bool) (platformFormat : HalPixelFormat) (dupFd : Int)
    (block : C2GraphicBlock) (poolId : Nat) (c : Component) : Option Component :=
  if !arcBuild then some (reportError c2_status_t.C2_OMITTED c)
  else if dupFd < 0 then some (reportError c2_status_t.C2_CORRUPTED c)
  else if platformFormat = HalPixelFormat.UNKNOWN then
    some (reportError c2_status_t.C2_CORRUPTED c)
  else if ¬ (platformFormat = HalPixelFormat.YV12 ∨ platformFormat = HalPixelFormat.NV12) then none
  else
    some { c with mGraphicBlocks := c.mGraphicBlocks ++ [
      { mBlockId := static_cast_int32 c.mGraphicBlocks.length
        mPoolId := poolId
        mGraphicBlock := some block
        mPixelFormat := platformFormat
        mHandle := some dupFd
        mPlanes := [] }] }

/-- `sendOutputBufferToAccelerator`; the record is given by its position. -/
def sendOutputBufferToAccelerator (i : Nat) (c : Component) : Option Component :=
  match c.mGraphicBlocks[i]? with
  | none => none
  | some info =>
    if info.mState ≠ GBState.OWNED_BY_COMPONENT then none
    else
      match info.mHandle with
      | some fd =>
        let info1 := { info with mState := GBState.OWNED_BY_ACCELERATOR, mHandle := none }
        some (emit
          (Effect.vdaImportBufferForPicture info.mBlockId info.mPixelFormat fd info.mPlanes)
          { c with mGraphicBlocks := c.mGraphicBlocks.set i info1 })
      | none =>
        let info1 := { info with mState := GBState.OWNED_BY_ACCELERATOR }
        some (emit (Effect.vdaReusePictureBuffer info.mBlockId)
          { c with mGraphicBlocks := c.mGraphicBlocks.set i info1 })

/-- The loop `for (auto& info : mGraphicBlocks) sendOutputBufferToAccelerator(&info)`:
records `i, i+1, ...`, `n` of them. -/
def sendAllFrom : Nat → Nat → Component → Option Component
  | 0, _, c => some c
  | n + 1, i, c => (sendOutputBufferToAccelerator i c).bind (sendAllFrom n (i + 1))

def setOutputFormatCrop (cropRect : Rect) (c : Component) : Component :=
  { c with mOutputFormat := { c.mOutputFormat with mVisibleRect := cropRect } }

/-- `startDequeueThread`; `started` is what `mDequeueThread.Start()` returns. -/
def startDequeueThread (started : Bool) (c : Component) : Option (Bool × Component) :=
  if c.mDequeueThreadRunning then none
  else if !started then some (false, c)
  else some (true, { c with
    mDequeueThreadRunning := true, mDequeueLoopStop := false, mBuffersInClient := 0 })

/-- The retry loop around `fetchGraphicBlock` for one buffer: `call` is the number of
calls made so far; the result is the final status, the block and the new number of calls. -/
def fetchWithRetries (fetch : Nat → c2_status_t × C2GraphicBlock) :
    Nat → Nat → c2_status_t × C2GraphicBlock × Nat
  | retries_left, call =>
    let r := fetch call
    if r.1 = c2_status_t.C2_OK then (c2_status_t.C2_OK, r.2, call + 1)
    else match retries_left with
      | 0 => (r.1, r.2, call + 1)
      | n + 1 =>
        if r.1 = c2_status_t.C2_TIMED_OUT then fetchWithRetries fetch n (call + 1)
        else (r.1, r.2, call + 1)

/-- The loop `for (size_t i = 0; i < bufferCount; ++i)` of
`allocateBuffersFromBlockAllocator`: `n` buffers remain, `i` is the loop index. -/
def allocateLoop (env : BlockPoolEnv) :
    Nat → Nat → Nat → Component → Option (c2_status_t × Component)
  | 0, _, _, c => some (c2_status_t.C2_OK, c)
  | n + 1, i, call, c =>
    let r := fetchWithRetries env.fetchGraphicBlock kAllocateBufferMaxRetries call
    if r.1 ≠ c2_status_t.C2_OK then
      some (r.1, reportError r.1 { c with mGraphicBlocks := [] })
    else
      let p := env.getPoolIdFromGraphicBlock r.2.1
      if p.1 ≠ c2_status_t.C2_OK then
        some (p.1, reportError p.1 { c with mGraphicBlocks := [] })
      else
        let appended :=
          if c.mSecureMode then
            appendSecureOutputBuffer env.arcBuild env.getPlatformPixelFormat (env.dup i)
              r.2.1 p.2 c
          else appendOutputBuffer (env.dup i) r.2.1 p.2 c
        appended.bind (allocateLoop env n (i + 1) r.2.2)

def allocateBuffersFromBlockAllocator (env : BlockPoolEnv) (c : Component) :
    Option (c2_status_t × Component) :=
  let c1 := stopDequeueThread c
  let bufferCount := (c1.mOutputFormat.mMinNumBuffers + kDpbOutputBufferExtraCount) % 2 ^ 32
  let c2 := emit (Effect.vdaAssignPictureBuffers bufferCount) c1
  if env.getCodec2BlockPool ≠ c2_status_t.C2_OK then
    some (env.getCodec2BlockPool, reportError env.getCodec2BlockPool c2)
  else
    let c3 := { c2 with mGraphicBlocks := [] }
    if !env.poolCast then
      some (c2_status_t.C2_CORRUPTED, reportError c2_status_t.C2_CORRUPTED c3)
    else if env.requestNewBufferSet ≠ c2_status_t.C2_OK then
      some (env.requestNewBufferSet, reportError env.requestNewBufferSet c3)
    else
      match allocateLoop env bufferCount 0 0 c3 with
      | none => none
      | some (err, c4) =>
        if err ≠ c2_status_t.C2_OK then some (err, c4)
        else
          let c5 := { c4 with
            mOutputFormat := { c4.mOutputFormat with mMinNumBuffers := bufferCount } }
          match startDequeueThread env.dequeueThreadStart c5 with
          | none => none
          | some (true, c6) => some (c2_status_t.C2_OK, c6)
          | some (false, c6) =>
            some (c2_status_t.C2_CORRUPTED, reportError c2_status_t.C2_CORRUPTED c6)

def tryChangeOutputFormat (env : BlockPoolEnv) (c : Component) : Option Component :=
  match c.mPendingOutputFormat with
  | none => none
  | some pending =>
    if c.mGraphicBlocks.any (fun info => info.mState == GBState.OWNED_BY_ACCELERATOR) then none
    else if pending.mPixelFormat ≠ HalPixelFormat.YCbCr_420_888 then none
    else
      let c1 := { c with mOutputFormat := { c.mOutputFormat with
        mPixelFormat := pending.mPixelFormat
        mMinNumBuffers := pending.mMinNumBuffers
        mCodedSize := pending.mCodedSize } }
      let c2 := setOutputFormatCrop pending.mVisibleRect c1
      match allocateBuffersFromBlockAllocator env c2 with
      | none => none
      | some (err, c3) =>
        if err ≠ c2_status_t.C2_OK then some (reportError err c3)
        else
          (sendAllFrom c3.mGraphicBlocks.length 0 c3).map
            fun c4 => { c4 with mPendingOutputFormat := none }

/-- `onOutputBufferReturned`; `env` is consulted if the output format is changed. -/
def onOutputBufferReturned (env : BlockPoolEnv) (block : C2GraphicBlock) (poolId : Nat)
    (c : Component) : Option Component :=
  if c.mComponentState = ComponentState.UNINITIALIZED then some c
  else if block.width ≠ c.mOutputFormat.mCodedSize.width ∨
      block.height ≠ c.mOutputFormat.mCodedSize.height then some c
  else
    match getGraphicBlockByPoolId poolId c with
    | none => some (reportError c2_status_t.C2_CORRUPTED c)
    | some i =>
      match c.mGraphicBlocks[i]? with
      | none => none
      | some info =>
        if info.mState ≠ GBState.OWNED_BY_CLIENT then none
        else
          let info1 := { info with
            mGraphicBlock := some block, mState := GBState.OWNED_BY_COMPONENT }
          let c1 := { c with mGraphicBlocks := c.mGraphicBlocks.set i info1 }
          if c1.mPendingOutputFormat.isSome then tryChangeOutputFormat env c1
          else sendOutputBufferToAccelerator i c1

def onOutputBufferDone (pictureBufferId bitstreamId : Int) (c : Component) :
    Option Component :=
  EXPECT_RUNNING_OR_RETURN_ON_ERROR c <|
    match getPendingWorkByBitstreamId bitstreamId c with
    | none => some (reportError c2_status_t.C2_CORRUPTED c)
    | some w =>
      match getGraphicBlockById pictureBufferId c with
      | none => some (reportError c2_status_t.C2_CORRUPTED c)
      | some i =>
        match c.mGraphicBlocks[i]?, c.mPendingWorks[w]? with
        | some info, some work =>
          if info.mState ≠ GBState.OWNED_BY_ACCELERATOR then none
          else
            match info.mGraphicBlock, work.worklets with
            | some graphicBlock, wl :: wls =>
              let constBlock : C2ConstGraphicBlock :=
                { block := graphicBlock
                  cropWidth := c.mOutputFormat.mVisibleRect.width
                  cropHeight := c.mOutputFormat.mVisibleRect.height }
              let wl1 := { wl with output := { wl.output with
                buffers := wl.output.buffers ++ [some (C2Buffer.graphic constBlock)] } }
              let info1 := { info with
                mState := GBState.OWNED_BY_CLIENT, mGraphicBlock := none }
              reportFinishedWorkIfAny { c with
                mGraphicBlocks := c.mGraphicBlocks.set i info1
                mBuffersInClient := (c.mBuffersInClient + 1) % 2 ^ 32
                mPendingWorks := c.mPendingWorks.set w { work with worklets := wl1 :: wls } }
            | _, _ => none
        | _, _ => none

def onOutputFormatChanged (env : BlockPoolEnv) (format : VideoFormat) (c : Component) :
    Option Component :=
  EXPECT_RUNNING_OR_RETURN_ON_ERROR c <|
    let c1 := { c with mGraphicBlocks := c.mGraphicBlocks.map fun (info : GraphicBlockInfo) =>
      if info.mState = GBState.OWNED_BY_ACCELERATOR then
        { info with mState := GBState.OWNED_BY_COMPONENT } else info }
    if c1.mPendingOutputFormat.isSome then none
    else tryChangeOutputFormat env { c1 with mPendingOutputFormat := some format }

def onVisibleRectChanged (cropRect : Rect) (c : Component) : Option Component :=
  EXPECT_RUNNING_OR_RETURN_ON_ERROR c <|
    if c.mPendingOutputFormat.isSome then none
    else some (setOutputFormatCrop cropRect c)

def onDestroy (c : Component) : Component :=
  let c1 := if c.mVDAAdaptor then { emit Effect.vdaDestroy c with mVDAAdaptor := false } else c
  stopDequeueThread c1

/-- One iteration of the loop of `dequeueThreadLoop`, on the dequeue thread; `fetch` is what
`fetchGraphicBlock` returns and `poolId` what `getPoolIdFromGraphicBlock` returns.  The
Boolean tells whether the loop goes on. -/
def dequeueThreadLoopIteration (fetch : c2_status_t × C2GraphicBlock) (poolId : c2_status_t × Nat)
    (c : Component) : Component × Bool :=
  if c.mDequeueLoopStop then (c, false)
  else if c.mBuffersInClient = 0 then (c, true)
  else if fetch.1 = c2_status_t.C2_TIMED_OUT then (c, true)
  else if fetch.1 = c2_status_t.C2_OK then
    if poolId.1 ≠ c2_status_t.C2_OK then (c, false)
    else
      ({ emit (Effect.postTask (Task.onOutputBufferReturned fetch.2 poolId.2)) c with
          mBuffersInClient := uint32_pred c.mBuffersInClient }, true)
  else (c, false)

/-! ## Callbacks of the VDA -/

def providePictureBuffers (minNumBuffers : Nat) (codedSize : Size) (c : Component) : Component :=
  let format : VideoFormat :=
    { mPixelFormat := HalPixelFormat.YCbCr_420_888
      mMinNumBuffers := minNumBuffers
      mCodedSize := codedSize
      mVisibleRect := { width := codedSize.width, height := codedSize.height } }
  emit (Effect.postTask (Task.onOutputFormatChanged format))
    { c with mRequestedVisibleRect := { width := 0, height := 0 } }

def dismissPictureBuffer (_pictureBufferId : Int) (c : Component) : Component := c

def pictureReady (pictureBufferId bitstreamId : Int) (cropRect : Rect) (c : Component) :
    Component :=
  let c1 :=
    if c.mRequestedVisibleRect ≠ cropRect then
      emit (Effect.postTask (Task.onVisibleRectChanged cropRect))
        { c with mRequestedVisibleRect := cropRect }
    else c
  emit (Effect.postTask (Task.onOutputBufferDone pictureBufferId bitstreamId)) c1

def notifyEndOfBitstreamBuffer (bitstreamId : Int) (c : Component) : Component :=
  emit (Effect.postTask (Task.onInputBufferDone bitstreamId)) c

def notifyFlushDone (c : Component) : Component :=
  emit (Effect.postTask Task.onDrainDone) c

def notifyResetDone (c : Component) : Component :=
  emit (Effect.postTask Task.onResetDone) c

def notifyError (error : VDAResult) (c : Component) : Component :=
  match error with
  | VDAResult.ILLEGAL_STATE => reportError c2_status_t.C2_BAD_STATE c
  | VDAResult.INVALID_ARGUMENT => reportError c2_status_t.C2_BAD_VALUE c
  | VDAResult.UNREADABLE_INPUT => reportError c2_status_t.C2_BAD_VALUE c
  | VDAResult.PLATFORM_FAILURE => reportError c2_status_t.C2_CORRUPTED c
  | VDAResult.INSUFFICIENT_RESOURCES => reportError c2_status_t.C2_NO_MEMORY c
  | VDAResult.SUCCESS => c

/-! ## Executions of the component thread -/

/-- One step of an execution: a task run by the component thread together with what the
environment answers during the task, an error notification of the VDA, or an iteration of the
dequeue loop (which only runs while the dequeue thread does). -/
inductive Event
  | onStart (initResult : VDAResult)
  | onStop
  | onQueueWork (work : C2Work)
  | onDequeueWork (dupFd : Int)
  | onInputBufferDone (bitstreamId : Int)
  | onOutputBufferReturned (env : BlockPoolEnv) (block : C2GraphicBlock) (poolId : Nat)
  | onOutputBufferDone (pictureBufferId bitstreamId : Int)
  | onDrain (drainMode : DrainMode)
  | onDrainDone
  | onFlush
  | onResetDone
  | onOutputFormatChanged (env : BlockPoolEnv) (format : VideoFormat)
  | onVisibleRectChanged (cropRect : Rect)
  | notifyError (error : VDAResult)
  | dequeueThreadLoop (fetch : c2_status_t × C2GraphicBlock) (poolId : c2_status_t × Nat)

/-- The effect of one event; `none` when the process aborts. -/
def step (e : Event) (c : Component) : Option Component :=
  match e with
  | Event.onStart initResult => onStart initResult c
  | Event.onStop => onStop c
  | Event.onQueueWork work => onQueueWork work c
  | Event.onDequeueWork dupFd => onDequeueWork dupFd c
  | Event.onInputBufferDone bitstreamId => onInputBufferDone bitstreamId c
  | Event.onOutputBufferReturned env block poolId => onOutputBufferReturned env block poolId c
  | Event.onOutputBufferDone pictureBufferId bitstreamId =>
    onOutputBufferDone pictureBufferId bitstreamId c
  | Event.onDrain drainMode => onDrain drainMode c
  | Event.onDrainDone => onDrainDone c
  | Event.onFlush => onFlush c
  | Event.onResetDone => onResetDone c
  | Event.onOutputFormatChanged env format => onOutputFormatChanged env format c
  | Event.onVisibleRectChanged cropRect => onVisibleRectChanged cropRect c
  | Event.notifyError error => some (notifyError error c)
  | Event.dequeueThreadLoop fetch poolId =>
    if c.mDequeueThreadRunning then some (dequeueThreadLoopIteration fetch poolId c).1
    else some c

/-- The events of a list, in order. -/
def run : List Event → Component → Option Component
  | [], c => some c
  | e :: es, c => (step e c).bind (run es)

/-- Modelled from the spec: `media::VIDEO_CODEC_PROFILE_UNKNOWN` of `video_codecs.h`. -/
def VIDEO_CODEC_PROFILE_UNKNOWN : Int := -1

/-- The component after its constructor has run successfully. -/
def initial (secureMode : Bool) : Component :=
  { mState := State.LOADED
    mComponentState := ComponentState.UNINITIALIZED
    mVDAInitResult := VDAResult.ILLEGAL_STATE
    mVDAAdaptor := false
    mStopDoneEvent := false
    mSecureMode := secureMode
    mCodecProfile := VIDEO_CODEC_PROFILE_UNKNOWN
    mQueue := []
    mPendingWorks := []
    mAbandonedWorks := []
    mPendingOutputEOS := false
    mGraphicBlocks := []
    mBuffersInClient := 0
    mOutputFormat :=
      { mPixelFormat := HalPixelFormat.UNKNOWN, mMinNumBuffers := 0
        mCodedSize := { width := 0, height := 0 }, mVisibleRect := { width := 0, height := 0 } }
    mPendingOutputFormat := none
    mRequestedVisibleRect := { width := 0, height := 0 }
    mDequeueThreadRunning := false
    mDequeueLoopStop := false
    log := [] }

/-- The states that an execution from the constructed component reaches. -/
inductive Reachable : Component → Prop
  | init (secureMode : Bool) : Reachable (initial secureMode)
  | step {c c1 : Component} (e : Event) : Reachable c → step e c = some c1 → Reachable c1

/-! ## The synchronous interface (`C2Component`) -/

/-- The loop of `queue_nb`: post `onQueueWork` for the front item and pop it, until the list
is empty.  The result is the caller's list after the loop and the component. -/
def queue_nb_loop : List C2Work → Component → List C2Work × Component
  | [], c => ([], c)
  | work :: items, c => queue_nb_loop items (emit (Effect.postTask (Task.onQueueWork work)) c)

/-- `queue_nb`: the status, the caller's list afterwards, and the component. -/
def queue_nb (items : List C2Work) (c : Component) : c2_status_t × List C2Work × Component :=
  if c.mState ≠ State.RUNNING then (c2_status_t.C2_BAD_STATE, items, c)
  else (c2_status_t.C2_OK, queue_nb_loop items c)

def announce_nb {α : Type} (_items : List α) (c : Component) : c2_status_t × Component :=
  (c2_status_t.C2_OMITTED, c)

/-- `flush_sm`: the status, the caller's list `flushedWork` afterwards, and the component. -/
def flush_sm (mode : flush_mode_t) (flushedWork : List C2Work) (c : Component) :
    c2_status_t × List C2Work × Component :=
  if mode ≠ flush_mode_t.FLUSH_COMPONENT then (c2_status_t.C2_OMITTED, flushedWork, c)
  else if c.mState ≠ State.RUNNING then (c2_status_t.C2_BAD_STATE, flushedWork, c)
  else (c2_status_t.C2_OK, flushedWork, emit (Effect.postTask Task.onFlush) c)

def drain_nb (mode : DrainMode) (c : Component) : c2_status_t × Component :=
  if mode ≠ DrainMode.DRAIN_COMPONENT_WITH_EOS ∧ mode ≠ DrainMode.DRAIN_COMPONENT_NO_EOS then
    (c2_status_t.C2_OMITTED, c)
  else if c.mState ≠ State.RUNNING then (c2_status_t.C2_BAD_STATE, c)
  else (c2_status_t.C2_OK, emit (Effect.postTask (Task.onDrain mode)) c)

/-- How a call of the blocking interface ends: it returns a status, it is still waiting on its
event when the component thread has run all the tasks it was given, or the process aborts. -/
inductive CallOutcome
  | returned (status : c2_status_t) (c : Component)
  | blocked (c : Component)
  | aborted

/-- `start()`; `profile` is what `getCodecProfile` returns and `initResult` what the VDA
answers to `initialize`.  The posted `onStart` signals the event the call waits on as its last
statement, so the call resumes when the task has run. -/
def start (profile : Int) (initResult : VDAResult) (c : Component) : CallOutcome :=
  if c.mState ≠ State.LOADED then CallOutcome.returned c2_status_t.C2_BAD_STATE c
  else
    let c1 := emit (Effect.postTask (Task.onStart profile)) { c with mCodecProfile := profile }
    match onStart initResult c1 with
    | none => CallOutcome.aborted
    | some c2 =>
      if c2.mVDAInitResult ≠ VDAResult.SUCCESS then
        CallOutcome.returned c2_status_t.C2_CORRUPTED c2
      else CallOutcome.returned c2_status_t.C2_OK { c2 with mState := State.RUNNING }

/-- `done.Wait()`: the component thread runs the events in order until the log holds more
than `n` occurrences of the signal; the Boolean tells whether the signal was given. -/
def runUntilSignal (signal : Effect) (n : Nat) : List Event → Component → Option (Component × Bool)
  | [], c => some (c, decide (n < c.log.count signal))
  | e :: es, c =>
    if n < c.log.count signal then some (c, true)
    else (step e c).bind (runUntilSignal signal n es)

/-- `stop()`; `worker` are the events of the component thread that follow the posted `onStop`
while the call waits. -/
def stop (worker : List Event) (c : Component) : CallOutcome :=
  if ¬ (c.mState = State.RUNNING ∨ c.mState = State.ERROR) then
    CallOutcome.returned c2_status_t.C2_OK c
  else
    let c1 := emit (Effect.postTask Task.onStop) c
    match runUntilSignal Effect.signalStopDone (c1.log.count Effect.signalStopDone)
        (Event.onStop :: worker) c1 with
    | none => CallOutcome.aborted
    | some (c2, false) => CallOutcome.blocked c2
    | some (c2, true) => CallOutcome.returned c2_status_t.C2_OK { c2 with mState := State.LOADED }

def reset (worker : List Event) (c : Component) : CallOutcome := stop worker c

def release (worker : List Event) (c : Component) : CallOutcome := reset worker c

/-! ## Concrete inputs -/

/-- A work with frame index `frameIndex`, flags `flags` and one input buffer of 100 bytes. -/
def exampleWork (frameIndex flags : Nat) : C2Work :=
  { input :=
      { flags := flags
        ordinal := { frameIndex := frameIndex, timestamp := 0, customOrdinal := 0 }
        buffers := [some (C2Buffer.linear { fd := 3, offset := 0, size := 100 })] }
    worklets :=
      [{ output :=
          { flags := 0
            ordinal := { frameIndex := 0, timestamp := 0, customOrdinal := 0 }
            buffers := [] } }]
    workletsProcessed := 0
    result := c2_status_t.C2_NO_INIT }

/-- A 320x240 block with three planes (I420); `n` is the fd of its handle. -/
def exampleBlock (n : Nat) : C2GraphicBlock :=
  { width := 320
    height := 240
    handleFd := n
    data := some [4096, 80896, 100096]
    numPlanes := 3
    planes := [{ colInc := 1, rowInc := 320 }, { colInc := 1, rowInc := 160 },
      { colInc := 1, rowInc := 160 }] }

/-- A block pool in which every call succeeds: the n-th fetch returns `exampleBlock n`, whose
pool id is `n`. -/
def examplePool : BlockPoolEnv :=
  { getCodec2BlockPool := c2_status_t.C2_OK
    useBufferQueue := true
    poolCast := true
    requestNewBufferSet := c2_status_t.C2_OK
    fetchGraphicBlock := fun n => (c2_status_t.C2_OK, exampleBlock n)
    getPoolIdFromGraphicBlock := fun b => (c2_status_t.C2_OK, b.handleFd.toNat)
    dup := fun i => 100 + i
    arcBuild := false
    getPlatformPixelFormat := HalPixelFormat.UNKNOWN
    dequeueThreadStart := true }

/-- The format that `providePictureBuffers(0, 320x240)` posts. -/
def exampleFormat : VideoFormat :=
  { mPixelFormat := HalPixelFormat.YCbCr_420_888
    mMinNumBuffers := 0
    mCodedSize := { width := 320, height := 240 }
    mVisibleRect := { width := 320, height := 240 } }

/-- Start, allocation of three buffers for `exampleFormat`, two works queued and dispatched;
the VDA returns input and output of the second work, then of the first. -/
def exampleTrace : List Event :=
  [Event.onStart VDAResult.SUCCESS,
   Event.onOutputFormatChanged examplePool exampleFormat,
   Event.onQueueWork (exampleWork 0 0), Event.onDequeueWork 10,
   Event.onQueueWork (exampleWork 1 0), Event.onDequeueWork 11,
   Event.onInputBufferDone 1, Event.onOutputBufferDone 0 1,
   Event.onInputBufferDone 0, Event.onOutputBufferDone 1 0]

/-- The state after an event, the state itself if the process aborts. -/
def stepD (e : Event) (c : Component) : Component := (step e c).getD c

/-- The state after start, allocation of three buffers and one work dispatched. -/
def exampleDispatchedState : Component :=
  stepD (Event.onDequeueWork 10)
    (stepD (Event.onQueueWork (exampleWork 0 0))
      (stepD (Event.onOutputFormatChanged examplePool exampleFormat)
        (stepD (Event.onStart VDAResult.SUCCESS) (initial false))))

/-- The state after start, allocation of three buffers, one work dispatched and its picture
delivered to the client. -/
def exampleDoneState : Component :=
  stepD (Event.onOutputBufferDone 0 0)
    (stepD (Event.onDequeueWork 10)
      (stepD (Event.onQueueWork (exampleWork 0 0))
        (stepD (Event.onOutputFormatChanged examplePool exampleFormat)
          (stepD (Event.onStart VDAResult.SUCCESS) (initial false)))))

/-- The state after the events of a list, the state itself if the process aborts. -/
def runD (es : List Event) (c : Component) : Component := (run es c).getD c

/-- Start, then two works queued and dispatched whose frame indices `5` and `2^30 + 5` have
the same low 30 bits. -/
def exampleCollisionTrace : List Event :=
  [Event.onStart VDAResult.SUCCESS,
   Event.onQueueWork (exampleWork 5 0), Event.onDequeueWork 10,
   Event.onQueueWork (exampleWork (2 ^ 30 + 5) 0), Event.onDequeueWork 11]

/-- An end-of-stream work without input buffer. -/
def exampleEOSWork (frameIndex : Nat) : C2Work :=
  { exampleWork frameIndex FLAG_END_OF_STREAM with
    input :=
      { flags := FLAG_END_OF_STREAM
        ordinal := { frameIndex := frameIndex, timestamp := 0, customOrdinal := 0 }
        buffers := [] } }

/-- Start, one work and then an end-of-stream work queued and dispatched. -/
def exampleEOSTrace : List Event :=
  [Event.onStart VDAResult.SUCCESS,
   Event.onQueueWork (exampleWork 0 0), Event.onDequeueWork 10,
   Event.onQueueWork (exampleEOSWork 1), Event.onDequeueWork 11]

/-- Start, three works queued, the first of them dispatched. -/
def exampleQueueTrace : List Event :=
  [Event.onStart VDAResult.SUCCESS,
   Event.onQueueWork (exampleWork 0 0), Event.onQueueWork (exampleWork 1 0),
   Event.onQueueWork (exampleWork 2 0), Event.onDequeueWork 10]

/-- Start, then an end-of-stream marker without input queued and dispatched. -/
def exampleMarkerTrace : List Event :=
  [Event.onStart VDAResult.SUCCESS,
   Event.onQueueWork (exampleEOSWork 0), Event.onDequeueWork 10]

/-- The events of `exampleQueueTrace`, then a flush: one work is pending and two are abandoned. -/
def exampleFlushTrace : List Event := exampleQueueTrace ++ [Event.onFlush]

/-- A work whose worklet the client left with `END_OF_STREAM` in the output flags. -/
def exampleFlaggedWork (frameIndex : Nat) : C2Work :=
  { exampleWork frameIndex 0 with
    worklets :=
      [{ output :=
          { flags := FLAG_END_OF_STREAM
            ordinal := { frameIndex := 0, timestamp := 0, customOrdinal := 0 }
            buffers := [] } }] }

/-- Start, a work queued, then a stop that completes before the work is dispatched. -/
def exampleFlaggedStopTrace : List Event :=
  [Event.onStart VDAResult.SUCCESS, Event.onQueueWork (exampleFlaggedWork 0),
   Event.onStop, Event.onResetDone]

/-- Start, an end-of-stream work dispatched after another work, then the request to stop:
a drain with end of stream is in progress in `STOPPING`. -/
def exampleDrainStopTrace : List Event := exampleEOSTrace ++ [Event.onStop]

/-- The format of `exampleFormat` with the largest `min_num_buffers` of its type. -/
def exampleLargeFormat : VideoFormat := { exampleFormat with mMinNumBuffers := 4294967295 }

/-- The format that `providePictureBuffers(1, 640x480)` posts. -/
def exampleNewFormat : VideoFormat :=
  { mPixelFormat := HalPixelFormat.YCbCr_420_888
    mMinNumBuffers := 1
    mCodedSize := { width := 640, height := 480 }
    mVisibleRect := { width := 640, height := 480 } }

/-- The pool of `examplePool` when `dup` fails for every buffer. -/
def exampleFailingDupPool : BlockPoolEnv := { examplePool with dup := fun _ => -1 }

/-- The pool of `examplePool` when the first `timeouts` calls of `fetchGraphicBlock` time
out. -/
def exampleSlowPool (timeouts : Nat) : BlockPoolEnv :=
  { examplePool with
    fetchGraphicBlock := fun n =>
      if n < timeouts then (c2_status_t.C2_TIMED_OUT, exampleBlock n)
      else (c2_status_t.C2_OK, exampleBlock n) }

/-- The state after a successful start. -/
def exampleStartedState : Component := stepD (Event.onStart VDAResult.SUCCESS) (initial false)

/-- The component that a call of the blocking interface leaves behind, unless the process
aborted. -/
def outcomeComponent : CallOutcome → Option Component
  | CallOutcome.returned _ c => some c
  | CallOutcome.blocked c => some c
  | CallOutcome.aborted => none

/-- After a successful `start()`: an error notification of the VDA, an input-done callback
for a bitstream id that no pending work has, then a work is queued and dispatched. -/
def exampleErrorTrace : List Event :=
  [Event.notifyError VDAResult.PLATFORM_FAILURE, Event.onInputBufferDone 7,
   Event.onQueueWork (exampleWork 0 0), Event.onDequeueWork 10]

/-- The error state that the specification describes, with one pending work and two queued
works: the state after `exampleQueueTrace` with the outer and the inner state set to `ERROR`
(no handler of the component assigns `ERROR`). -/
def exampleErrorState : Component :=
  { runD exampleQueueTrace (initial false) with
    mState := State.ERROR, mComponentState := ComponentState.ERROR }

/-- A dispatched work whose input buffer the VDA has returned and whose worklet holds one
output buffer. -/
def exampleReturnedWork (frameIndex : Nat) : C2Work :=
  { exampleWork frameIndex 0 with
    input := { (exampleWork frameIndex 0).input with buffers := [none] }
    worklets :=
      [{ output :=
          { flags := 0
            ordinal := (exampleWork frameIndex 0).input.ordinal
            buffers := [some (C2Buffer.graphic
              { block := exampleBlock 0, cropWidth := 320, cropHeight := 240 })] } }] }

/-- A started component with three pending works, of which the first and the third are
done. -/
def examplePendingState : Component :=
  { exampleStartedState with
    mPendingWorks := [exampleReturnedWork 0, exampleWork 1 0, exampleReturnedWork 2] }

/-- The state after a start and the queueing of an end-of-stream marker without input. -/
def exampleQueuedMarkerState : Component :=
  runD [Event.onStart VDAResult.SUCCESS, Event.onQueueWork (exampleEOSWork 0)] (initial false)

/-- Start, a work queued and dispatched, a drain without end of stream (the VDA starts to
flush), then a flush request (the VDA is reset): the work is still pending in `FLUSHING`. -/
def exampleDrainFlushTrace : List Event :=
  [Event.onStart VDAResult.SUCCESS, Event.onQueueWork (exampleWork 0 0),
   Event.onDequeueWork 10, Event.onDrain DrainMode.DRAIN_COMPONENT_NO_EOS, Event.onFlush]

/-- The state of `examplePendingState` during a drain with end of stream, with only the two
works pending that are done. -/
def exampleDrainingState : Component :=
  { examplePendingState with
    mComponentState := ComponentState.DRAINING
    mPendingOutputEOS := true
    mPendingWorks := [exampleReturnedWork 0, exampleReturnedWork 2] }

/-- The first record of the registry of `exampleDispatchedState`. -/
def exampleFirstRecord : GraphicBlockInfo :=
  exampleDispatchedState.mGraphicBlocks.getD 0
    { mBlockId := 0, mPoolId := 0, mGraphicBlock := none
      mPixelFormat := HalPixelFormat.UNKNOWN, mHandle := none, mPlanes := [] }

/-- The first record of the registry of `exampleDoneState`, which the client holds. -/
def exampleClientRecord : GraphicBlockInfo :=
  exampleDoneState.mGraphicBlocks.getD 0
    { mBlockId := 0, mPoolId := 0, mGraphicBlock := none
      mPixelFormat := HalPixelFormat.UNKNOWN, mHandle := none, mPlanes := [] }

/-- A 320x240 block with four planes, of which the U plane lies behind the V plane. -/
def exampleFourPlaneBlock : C2GraphicBlock :=
  { width := 320
    height := 240
    handleFd := 7
    data := some [4096, 100096, 80896, 119296]
    numPlanes := 4
    planes := [{ colInc := 1, rowInc := 320 }, { colInc := 1, rowInc := 160 },
      { colInc := 1, rowInc := 160 }, { colInc := 1, rowInc := 320 }] }

/-- A 320x240 block with three planes (YV12), of which the U plane lies behind the V
plane. -/
def exampleYV12Block : C2GraphicBlock :=
  { width := 320
    height := 240
    handleFd := 8
    data := some [4096, 100096, 80896]
    numPlanes := 3
    planes := [{ colInc := 1, rowInc := 320 }, { colInc := 1, rowInc := 160 },
      { colInc := 1, rowInc := 160 }] }

/-- The pool of `examplePool` when `dup` fails for the second buffer of an allocation and
succeeds for the others. -/
def examplePartialDupPool : BlockPoolEnv :=
  { examplePool with dup := fun i => if i = 1 then -1 else 100 + i }

/-- Start, allocation of three buffers, an end-of-stream marker without input queued and
dispatched, then a picture that the VDA delivers with the bitstream id of the marker. -/
def exampleMarkerPictureTrace : List Event :=
  [Event.onStart VDAResult.SUCCESS,
   Event.onOutputFormatChanged examplePool exampleFormat,
   Event.onQueueWork (exampleEOSWork 0), Event.onDequeueWork 10,
   Event.onOutputBufferDone 0 0]

/-- Whether a work carries the `END_OF_STREAM` input flag. -/
def isEOS (w : C2Work) : Bool := hasFlag w.input.flags FLAG_END_OF_STREAM

/-- The batches of works delivered to the listener so far, oldest first. -/
def batches : List Effect → List (List C2Work)
  | [] => []
  | Effect.onWorkDone_nb works :: l => works :: batches l
  | _ :: l => batches l

/-- The members of the work pipeline agree in two states, and nothing was delivered to the
listener in between. -/
def SameWorks (c c1 : Component) : Prop :=
  c1.mComponentState = c.mComponentState ∧ c1.mQueue = c.mQueue ∧
  c1.mPendingWorks = c.mPendingWorks ∧ c1.mAbandonedWorks = c.mAbandonedWorks ∧
  c1.mPendingOutputEOS = c.mPendingOutputEOS ∧ batches c1.log = batches c.log

/-- The members of the buffer registry agree in two states. -/
def SameRegistry (c c1 : Component) : Prop :=
  c1.mGraphicBlocks = c.mGraphicBlocks ∧ c1.mBuffersInClient = c.mBuffersInClient ∧
  c1.mOutputFormat = c.mOutputFormat ∧ c1.mPendingOutputFormat = c.mPendingOutputFormat ∧
  c1.mDequeueThreadRunning = c.mDequeueThreadRunning ∧
  c1.mDequeueLoopStop = c.mDequeueLoopStop

/-- The ownership invariant of one record: a record owned by the client holds no graphic
block, a record owned by the component or by the accelerator holds one. -/
def ownershipOk (info : GraphicBlockInfo) : Prop :=
  (info.mState = GBState.OWNED_BY_CLIENT → info.mGraphicBlock = none) ∧
  (info.mState = GBState.OWNED_BY_COMPONENT ∨ info.mState = GBState.OWNED_BY_ACCELERATOR →
    info.mGraphicBlock ≠ none)

/-- The ownership invariant of the registry. -/
def OwnershipInvariant (c : Component) : Prop :=
  ∀ info ∈ c.mGraphicBlocks, ownershipOk info

/-- The part of a work that no handler changes: frame index and input flags. -/
def workKey (w : C2Work) : Nat × Nat := (w.input.ordinal.frameIndex, w.input.flags)

/-- The drain mark that `onQueueWork` gives to a work. -/
def queuedDrainMode (w : C2Work) : DrainMode :=
  if hasFlag w.input.flags FLAG_END_OF_STREAM then DrainMode.DRAIN_COMPONENT_WITH_EOS
  else DrainMode.NO_DRAIN

/-- The members of the work pipeline, and the batches delivered to the listener. -/
structure WorkView where
  state : ComponentState
  queue : List WorkEntry
  pending : List C2Work
  abandoned : List C2Work
  eos : Bool
  delivered : List (List C2Work)

/-- The work pipeline of a component. -/
def workView (c : Component) : WorkView :=
  { state := c.mComponentState
    queue := c.mQueue
    pending := c.mPendingWorks
    abandoned := c.mAbandonedWorks
    eos := c.mPendingOutputEOS
    delivered := batches c.log }

/-- A delivered batch: nothing is delivered for an empty list of works. -/
def batchOf (works : List C2Work) : List (List C2Work) :=
  if works.isEmpty then [] else [works]

/-- The inner state after a reset completion or a drain completion. -/
def afterDrain (s : ComponentState) : ComponentState :=
  if s = ComponentState.DRAINING then ComponentState.STARTED else s

/-- What a step of an execution does to the work pipeline; the list holds the work that the
step takes from the framework, if any. -/
inductive WorkStep : List C2Work → WorkView → WorkView → Prop
  | same (v : WorkView) : WorkStep [] v v
  | ignored (v : WorkView) (w : C2Work) : v.state = ComponentState.ERROR → WorkStep [w] v v
  | start (v : WorkView) : v.state = ComponentState.UNINITIALIZED →
      WorkStep [] v { v with state := ComponentState.STARTED }
  | queue (v : WorkView) (w : C2Work) :
      v.state ≠ ComponentState.ERROR → v.state ≠ ComponentState.UNINITIALIZED →
      WorkStep [w] v
        { v with queue := v.queue ++ [{ mWork := w, mDrainMode := queuedDrainMode w }] }
  | dispatch (v : WorkView) (entry : WorkEntry) (rest : List WorkEntry) (w2 : C2Work) :
      v.state = ComponentState.STARTED → v.queue = entry :: rest →
      workKey w2 = workKey entry.mWork → w2.input.buffers.length = 1 →
      entry.mDrainMode = DrainMode.NO_DRAIN →
      WorkStep [] v { v with queue := rest, pending := v.pending ++ [w2] }
  | dispatchDrain (v : WorkView) (entry : WorkEntry) (rest : List WorkEntry) (w2 : C2Work) :
      v.state = ComponentState.STARTED → v.queue = entry :: rest →
      workKey w2 = workKey entry.mWork → w2.input.buffers.length = 1 →
      entry.mDrainMode ≠ DrainMode.NO_DRAIN →
      WorkStep [] v { v with
        queue := rest, pending := v.pending ++ [w2], state := ComponentState.DRAINING
        eos := entry.mDrainMode == DrainMode.DRAIN_COMPONENT_WITH_EOS }
  | report (v : WorkView) (updated kept finished : List C2Work) :
      v.state ≠ ComponentState.ERROR → v.state ≠ ComponentState.UNINITIALIZED →
      List.Forall₂ (fun a b => workKey a = workKey b) v.pending updated →
      kept.Sublist updated →
      (finished.map workKey).Sublist (updated.map workKey) →
      (∀ w ∈ finished, w.result = c2_status_t.C2_OK ∧ isEOS w = false) →
      WorkStep [] v { v with pending := kept, delivered := v.delivered ++ batchOf finished }
  | drainMark (v : WorkView) (front : List WorkEntry) (back : WorkEntry) (m : DrainMode) :
      v.queue = front ++ [back] → back.mDrainMode = DrainMode.NO_DRAIN →
      WorkStep [] v { v with queue := front ++ [{ back with mDrainMode := m }] }
  | drainNow (v : WorkView) (m : DrainMode) :
      v.state = ComponentState.STARTED → v.queue = [] → v.pending ≠ [] →
      WorkStep [] v { v with
        state := ComponentState.DRAINING, eos := m == DrainMode.DRAIN_COMPONENT_WITH_EOS }
  | drainDone (v : WorkView) :
      v.state = ComponentState.DRAINING ∨ v.state = ComponentState.FLUSHING →
      v.pending = [] → WorkStep [] v { v with state := afterDrain v.state }
  | drainDoneEOS (v : WorkView) (w w1 : C2Work) :
      v.state = ComponentState.DRAINING ∨ v.state = ComponentState.FLUSHING →
      v.pending = [w] → v.eos = true → workKey w1 = workKey w →
      w1.result = c2_status_t.C2_OK →
      WorkStep [] v { v with
        state := afterDrain v.state, pending := [], eos := false
        delivered := v.delivered ++ [[w1]] }
  | flush (v : WorkView) :
      v.state = ComponentState.STARTED ∨ v.state = ComponentState.DRAINING →
      WorkStep [] v { v with
        state := ComponentState.FLUSHING, queue := []
        abandoned := v.abandoned ++ v.queue.map fun e => e.mWork }
  | stop (v : WorkView) :
      v.state ≠ ComponentState.ERROR → v.state ≠ ComponentState.UNINITIALIZED →
      WorkStep [] v { v with
        state := ComponentState.STOPPING, queue := []
        abandoned := v.abandoned ++ v.queue.map fun e => e.mWork }
  | resetDone (v : WorkView) :
      v.state = ComponentState.FLUSHING ∨ v.state = ComponentState.STOPPING →
      WorkStep [] v
        { state := if v.state = ComponentState.FLUSHING then ComponentState.STARTED
            else ComponentState.UNINITIALIZED
          queue := v.queue
          pending := []
          abandoned := []
          eos := false
          delivered := v.delivered ++
            batchOf (v.pending.map abandonWork ++ v.abandoned.map abandonWork) }

/-- The work that an event takes from the framework. -/
def queuedBy : Event → List C2Work
  | Event.onQueueWork w => [w]
  | _ => []

/-- The works that the events of a list take from the framework, in order. -/
def queuedWorks : List Event → List C2Work
  | [] => []
  | e :: es => queuedBy e ++ queuedWorks es

/-- What the end-of-stream claim is proved with: in the pending list only the last work may
carry `END_OF_STREAM`; outside `DRAINING`, `FLUSHING` and `STOPPING` no pending work carries
it; and a queued work that carries it has a drain mark. -/
def EOSInvariant (v : WorkView) : Prop :=
  v.pending.Pairwise (fun a _ => isEOS a = false) ∧
  (v.state ≠ ComponentState.DRAINING → v.state ≠ ComponentState.FLUSHING →
    v.state ≠ ComponentState.STOPPING → ∀ w ∈ v.pending, isEOS w = false) ∧
  (∀ e ∈ v.queue, isEOS e.mWork = true → e.mDrainMode ≠ DrainMode.NO_DRAIN)

/-- The keys of the works held in the pending list and in the incoming queue, in this order. -/
def heldKeys (v : WorkView) : List (Nat × Nat) :=
  v.pending.map workKey ++ v.queue.map fun e => workKey e.mWork

/-- The bitstream ids of the works held in the pending list and in the incoming queue. -/
def heldIds (c : Component) : List Int :=
  c.mPendingWorks.map bitstreamIdOf ++ c.mQueue.map fun e => bitstreamIdOf e.mWork

/-- The states reached by executions in which no work is queued whose bitstream id is that of
a work still held in the pending list or in the incoming queue. -/
inductive FreshReachable : Component → Prop
  | init (secureMode : Bool) : FreshReachable (initial secureMode)
  | step {c c1 : Component} (e : Event) :
      FreshReachable c → (∀ w ∈ queuedBy e, bitstreamIdOf w ∉ heldIds c) →
      step e c = some c1 → FreshReachable c1

/-- The frame index of a work. -/
def frameIndexOf (w : C2Work) : Nat := w.input.ordinal.frameIndex

/-- What the order of delivery is proved with, for the works `hist` queued so far: the works
held in pending list and queue are in the order in which they were queued, and so are the
works of every delivered batch that holds a work with result `C2_OK`. -/
def OrderInvariant (hist : List C2Work) (v : WorkView) : Prop :=
  (heldKeys v).Sublist (hist.map workKey) ∧
  ∀ batch ∈ v.delivered, (∃ w ∈ batch, w.result = c2_status_t.C2_OK) →
    (batch.map workKey).Sublist (hist.map workKey)

/-- The ownership states of the registry records, in the order of the registry. -/
def ownerships (c : Component) : List GBState :=
  c.mGraphicBlocks.map fun (info : GraphicBlockInfo) => info.mState

/-- From the list `old` to the list `new` of ownership states no record is added or
removed, and every record keeps its state or moves from `a` to `b`. -/
def MovesOnly (a b : GBState) (old new : List GBState) : Prop :=
  List.Forall₂ (fun x y => x = y ∨ (x = a ∧ y = b)) old new

/-- The events whose handler assigns an ownership state. -/
def assignsOwnership : Event → Bool
  | Event.onOutputBufferReturned _ _ _ => true
  | Event.onOutputBufferDone _ _ => true
  | Event.onOutputFormatChanged _ _ => true
  | _ => false

/-- The bitstream ids of the `decode` calls of a log, in the order of the calls. -/
def decodedIds : List Effect → List Int
  | [] => []
  | Effect.vdaDecode bitstreamId _ _ _ :: l => bitstreamId :: decodedIds l
  | _ :: l => decodedIds l

/-- The shape that `onDequeueWork` gives to a work and that every later handler keeps: one
input slot, and one worklet whose output flags are `0` and whose output ordinal is the
ordinal of the input. -/
def PendingShape (w : C2Work) : Prop :=
  w.input.buffers.length = 1 ∧
  ∃ wl, w.worklets = [wl] ∧ wl.output.flags = 0 ∧ wl.output.ordinal = w.input.ordinal

/-- The keys of the works held in the pending list, in the abandoned list and in the
incoming queue, in this order. -/
def pipelineKeys (v : WorkView) : List (Nat × Nat) :=
  v.pending.map workKey ++ v.abandoned.map workKey ++ v.queue.map fun e => workKey e.mWork

/-- What the order of the abandoned works is proved with, for the works `hist` queued so far:
pending list, abandoned list and incoming queue, in this order, hold works in the order in
which they were queued, and the abandoned list is empty outside `FLUSHING` and `STOPPING`. -/
def AbandonInvariant (hist : List C2Work) (v : WorkView) : Prop :=
  (pipelineKeys v).Sublist (hist.map workKey) ∧
  (v.abandoned ≠ [] →
    v.state = ComponentState.FLUSHING ∨ v.state = ComponentState.STOPPING)

/-- What a stop tears down and signals: whether the stop event is stored, whether the VDA
adaptor exists, and how often the stop event was signalled. -/
def teardownView (c : Component) : Bool × Bool × Nat :=
  (c.mStopDoneEvent, c.mVDAAdaptor, c.log.count Effect.signalStopDone)

/-- A handler other than `onStart`, `onStop` and `onResetDone` keeps the inner state or moves
it between running states: it neither leaves `UNINITIALIZED` nor enters `STOPPING` or
`UNINITIALIZED`. -/
def RunningMove (c c1 : Component) : Prop :=
  c1.mComponentState = c.mComponentState ∨
  (c.mComponentState ≠ ComponentState.UNINITIALIZED ∧
    c1.mComponentState ≠ ComponentState.STOPPING ∧
    c1.mComponentState ≠ ComponentState.UNINITIALIZED)

/-- What the completion of a stop is proved with: in `STOPPING` the stop event is stored,
and outside `UNINITIALIZED` the VDA adaptor exists. -/
def StopInvariant (c : Component) : Prop :=
  (c.mComponentState = ComponentState.STOPPING → c.mStopDoneEvent = true) ∧
  (c.mComponentState ≠ ComponentState.UNINITIALIZED → c.mVDAAdaptor = true)

/-- Whether `appendOutputBuffer` (or `appendSecureOutputBuffer` in secure mode) registers
`block` as the `i`-th buffer of an allocation: `dup` succeeds, and the layout of the block can
be read with positive strides (in secure mode: the build supports it and the platform pixel
format is `YV12` or `NV12`). -/
def appendSucceeds (env : BlockPoolEnv) (secureMode : Bool) (i : Nat)
    (block : C2GraphicBlock) : Bool :=
  decide (0 ≤ env.dup i) &&
  (if secureMode then
    env.arcBuild && (env.getPlatformPixelFormat == HalPixelFormat.YV12 ||
      env.getPlatformPixelFormat == HalPixelFormat.NV12)
  else
    match planeLayout block with
    | none => false
    | some layout =>
      (passedPlanesFrom layout.offsets block.planes layout.passedNumPlanes 0).isSome)

/-- The block ids of the `importBufferForPicture` calls of a log, in the order of the calls. -/
def importedIds : List Effect → List Int
  | [] => []
  | Effect.vdaImportBufferForPicture blockId _ _ _ :: l => blockId :: importedIds l
  | _ :: l => importedIds l

/-- The arguments of the `assignPictureBuffers` calls of a log, in the order of the calls. -/
def assignedCounts : List Effect → List Nat
  | [] => []
  | Effect.vdaAssignPictureBuffers count :: l => count :: assignedCounts l
  | _ :: l => assignedCounts l

/-- A record as `appendOutputBuffer` leaves it: owned by the component, with the block and
with the duplicated descriptor still to be imported. -/
def FreshRecord (info : GraphicBlockInfo) : Prop :=
  info.mState = GBState.OWNED_BY_COMPONENT ∧ info.mHandle.isSome = true ∧
  info.mGraphicBlock.isSome = true

/-- Every record of a registry has its position as block id (as `int32_t`) and satisfies `P`. -/
def Numbered (P : GraphicBlockInfo → Prop) (l : List GraphicBlockInfo) : Prop :=
  ∀ (i : Nat) (info : GraphicBlockInfo), l[i]? = some info →
    info.mBlockId = static_cast_int32 i ∧ P info

/-- A record that was imported by the accelerator: owned by the accelerator, the descriptor
handed over, the block kept. -/
def SentRecord (info : GraphicBlockInfo) : Prop :=
  info.mState = GBState.OWNED_BY_ACCELERATOR ∧ info.mHandle = none ∧
  info.mGraphicBlock.isSome = true

/-- The codes of the `onError_nb` calls of a log, in the order of the calls. -/
def errorCodes : List Effect → List c2_status_t
  | [] => []
  | Effect.onError_nb error :: l => error :: errorCodes l
  | _ :: l => errorCodes l

/-- The tests of `isWorkDone` that look at the work alone: it does not carry
`END_OF_STREAM`, its first input slot is null, and it carries `CODEC_CONFIG` or its first
worklet holds an output buffer. -/
def readyToReport (w : C2Work) : Bool :=
  !hasFlag w.input.flags FLAG_END_OF_STREAM &&
  (w.input.buffers.head? == some none) &&
  (hasFlag w.input.flags FLAG_CODEC_CONFIG ||
    match w.worklets with
    | [] => false
    | wl :: _ => !wl.output.buffers.isEmpty)

/-- A work as `reportFinishedWorkIfAny` delivers it: result `C2_OK` and `workletsProcessed`
set to the number of worklets as a `uint32_t`. -/
def markDone (w : C2Work) : C2Work :=
  { w with result := c2_status_t.C2_OK, workletsProcessed := w.worklets.length % 2 ^ 32 }

/-- The bitstream ids of the `decode` commands that the component has issued so far. -/
def decodedLog (c : Component) : List Int := decodedIds c.log

/-- What the drain marks are proved with: a queued work that carries `END_OF_STREAM` has the
mark `DRAIN_COMPONENT_WITH_EOS`. -/
def DrainMarkInvariant (v : WorkView) : Prop :=
  ∀ e ∈ v.queue, isEOS e.mWork = true → e.mDrainMode = DrainMode.DRAIN_COMPONENT_WITH_EOS

/-- The number of `reset` commands that the component has sent to the VDA so far. -/
def resetCount (c : Component) : Nat := c.log.count Effect.vdaReset

/-- Whether a reset of the VDA is in progress as far as the inner state tells: the state is
`FLUSHING` or `STOPPING`. -/
def resetInProgress (c : Component) : Prop :=
  c.mComponentState = ComponentState.FLUSHING ∨ c.mComponentState = ComponentState.STOPPING

/-- The descriptors (`mHandle`) that the registry records hold, in the order of the
registry; `none` once a descriptor has been handed to the VDA. -/
def handles (c : Component) : List (Option Int) :=
  c.mGraphicBlocks.map fun (info : GraphicBlockInfo) => info.mHandle

/-- From the list `old` to the list `new` of descriptors no record is added or removed and
no record gets a descriptor: every record keeps what it holds or gives its descriptor away. -/
def ReleasesOnly (old new : List (Option Int)) : Prop :=
  List.Forall₂ (fun x y => y = x ∨ y = none) old new

/-- Whether the handler of an event may allocate the registry anew: an output format change,
and the return of a buffer while a format change is pending. -/
def reallocates (e : Event) (c : Component) : Bool :=
  match e with
  | Event.onOutputFormatChanged _ _ => true
  | Event.onOutputBufferReturned _ _ _ => c.mPendingOutputFormat.isSome
  | _ => false

/-- The offsets of the first `n` planes as the specification gives them: plane `i` at address
`a_i` has the offset `(a_i - a_0) mod 2^32`. -/
def specOffsets (addresses : List Int) (n : Nat) : List Nat :=
  match addresses with
  | [] => []
  | a0 :: _ => (addresses.take n).map fun a => ((a - a0) % 2 ^ 32).toNat

/-- The row increment of plane `k` of a block (`0` when the layout has no such plane). -/
def rowIncOf (block : C2GraphicBlock) (k : Nat) : Int :=
  (block.planes.getD k { colInc := 0, rowInc := 0 }).rowInc

/-- The works that the walk of `reportFinishedWorkIfAny` leaves in the pending list `l`, in
closed form: while `mPendingOutputEOS` is set (`eos`) and every work but the last passes the
tests on the work itself, the last work alone; otherwise the works that fail these tests. -/
def walkKept (eos : Bool) (l : List C2Work) : List C2Work :=
  if eos && l.dropLast.all readyToReport then l.getLast?.toList
  else l.filter fun w => !readyToReport w

/-- The works that the walk of `reportFinishedWorkIfAny` takes out of the pending list `l`,
in closed form: while `mPendingOutputEOS` is set (`eos`) and every work but the last passes
the tests on the work itself, all works but the last; otherwise the works that pass these
tests. -/
def walkDone (eos : Bool) (l : List C2Work) : List C2Work :=
  if eos && l.dropLast.all readyToReport then l.dropLast
  else l.filter readyToReport

/-- No pending work with the bitstream id `b` holds an output buffer. -/
def NoPicture (b : Int) (c : Component) : Prop :=
  ∀ w ∈ c.mPendingWorks, bitstreamIdOf w = b → ∀ wl ∈ w.worklets, wl.output.buffers = []

/-- Whether an event is the delivery of a picture for the bitstream id `b`. -/
def deliversPicture (b : Int) : Event → Bool
  | Event.onOutputBufferDone _ bitstreamId => bitstreamId == b
  | _ => false

/-- The block ids imported since the registry was last assigned: `imported` are the ids
imported before the log, `assignPictureBuffers` starts a new registry, and
`importBufferForPicture` adds its block id. -/
def importedAfter : List Int → List Effect → List Int
  | imported, [] => imported
  | _, Effect.vdaAssignPictureBuffers _ :: l => importedAfter [] l
  | imported, Effect.vdaImportBufferForPicture blockId _ _ _ :: l =>
    importedAfter (blockId :: imported) l
  | imported, _ :: l => importedAfter imported l

/-- Whether the submissions of a log are in order, where `imported` are the block ids imported
before the log: an import is the first submission of its block id since the registry was
last assigned, and a reuse follows an import of its block id. -/
def submissionsOk : List Int → List Effect → Bool
  | _, [] => true
  | _, Effect.vdaAssignPictureBuffers _ :: l => submissionsOk [] l
  | imported, Effect.vdaImportBufferForPicture blockId _ _ _ :: l =>
    !imported.contains blockId && submissionsOk (blockId :: imported) l
  | imported, Effect.vdaReusePictureBuffer blockId :: l =>
    imported.contains blockId && submissionsOk imported l
  | imported, _ :: l => submissionsOk imported l

/-- The submissions of a component so far: the block ids imported since the registry was last
assigned, and whether the submissions are in order. -/
def picView (c : Component) : List Int × Bool :=
  (importedAfter [] c.log, submissionsOk [] c.log)

/-- What the order of the submissions is proved with: the submissions so far are in order,
and when no output format is pending every record has its position as block id, has given
its descriptor away and was imported since the registry was last assigned. -/
def ImportInvariant (c : Component) : Prop :=
  submissionsOk [] c.log = true ∧
  (c.mPendingOutputFormat = none →
    ∀ (i : Nat) (info : GraphicBlockInfo), c.mGraphicBlocks[i]? = some info →
      info.mBlockId = static_cast_int32 i ∧ info.mHandle = none ∧
      info.mBlockId ∈ importedAfter [] c.log)

set_option linter.unusedTactic false
set_option linter.unreachableTactic false

/-! ## The log only grows -/

theorem log_prefix_emit (e : Effect) (c : Component) : c.log <+: (emit e c).log := by
  simp [emit]

theorem log_prefix_reportError (e : c2_status_t) (c : Component) :
    c.log <+: (reportError e c).log := by
  simp [reportError, emit]

theorem log_prefix_reportFinishedWorkIfAny {c c1 : Component}
    (h : reportFinishedWorkIfAny c = some c1) : c.log <+: c1.log := by
  unfold reportFinishedWorkIfAny at h
  split at h
  · simp at h
  · split at h <;> simp at h <;> subst h <;> simp [emit]

theorem log_prefix_reportAbandonedWorks (c : Component) :
    c.log <+: (reportAbandonedWorks c).log := by
  unfold reportAbandonedWorks
  simp only []
  split <;> simp [emit]

theorem log_prefix_reportEOSWork {c c1 : Component}
    (h : reportEOSWork c = some c1) : c.log <+: c1.log := by
  unfold reportEOSWork at h
  split at h
  · split at h
    · simp at h
    · simp at h; subst h; simp [emit]
  · simp at h; subst h; simp [reportError, emit]

theorem log_prefix_onStart {r : VDAResult} {c c1 : Component}
    (h : onStart r c = some c1) : c.log <+: c1.log := by
  unfold onStart at h
  split at h
  · simp at h
  · simp only [Option.some.injEq] at h
    subst h
    split <;> simp [emit]

theorem log_prefix_onQueueWork {w : C2Work} {c c1 : Component}
    (h : onQueueWork w c = some c1) : c.log <+: c1.log := by
  unfold onQueueWork EXPECT_RUNNING_OR_RETURN_ON_ERROR at h
  split at h
  · simp at h; subst h; simp
  · split at h
    · simp at h
    · simp at h; subst h; simp [emit]

theorem log_prefix_sendInputBufferToAccelerator (d : Int) (b : C2ConstLinearBlock) (i : Int)
    (c : Component) : c.log <+: (sendInputBufferToAccelerator d b i c).log := by
  unfold sendInputBufferToAccelerator
  split <;> simp [reportError, emit]

theorem log_prefix_dequeueInput {d : Int} {m : DrainMode} {w w1 : C2Work} {c c1 : Component}
    (h : dequeueInput d m w c = some (w1, c1)) : c.log <+: c1.log := by
  unfold dequeueInput at h
  repeat' split at h
  all_goals simp at h
  all_goals obtain ⟨-, rfl⟩ := h
  · simp
  · exact log_prefix_sendInputBufferToAccelerator _ _ _ _

theorem log_prefix_dequeueOutput {m : DrainMode} {w : C2Work} {c c1 : Component}
    (h : dequeueOutput m w c = some c1) : c.log <+: c1.log := by
  unfold dequeueOutput at h
  split at h
  · dsimp only at h
    repeat' split at h
    all_goals simp at h
    all_goals subst h
    all_goals simp [emit]
  · simp at h

theorem log_prefix_onDequeueWork {d : Int} {c c1 : Component}
    (h : onDequeueWork d c = some c1) : c.log <+: c1.log := by
  unfold onDequeueWork EXPECT_RUNNING_OR_RETURN_ON_ERROR at h
  repeat' split at h
  all_goals try (simp at h; done)
  all_goals try (simp at h; subst h; simp; done)
  rename_i _ h2
  exact (log_prefix_dequeueInput h2).trans (log_prefix_dequeueOutput h)

theorem log_prefix_onInputBufferDone {b : Int} {c c1 : Component}
    (h : onInputBufferDone b c = some c1) : c.log <+: c1.log := by
  unfold onInputBufferDone EXPECT_RUNNING_OR_RETURN_ON_ERROR at h
  repeat' split at h
  all_goals try (simp at h; done)
  all_goals try (simp at h; subst h; simp [reportError, emit]; done)
  exact (log_prefix_reportFinishedWorkIfAny h :)

theorem log_prefix_onDrain {m : DrainMode} {c c1 : Component}
    (h : onDrain m c = some c1) : c.log <+: c1.log := by
  unfold onDrain EXPECT_RUNNING_OR_RETURN_ON_ERROR at h
  repeat' split at h
  all_goals try (simp at h; done)
  all_goals try (simp at h; subst h; simp [reportError, emit]; done)

theorem log_prefix_onDrainDoneTail {c c1 : Component}
    (h : onDrainDoneTail c = some c1) : c.log <+: c1.log := by
  unfold onDrainDoneTail at h
  split at h
  · simp at h
  · rename_i c2 h2
    split at h
    · simp at h
    · simp at h
      subst h
      have h3 : c.log <+: c2.log := by
        split at h2
        · exact log_prefix_reportEOSWork h2
        · simp at h2; subst h2; simp
      exact h3.trans (log_prefix_emit _ _)

theorem log_prefix_onDrainDone {c c1 : Component}
    (h : onDrainDone c = some c1) : c.log <+: c1.log := by
  unfold onDrainDone at h
  repeat' split at h
  all_goals try (simp at h; subst h; simp [reportError, emit]; done)
  all_goals exact (log_prefix_onDrainDoneTail h :)

theorem log_prefix_onFlush {c c1 : Component}
    (h : onFlush c = some c1) : c.log <+: c1.log := by
  unfold onFlush EXPECT_RUNNING_OR_RETURN_ON_ERROR at h
  repeat' split at h
  all_goals try (simp at h; done)
  all_goals try (simp at h; subst h; simp [abandonQueue, emit]; done)

theorem log_prefix_onStop {c c1 : Component}
    (h : onStop c = some c1) : c.log <+: c1.log := by
  unfold onStop EXPECT_RUNNING_OR_RETURN_ON_ERROR at h
  repeat' split at h
  all_goals try (simp at h; done)
  all_goals try (simp at h; subst h; simp [abandonQueue, emit]; done)

theorem log_stopDequeueThread (c : Component) : (stopDequeueThread c).log = c.log := by
  unfold stopDequeueThread; split <;> rfl

theorem log_prefix_onFlushDone {c c1 : Component}
    (h : onFlushDone c = some c1) : c.log <+: c1.log := by
  unfold onFlushDone at h
  simp at h
  subst h
  exact (log_prefix_reportAbandonedWorks c).trans (by simp [emit])

theorem log_prefix_onStopDone {c c1 : Component}
    (h : onStopDone c = some c1) : c.log <+: c1.log := by
  unfold onStopDone at h
  split at h
  · simp at h
  · simp only [Option.some.injEq] at h
    subst h
    refine (log_prefix_reportAbandonedWorks c).trans ?_
    simp only [emit, log_stopDequeueThread]
    split <;> simp

theorem log_prefix_onResetDone {c c1 : Component}
    (h : onResetDone c = some c1) : c.log <+: c1.log := by
  unfold onResetDone at h
  repeat' split at h
  · simp at h; subst h; simp
  · exact log_prefix_onFlushDone h
  · exact log_prefix_onStopDone h
  · simp at h; subst h; simp [reportError, emit]

theorem log_prefix_appendOutputBuffer {d : Int} {b : C2GraphicBlock} {p : Nat}
    {c c1 : Component} (h : appendOutputBuffer d b p c = some c1) : c.log <+: c1.log := by
  unfold appendOutputBuffer at h
  repeat' split at h
  all_goals try (simp at h; done)
  all_goals try (simp at h; subst h; simp [reportError, emit]; done)

theorem log_prefix_appendSecureOutputBuffer {a : Bool} {f : HalPixelFormat} {d : Int}
    {b : C2GraphicBlock} {p : Nat} {c c1 : Component}
    (h : appendSecureOutputBuffer a f d b p c = some c1) : c.log <+: c1.log := by
  unfold appendSecureOutputBuffer at h
  repeat' split at h
  all_goals try (simp at h; done)
  all_goals try (simp at h; subst h; simp [reportError, emit]; done)

theorem log_prefix_sendOutputBufferToAccelerator {i : Nat} {c c1 : Component}
    (h : sendOutputBufferToAccelerator i c = some c1) : c.log <+: c1.log := by
  unfold sendOutputBufferToAccelerator at h
  repeat' split at h
  all_goals try (simp at h; done)
  all_goals try (simp at h; subst h; simp [reportError, emit]; done)

theorem log_prefix_sendAllFrom {n i : Nat} {c c1 : Component}
    (h : sendAllFrom n i c = some c1) : c.log <+: c1.log := by
  induction n generalizing i c with
  | zero => simp [sendAllFrom] at h; subst h; simp
  | succ n ih =>
    simp only [sendAllFrom, Option.bind_eq_some] at h
    obtain ⟨c2, h2, h3⟩ := h
    exact (log_prefix_sendOutputBufferToAccelerator h2).trans (ih h3)

theorem log_prefix_startDequeueThread {s r : Bool} {c c1 : Component}
    (h : startDequeueThread s c = some (r, c1)) : c.log <+: c1.log := by
  unfold startDequeueThread at h
  repeat' split at h
  all_goals try (simp at h; done)
  all_goals try (simp at h; obtain ⟨-, rfl⟩ := h; simp; done)

theorem log_prefix_allocateLoop {env : BlockPoolEnv} {n i k : Nat} {c c1 : Component}
    {err : c2_status_t} (h : allocateLoop env n i k c = some (err, c1)) : c.log <+: c1.log := by
  induction n generalizing i k c with
  | zero => simp [allocateLoop] at h; obtain ⟨-, rfl⟩ := h; simp
  | succ n ih =>
    unfold allocateLoop at h
    dsimp only at h
    split at h
    · simp at h; obtain ⟨-, rfl⟩ := h; simp [reportError, emit]
    · split at h
      · simp at h; obtain ⟨-, rfl⟩ := h; simp [reportError, emit]
      · simp only [Option.bind_eq_some] at h
        obtain ⟨c2, h2, h3⟩ := h
        refine List.IsPrefix.trans ?_ (ih h3)
        split at h2
        · exact log_prefix_appendSecureOutputBuffer h2
        · exact log_prefix_appendOutputBuffer h2

theorem log_prefix_allocateBuffersFromBlockAllocator {env : BlockPoolEnv} {c c1 : Component}
    {err : c2_status_t} (h : allocateBuffersFromBlockAllocator env c = some (err, c1)) :
    c.log <+: c1.log := by
  unfold allocateBuffersFromBlockAllocator at h
  dsimp only at h
  have h0 : ∀ e, c.log <+: (emit e (stopDequeueThread c)).log := fun e => by
    simp [emit, log_stopDequeueThread]
  repeat' split at h
  all_goals try (simp at h; done)
  all_goals try (simp at h; obtain ⟨-, rfl⟩ := h; simp [reportError, emit, log_stopDequeueThread]; done)
  · rename_i h1 _
    simp at h; obtain ⟨-, rfl⟩ := h
    exact (h0 _).trans (log_prefix_allocateLoop h1 :)
  · rename_i h1 _ _ _ h2
    simp at h; obtain ⟨-, rfl⟩ := h
    exact ((h0 _).trans (log_prefix_allocateLoop h1 :)).trans (log_prefix_startDequeueThread h2 :)
  · rename_i h1 _ _ _ h2
    simp at h; obtain ⟨-, rfl⟩ := h
    exact (((h0 _).trans (log_prefix_allocateLoop h1 :)).trans
      (log_prefix_startDequeueThread h2 :)).trans (log_prefix_reportError _ _)

theorem log_prefix_tryChangeOutputFormat {env : BlockPoolEnv} {c c1 : Component}
    (h : tryChangeOutputFormat env c = some c1) : c.log <+: c1.log := by
  unfold tryChangeOutputFormat at h
  repeat' (first | split at h | (dsimp only at h; split at h))
  all_goals try (simp at h; done)
  · rename_i h1 _
    simp at h; subst h
    exact (log_prefix_allocateBuffersFromBlockAllocator h1 :).trans (log_prefix_reportError _ _)
  · rename_i h1 _
    simp only [Option.map_eq_some'] at h
    obtain ⟨c4, h4, rfl⟩ := h
    exact (log_prefix_allocateBuffersFromBlockAllocator h1 :).trans (log_prefix_sendAllFrom h4 :)

theorem log_prefix_onOutputBufferReturned {env : BlockPoolEnv} {b : C2GraphicBlock} {p : Nat}
    {c c1 : Component} (h : onOutputBufferReturned env b p c = some c1) : c.log <+: c1.log := by
  unfold onOutputBufferReturned at h
  repeat' (first | split at h | (dsimp only at h; split at h))
  all_goals try (simp at h; done)
  all_goals try (simp at h; subst h; simp [reportError, emit]; done)
  · exact (log_prefix_tryChangeOutputFormat h :)
  · exact (log_prefix_sendOutputBufferToAccelerator h :)

theorem log_prefix_onOutputBufferDone {p b : Int} {c c1 : Component}
    (h : onOutputBufferDone p b c = some c1) : c.log <+: c1.log := by
  unfold onOutputBufferDone EXPECT_RUNNING_OR_RETURN_ON_ERROR at h
  repeat' (first | split at h | (dsimp only at h; split at h))
  all_goals try (simp at h; done)
  all_goals try (simp at h; subst h; simp [reportError, emit]; done)
  exact (log_prefix_reportFinishedWorkIfAny h :)

theorem log_prefix_onOutputFormatChanged {env : BlockPoolEnv} {f : VideoFormat}
    {c c1 : Component} (h : onOutputFormatChanged env f c = some c1) : c.log <+: c1.log := by
  unfold onOutputFormatChanged EXPECT_RUNNING_OR_RETURN_ON_ERROR at h
  repeat' (first | split at h | (dsimp only at h; split at h))
  all_goals try (simp at h; done)
  all_goals try (simp at h; subst h; simp [reportError, emit]; done)
  exact (log_prefix_tryChangeOutputFormat h :)

theorem log_prefix_onVisibleRectChanged {r : Rect} {c c1 : Component}
    (h : onVisibleRectChanged r c = some c1) : c.log <+: c1.log := by
  unfold onVisibleRectChanged EXPECT_RUNNING_OR_RETURN_ON_ERROR at h
  repeat' split at h
  all_goals try (simp at h; done)
  all_goals try (simp at h; subst h; simp [setOutputFormatCrop]; done)

theorem log_prefix_notifyError (r : VDAResult) (c : Component) :
    c.log <+: (notifyError r c).log := by
  cases r <;> simp [notifyError, reportError, emit]

theorem log_prefix_dequeueThreadLoopIteration (f : c2_status_t × C2GraphicBlock)
    (p : c2_status_t × Nat) (c : Component) :
    c.log <+: (dequeueThreadLoopIteration f p c).1.log := by
  unfold dequeueThreadLoopIteration
  repeat' split
  all_goals simp [emit]

theorem log_prefix_step {e : Event} {c c1 : Component} (h : step e c = some c1) :
    c.log <+: c1.log := by
  cases e <;> simp only [step] at h
  · exact log_prefix_onStart h
  · exact log_prefix_onStop h
  · exact log_prefix_onQueueWork h
  · exact log_prefix_onDequeueWork h
  · exact log_prefix_onInputBufferDone h
  · exact log_prefix_onOutputBufferReturned h
  · exact log_prefix_onOutputBufferDone h
  · exact log_prefix_onDrain h
  · exact log_prefix_onDrainDone h
  · exact log_prefix_onFlush h
  · exact log_prefix_onResetDone h
  · exact log_prefix_onOutputFormatChanged h
  · exact log_prefix_onVisibleRectChanged h
  · simp at h; subst h; exact log_prefix_notifyError _ _
  · split at h <;> simp at h <;> subst h
    · exact log_prefix_dequeueThreadLoopIteration _ _ _
    · simp

theorem log_prefix_run {es : List Event} {c c1 : Component} (h : run es c = some c1) :
    c.log <+: c1.log := by
  induction es generalizing c with
  | nil => simp [run] at h; subst h; simp
  | cons e es ih =>
    simp only [run, Option.bind_eq_some] at h
    obtain ⟨c2, h2, h3⟩ := h
    exact (log_prefix_step h2).trans (ih h3)

theorem log_prefix_runUntilSignal {s : Effect} {n : Nat} {es : List Event} {c c1 : Component}
    {b : Bool} (h : runUntilSignal s n es c = some (c1, b)) :
    c.log <+: c1.log ∧ (b = true → n < c1.log.count s) := by
  induction es generalizing c with
  | nil => simp [runUntilSignal] at h; obtain ⟨rfl, rfl⟩ := h; simp
  | cons e es ih =>
    simp only [runUntilSignal] at h
    split at h
    · simp at h; obtain ⟨rfl, rfl⟩ := h; simpa
    · simp only [Option.bind_eq_some] at h
      obtain ⟨c2, h2, h3⟩ := h
      exact ⟨(log_prefix_step h2).trans (ih h3).1, (ih h3).2⟩

/-! ## The synchronous interface -/

/-- C1: `start()` returns `C2_BAD_STATE` and changes nothing unless the outer state is `LOADED`;
from `LOADED` (inner state `UNINITIALIZED`) it returns `C2_OK` with outer state `RUNNING` and
inner state `STARTED` when the VDA initializes with `SUCCESS`, and `C2_CORRUPTED` with both
states unchanged otherwise. -/
theorem start_contract (profile : Int) (initResult : VDAResult) (c : Component) :
    (c.mState ≠ State.LOADED →
      start profile initResult c = CallOutcome.returned c2_status_t.C2_BAD_STATE c) ∧
    (c.mState = State.LOADED → c.mComponentState = ComponentState.UNINITIALIZED →
      initResult = VDAResult.SUCCESS →
      ∃ c1, start profile initResult c = CallOutcome.returned c2_status_t.C2_OK c1 ∧
        c1.mState = State.RUNNING ∧ c1.mComponentState = ComponentState.STARTED) ∧
    (c.mState = State.LOADED → c.mComponentState = ComponentState.UNINITIALIZED →
      initResult ≠ VDAResult.SUCCESS →
      ∃ c1, start profile initResult c = CallOutcome.returned c2_status_t.C2_CORRUPTED c1 ∧
        c1.mState = State.LOADED ∧ c1.mComponentState = ComponentState.UNINITIALIZED) := by
  refine ⟨fun h => ?_, fun h1 h2 h3 => ?_, fun h1 h2 h3 => ?_⟩
  · simp [start, h]
  · subst h3
    simp [start, onStart, emit, h1, h2]
  · simp [start, onStart, emit, h1, h2, h3]

theorem start_contract_witness :
    start 0 VDAResult.SUCCESS { initial false with mState := State.RUNNING } =
      CallOutcome.returned c2_status_t.C2_BAD_STATE
        { initial false with mState := State.RUNNING } ∧
    (∃ c1, start 0 VDAResult.SUCCESS (initial false) =
        CallOutcome.returned c2_status_t.C2_OK c1 ∧
      c1.mState = State.RUNNING ∧ c1.mComponentState = ComponentState.STARTED) ∧
    (∃ c1, start 0 VDAResult.PLATFORM_FAILURE (initial false) =
        CallOutcome.returned c2_status_t.C2_CORRUPTED c1 ∧
      c1.mState = State.LOADED ∧ c1.mComponentState = ComponentState.UNINITIALIZED) :=
  ⟨(start_contract 0 VDAResult.SUCCESS { initial false with mState := State.RUNNING }).1
      (by decide),
    (start_contract 0 VDAResult.SUCCESS (initial false)).2.1 rfl rfl rfl,
    (start_contract 0 VDAResult.PLATFORM_FAILURE (initial false)).2.2 rfl rfl (by decide)⟩

theorem queue_nb_loop_eq (items : List C2Work) (c : Component) :
    queue_nb_loop items c =
      ([], { c with log := c.log ++ items.map fun w => Effect.postTask (Task.onQueueWork w) }) := by
  induction items generalizing c with
  | nil => simp [queue_nb_loop]
  | cons w items ih => simp [queue_nb_loop, ih, emit]

/-- C3: the status of `announce_nb`, `flush_sm`, `drain_nb` and `queue_nb` is determined by the
mode and the outer state: `C2_OMITTED` for `announce_nb` and for an unsupported mode;
otherwise `C2_BAD_STATE` with no task posted and the item list untouched unless the outer state
is `RUNNING`, and `C2_OK` with the tasks posted in `RUNNING`, where `queue_nb` posts one
`onQueueWork` per item in list order and empties the list. -/
theorem async_entry_points_contract (items flushedWork : List C2Work) (outlines : List Nat)
    (fmode : flush_mode_t) (dmode : DrainMode) (c : Component) :
    announce_nb outlines c = (c2_status_t.C2_OMITTED, c) ∧
    (fmode ≠ flush_mode_t.FLUSH_COMPONENT →
      flush_sm fmode flushedWork c = (c2_status_t.C2_OMITTED, flushedWork, c)) ∧
    (dmode ≠ DrainMode.DRAIN_COMPONENT_WITH_EOS → dmode ≠ DrainMode.DRAIN_COMPONENT_NO_EOS →
      drain_nb dmode c = (c2_status_t.C2_OMITTED, c)) ∧
    (c.mState ≠ State.RUNNING →
      queue_nb items c = (c2_status_t.C2_BAD_STATE, items, c) ∧
      flush_sm flush_mode_t.FLUSH_COMPONENT flushedWork c =
        (c2_status_t.C2_BAD_STATE, flushedWork, c) ∧
      drain_nb DrainMode.DRAIN_COMPONENT_WITH_EOS c = (c2_status_t.C2_BAD_STATE, c) ∧
      drain_nb DrainMode.DRAIN_COMPONENT_NO_EOS c = (c2_status_t.C2_BAD_STATE, c)) ∧
    (c.mState = State.RUNNING →
      queue_nb items c = (c2_status_t.C2_OK, [],
        { c with log := c.log ++ items.map fun w => Effect.postTask (Task.onQueueWork w) }) ∧
      flush_sm flush_mode_t.FLUSH_COMPONENT flushedWork c =
        (c2_status_t.C2_OK, flushedWork, { c with log := c.log ++ [Effect.postTask Task.onFlush] }) ∧
      drain_nb DrainMode.DRAIN_COMPONENT_WITH_EOS c = (c2_status_t.C2_OK,
        { c with log := c.log ++
          [Effect.postTask (Task.onDrain DrainMode.DRAIN_COMPONENT_WITH_EOS)] }) ∧
      drain_nb DrainMode.DRAIN_COMPONENT_NO_EOS c = (c2_status_t.C2_OK,
        { c with log := c.log ++
          [Effect.postTask (Task.onDrain DrainMode.DRAIN_COMPONENT_NO_EOS)] })) := by
  refine ⟨rfl, fun h => ?_, fun h1 h2 => ?_, fun h => ?_, fun h => ?_⟩
  · simp [flush_sm, h]
  · simp [drain_nb, h1, h2]
  · simp [queue_nb, flush_sm, drain_nb, h]
  · simp [queue_nb, flush_sm, drain_nb, h, queue_nb_loop_eq, emit]

theorem async_entry_points_contract_witness :
    flush_sm flush_mode_t.FLUSH_CHAIN [] (initial false) =
      (c2_status_t.C2_OMITTED, [], initial false) ∧
    drain_nb DrainMode.DRAIN_CHAIN (initial false) = (c2_status_t.C2_OMITTED, initial false) ∧
    queue_nb [] (initial false) = (c2_status_t.C2_BAD_STATE, [], initial false) ∧
    (queue_nb [] { initial false with mState := State.RUNNING }).1 = c2_status_t.C2_OK :=
  ⟨(async_entry_points_contract [] [] [] flush_mode_t.FLUSH_CHAIN DrainMode.DRAIN_CHAIN
      (initial false)).2.1 (by decide),
    (async_entry_points_contract [] [] [] flush_mode_t.FLUSH_CHAIN DrainMode.DRAIN_CHAIN
      (initial false)).2.2.1 (by decide) (by decide),
    ((async_entry_points_contract [] [] [] flush_mode_t.FLUSH_CHAIN DrainMode.DRAIN_CHAIN
      (initial false)).2.2.2.1 (by decide)).1,
    congrArg Prod.fst ((async_entry_points_contract [] [] [] flush_mode_t.FLUSH_CHAIN
      DrainMode.DRAIN_CHAIN { initial false with mState := State.RUNNING }).2.2.2.2 rfl).1⟩

theorem count_signalStopDone_onStop {c c1 : Component} (h : onStop c = some c1) :
    c1.log.count Effect.signalStopDone = c.log.count Effect.signalStopDone := by
  unfold onStop EXPECT_RUNNING_OR_RETURN_ON_ERROR at h
  repeat' (first | split at h | (dsimp only at h; split at h))
  all_goals try (simp at h; done)
  all_goals simp at h
  all_goals subst h
  all_goals simp [abandonQueue, emit]

theorem onStop_running {c : Component}
    (h : c.mComponentState = ComponentState.STARTED ∨
      c.mComponentState = ComponentState.DRAINING ∨
      c.mComponentState = ComponentState.FLUSHING) :
    ∃ c1, onStop c = some c1 ∧ c1.mComponentState = ComponentState.STOPPING ∧
      c1.mStopDoneEvent = true ∧ c1.mState = c.mState := by
  rcases h with h | h | h <;>
    simp [onStop, EXPECT_RUNNING_OR_RETURN_ON_ERROR, h, abandonQueue, emit]

theorem onResetDone_stopping {c : Component}
    (h : c.mComponentState = ComponentState.STOPPING) (he : c.mStopDoneEvent = true) :
    ∃ c1, onResetDone c = some c1 ∧ c1.mComponentState = ComponentState.UNINITIALIZED ∧
      c1.log.count Effect.signalStopDone = c.log.count Effect.signalStopDone + 1 := by
  simp only [onResetDone, h, onStopDone, he]
  simp [emit, log_stopDequeueThread]
  have h1 : (reportAbandonedWorks c).log.count Effect.signalStopDone =
      c.log.count Effect.signalStopDone := by
    unfold reportAbandonedWorks
    dsimp only
    split <;> simp [emit]
  split <;> simp [emit, h1]

/-- C2: `stop()` returns `C2_OK` whenever it returns.  Unless the outer state is `RUNNING` or
`ERROR` it returns at once, posts nothing and changes nothing.  From `RUNNING` or `ERROR` it
posts `onStop`, returns only after the worker has signalled the stop event, and then the outer
state is `LOADED`; it does return once the worker runs `onStop` and the VDA's reset completion
in a running inner state.  `reset()` and `release()` are `stop()`. -/
theorem stop_contract (worker : List Event) (c : Component) :
    (∀ status c1, stop worker c = CallOutcome.returned status c1 →
      status = c2_status_t.C2_OK) ∧
    (c.mState ≠ State.RUNNING → c.mState ≠ State.ERROR →
      stop worker c = CallOutcome.returned c2_status_t.C2_OK c) ∧
    (c.mState = State.RUNNING ∨ c.mState = State.ERROR →
      ∀ status c1, stop worker c = CallOutcome.returned status c1 →
        c1.mState = State.LOADED ∧
        (c.log ++ [Effect.postTask Task.onStop]) <+: c1.log ∧
        c.log.count Effect.signalStopDone < c1.log.count Effect.signalStopDone) ∧
    (c.mState = State.RUNNING ∨ c.mState = State.ERROR →
      c.mComponentState = ComponentState.STARTED ∨
        c.mComponentState = ComponentState.DRAINING ∨
        c.mComponentState = ComponentState.FLUSHING →
      ∃ c1, stop (Event.onResetDone :: worker) c = CallOutcome.returned c2_status_t.C2_OK c1 ∧
        c1.mState = State.LOADED ∧ c1.mComponentState = ComponentState.UNINITIALIZED) ∧
    reset worker c = stop worker c ∧
    release worker c = stop worker c := by
  refine ⟨fun status c1 h => ?_, fun h1 h2 => ?_, fun hs status c1 h => ?_, fun hs hi => ?_,
    rfl, rfl⟩
  · unfold stop at h
    repeat' (first | split at h | (dsimp only at h; split at h))
    all_goals simp at h
    all_goals exact h.1.symm
  · simp [stop, h1, h2]
  · unfold stop at h
    rw [if_neg (not_not_intro hs)] at h
    dsimp only at h
    split at h
    · simp at h
    · simp at h
    · rename_i c2 h2
      simp only [CallOutcome.returned.injEq] at h
      obtain ⟨-, rfl⟩ := h
      have h3 := log_prefix_runUntilSignal h2
      refine ⟨rfl, by simpa [emit] using h3.1, ?_⟩
      have h4 := h3.2 rfl
      simpa [emit] using h4
  · have hs1 : ¬¬(c.mState = State.RUNNING ∨ c.mState = State.ERROR) := not_not_intro hs
    obtain ⟨c2, h2, h2s, h2e, h2o⟩ := onStop_running
      (c := emit (Effect.postTask Task.onStop) c) (by simpa [emit] using hi)
    obtain ⟨c3, h3, h3s, h3c⟩ := onResetDone_stopping h2s h2e
    have hc2 := count_signalStopDone_onStop h2
    refine ⟨{ c3 with mState := State.LOADED }, ?_, rfl, h3s⟩
    unfold stop
    rw [if_neg hs1]
    have hr : runUntilSignal Effect.signalStopDone
        ((emit (Effect.postTask Task.onStop) c).log.count Effect.signalStopDone)
        (Event.onStop :: Event.onResetDone :: worker) (emit (Effect.postTask Task.onStop) c) =
        some (c3, true) := by
      simp only [runUntilSignal, lt_irrefl, if_false, step, h2, Option.some_bind, hc2, h3]
      cases worker <;> simp [runUntilSignal, h3c, hc2]
    simp only [hr]

theorem stop_contract_witness :
    stop [] (initial false) = CallOutcome.returned c2_status_t.C2_OK (initial false) ∧
    ∃ c1, stop [Event.onResetDone]
        { initial false with
          mState := State.RUNNING, mComponentState := ComponentState.STARTED } =
        CallOutcome.returned c2_status_t.C2_OK c1 ∧
      c1.mState = State.LOADED ∧ c1.mComponentState = ComponentState.UNINITIALIZED ∧
      [Effect.postTask Task.onStop] <+: c1.log ∧
      0 < c1.log.count Effect.signalStopDone := by
  refine ⟨(stop_contract [] (initial false)).2.1 (by decide) (by decide), ?_⟩
  obtain ⟨c1, h, h1, h2⟩ := (stop_contract []
    { initial false with
      mState := State.RUNNING, mComponentState := ComponentState.STARTED }).2.2.2.1
    (Or.inl rfl) (Or.inl rfl)
  have h3 := (stop_contract [Event.onResetDone]
    { initial false with
      mState := State.RUNNING, mComponentState := ComponentState.STARTED }).2.2.1
    (Or.inl rfl) _ _ h
  exact ⟨c1, h, h1, h2, h3.2.1, h3.2.2⟩


/-! ## The bitstream id -/

theorem frameIndexToBitstreamId_eq (f : Nat) :
    frameIndexToBitstreamId f = ((f % 2 ^ 30 : Nat) : Int) := by
  unfold frameIndexToBitstreamId static_cast_int32
  have h : (0x3FFFFFFF : Nat) = 2 ^ 30 - 1 := by norm_num
  rw [h, Nat.and_pow_two_sub_one_eq_mod]
  have h1 : f % 2 ^ 64 % 2 ^ 30 = f % 2 ^ 30 :=
    Nat.mod_mod_of_dvd f (Nat.pow_dvd_pow 2 (by norm_num))
  have h2 : f % 2 ^ 30 < 2 ^ 30 := Nat.mod_lt _ (by norm_num)
  rw [h1]
  have h3 : f % 2 ^ 30 % 2 ^ 32 = f % 2 ^ 30 := Nat.mod_eq_of_lt (by omega)
  rw [h3, if_pos (by omega)]

/-- C4: the bitstream id of a frame index is its low 30 bits; as a signed 32-bit integer it
lies in `[0, 2^30 - 1]`, and two frame indices get the same id exactly when they are
congruent modulo `2^30`. -/
theorem bitstream_id_low_30_bits (f g : Nat) :
    frameIndexToBitstreamId f = ((f % 2 ^ 30 : Nat) : Int) ∧
    0 ≤ frameIndexToBitstreamId f ∧
    frameIndexToBitstreamId f ≤ 2 ^ 30 - 1 ∧
    (frameIndexToBitstreamId f = frameIndexToBitstreamId g ↔ f ≡ g [MOD 2 ^ 30]) := by
  have h2 : f % 2 ^ 30 < 2 ^ 30 := Nat.mod_lt _ (by norm_num)
  refine ⟨frameIndexToBitstreamId_eq f, ?_, ?_, ?_⟩
  · rw [frameIndexToBitstreamId_eq]; exact Int.ofNat_nonneg _
  · rw [frameIndexToBitstreamId_eq]; omega
  · rw [frameIndexToBitstreamId_eq, frameIndexToBitstreamId_eq]
    unfold Nat.ModEq
    exact Int.ofNat_inj

/-! ## Frames: what a handler leaves alone -/

theorem batches_append (l1 l2 : List Effect) : batches (l1 ++ l2) = batches l1 ++ batches l2 := by
  induction l1 with
  | nil => rfl
  | cons e l ih => cases e <;> simp [batches, ih]

theorem SameWorks.refl (c : Component) : SameWorks c c := by simp [SameWorks]

theorem SameWorks.trans {a b c : Component} (h1 : SameWorks a b) (h2 : SameWorks b c) :
    SameWorks a c := by
  simp only [SameWorks] at *
  obtain ⟨a1, a2, a3, a4, a5, a6⟩ := h1
  obtain ⟨b1, b2, b3, b4, b5, b6⟩ := h2
  exact ⟨b1.trans a1, b2.trans a2, b3.trans a3, b4.trans a4, b5.trans a5, b6.trans a6⟩

theorem sameRegistry_refl (c : Component) : SameRegistry c c := by simp [SameRegistry]

theorem sameRegistry_trans {a b c : Component} (h1 : SameRegistry a b)
    (h2 : SameRegistry b c) : SameRegistry a c := by
  simp only [SameRegistry] at *
  obtain ⟨a1, a2, a3, a4, a5, a6⟩ := h1
  obtain ⟨b1, b2, b3, b4, b5, b6⟩ := h2
  exact ⟨b1.trans a1, b2.trans a2, b3.trans a3, b4.trans a4, b5.trans a5, b6.trans a6⟩

theorem sameWorks_reportError (e : c2_status_t) (c : Component) :
    SameWorks c (reportError e c) := by
  simp [SameWorks, reportError, emit, batches_append, batches]

theorem sameRegistry_reportError (e : c2_status_t) (c : Component) :
    SameRegistry c (reportError e c) := by
  simp [SameRegistry, reportError, emit]

theorem sameWorks_stopDequeueThread (c : Component) : SameWorks c (stopDequeueThread c) := by
  unfold stopDequeueThread; split <;> simp [SameWorks]

theorem sameWorks_appendOutputBuffer {d : Int} {b : C2GraphicBlock} {p : Nat}
    {c c1 : Component} (h : appendOutputBuffer d b p c = some c1) : SameWorks c c1 := by
  unfold appendOutputBuffer at h
  repeat' split at h
  all_goals try (simp at h; done)
  all_goals simp at h
  all_goals subst h
  all_goals simp [SameWorks, reportError, emit, batches_append, batches]

theorem sameWorks_appendSecureOutputBuffer {a : Bool} {f : HalPixelFormat} {d : Int}
    {b : C2GraphicBlock} {p : Nat} {c c1 : Component}
    (h : appendSecureOutputBuffer a f d b p c = some c1) : SameWorks c c1 := by
  unfold appendSecureOutputBuffer at h
  repeat' split at h
  all_goals try (simp at h; done)
  all_goals simp at h
  all_goals subst h
  all_goals simp [SameWorks, reportError, emit, batches_append, batches]

theorem sameWorks_sendOutputBufferToAccelerator {i : Nat} {c c1 : Component}
    (h : sendOutputBufferToAccelerator i c = some c1) : SameWorks c c1 := by
  unfold sendOutputBufferToAccelerator at h
  repeat' (first | split at h | (dsimp only at h; split at h))
  all_goals try (simp at h; done)
  all_goals simp at h
  all_goals subst h
  all_goals simp [SameWorks, reportError, emit, batches_append, batches]

theorem sameWorks_sendAllFrom {n i : Nat} {c c1 : Component}
    (h : sendAllFrom n i c = some c1) : SameWorks c c1 := by
  induction n generalizing i c with
  | zero => simp [sendAllFrom] at h; subst h; exact SameWorks.refl _
  | succ n ih =>
    simp only [sendAllFrom, Option.bind_eq_some] at h
    obtain ⟨c2, h2, h3⟩ := h
    exact (sameWorks_sendOutputBufferToAccelerator h2).trans (ih h3)

theorem sameWorks_startDequeueThread {s r : Bool} {c c1 : Component}
    (h : startDequeueThread s c = some (r, c1)) : SameWorks c c1 := by
  unfold startDequeueThread at h
  repeat' split at h
  all_goals try (simp at h; done)
  all_goals simp at h
  all_goals obtain ⟨-, rfl⟩ := h
  all_goals simp [SameWorks]

theorem sameWorks_allocateLoop {env : BlockPoolEnv} {n i k : Nat} {c c1 : Component}
    {err : c2_status_t} (h : allocateLoop env n i k c = some (err, c1)) : SameWorks c c1 := by
  induction n generalizing i k c with
  | zero => simp [allocateLoop] at h; obtain ⟨-, rfl⟩ := h; exact SameWorks.refl _
  | succ n ih =>
    unfold allocateLoop at h
    dsimp only at h
    split at h
    · simp at h; obtain ⟨-, rfl⟩ := h
      simp [SameWorks, reportError, emit, batches_append, batches]
    · split at h
      · simp at h; obtain ⟨-, rfl⟩ := h
        simp [SameWorks, reportError, emit, batches_append, batches]
      · simp only [Option.bind_eq_some] at h
        obtain ⟨c2, h2, h3⟩ := h
        refine SameWorks.trans ?_ (ih h3)
        split at h2
        · exact sameWorks_appendSecureOutputBuffer h2
        · exact sameWorks_appendOutputBuffer h2

theorem sameWorks_allocateBuffersFromBlockAllocator {env : BlockPoolEnv} {c c1 : Component}
    {err : c2_status_t} (h : allocateBuffersFromBlockAllocator env c = some (err, c1)) :
    SameWorks c c1 := by
  unfold allocateBuffersFromBlockAllocator at h
  dsimp only at h
  have h0 : ∀ e, SameWorks c (emit (Effect.vdaAssignPictureBuffers e) (stopDequeueThread c)) :=
    fun e => (sameWorks_stopDequeueThread c).trans
      (by simp [SameWorks, emit, batches_append, batches])
  have h00 : ∀ e, SameWorks c { emit (Effect.vdaAssignPictureBuffers e) (stopDequeueThread c) with
      mGraphicBlocks := [] } := fun e => (h0 e).trans (by simp [SameWorks])
  repeat' split at h
  all_goals try (simp at h; done)
  all_goals simp at h
  all_goals obtain ⟨-, rfl⟩ := h
  · exact (h0 _).trans (sameWorks_reportError _ _)
  · exact (h00 _).trans (sameWorks_reportError _ _)
  · exact (h00 _).trans (sameWorks_reportError _ _)
  · rename_i h1 _
    exact (h00 _).trans (sameWorks_allocateLoop h1 :)
  · rename_i h1 _ _ _ h2
    exact ((h00 _).trans (sameWorks_allocateLoop h1 :)).trans
      ((SameWorks.trans (by simp [SameWorks]) (sameWorks_startDequeueThread h2 :)))
  · rename_i h1 _ _ _ h2
    exact (((h00 _).trans (sameWorks_allocateLoop h1 :)).trans
      ((SameWorks.trans (by simp [SameWorks]) (sameWorks_startDequeueThread h2 :)))).trans
      (sameWorks_reportError _ _)

theorem sameWorks_tryChangeOutputFormat {env : BlockPoolEnv} {c c1 : Component}
    (h : tryChangeOutputFormat env c = some c1) : SameWorks c c1 := by
  unfold tryChangeOutputFormat at h
  repeat' (first | split at h | (dsimp only at h; split at h))
  all_goals try (simp at h; done)
  · rename_i h1 _
    simp at h; subst h
    exact (SameWorks.trans (by simp [SameWorks, setOutputFormatCrop])
      (sameWorks_allocateBuffersFromBlockAllocator h1 :)).trans (sameWorks_reportError _ _)
  · rename_i h1 _
    simp only [Option.map_eq_some'] at h
    obtain ⟨c4, h4, rfl⟩ := h
    exact ((SameWorks.trans (by simp [SameWorks, setOutputFormatCrop])
      (sameWorks_allocateBuffersFromBlockAllocator h1 :)).trans
      (sameWorks_sendAllFrom h4 :)).trans (by simp [SameWorks])

theorem sameWorks_onOutputBufferReturned {env : BlockPoolEnv} {b : C2GraphicBlock} {p : Nat}
    {c c1 : Component} (h : onOutputBufferReturned env b p c = some c1) : SameWorks c c1 := by
  unfold onOutputBufferReturned at h
  repeat' (first | split at h | (dsimp only at h; split at h))
  all_goals try (simp at h; done)
  all_goals try (simp at h; subst h; first | exact SameWorks.refl _ | exact sameWorks_reportError _ _)
  · exact SameWorks.trans (by simp [SameWorks]) (sameWorks_tryChangeOutputFormat h :)
  · exact SameWorks.trans (by simp [SameWorks]) (sameWorks_sendOutputBufferToAccelerator h :)

theorem sameWorks_onOutputFormatChanged {env : BlockPoolEnv} {f : VideoFormat}
    {c c1 : Component} (h : onOutputFormatChanged env f c = some c1) : SameWorks c c1 := by
  unfold onOutputFormatChanged EXPECT_RUNNING_OR_RETURN_ON_ERROR at h
  repeat' (first | split at h | (dsimp only at h; split at h))
  all_goals try (simp at h; done)
  all_goals try (simp at h; subst h; exact SameWorks.refl _)
  exact SameWorks.trans (by simp [SameWorks]) (sameWorks_tryChangeOutputFormat h :)

theorem sameWorks_onVisibleRectChanged {r : Rect} {c c1 : Component}
    (h : onVisibleRectChanged r c = some c1) : SameWorks c c1 := by
  unfold onVisibleRectChanged EXPECT_RUNNING_OR_RETURN_ON_ERROR at h
  repeat' split at h
  all_goals try (simp at h; done)
  all_goals simp at h
  all_goals subst h
  all_goals simp [SameWorks, setOutputFormatCrop]

theorem sameWorks_notifyError (r : VDAResult) (c : Component) :
    SameWorks c (notifyError r c) := by
  cases r <;> simp [notifyError, SameWorks, reportError, emit, batches_append, batches]

theorem batches_singleton_postTask (t : Task) : batches [Effect.postTask t] = [] := rfl

theorem sameWorks_dequeueThreadLoopIteration (f : c2_status_t × C2GraphicBlock)
    (p : c2_status_t × Nat) (c : Component) :
    SameWorks c (dequeueThreadLoopIteration f p c).1 := by
  unfold dequeueThreadLoopIteration
  repeat' split
  all_goals refine ⟨rfl, rfl, rfl, rfl, rfl, ?_⟩
  all_goals first
    | simp only [emit, batches_append, batches_singleton_postTask, List.append_nil]
    | rfl

theorem sameRegistry_reportFinishedWorkIfAny {c c1 : Component}
    (h : reportFinishedWorkIfAny c = some c1) : SameRegistry c c1 := by
  unfold reportFinishedWorkIfAny at h
  split at h
  · simp at h
  · split at h <;> simp at h <;> subst h <;> simp [SameRegistry, emit]

theorem sameRegistry_reportAbandonedWorks (c : Component) :
    SameRegistry c (reportAbandonedWorks c) := by
  unfold reportAbandonedWorks
  simp only []
  split <;> simp [SameRegistry, emit]

theorem sameRegistry_reportEOSWork {c c1 : Component}
    (h : reportEOSWork c = some c1) : SameRegistry c c1 := by
  unfold reportEOSWork at h
  split at h
  · split at h
    · simp at h
    · simp at h; subst h; simp [SameRegistry, emit]
  · simp at h; subst h; simp [SameRegistry, reportError, emit]

theorem sameRegistry_onStart {r : VDAResult} {c c1 : Component}
    (h : onStart r c = some c1) : SameRegistry c c1 := by
  unfold onStart at h
  split at h
  · simp at h
  · simp only [Option.some.injEq] at h
    subst h
    split <;> simp [SameRegistry, emit]

theorem sameRegistry_onQueueWork {w : C2Work} {c c1 : Component}
    (h : onQueueWork w c = some c1) : SameRegistry c c1 := by
  unfold onQueueWork EXPECT_RUNNING_OR_RETURN_ON_ERROR at h
  repeat' split at h
  all_goals try (simp at h; done)
  all_goals simp at h
  all_goals subst h
  all_goals simp [SameRegistry, emit]

theorem sameRegistry_dequeueInput {d : Int} {m : DrainMode} {w w1 : C2Work} {c c1 : Component}
    (h : dequeueInput d m w c = some (w1, c1)) : SameRegistry c c1 := by
  unfold dequeueInput at h
  repeat' split at h
  all_goals simp at h
  all_goals obtain ⟨-, rfl⟩ := h
  · exact sameRegistry_refl _
  · unfold sendInputBufferToAccelerator
    split <;> simp [SameRegistry, reportError, emit]

theorem sameRegistry_dequeueOutput {m : DrainMode} {w : C2Work} {c c1 : Component}
    (h : dequeueOutput m w c = some c1) : SameRegistry c c1 := by
  unfold dequeueOutput at h
  split at h
  · dsimp only at h
    repeat' split at h
    all_goals simp at h
    all_goals subst h
    all_goals simp [SameRegistry, emit]
  · simp at h

theorem sameRegistry_onDequeueWork {d : Int} {c c1 : Component}
    (h : onDequeueWork d c = some c1) : SameRegistry c c1 := by
  unfold onDequeueWork EXPECT_RUNNING_OR_RETURN_ON_ERROR at h
  repeat' split at h
  all_goals try (simp at h; done)
  all_goals try (simp at h; subst h; exact sameRegistry_refl _)
  rename_i _ h2
  exact sameRegistry_trans
    (sameRegistry_trans (by simp [SameRegistry]) (sameRegistry_dequeueInput h2 :))
    (sameRegistry_dequeueOutput h)

theorem sameRegistry_onInputBufferDone {b : Int} {c c1 : Component}
    (h : onInputBufferDone b c = some c1) : SameRegistry c c1 := by
  unfold onInputBufferDone EXPECT_RUNNING_OR_RETURN_ON_ERROR at h
  repeat' split at h
  all_goals try (simp at h; done)
  all_goals try (simp at h; subst h; first | exact sameRegistry_refl _ | exact sameRegistry_reportError _ _)
  exact sameRegistry_trans (by simp [SameRegistry]) (sameRegistry_reportFinishedWorkIfAny h :)

theorem sameRegistry_onDrain {m : DrainMode} {c c1 : Component}
    (h : onDrain m c = some c1) : SameRegistry c c1 := by
  unfold onDrain EXPECT_RUNNING_OR_RETURN_ON_ERROR at h
  repeat' split at h
  all_goals try (simp at h; done)
  all_goals simp at h
  all_goals subst h
  all_goals simp [SameRegistry, emit]

theorem sameRegistry_onDrainDoneTail {c c1 : Component}
    (h : onDrainDoneTail c = some c1) : SameRegistry c c1 := by
  unfold onDrainDoneTail at h
  split at h
  · simp at h
  · rename_i c2 h2
    split at h
    · simp at h
    · simp at h
      subst h
      have h3 : SameRegistry c c2 := by
        split at h2
        · exact sameRegistry_reportEOSWork h2
        · simp at h2; subst h2; exact sameRegistry_refl _
      exact sameRegistry_trans h3 (by simp [SameRegistry, emit])

theorem sameRegistry_onDrainDone {c c1 : Component}
    (h : onDrainDone c = some c1) : SameRegistry c c1 := by
  unfold onDrainDone at h
  repeat' split at h
  all_goals try (simp at h; subst h; first | exact sameRegistry_refl _ | exact sameRegistry_reportError _ _)
  all_goals exact sameRegistry_trans (by simp [SameRegistry]) (sameRegistry_onDrainDoneTail h :)

theorem sameRegistry_onFlush {c c1 : Component}
    (h : onFlush c = some c1) : SameRegistry c c1 := by
  unfold onFlush EXPECT_RUNNING_OR_RETURN_ON_ERROR at h
  repeat' split at h
  all_goals try (simp at h; done)
  all_goals simp at h
  all_goals subst h
  all_goals simp [SameRegistry, abandonQueue, emit]

theorem sameRegistry_onStop {c c1 : Component}
    (h : onStop c = some c1) : SameRegistry c c1 := by
  unfold onStop EXPECT_RUNNING_OR_RETURN_ON_ERROR at h
  repeat' (first | split at h | (dsimp only at h; split at h))
  all_goals try (simp at h; done)
  all_goals simp at h
  all_goals subst h
  all_goals simp [SameRegistry, abandonQueue, emit]

theorem sameRegistry_onFlushDone {c c1 : Component}
    (h : onFlushDone c = some c1) : SameRegistry c c1 := by
  unfold onFlushDone at h
  simp at h
  subst h
  exact sameRegistry_trans (sameRegistry_reportAbandonedWorks c) (by simp [SameRegistry, emit])

/-! ## The ownership invariant -/

theorem ownershipOk_set {l : List GraphicBlockInfo} {i : Nat} {a : GraphicBlockInfo}
    (h : ∀ info ∈ l, ownershipOk info) (ha : ownershipOk a) :
    ∀ info ∈ l.set i a, ownershipOk info := by
  intro info hm
  rcases List.mem_or_eq_of_mem_set hm with h1 | h1
  · exact h info h1
  · exact h1 ▸ ha

theorem ownership_of_blocks_eq {c c1 : Component} (h : c1.mGraphicBlocks = c.mGraphicBlocks)
    (hi : OwnershipInvariant c) : OwnershipInvariant c1 := by
  unfold OwnershipInvariant at *
  rw [h]; exact hi

theorem ownership_reportError (e : c2_status_t) {c : Component} (hi : OwnershipInvariant c) :
    OwnershipInvariant (reportError e c) :=
  ownership_of_blocks_eq rfl hi

theorem ownership_cleared {c : Component} (h : c.mGraphicBlocks = []) : OwnershipInvariant c := by
  unfold OwnershipInvariant; rw [h]; simp

theorem ownership_appendOutputBuffer {d : Int} {b : C2GraphicBlock} {p : Nat}
    {c c1 : Component} (h : appendOutputBuffer d b p c = some c1) (hi : OwnershipInvariant c) :
    OwnershipInvariant c1 := by
  unfold appendOutputBuffer at h
  repeat' split at h
  all_goals try (simp at h; done)
  all_goals simp at h
  all_goals subst h
  · exact ownership_reportError _ hi
  · intro info hm
    simp only [List.mem_append, List.mem_singleton] at hm
    rcases hm with hm | rfl
    · exact hi info hm
    · simp [ownershipOk]

theorem ownership_appendSecureOutputBuffer {a : Bool} {f : HalPixelFormat} {d : Int}
    {b : C2GraphicBlock} {p : Nat} {c c1 : Component}
    (h : appendSecureOutputBuffer a f d b p c = some c1) (hi : OwnershipInvariant c) :
    OwnershipInvariant c1 := by
  unfold appendSecureOutputBuffer at h
  repeat' split at h
  all_goals try (simp at h; done)
  all_goals simp at h
  all_goals subst h
  all_goals first
    | exact ownership_reportError _ hi
    | (intro info hm
       simp only [List.mem_append, List.mem_singleton] at hm
       rcases hm with hm | rfl
       · exact hi info hm
       · simp [ownershipOk])

theorem ownership_sendOutputBufferToAccelerator {i : Nat} {c c1 : Component}
    (h : sendOutputBufferToAccelerator i c = some c1) (hi : OwnershipInvariant c) :
    OwnershipInvariant c1 := by
  unfold sendOutputBufferToAccelerator at h
  split at h
  · simp at h
  · rename_i info hg
    have hinfo : ownershipOk info := hi info (List.getElem?_mem hg)
    split at h
    · simp at h
    · rename_i hs
      have hs1 : info.mState = GBState.OWNED_BY_COMPONENT := by simpa using hs
      have hb : info.mGraphicBlock ≠ none := hinfo.2 (Or.inl hs1)
      split at h
      all_goals simp at h
      all_goals subst h
      all_goals refine ownershipOk_set hi ?_
      all_goals simp [ownershipOk, hb]

theorem ownership_sendAllFrom {n i : Nat} {c c1 : Component}
    (h : sendAllFrom n i c = some c1) (hi : OwnershipInvariant c) : OwnershipInvariant c1 := by
  induction n generalizing i c with
  | zero => simp [sendAllFrom] at h; subst h; exact hi
  | succ n ih =>
    simp only [sendAllFrom, Option.bind_eq_some] at h
    obtain ⟨c2, h2, h3⟩ := h
    exact ih h3 (ownership_sendOutputBufferToAccelerator h2 hi)

theorem ownership_allocateLoop {env : BlockPoolEnv} {n i k : Nat} {c c1 : Component}
    {err : c2_status_t} (h : allocateLoop env n i k c = some (err, c1))
    (hi : OwnershipInvariant c) : OwnershipInvariant c1 := by
  induction n generalizing i k c with
  | zero => simp [allocateLoop] at h; obtain ⟨-, rfl⟩ := h; exact hi
  | succ n ih =>
    unfold allocateLoop at h
    dsimp only at h
    split at h
    · simp at h; obtain ⟨-, rfl⟩ := h
      exact ownership_cleared rfl
    · split at h
      · simp at h; obtain ⟨-, rfl⟩ := h
        exact ownership_cleared rfl
      · simp only [Option.bind_eq_some] at h
        obtain ⟨c2, h2, h3⟩ := h
        refine ih h3 ?_
        split at h2
        · exact ownership_appendSecureOutputBuffer h2 hi
        · exact ownership_appendOutputBuffer h2 hi

theorem blocks_stopDequeueThread (c : Component) :
    (stopDequeueThread c).mGraphicBlocks = c.mGraphicBlocks := by
  unfold stopDequeueThread; split <;> rfl

theorem blocks_startDequeueThread {s r : Bool} {c c1 : Component}
    (h : startDequeueThread s c = some (r, c1)) : c1.mGraphicBlocks = c.mGraphicBlocks := by
  unfold startDequeueThread at h
  repeat' split at h
  all_goals try (simp at h; done)
  all_goals simp at h
  all_goals obtain ⟨-, rfl⟩ := h
  all_goals rfl

theorem ownership_allocateBuffersFromBlockAllocator {env : BlockPoolEnv} {c c1 : Component}
    {err : c2_status_t} (h : allocateBuffersFromBlockAllocator env c = some (err, c1))
    (hi : OwnershipInvariant c) : OwnershipInvariant c1 := by
  unfold allocateBuffersFromBlockAllocator at h
  dsimp only at h
  repeat' split at h
  all_goals try (simp at h; done)
  all_goals simp at h
  all_goals obtain ⟨-, rfl⟩ := h
  · exact ownership_of_blocks_eq (blocks_stopDequeueThread c) hi
  · exact ownership_cleared rfl
  · exact ownership_cleared rfl
  · rename_i h1 _
    exact ownership_allocateLoop h1 (ownership_cleared rfl)
  · rename_i h1 _ _ _ h2
    have h3 := ownership_allocateLoop h1 (ownership_cleared rfl)
    exact ownership_of_blocks_eq (blocks_startDequeueThread h2) (ownership_of_blocks_eq rfl h3)
  · rename_i h1 _ _ _ h2
    have h3 := ownership_allocateLoop h1 (ownership_cleared rfl)
    exact ownership_reportError _ (ownership_of_blocks_eq (blocks_startDequeueThread h2)
      (ownership_of_blocks_eq rfl h3))

theorem ownership_tryChangeOutputFormat {env : BlockPoolEnv} {c c1 : Component}
    (h : tryChangeOutputFormat env c = some c1) (hi : OwnershipInvariant c) :
    OwnershipInvariant c1 := by
  unfold tryChangeOutputFormat at h
  repeat' (first | split at h | (dsimp only at h; split at h))
  all_goals try (simp at h; done)
  · rename_i h1 _
    simp at h; subst h
    exact ownership_reportError _
      (ownership_allocateBuffersFromBlockAllocator h1 (ownership_of_blocks_eq rfl hi))
  · rename_i h1 _
    simp only [Option.map_eq_some'] at h
    obtain ⟨c4, h4, rfl⟩ := h
    have h5 := ownership_sendAllFrom h4
      (ownership_allocateBuffersFromBlockAllocator h1 (ownership_of_blocks_eq rfl hi))
    exact ownership_of_blocks_eq (c := c4) rfl h5

theorem ownership_onOutputBufferReturned {env : BlockPoolEnv} {b : C2GraphicBlock} {p : Nat}
    {c c1 : Component} (h : onOutputBufferReturned env b p c = some c1)
    (hi : OwnershipInvariant c) : OwnershipInvariant c1 := by
  unfold onOutputBufferReturned at h
  repeat' (first | split at h | (dsimp only at h; split at h))
  all_goals try (simp at h; done)
  all_goals try (simp at h; subst h; first | exact hi | exact ownership_reportError _ hi)
  · refine ownership_tryChangeOutputFormat h ?_
    exact ownershipOk_set hi (by simp [ownershipOk])
  · refine ownership_sendOutputBufferToAccelerator h ?_
    exact ownershipOk_set hi (by simp [ownershipOk])

theorem ownership_onOutputBufferDone {p b : Int} {c c1 : Component}
    (h : onOutputBufferDone p b c = some c1) (hi : OwnershipInvariant c) :
    OwnershipInvariant c1 := by
  unfold onOutputBufferDone EXPECT_RUNNING_OR_RETURN_ON_ERROR at h
  repeat' (first | split at h | (dsimp only at h; split at h))
  all_goals try (simp at h; done)
  all_goals try (simp at h; subst h; first | exact hi | exact ownership_reportError _ hi)
  refine ownership_of_blocks_eq (sameRegistry_reportFinishedWorkIfAny h).1 ?_
  exact ownershipOk_set hi (by simp [ownershipOk])

theorem ownership_onOutputFormatChanged {env : BlockPoolEnv} {f : VideoFormat}
    {c c1 : Component} (h : onOutputFormatChanged env f c = some c1)
    (hi : OwnershipInvariant c) : OwnershipInvariant c1 := by
  unfold onOutputFormatChanged EXPECT_RUNNING_OR_RETURN_ON_ERROR at h
  repeat' (first | split at h | (dsimp only at h; split at h))
  all_goals try (simp at h; done)
  all_goals try (simp at h; subst h; exact hi)
  refine ownership_tryChangeOutputFormat h ?_
  intro info hm
  simp only [List.mem_map] at hm
  obtain ⟨info0, hm0, rfl⟩ := hm
  have h0 := hi info0 hm0
  split
  · rename_i hs
    simp only [ownershipOk, reduceCtorEq, false_implies, true_and] at *
    intro _
    exact h0.2 (Or.inr hs)
  · exact h0

theorem ownership_onResetDone {c c1 : Component} (h : onResetDone c = some c1)
    (hi : OwnershipInvariant c) : OwnershipInvariant c1 := by
  unfold onResetDone at h
  repeat' split at h
  · simp at h; subst h; exact hi
  · exact ownership_of_blocks_eq (sameRegistry_onFlushDone h).1 hi
  · unfold onStopDone at h
    split at h
    · simp at h
    · simp only [Option.some.injEq] at h
      subst h
      exact ownership_cleared (by simp [emit, blocks_stopDequeueThread])
  · simp at h; subst h; exact ownership_reportError _ hi

theorem ownership_step {e : Event} {c c1 : Component} (h : step e c = some c1)
    (hi : OwnershipInvariant c) : OwnershipInvariant c1 := by
  cases e <;> simp only [step] at h
  · exact ownership_of_blocks_eq (sameRegistry_onStart h).1 hi
  · exact ownership_of_blocks_eq (sameRegistry_onStop h).1 hi
  · exact ownership_of_blocks_eq (sameRegistry_onQueueWork h).1 hi
  · exact ownership_of_blocks_eq (sameRegistry_onDequeueWork h).1 hi
  · exact ownership_of_blocks_eq (sameRegistry_onInputBufferDone h).1 hi
  · exact ownership_onOutputBufferReturned h hi
  · exact ownership_onOutputBufferDone h hi
  · exact ownership_of_blocks_eq (sameRegistry_onDrain h).1 hi
  · exact ownership_of_blocks_eq (sameRegistry_onDrainDone h).1 hi
  · exact ownership_of_blocks_eq (sameRegistry_onFlush h).1 hi
  · exact ownership_onResetDone h hi
  · exact ownership_onOutputFormatChanged h hi
  · unfold onVisibleRectChanged EXPECT_RUNNING_OR_RETURN_ON_ERROR at h
    repeat' split at h
    all_goals try (simp at h; done)
    all_goals simp at h
    all_goals subst h
    all_goals exact hi
  · simp at h; subst h
    cases ‹VDAResult› <;> exact hi
  · split at h <;> simp at h <;> subst h
    · refine ownership_of_blocks_eq ?_ hi
      unfold dequeueThreadLoopIteration
      repeat' split
      all_goals rfl
    · exact hi

theorem reachable_of_run {es : List Event} {c c1 : Component} (hc : Reachable c)
    (h : run es c = some c1) : Reachable c1 := by
  induction es generalizing c with
  | nil => simp [run] at h; subst h; exact hc
  | cons e es ih =>
    simp only [run, Option.bind_eq_some] at h
    obtain ⟨c2, h2, h3⟩ := h
    exact ih (Reachable.step e hc h2) h3

/-- C5: in every state that an execution reaches, a registry record owned by the client holds
no graphic block and a record owned by the component or by the accelerator holds one. -/
theorem ownership_invariant (c : Component) (h : Reachable c) : OwnershipInvariant c := by
  induction h with
  | init s => exact ownership_cleared rfl
  | step e _ hs ih => exact ownership_step hs ih

theorem run_eq_some_runD {es : List Event} {c : Component}
    (h : (run es c).isSome = true) : run es c = some (runD es c) := by
  unfold runD
  cases hr : run es c with
  | none => rw [hr] at h; simp at h
  | some c1 => rfl

theorem ownership_invariant_witness :
    Reachable (runD exampleTrace (initial false)) ∧
      (runD exampleTrace (initial false)).mGraphicBlocks.map (fun info => info.mState) =
        [GBState.OWNED_BY_CLIENT, GBState.OWNED_BY_CLIENT, GBState.OWNED_BY_ACCELERATOR] ∧
      OwnershipInvariant (runD exampleTrace (initial false)) :=
  have hr : Reachable (runD exampleTrace (initial false)) :=
    reachable_of_run (Reachable.init false) (run_eq_some_runD (by decide))
  ⟨hr, by decide, ownership_invariant (runD exampleTrace (initial false)) hr⟩

/-! ## Counting the records owned by the client -/

/-- What one appended buffer leaves: old records and at most one new record, which the
component owns; counter and pending format are untouched. -/
theorem alloc_appendOutputBuffer {d : Int} {b : C2GraphicBlock} {p : Nat}
    {c c1 : Component} (h : appendOutputBuffer d b p c = some c1) :
    (∀ info ∈ c1.mGraphicBlocks,
      info ∈ c.mGraphicBlocks ∨ info.mState = GBState.OWNED_BY_COMPONENT) ∧
    c1.mGraphicBlocks.length ≤ c.mGraphicBlocks.length + 1 ∧
    c1.mPendingOutputFormat = c.mPendingOutputFormat ∧
    c1.mBuffersInClient = c.mBuffersInClient := by
  unfold appendOutputBuffer at h
  repeat' split at h
  all_goals try (simp at h; done)
  all_goals simp at h
  all_goals subst h
  · exact ⟨fun info hm => Or.inl hm, Nat.le_succ _, rfl, rfl⟩
  · refine ⟨?_, by simp, rfl, rfl⟩
    intro info hm
    simp only [List.mem_append, List.mem_singleton] at hm
    rcases hm with hm | rfl
    · exact Or.inl hm
    · exact Or.inr rfl

theorem alloc_appendSecureOutputBuffer {a : Bool} {f : HalPixelFormat} {d : Int}
    {b : C2GraphicBlock} {p : Nat} {c c1 : Component}
    (h : appendSecureOutputBuffer a f d b p c = some c1) :
    (∀ info ∈ c1.mGraphicBlocks,
      info ∈ c.mGraphicBlocks ∨ info.mState = GBState.OWNED_BY_COMPONENT) ∧
    c1.mGraphicBlocks.length ≤ c.mGraphicBlocks.length + 1 ∧
    c1.mPendingOutputFormat = c.mPendingOutputFormat ∧
    c1.mBuffersInClient = c.mBuffersInClient := by
  unfold appendSecureOutputBuffer at h
  repeat' split at h
  all_goals try (simp at h; done)
  all_goals simp at h
  all_goals subst h
  all_goals first
    | exact ⟨fun info hm => Or.inl hm, Nat.le_succ _, rfl, rfl⟩
    | (refine ⟨?_, by simp, rfl, rfl⟩
       intro info hm
       simp only [List.mem_append, List.mem_singleton] at hm
       rcases hm with hm | rfl
       · exact Or.inl hm
       · exact Or.inr rfl)

theorem alloc_allocateLoop {env : BlockPoolEnv} {n i k : Nat} {c c1 : Component}
    {err : c2_status_t} (h : allocateLoop env n i k c = some (err, c1)) :
    (∀ info ∈ c1.mGraphicBlocks,
      info ∈ c.mGraphicBlocks ∨ info.mState = GBState.OWNED_BY_COMPONENT) ∧
    c1.mGraphicBlocks.length ≤ c.mGraphicBlocks.length + n ∧
    c1.mPendingOutputFormat = c.mPendingOutputFormat ∧
    c1.mBuffersInClient = c.mBuffersInClient := by
  induction n generalizing i k c with
  | zero =>
    simp [allocateLoop] at h; obtain ⟨-, rfl⟩ := h
    exact ⟨fun info hm => Or.inl hm, Nat.le_refl _, rfl, rfl⟩
  | succ n ih =>
    unfold allocateLoop at h
    dsimp only at h
    split at h
    · simp at h; obtain ⟨-, rfl⟩ := h
      simp [reportError, emit]
    · split at h
      · simp at h; obtain ⟨-, rfl⟩ := h
        simp [reportError, emit]
      · simp only [Option.bind_eq_some] at h
        obtain ⟨c2, h2, h3⟩ := h
        obtain ⟨b1, b2, b3, b4⟩ := ih h3
        have ha : (∀ info ∈ c2.mGraphicBlocks,
            info ∈ c.mGraphicBlocks ∨ info.mState = GBState.OWNED_BY_COMPONENT) ∧
            c2.mGraphicBlocks.length ≤ c.mGraphicBlocks.length + 1 ∧
            c2.mPendingOutputFormat = c.mPendingOutputFormat ∧
            c2.mBuffersInClient = c.mBuffersInClient := by
          split at h2
          · exact alloc_appendSecureOutputBuffer h2
          · exact alloc_appendOutputBuffer h2
        obtain ⟨a1, a2, a3, a4⟩ := ha
        refine ⟨?_, by omega, b3.trans a3, b4.trans a4⟩
        intro info hm
        rcases b1 info hm with h5 | h5
        · exact a1 info h5
        · exact Or.inr h5

theorem pending_stopDequeueThread (c : Component) :
    (stopDequeueThread c).mPendingOutputFormat = c.mPendingOutputFormat := by
  unfold stopDequeueThread; split <;> rfl

theorem format_stopDequeueThread (c : Component) :
    (stopDequeueThread c).mOutputFormat = c.mOutputFormat := by
  unfold stopDequeueThread; split <;> rfl

theorem alloc_startDequeueThread {s r : Bool} {c c1 : Component}
    (h : startDequeueThread s c = some (r, c1)) :
    c1.mGraphicBlocks = c.mGraphicBlocks ∧
    c1.mPendingOutputFormat = c.mPendingOutputFormat ∧
    (r = true → c1.mBuffersInClient = 0) := by
  unfold startDequeueThread at h
  repeat' split at h
  all_goals try (simp at h; done)
  all_goals simp at h
  all_goals obtain ⟨rfl, rfl⟩ := h
  all_goals simp

theorem alloc_allocateBuffersFromBlockAllocator {env : BlockPoolEnv} {c c1 : Component}
    {err : c2_status_t} (h : allocateBuffersFromBlockAllocator env c = some (err, c1)) :
    c1.mPendingOutputFormat = c.mPendingOutputFormat ∧
    (err = c2_status_t.C2_OK →
      (∀ info ∈ c1.mGraphicBlocks, info.mState = GBState.OWNED_BY_COMPONENT) ∧
      c1.mGraphicBlocks.length < 2 ^ 32 ∧ c1.mBuffersInClient = 0) := by
  unfold allocateBuffersFromBlockAllocator at h
  dsimp only at h
  repeat' split at h
  all_goals try (simp at h; done)
  all_goals simp only [Option.some.injEq, Prod.mk.injEq] at h
  all_goals obtain ⟨rfl, rfl⟩ := h
  · exact ⟨by simp [reportError, emit, pending_stopDequeueThread], fun h => absurd h ‹_›⟩
  · exact ⟨by simp [reportError, emit, pending_stopDequeueThread], by simp⟩
  · exact ⟨by simp [reportError, emit, pending_stopDequeueThread], fun h => absurd h ‹_›⟩
  · rename_i h1 h2
    obtain ⟨-, -, a3, -⟩ := alloc_allocateLoop h1
    exact ⟨by simpa [emit, pending_stopDequeueThread] using a3, fun h => absurd h h2⟩
  · rename_i h1 _ _ _ h2
    obtain ⟨a1, a2, a3, -⟩ := alloc_allocateLoop h1
    obtain ⟨b1, b2, b3⟩ := alloc_startDequeueThread h2
    refine ⟨?_, fun _ => ⟨?_, ?_, b3 rfl⟩⟩
    · rw [b2]; simpa [emit, pending_stopDequeueThread] using a3
    · intro info hm
      rw [b1] at hm
      simpa using a1 info hm
    · rw [b1]
      have : ((stopDequeueThread c).mOutputFormat.mMinNumBuffers + kDpbOutputBufferExtraCount)
          % 2 ^ 32 < 2 ^ 32 := Nat.mod_lt _ (by norm_num)
      simp only [List.length_nil, Nat.zero_add] at a2
      exact Nat.lt_of_le_of_lt a2 this
  · rename_i h1 _ _ _ h2
    obtain ⟨-, -, a3, -⟩ := alloc_allocateLoop h1
    obtain ⟨-, b2, -⟩ := alloc_startDequeueThread h2
    refine ⟨?_, by simp⟩
    simp only [reportError, emit]
    rw [b2]; simpa [emit, pending_stopDequeueThread] using a3

/-- The three ways in which `onOutputBufferDone` returns: nothing done in the error state,
a reported lookup failure, or the buffer attached to the work and the finished works
reported. -/
theorem onOutputBufferDone_cases {p b : Int} {c c1 : Component}
    (h : onOutputBufferDone p b c = some c1) :
    c1 = c ∨ c1 = reportError c2_status_t.C2_CORRUPTED c ∨
    ∃ w i info work graphicBlock wl wls,
      getPendingWorkByBitstreamId b c = some w ∧ getGraphicBlockById p c = some i ∧
      c.mGraphicBlocks[i]? = some info ∧ c.mPendingWorks[w]? = some work ∧
      info.mState = GBState.OWNED_BY_ACCELERATOR ∧ info.mGraphicBlock = some graphicBlock ∧
      work.worklets = wl :: wls ∧
      reportFinishedWorkIfAny { c with
        mGraphicBlocks := c.mGraphicBlocks.set i
          { info with mState := GBState.OWNED_BY_CLIENT, mGraphicBlock := none }
        mBuffersInClient := (c.mBuffersInClient + 1) % 2 ^ 32
        mPendingWorks := c.mPendingWorks.set w { work with
          worklets := { wl with output := { wl.output with
            buffers := wl.output.buffers ++ [some (C2Buffer.graphic
              { block := graphicBlock
                cropWidth := c.mOutputFormat.mVisibleRect.width
                cropHeight := c.mOutputFormat.mVisibleRect.height })] } } :: wls } } =
        some c1 := by
  unfold onOutputBufferDone EXPECT_RUNNING_OR_RETURN_ON_ERROR at h
  repeat' (first | split at h | (dsimp only at h; split at h))
  all_goals try (simp at h; done)
  all_goals try (simp at h; subst h; simp; done)
  rename_i _ w hpw _ i hgi _ _ info work hg hw hs _ _ graphicBlock wl wls hb hwl
  exact Or.inr (Or.inr ⟨w, i, info, work, graphicBlock, wl, wls, hpw, hgi,
    hg, hw, not_not.mp hs, hb, hwl, h⟩)

/-- The ways in which `onOutputBufferReturned` returns: the block is ignored (component
uninitialized, or stale geometry), the pool id is unknown, or the record found by pool id is
owned by the client, takes the block, and is passed on. -/
theorem onOutputBufferReturned_cases {env : BlockPoolEnv} {b : C2GraphicBlock} {p : Nat}
    {c c1 : Component} (h : onOutputBufferReturned env b p c = some c1) :
    (c.mComponentState = ComponentState.UNINITIALIZED ∧ c1 = c) ∨
    ((b.width ≠ c.mOutputFormat.mCodedSize.width ∨
        b.height ≠ c.mOutputFormat.mCodedSize.height) ∧ c1 = c) ∨
    (getGraphicBlockByPoolId p c = none ∧ c1 = reportError c2_status_t.C2_CORRUPTED c) ∨
    ∃ i info, getGraphicBlockByPoolId p c = some i ∧ c.mGraphicBlocks[i]? = some info ∧
      info.mState = GBState.OWNED_BY_CLIENT ∧
      ((c.mPendingOutputFormat.isSome = true ∧
        tryChangeOutputFormat env
          { c with
            mGraphicBlocks := c.mGraphicBlocks.set i
              { info with mGraphicBlock := some b, mState := GBState.OWNED_BY_COMPONENT } } =
          some c1) ∨
       (c.mPendingOutputFormat.isSome = false ∧
        sendOutputBufferToAccelerator i
          { c with
            mGraphicBlocks := c.mGraphicBlocks.set i
              { info with mGraphicBlock := some b, mState := GBState.OWNED_BY_COMPONENT } } =
          some c1)) := by
  unfold onOutputBufferReturned at h
  repeat' (first | split at h | (dsimp only at h; split at h))
  all_goals try (simp at h; done)
  · simp at h; subst h; exact Or.inl ⟨by assumption, rfl⟩
  · simp at h; subst h; exact Or.inr (Or.inl ⟨by assumption, rfl⟩)
  · simp at h; subst h; exact Or.inr (Or.inr (Or.inl ⟨by assumption, rfl⟩))
  · rename_i _ _ _ i hi _ info hg hs hp
    exact Or.inr (Or.inr (Or.inr ⟨i, info, hi, hg, not_not.mp hs, Or.inl ⟨hp, h⟩⟩))
  · rename_i _ _ _ i hi _ info hg hs hp
    exact Or.inr (Or.inr (Or.inr ⟨i, info, hi, hg, not_not.mp hs,
      Or.inr ⟨by simpa using hp, h⟩⟩))

/-! ## The work pipeline, step by step -/

theorem workView_of_same {c c1 : Component} (h : SameWorks c c1) : workView c1 = workView c := by
  obtain ⟨h1, h2, h3, h4, h5, h6⟩ := h
  simp [workView, h1, h2, h3, h4, h5, h6]

theorem workStep_of_same {c c1 : Component} (h : SameWorks c c1) :
    WorkStep [] (workView c) (workView c1) := by
  rw [workView_of_same h]; exact WorkStep.same _

theorem batches_emit_workDone (works : List C2Work) (c : Component) :
    batches (emit (Effect.onWorkDone_nb works) c).log = batches c.log ++ [works] := by
  simp [emit, batches_append, batches]

theorem workStep_onStart {r : VDAResult} {c c1 : Component} (h : onStart r c = some c1) :
    WorkStep [] (workView c) (workView c1) := by
  unfold onStart at h
  split at h
  · simp at h
  · rename_i hs
    simp only [Option.some.injEq] at h
    subst h
    split
    · convert WorkStep.start (workView c) (not_not.mp hs) using 1
      simp [workView, emit, batches_append, batches]
    · exact workStep_of_same (by simp [SameWorks, emit, batches_append, batches])

theorem workStep_onQueueWork {w : C2Work} {c c1 : Component} (h : onQueueWork w c = some c1) :
    WorkStep [w] (workView c) (workView c1) := by
  unfold onQueueWork EXPECT_RUNNING_OR_RETURN_ON_ERROR at h
  split at h
  · rename_i he
    simp at h; subst h; exact WorkStep.ignored _ w he
  · split at h
    · simp at h
    · rename_i h1 h2
      simp only [Option.some.injEq] at h
      subst h
      convert WorkStep.queue (workView c) w h1 h2 using 1
      simp [workView, emit, batches_append, batches, queuedDrainMode]

theorem dequeueInput_spec {d : Int} {m : DrainMode} {w w1 : C2Work} {c c1 : Component}
    (h : dequeueInput d m w c = some (w1, c1)) :
    workKey w1 = workKey w ∧ w1.input.buffers.length = 1 ∧ w1.worklets = w.worklets ∧
      SameWorks c c1 := by
  unfold dequeueInput at h
  split at h
  · simp at h
  · rename_i hl
    split at h
    · split at h
      · simp at h
        obtain ⟨rfl, rfl⟩ := h
        exact ⟨rfl, rfl, rfl, SameWorks.refl _⟩
      · simp at h
    · rename_i blk tl hb
      split at h
      · simp at h
        obtain ⟨rfl, rfl⟩ := h
        refine ⟨rfl, ?_, rfl, ?_⟩
        · rw [hb] at hl ⊢
          simp at hl ⊢
          exact hl
        · unfold sendInputBufferToAccelerator
          split
          · exact sameWorks_reportError _ _
          · simp [SameWorks, emit, batches_append, batches]
      · simp at h
    · simp at h

theorem workStep_dequeueOutput {m : DrainMode} {w : C2Work} {c c1 : Component}
    {entry : WorkEntry} {rest : List WorkEntry}
    (hs : c.mComponentState = ComponentState.STARTED) (hq : c.mQueue = rest)
    (hm : m = entry.mDrainMode) (hk : workKey w = workKey entry.mWork)
    (hl : w.input.buffers.length = 1)
    (h : dequeueOutput m w c = some c1) :
    WorkStep [] { workView c with queue := entry :: rest } (workView c1) := by
  unfold dequeueOutput at h
  split at h
  · rename_i wl hw
    dsimp only at h
    by_cases hd : m = DrainMode.NO_DRAIN
    · simp only [hd, ne_eq, not_true_eq_false, if_false] at h
      convert WorkStep.dispatch { workView c with queue := entry :: rest } entry rest
        { w with worklets := [{ wl with
            output := { flags := 0, buffers := [], ordinal := w.input.ordinal } }] }
        hs rfl hk hl (hm ▸ hd) using 1
      split at h <;> simp at h <;> subst h <;>
        simp [workView, emit, batches_append, batches, hq]
    · simp only [ne_eq, hd, not_false_eq_true, if_true] at h
      convert WorkStep.dispatchDrain { workView c with queue := entry :: rest } entry rest
        { w with worklets := [{ wl with
            output := { flags := 0, buffers := [], ordinal := w.input.ordinal } }] }
        hs rfl hk hl (hm ▸ hd) using 1
      split at h <;> simp at h <;> subst h <;>
        simp [workView, emit, batches_append, batches, hm, hq]
  · simp at h

theorem workStep_onDequeueWork {d : Int} {c c1 : Component} (h : onDequeueWork d c = some c1) :
    WorkStep [] (workView c) (workView c1) := by
  unfold onDequeueWork EXPECT_RUNNING_OR_RETURN_ON_ERROR at h
  repeat' split at h
  all_goals try (simp at h; done)
  all_goals try (simp at h; subst h; exact WorkStep.same _)
  rename_i entry rest hq _ hs _ w1 c2 h2
  obtain ⟨hk, hl, -, hsame⟩ := dequeueInput_spec h2
  have hv := workView_of_same hsame
  have hs2 : c2.mComponentState = ComponentState.STARTED := by
    rw [hsame.1]; exact not_not.mp hs
  have hq2 : c2.mQueue = rest := by rw [hsame.2.1]
  have h3 := @workStep_dequeueOutput _ _ _ _ entry rest hs2 hq2 rfl hk hl h
  have hv2 : ({ workView c2 with queue := entry :: rest } : WorkView) = workView c := by
    rw [hv]; simp [workView, hq]
  rw [hv2] at h3
  exact h3

theorem reportFinishedWorkLoop_spec (c : Component) :
    ∀ (rest kept finished kept1 finished1 : List C2Work),
      reportFinishedWorkLoop c kept rest finished = some (kept1, finished1) →
      ∃ ks fs, kept1 = kept ++ ks ∧ finished1 = finished ++ fs ∧ ks.Sublist rest ∧
        (fs.map workKey).Sublist (rest.map workKey) ∧
        ∀ w ∈ fs, w.result = c2_status_t.C2_OK ∧ isEOS w = false := by
  intro rest
  induction rest with
  | nil =>
    intro kept finished kept1 finished1 h
    simp [reportFinishedWorkLoop] at h
    obtain ⟨rfl, rfl⟩ := h
    exact ⟨[], [], by simp, by simp, by simp, by simp, by simp⟩
  | cons w rest ih =>
    intro kept finished kept1 finished1 h
    unfold reportFinishedWorkLoop at h
    split at h
    · simp at h
    · rename_i hd
      obtain ⟨ks, fs, h1, h2, h3, h4, h5⟩ := ih _ _ _ _ h
      have he : isEOS w = false := by
        unfold isWorkDone at hd
        split at hd
        · simp at hd
        · rename_i hf
          simpa [isEOS] using hf
      rw [List.append_assoc] at h2
      refine ⟨ks, _ :: fs, h1, h2, h3.cons _, ?_, ?_⟩
      · simp only [List.map_cons]
        exact List.Sublist.cons₂ _ h4
      · intro x hx
        simp only [List.mem_cons] at hx
        rcases hx with rfl | hx
        · exact ⟨rfl, he⟩
        · exact h5 x hx
    · obtain ⟨ks, fs, h1, h2, h3, h4, h5⟩ := ih _ _ _ _ h
      rw [List.append_assoc] at h1
      refine ⟨w :: ks, fs, h1, h2, h3.cons₂ _, ?_, h5⟩
      simp only [List.map_cons]
      exact h4.cons _

theorem workStep_reportFinishedWorkIfAny {c c1 : Component} {v : WorkView}
    (hs1 : v.state ≠ ComponentState.ERROR) (hs2 : v.state ≠ ComponentState.UNINITIALIZED)
    (hv : workView c = { v with pending := c.mPendingWorks })
    (hk : List.Forall₂ (fun a b => workKey a = workKey b) v.pending c.mPendingWorks)
    (h : reportFinishedWorkIfAny c = some c1) : WorkStep [] v (workView c1) := by
  unfold reportFinishedWorkIfAny at h
  split at h
  · simp at h
  · rename_i kept finished hl
    obtain ⟨ks, fs, h1, h2, h3, h4, h5⟩ := reportFinishedWorkLoop_spec c _ _ _ _ _ hl
    simp only [List.nil_append] at h1 h2
    subst h1 h2
    convert WorkStep.report v c.mPendingWorks kept finished hs1 hs2 hk h3 h4 h5 using 1
    have hst := congrArg WorkView.state hv
    have hq := congrArg WorkView.queue hv
    have ha := congrArg WorkView.abandoned hv
    have he := congrArg WorkView.eos hv
    have hd := congrArg WorkView.delivered hv
    simp only [workView] at hq ha he hd hst
    split at h <;> simp only [Option.some.injEq] at h <;> subst h
    · rename_i hne
      have hb : batchOf finished = [finished] := by
        simp only [batchOf]
        rw [if_neg (by simpa using hne)]
      simp [workView, emit, batches_append, batches, hb, hst, hq, ha, he, hd]
    · rename_i hne
      have hb : batchOf finished = [] := by
        simp only [batchOf]
        rw [if_pos (by simpa using hne)]
      simp [workView, hb, hst, hq, ha, he, hd]

theorem forall₂_workKey_refl (l : List C2Work) :
    List.Forall₂ (fun a b => workKey a = workKey b) l l := by
  induction l with
  | nil => exact List.Forall₂.nil
  | cons a l ih => exact List.Forall₂.cons rfl ih

theorem forall₂_workKey_set {l : List C2Work} {i : Nat} {w w1 : C2Work}
    (hg : l[i]? = some w) (hk : workKey w = workKey w1) :
    List.Forall₂ (fun a b => workKey a = workKey b) l (l.set i w1) := by
  induction l generalizing i with
  | nil => simp at hg
  | cons a l ih =>
    cases i with
    | zero =>
      simp only [List.getElem?_cons_zero, Option.some.injEq] at hg
      subst hg
      exact List.Forall₂.cons hk (forall₂_workKey_refl l)
    | succ i =>
      simp only [List.getElem?_cons_succ] at hg
      exact List.Forall₂.cons rfl (ih hg)

theorem workStep_onInputBufferDone {b : Int} {c c1 : Component}
    (h : onInputBufferDone b c = some c1) : WorkStep [] (workView c) (workView c1) := by
  unfold onInputBufferDone EXPECT_RUNNING_OR_RETURN_ON_ERROR at h
  repeat' split at h
  all_goals try (simp at h; done)
  all_goals try
    (simp at h; subst h
     first | exact WorkStep.same _ | exact workStep_of_same (sameWorks_reportError _ _))
  rename_i hs1 hs2 _ i _ _ work hg _ bs _
  refine workStep_reportFinishedWorkIfAny (v := workView c) hs1 hs2 (by simp [workView]) ?_ h
  exact forall₂_workKey_set hg rfl

theorem workStep_onOutputBufferDone {p b : Int} {c c1 : Component}
    (h : onOutputBufferDone p b c = some c1) : WorkStep [] (workView c) (workView c1) := by
  have h0 := h
  unfold onOutputBufferDone EXPECT_RUNNING_OR_RETURN_ON_ERROR at h0
  split at h0
  · simp at h0; subst h0; exact WorkStep.same _
  · split at h0
    · simp at h0
    · rename_i hs1 hs2
      rcases onOutputBufferDone_cases h with rfl | rfl | ⟨w, i, info, work, gb, wl, wls, -, -,
        -, hw, -, -, hwl, h1⟩
      · exact WorkStep.same _
      · exact workStep_of_same (sameWorks_reportError _ _)
      · refine workStep_reportFinishedWorkIfAny (v := workView c) hs1 hs2 (by simp [workView])
          ?_ h1
        exact forall₂_workKey_set hw rfl

theorem workStep_onDrain {m : DrainMode} {c c1 : Component} (h : onDrain m c = some c1) :
    WorkStep [] (workView c) (workView c1) := by
  unfold onDrain EXPECT_RUNNING_OR_RETURN_ON_ERROR at h
  split at h
  · simp at h; subst h; exact WorkStep.same _
  split at h
  · simp at h
  split at h
  · rename_i back hb
    have hq : c.mQueue = c.mQueue.dropLast ++ [back] :=
      (List.dropLast_append_getLast? back (by simp [hb])).symm
    split at h
    · rename_i hd
      simp only [Option.some.injEq] at h
      subst h
      convert WorkStep.drainMark (workView c) c.mQueue.dropLast back m hq hd using 1
    · simp at h; subst h; exact WorkStep.same _
  · rename_i hq
    have hq1 : c.mQueue = [] := List.getLast?_eq_none_iff.mp hq
    split at h
    · rename_i hp
      split at h
      · rename_i hs
        simp only [Option.some.injEq] at h
        subst h
        convert WorkStep.drainNow (workView c) m hs hq1 (by simpa using hp) using 1
        simp [workView, emit, batches_append, batches]
      · simp at h; subst h; exact WorkStep.same _
    · simp at h; subst h; exact WorkStep.same _

theorem reportEOSWork_spec {c c1 : Component} (h : reportEOSWork c = some c1) :
    (∃ w w1, c.mPendingWorks = [w] ∧ workKey w1 = workKey w ∧ w1.result = c2_status_t.C2_OK ∧
      c1 = emit (Effect.onWorkDone_nb [w1])
        { c with mPendingOutputEOS := false, mPendingWorks := [] }) ∨
    (c.mPendingWorks.length ≠ 1 ∧ c1 = reportError c2_status_t.C2_CORRUPTED c) := by
  unfold reportEOSWork at h
  split at h
  · rename_i eosWork hpe
    split at h
    · simp at h
    · simp only [Option.some.injEq] at h
      subst h
      refine Or.inl ⟨eosWork, _, hpe, ?_, ?_, rfl⟩
      · simp [workKey]
      · rfl
  · rename_i hne
    simp only [Option.some.injEq] at h
    subst h
    refine Or.inr ⟨?_, rfl⟩
    intro hl
    obtain ⟨w, hw⟩ := List.length_eq_one.mp hl
    exact hne w hw

theorem workStep_onDrainDoneTail {c c1 : Component} {v : WorkView}
    (hs : v.state = ComponentState.DRAINING ∨ v.state = ComponentState.FLUSHING)
    (hv : workView c = { v with state := afterDrain v.state })
    (h : onDrainDoneTail c = some c1) : WorkStep [] v (workView c1) := by
  have hq := congrArg WorkView.queue hv
  have hp := congrArg WorkView.pending hv
  have ha := congrArg WorkView.abandoned hv
  have he := congrArg WorkView.eos hv
  have hd := congrArg WorkView.delivered hv
  have hst := congrArg WorkView.state hv
  simp only [workView] at hq hp ha he hd hst
  unfold onDrainDoneTail at h
  split at h
  · simp at h
  · rename_i c2 h2
    split at h
    · simp at h
    · rename_i hemp
      simp only [Option.some.injEq] at h
      subst h
      split at h2
      · rename_i heos
        rcases reportEOSWork_spec h2 with ⟨w, w1, hpe, hk, hr, rfl⟩ | ⟨-, rfl⟩
        · convert WorkStep.drainDoneEOS v w w1 hs (hp ▸ hpe) (he ▸ heos) hk hr using 1
          simp [workView, emit, batches_append, batches, hq, ha, hd, hst]
        · have hp0 : c.mPendingWorks = [] := by simpa [reportError, emit] using hemp
          convert WorkStep.drainDone v hs (hp ▸ hp0) using 1
          simp [workView, reportError, emit, batches_append, batches, hq, ha, hd, hst, he, hp,
            hp0]
      · simp only [Option.some.injEq] at h2
        subst h2
        have hp0 : c.mPendingWorks = [] := by simpa using hemp
        convert WorkStep.drainDone v hs (hp ▸ hp0) using 1
        simp [workView, emit, batches_append, batches, hq, ha, hd, hst, he, hp, hp0]

theorem workStep_onDrainDone {c c1 : Component} (h : onDrainDone c = some c1) :
    WorkStep [] (workView c) (workView c1) := by
  unfold onDrainDone at h
  split at h
  · rename_i hs
    exact workStep_onDrainDoneTail (v := workView c) (Or.inl hs)
      (by simp [workView, afterDrain, hs]) h
  split at h
  · simp at h; subst h; exact WorkStep.same _
  split at h
  · simp at h; subst h; exact workStep_of_same (sameWorks_reportError _ _)
  · rename_i hd _ hs
    have hs1 : c.mComponentState = ComponentState.FLUSHING := not_not.mp hs
    exact workStep_onDrainDoneTail (v := workView c) (Or.inr hs1)
      (by simp [workView, afterDrain, hs1]) h

theorem workStep_onFlush {c c1 : Component} (h : onFlush c = some c1) :
    WorkStep [] (workView c) (workView c1) := by
  unfold onFlush EXPECT_RUNNING_OR_RETURN_ON_ERROR at h
  split at h
  · simp at h; subst h; exact WorkStep.same _
  split at h
  · simp at h; subst h; exact WorkStep.same _
  split at h
  · simp at h
  · rename_i h1 h2 h3
    simp only [Option.some.injEq] at h
    subst h
    have hs : c.mComponentState = ComponentState.STARTED ∨
        c.mComponentState = ComponentState.DRAINING := by
      cases hc : c.mComponentState <;> simp_all
    convert WorkStep.flush (workView c) hs using 1
    simp [workView, abandonQueue, emit, batches_append, batches]

theorem workStep_onStop {c c1 : Component} (h : onStop c = some c1) :
    WorkStep [] (workView c) (workView c1) := by
  unfold onStop EXPECT_RUNNING_OR_RETURN_ON_ERROR at h
  split at h
  · simp at h; subst h; exact WorkStep.same _
  split at h
  · simp at h
  · rename_i h1 h2
    simp only [Option.some.injEq] at h
    subst h
    convert WorkStep.stop (workView c) h1 h2 using 1
    split <;> simp [workView, abandonQueue, emit, batches_append, batches]

theorem workView_reportAbandonedWorks (c : Component) :
    workView (reportAbandonedWorks c) =
      { workView c with
        pending := [], abandoned := [], eos := false
        delivered := (workView c).delivered ++
          batchOf (c.mPendingWorks.map abandonWork ++ c.mAbandonedWorks.map abandonWork) } := by
  unfold reportAbandonedWorks batchOf
  dsimp only
  split
  · rename_i hne
    rw [if_neg (by simpa using hne)]
    simp [workView, emit, batches_append, batches]
  · rename_i hne
    rw [if_pos (by simpa using hne)]
    simp [workView]

theorem workStep_onResetDone {c c1 : Component} (h : onResetDone c = some c1) :
    WorkStep [] (workView c) (workView c1) := by
  unfold onResetDone at h
  split at h
  · simp at h; subst h; exact WorkStep.same _
  split at h
  · rename_i hs
    unfold onFlushDone at h
    simp only [Option.some.injEq] at h
    subst h
    convert WorkStep.resetDone (workView c) (Or.inl hs) using 1
    have := workView_reportAbandonedWorks c
    simp only [workView] at this ⊢
    simp only [WorkView.mk.injEq] at this
    obtain ⟨-, t2, t3, t4, t5, t6⟩ := this
    simp [emit, batches_append, batches, hs, t2, t3, t4, t5, t6]
  split at h
  · rename_i hs
    unfold onStopDone at h
    split at h
    · simp at h
    · simp only [Option.some.injEq] at h
      subst h
      convert WorkStep.resetDone (workView c) (Or.inr hs) using 1
      have := workView_reportAbandonedWorks c
      simp only [workView] at this ⊢
      simp only [WorkView.mk.injEq] at this
      obtain ⟨-, t2, t3, t4, t5, t6⟩ := this
      have hsd : ∀ x : Component, (stopDequeueThread x).mQueue = x.mQueue ∧
          (stopDequeueThread x).mPendingWorks = x.mPendingWorks ∧
          (stopDequeueThread x).mAbandonedWorks = x.mAbandonedWorks ∧
          (stopDequeueThread x).mPendingOutputEOS = x.mPendingOutputEOS ∧
          (stopDequeueThread x).log = x.log := by
        intro x; unfold stopDequeueThread; split <;> simp
      simp only [emit, hsd]
      split <;> simp [emit, batches_append, batches, hs, t2, t3, t4, t5, t6]
  · simp at h; subst h; exact workStep_of_same (sameWorks_reportError _ _)

/-- Every step of an execution acts on the work pipeline as one of the transitions of
`WorkStep`. -/
theorem workStep_step {e : Event} {c c1 : Component} (h : step e c = some c1) :
    WorkStep (queuedBy e) (workView c) (workView c1) := by
  cases e <;> simp only [step] at h
  · exact workStep_onStart h
  · exact workStep_onStop h
  · exact workStep_onQueueWork h
  · exact workStep_onDequeueWork h
  · exact workStep_onInputBufferDone h
  · exact workStep_of_same (sameWorks_onOutputBufferReturned h)
  · exact workStep_onOutputBufferDone h
  · exact workStep_onDrain h
  · exact workStep_onDrainDone h
  · exact workStep_onFlush h
  · exact workStep_onResetDone h
  · exact workStep_of_same (sameWorks_onOutputFormatChanged h)
  · exact workStep_of_same (sameWorks_onVisibleRectChanged h)
  · simp at h; subst h; exact workStep_of_same (sameWorks_notifyError _ _)
  · split at h <;> simp at h <;> subst h
    · exact workStep_of_same (sameWorks_dequeueThreadLoopIteration _ _ _)
    · exact WorkStep.same _

/-! ## End of stream -/

theorem isEOS_of_workKey {a b : C2Work} (h : workKey a = workKey b) : isEOS a = isEOS b := by
  simp only [workKey, Prod.mk.injEq] at h
  simp [isEOS, h.2]

theorem forall₂_workKey_all {l l1 : List C2Work}
    (h : List.Forall₂ (fun a b => workKey a = workKey b) l l1)
    (hl : ∀ w ∈ l, isEOS w = false) : ∀ w ∈ l1, isEOS w = false := by
  induction h with
  | nil => simp
  | cons hk _ ih =>
    intro w hw
    simp only [List.mem_cons] at hw
    rcases hw with rfl | hw
    · rw [← isEOS_of_workKey hk]; exact hl _ (List.mem_cons_self _ _)
    · exact ih (fun x hx => hl x (List.mem_cons_of_mem _ hx)) w hw

theorem forall₂_workKey_pairwise {l l1 : List C2Work}
    (h : List.Forall₂ (fun a b => workKey a = workKey b) l l1)
    (hl : l.Pairwise (fun a _ => isEOS a = false)) :
    l1.Pairwise (fun a _ => isEOS a = false) := by
  induction h with
  | nil => exact List.Pairwise.nil
  | @cons a b l l1 hk hf ih =>
    rw [List.pairwise_cons] at hl ⊢
    refine ⟨?_, ih hl.2⟩
    intro x hx
    rw [← isEOS_of_workKey hk]
    cases hf with
    | nil => simp at hx
    | @cons a1 b1 l2 l3 _ _ => exact hl.1 a1 (List.mem_cons_self _ _)

theorem pairwise_append_single {l : List C2Work} (w : C2Work)
    (hl : ∀ x ∈ l, isEOS x = false) :
    (l ++ [w]).Pairwise (fun a _ => isEOS a = false) := by
  rw [List.pairwise_append]
  refine ⟨?_, List.pairwise_singleton _ _, fun a ha _ _ => hl a ha⟩
  exact List.Pairwise.imp_of_mem (R := fun _ _ => True) (fun ha _ _ => hl _ ha)
    (List.pairwise_of_forall (fun _ _ => trivial))

theorem eosInvariant_workStep {q : List C2Work} {v v1 : WorkView} (h : WorkStep q v v1)
    (hi : EOSInvariant v) : EOSInvariant v1 := by
  obtain ⟨i1, i2, i3⟩ := hi
  cases h with
  | same => exact ⟨i1, i2, i3⟩
  | ignored => exact ⟨i1, i2, i3⟩
  | start _ hs => exact ⟨i1, fun _ _ _ => i2 (by simp [hs]) (by simp [hs]) (by simp [hs]), i3⟩
  | queue _ w h1 h2 =>
    refine ⟨i1, i2, ?_⟩
    intro e he
    simp only [List.mem_append, List.mem_singleton] at he
    rcases he with he | rfl
    · exact i3 e he
    · intro hw
      simp only [isEOS] at hw
      simp [queuedDrainMode, hw]
  | dispatch _ entry rest w2 hs hq hk hl hd =>
    have hp := i2 (by simp [hs]) (by simp [hs]) (by simp [hs])
    have he : isEOS w2 = false := by
      rw [isEOS_of_workKey hk]
      by_contra hc
      exact i3 entry (by simp [hq]) (by simpa using hc) hd
    refine ⟨pairwise_append_single _ hp, ?_, ?_⟩
    · intro _ _ _ w hw
      simp only [List.mem_append, List.mem_singleton] at hw
      rcases hw with hw | rfl
      · exact hp w hw
      · exact he
    · intro e he'
      exact i3 e (by simp [hq, he'])
  | dispatchDrain _ entry rest w2 hs hq hk hl hd =>
    have hp := i2 (by simp [hs]) (by simp [hs]) (by simp [hs])
    refine ⟨pairwise_append_single _ hp, ?_, ?_⟩
    · intro hc; exact absurd rfl hc
    · intro e he'
      exact i3 e (by simp [hq, he'])
  | report _ updated kept finished h1 h2 hf hk hfin hok =>
    refine ⟨(forall₂_workKey_pairwise hf i1).sublist hk, ?_, i3⟩
    intro a b c w hw
    exact forall₂_workKey_all hf (i2 a b c) w (hk.subset hw)
  | drainMark _ front back m hq hd =>
    refine ⟨i1, i2, ?_⟩
    intro e he
    simp only [List.mem_append, List.mem_singleton] at he
    rcases he with he | rfl
    · exact i3 e (by simp [hq, he])
    · intro hw
      exact absurd hd (i3 back (by simp [hq]) hw)
  | drainNow _ m hs hq hp => exact ⟨i1, fun hc => absurd rfl hc, i3⟩
  | drainDone _ hs hp =>
    refine ⟨i1, ?_, i3⟩
    intro _ _ _ w hw
    rw [hp] at hw
    simp at hw
  | drainDoneEOS _ w w1 hs hp he hk hr =>
    exact ⟨List.Pairwise.nil, fun _ _ _ w hw => by simp at hw, i3⟩
  | flush _ hs => exact ⟨i1, fun _ hc => absurd rfl hc, by simp⟩
  | stop _ h1 h2 => exact ⟨i1, fun _ _ hc => absurd rfl hc, by simp⟩
  | resetDone _ hs => exact ⟨List.Pairwise.nil, fun _ _ _ w hw => by simp at hw, i3⟩

theorem eosInvariant_of_reachable {c : Component} (h : Reachable c) :
    EOSInvariant (workView c) := by
  induction h with
  | init s =>
    exact ⟨List.Pairwise.nil, fun _ _ _ w hw => by simp [workView, initial] at hw,
      fun e he => by simp [workView, initial] at he⟩
  | step e _ hs ih => exact eosInvariant_workStep (workStep_step hs) ih

/-- C9: in every state that an execution reaches, a pending work that carries
`END_OF_STREAM` is the last element of the pending list and no work before it carries the
flag, so at most one pending work carries it. -/
theorem eos_singleton (c : Component) (h : Reachable c) (front back : List C2Work)
    (w : C2Work) (hp : c.mPendingWorks = front ++ w :: back) (hw : isEOS w = true) :
    back = [] ∧ ∀ x ∈ front, isEOS x = false := by
  have hi := (eosInvariant_of_reachable h).1
  simp only [workView] at hi
  rw [hp, List.pairwise_append, List.pairwise_cons] at hi
  obtain ⟨-, ⟨h1, -⟩, h3⟩ := hi
  constructor
  · cases back with
    | nil => rfl
    | cons b bs =>
      have := h1 b (List.mem_cons_self _ _)
      simp [hw] at this
  · intro x hx
    exact h3 x hx w (List.mem_cons_self _ _)

theorem eos_singleton_witness :
    Reachable (runD exampleEOSTrace (initial false)) ∧
      (runD exampleEOSTrace (initial false)).mPendingWorks.map frameIndexOf = [0, 1] ∧
      isEOS ((runD exampleEOSTrace (initial false)).mPendingWorks.getD 1 (exampleWork 0 0)) =
        true ∧
      ((runD exampleEOSTrace (initial false)).mPendingWorks.drop 2 = [] ∧
        ∀ x ∈ (runD exampleEOSTrace (initial false)).mPendingWorks.take 1, isEOS x = false) :=
  have hr : Reachable (runD exampleEOSTrace (initial false)) :=
    reachable_of_run (Reachable.init false) (run_eq_some_runD (by decide))
  ⟨hr, by decide, by decide,
    eos_singleton (runD exampleEOSTrace (initial false)) hr
      ((runD exampleEOSTrace (initial false)).mPendingWorks.take 1)
      ((runD exampleEOSTrace (initial false)).mPendingWorks.drop 2)
      ((runD exampleEOSTrace (initial false)).mPendingWorks.getD 1 (exampleWork 0 0))
      (by decide) (by decide)⟩

/-! ## Order and identity of the works held -/

theorem forall₂_workKey_map {l l1 : List C2Work}
    (h : List.Forall₂ (fun a b => workKey a = workKey b) l l1) :
    l.map workKey = l1.map workKey := by
  induction h with
  | nil => rfl
  | cons hk _ ih => simp [hk, ih]

theorem heldKeys_workStep {q : List C2Work} {v v1 : WorkView} (h : WorkStep q v v1) :
    (heldKeys v1).Sublist (heldKeys v ++ q.map workKey) := by
  cases h with
  | same => simp
  | ignored => simp
  | start _ hs => simp [heldKeys]
  | queue _ w h1 h2 => simp [heldKeys]
  | dispatch _ entry rest w2 hs hq hk hl hd => simp [heldKeys, hq, hk]
  | dispatchDrain _ entry rest w2 hs hq hk hl hd => simp [heldKeys, hq, hk]
  | report _ updated kept finished h1 h2 hf hk hfin hok =>
    simp only [heldKeys, List.map_nil, List.append_nil]
    rw [forall₂_workKey_map hf]
    exact List.Sublist.append (hk.map _) (List.Sublist.refl _)
  | drainMark _ front back m hq hd => simp [heldKeys, hq]
  | drainNow _ m hs hq hp => simp [heldKeys]
  | drainDone _ hs hp => simp [heldKeys]
  | drainDoneEOS _ w w1 hs hp he hk hr => simp [heldKeys]
  | flush _ hs => simp [heldKeys]
  | stop _ h1 h2 => simp [heldKeys]
  | resetDone _ hs => simp [heldKeys]

theorem heldIds_eq (c : Component) :
    heldIds c = (heldKeys (workView c)).map fun k => frameIndexToBitstreamId k.1 := by
  simp [heldIds, heldKeys, workView, bitstreamIdOf, workKey, Function.comp_def]

theorem heldIds_step {e : Event} {c c1 : Component} (h : step e c = some c1) :
    (heldIds c1).Sublist (heldIds c ++ (queuedBy e).map bitstreamIdOf) := by
  have h1 := (heldKeys_workStep (workStep_step h)).map fun k => frameIndexToBitstreamId k.1
  rw [heldIds_eq, heldIds_eq]
  simpa [bitstreamIdOf, workKey, Function.comp_def] using h1

theorem heldIds_nodup_of_reachable {c : Component} (h : FreshReachable c) :
    (heldIds c).Nodup := by
  induction h with
  | init s => simp [heldIds, initial]
  | @step c c1 e _ hf hs ih =>
    refine List.Nodup.sublist (heldIds_step hs) ?_
    cases e <;> simp only [queuedBy, List.map_nil, List.append_nil] <;> try exact ih
    rename_i w
    rw [List.map_singleton, List.nodup_append]
    refine ⟨ih, List.nodup_singleton _, ?_⟩
    intro a ha hb
    simp only [List.mem_singleton] at hb
    subst hb
    exact hf w (by simp [queuedBy]) ha

/-- C8, the claim as stated fails: after `exampleCollisionTrace` the pending list holds two
distinct works, with frame indices `5` and `2^30 + 5`, that have the same bitstream id `5`. -/
theorem bitstream_uniqueness_fails :
    (run exampleCollisionTrace (initial false)).map
        (fun c => c.mPendingWorks.map fun w => (frameIndexOf w, bitstreamIdOf w)) =
      some [(5, 5), (2 ^ 30 + 5, 5)] := by
  decide

/-- C8, amended: in every state reached by an execution in which no work is queued whose
bitstream id is that of a work still held in the pending list or in the incoming queue, the
works of the pending list have pairwise different bitstream ids. -/
theorem bitstream_uniqueness_amended (c : Component) (h : FreshReachable c) :
    (c.mPendingWorks.map bitstreamIdOf).Nodup :=
  (List.nodup_append.mp (heldIds_nodup_of_reachable h)).1

theorem freshReachable_stepD (e : Event) {c : Component} (hc : FreshReachable c)
    (hf : ∀ w ∈ queuedBy e, bitstreamIdOf w ∉ heldIds c) (hs : (step e c).isSome = true) :
    FreshReachable (stepD e c) := by
  obtain ⟨c1, h1⟩ := Option.isSome_iff_exists.mp hs
  have h2 : stepD e c = c1 := by simp [stepD, h1]
  rw [h2]
  exact FreshReachable.step e hc hf h1

theorem bitstream_uniqueness_amended_witness :
    (stepD (Event.onDequeueWork 11) (stepD (Event.onQueueWork (exampleWork 1 0))
      (stepD (Event.onDequeueWork 10) (stepD (Event.onQueueWork (exampleWork 0 0))
        (stepD (Event.onStart VDAResult.SUCCESS) (initial false)))))).mPendingWorks.length = 2 ∧
    ((stepD (Event.onDequeueWork 11) (stepD (Event.onQueueWork (exampleWork 1 0))
      (stepD (Event.onDequeueWork 10) (stepD (Event.onQueueWork (exampleWork 0 0))
        (stepD (Event.onStart VDAResult.SUCCESS) (initial false)))))).mPendingWorks.map
          bitstreamIdOf).Nodup :=
  ⟨by decide, bitstream_uniqueness_amended _
    (freshReachable_stepD (Event.onDequeueWork 11)
      (freshReachable_stepD (Event.onQueueWork (exampleWork 1 0))
        (freshReachable_stepD (Event.onDequeueWork 10)
          (freshReachable_stepD (Event.onQueueWork (exampleWork 0 0))
            (freshReachable_stepD (Event.onStart VDAResult.SUCCESS) (FreshReachable.init false)
              (by decide) (by decide))
            (by decide) (by decide))
          (by decide) (by decide))
        (by decide) (by decide))
      (by decide) (by decide))⟩

/-! ## Order of delivery -/

theorem mem_batchOf {b works : List C2Work} (h : b ∈ batchOf works) : b = works := by
  unfold batchOf at h
  split at h
  · simp at h
  · simpa using h

theorem orderInvariant_workStep {q hist : List C2Work} {v v1 : WorkView}
    (h : WorkStep q v v1) (hi : OrderInvariant hist v) : OrderInvariant (hist ++ q) v1 := by
  obtain ⟨i1, i2⟩ := hi
  have hk := heldKeys_workStep h
  have hh : (heldKeys v1).Sublist ((hist ++ q).map workKey) := by
    rw [List.map_append]
    exact hk.trans (List.Sublist.append i1 (List.Sublist.refl _))
  have hold : ∀ batch ∈ v.delivered, (∃ w ∈ batch, w.result = c2_status_t.C2_OK) →
      (batch.map workKey).Sublist ((hist ++ q).map workKey) := by
    intro b hb hok
    rw [List.map_append]
    exact (i2 b hb hok).trans (List.sublist_append_left _ _)
  refine ⟨hh, ?_⟩
  have hp : (v.pending.map workKey).Sublist ((hist ++ q).map workKey) := by
    rw [List.map_append]
    exact ((List.sublist_append_left _ _).trans i1).trans (List.sublist_append_left _ _)
  cases h with
  | same => exact hold
  | ignored => exact hold
  | start _ hs => exact hold
  | queue _ w h1 h2 => exact hold
  | dispatch _ entry rest w2 hs hq hk hl hd => exact hold
  | dispatchDrain _ entry rest w2 hs hq hk hl hd => exact hold
  | report _ updated kept finished h1 h2 hf hk hfin hok =>
    intro b hb hbok
    simp only [List.mem_append] at hb
    rcases hb with hb | hb
    · exact hold b hb hbok
    · rw [mem_batchOf hb]
      rw [← forall₂_workKey_map hf] at hfin
      exact hfin.trans hp
  | drainMark _ front back m hq hd => exact hold
  | drainNow _ m hs hq hp => exact hold
  | drainDone _ hs hp => exact hold
  | drainDoneEOS _ w w1 hs hp1 he hkey hr =>
    intro b hb hbok
    simp only [List.mem_append, List.mem_singleton] at hb
    rcases hb with hb | rfl
    · exact hold b hb hbok
    · rw [hp1] at hp
      simp only [List.map_cons, List.map_nil] at hp ⊢
      rw [hkey]
      exact hp
  | flush _ hs => exact hold
  | stop _ h1 h2 => exact hold
  | resetDone _ hs =>
    intro b hb hbok
    simp only [List.mem_append] at hb
    rcases hb with hb | hb
    · exact hold b hb hbok
    · rw [mem_batchOf hb] at hbok
      obtain ⟨w, hw, hr⟩ := hbok
      simp only [List.mem_append, List.mem_map] at hw
      rcases hw with ⟨x, -, rfl⟩ | ⟨x, -, rfl⟩ <;> simp [abandonWork] at hr

theorem orderInvariant_run {es : List Event} {hist : List C2Work} {c c1 : Component}
    (h : run es c = some c1) (hi : OrderInvariant hist (workView c)) :
    OrderInvariant (hist ++ queuedWorks es) (workView c1) := by
  induction es generalizing c hist with
  | nil => simp [run] at h; subst h; simpa [queuedWorks] using hi
  | cons e es ih =>
    simp only [run, Option.bind_eq_some] at h
    obtain ⟨c2, h2, h3⟩ := h
    have := ih h3 (orderInvariant_workStep (workStep_step h2) hi)
    simpa [queuedWorks, List.append_assoc] using this

theorem movesOnly_refl (a b : GBState) (l : List GBState) : MovesOnly a b l l := by
  unfold MovesOnly
  induction l with
  | nil => exact List.Forall₂.nil
  | cons x l ih => exact List.Forall₂.cons (Or.inl rfl) ih

theorem movesOnly_of_eq {a b : GBState} {l l1 : List GBState} (h : l1 = l) :
    MovesOnly a b l l1 := by
  subst h; exact movesOnly_refl a b _

theorem movesOnly_trans {a b : GBState} {l1 l2 l3 : List GBState}
    (h1 : MovesOnly a b l1 l2) (h2 : MovesOnly a b l2 l3) : MovesOnly a b l1 l3 := by
  unfold MovesOnly at *
  induction h1 generalizing l3 with
  | nil => exact h2
  | cons hx _ ih =>
    cases h2 with
    | cons hy ht =>
      refine List.Forall₂.cons ?_ (ih ht)
      rcases hx with rfl | ⟨rfl, rfl⟩
      · exact hy
      · rcases hy with rfl | ⟨_, rfl⟩
        · exact Or.inr ⟨rfl, rfl⟩
        · exact Or.inr ⟨rfl, rfl⟩

theorem movesOnly_set {a b : GBState} {l : List GraphicBlockInfo} {i : Nat}
    {info info1 : GraphicBlockInfo} (hg : l[i]? = some info) (ha : info.mState = a)
    (hb : info1.mState = b) :
    MovesOnly a b (l.map fun (x : GraphicBlockInfo) => x.mState)
      ((l.set i info1).map fun (x : GraphicBlockInfo) => x.mState) := by
  unfold MovesOnly
  induction l generalizing i with
  | nil => simp at hg
  | cons x l ih =>
    cases i with
    | zero =>
      simp at hg; subst hg
      simp only [List.set_cons_zero, List.map_cons]
      exact List.Forall₂.cons (Or.inr ⟨ha, hb⟩) (movesOnly_refl a b _)
    | succ i =>
      simp only [List.getElem?_cons_succ] at hg
      simp only [List.set_cons_succ, List.map_cons]
      exact List.Forall₂.cons (Or.inl rfl) (ih hg)

theorem ownerships_reportError (e : c2_status_t) (c : Component) :
    ownerships (reportError e c) = ownerships c := by
  simp [ownerships, reportError, emit]

theorem ownerships_of_same {c c1 : Component} (h : SameRegistry c c1) :
    ownerships c1 = ownerships c := by
  unfold ownerships; rw [h.1]

theorem moves_sendOutputBufferToAccelerator {i : Nat} {c c1 : Component}
    (h : sendOutputBufferToAccelerator i c = some c1) :
    MovesOnly GBState.OWNED_BY_COMPONENT GBState.OWNED_BY_ACCELERATOR
      (ownerships c) (ownerships c1) := by
  unfold sendOutputBufferToAccelerator at h
  split at h
  · simp at h
  · rename_i info hg
    split at h
    · simp at h
    · rename_i hs
      have hs1 : info.mState = GBState.OWNED_BY_COMPONENT := by simpa using hs
      split at h
      all_goals simp at h
      all_goals subst h
      all_goals exact movesOnly_set hg hs1 rfl

theorem moves_sendAllFrom {n i : Nat} {c c1 : Component}
    (h : sendAllFrom n i c = some c1) :
    MovesOnly GBState.OWNED_BY_COMPONENT GBState.OWNED_BY_ACCELERATOR
      (ownerships c) (ownerships c1) := by
  induction n generalizing i c with
  | zero => simp [sendAllFrom] at h; subst h; exact movesOnly_refl _ _ _
  | succ n ih =>
    simp only [sendAllFrom, Option.bind_eq_some] at h
    obtain ⟨c2, h2, h3⟩ := h
    exact movesOnly_trans (moves_sendOutputBufferToAccelerator h2) (ih h3)

theorem fresh_allocateBuffersFromBlockAllocator {env : BlockPoolEnv} {c c1 : Component}
    {err : c2_status_t} (h : allocateBuffersFromBlockAllocator env c = some (err, c1)) :
    ownerships c1 = ownerships c ∨
      ∀ s ∈ ownerships c1, s = GBState.OWNED_BY_COMPONENT := by
  unfold allocateBuffersFromBlockAllocator at h
  dsimp only at h
  repeat' split at h
  all_goals try (simp at h; done)
  all_goals simp only [Option.some.injEq, Prod.mk.injEq] at h
  all_goals obtain ⟨rfl, rfl⟩ := h
  · exact Or.inl (by simp [ownerships, reportError, emit, blocks_stopDequeueThread])
  · exact Or.inr (by simp [ownerships, reportError, emit])
  · exact Or.inr (by simp [ownerships, reportError, emit])
  · rename_i h1 h2
    obtain ⟨a1, -, -, -⟩ := alloc_allocateLoop h1
    refine Or.inr ?_
    intro s hs
    simp only [ownerships, List.mem_map] at hs
    obtain ⟨info, hm, rfl⟩ := hs
    simpa using a1 info hm
  · rename_i h1 _ _ _ h2
    obtain ⟨a1, -, -, -⟩ := alloc_allocateLoop h1
    obtain ⟨b1, -, -⟩ := alloc_startDequeueThread h2
    refine Or.inr ?_
    intro s hs
    simp only [ownerships, List.mem_map] at hs
    obtain ⟨info, hm, rfl⟩ := hs
    rw [b1] at hm
    simpa using a1 info hm
  · rename_i h1 _ _ _ h2
    obtain ⟨a1, -, -, -⟩ := alloc_allocateLoop h1
    obtain ⟨b1, -, -⟩ := alloc_startDequeueThread h2
    refine Or.inr ?_
    intro s hs
    simp only [ownerships, reportError, emit, List.mem_map] at hs
    obtain ⟨info, hm, rfl⟩ := hs
    rw [b1] at hm
    simpa using a1 info hm

theorem moves_tryChangeOutputFormat {env : BlockPoolEnv} {c c1 : Component}
    (h : tryChangeOutputFormat env c = some c1) :
    ownerships c1 = ownerships c ∨
      ∃ (c2 fresh : Component) (err : c2_status_t),
        allocateBuffersFromBlockAllocator env c2 = some (err, fresh) ∧
        (∀ s ∈ ownerships fresh, s = GBState.OWNED_BY_COMPONENT) ∧
        MovesOnly GBState.OWNED_BY_COMPONENT GBState.OWNED_BY_ACCELERATOR
          (ownerships fresh) (ownerships c1) := by
  unfold tryChangeOutputFormat at h
  repeat' (first | split at h | (dsimp only at h; split at h))
  all_goals try (simp at h; done)
  · rename_i h1 _
    simp at h; subst h
    rcases fresh_allocateBuffersFromBlockAllocator h1 with hf | hf
    · exact Or.inl (by simpa [ownerships, reportError, emit, setOutputFormatCrop] using hf)
    · exact Or.inr ⟨_, _, _, h1, hf,
        movesOnly_of_eq (ownerships_reportError _ _)⟩
  · rename_i h1 herr
    simp only [Option.map_eq_some'] at h
    obtain ⟨c4, h4, rfl⟩ := h
    rcases fresh_allocateBuffersFromBlockAllocator h1 with hf | hf
    · refine Or.inr ⟨_, _, _, h1, ?_, movesOnly_trans (moves_sendAllFrom h4)
        (movesOnly_of_eq rfl)⟩
      have herr1 : _ = c2_status_t.C2_OK := not_not.mp herr
      obtain ⟨a1, -, -⟩ := (alloc_allocateBuffersFromBlockAllocator h1).2 herr1
      intro s hs
      simp only [ownerships, List.mem_map] at hs
      obtain ⟨info, hm, rfl⟩ := hs
      exact a1 info hm
    · exact Or.inr ⟨_, _, _, h1, hf, movesOnly_trans (moves_sendAllFrom h4)
        (movesOnly_of_eq rfl)⟩

theorem moves_onOutputBufferDone {p b : Int} {c c1 : Component}
    (h : onOutputBufferDone p b c = some c1) :
    MovesOnly GBState.OWNED_BY_ACCELERATOR GBState.OWNED_BY_CLIENT
      (ownerships c) (ownerships c1) := by
  rcases onOutputBufferDone_cases h with rfl | rfl | ⟨w, i, info, work, g, wl, wls, -, -,
    hg, -, hs, -, -, hr⟩
  · exact movesOnly_refl _ _ _
  · exact movesOnly_of_eq (ownerships_reportError _ _)
  · rw [ownerships_of_same (sameRegistry_reportFinishedWorkIfAny hr)]
    exact movesOnly_set hg hs rfl

theorem moves_onOutputBufferReturned {env : BlockPoolEnv} {b : C2GraphicBlock} {p : Nat}
    {c c1 : Component} (h : onOutputBufferReturned env b p c = some c1) :
    ∃ mid : Component,
      MovesOnly GBState.OWNED_BY_CLIENT GBState.OWNED_BY_COMPONENT
        (ownerships c) (ownerships mid) ∧
      (ownerships c1 = ownerships mid ∨
        (∃ i, sendOutputBufferToAccelerator i mid = some c1) ∨
        tryChangeOutputFormat env mid = some c1) := by
  rcases onOutputBufferReturned_cases h with ⟨-, rfl⟩ | ⟨-, rfl⟩ | ⟨-, rfl⟩ |
    ⟨i, info, -, hg, hs, h1 | h1⟩
  · exact ⟨c1, movesOnly_refl _ _ _, Or.inl rfl⟩
  · exact ⟨c1, movesOnly_refl _ _ _, Or.inl rfl⟩
  · exact ⟨c, movesOnly_refl _ _ _, Or.inl (ownerships_reportError _ _)⟩
  · exact ⟨_, by unfold ownerships; exact movesOnly_set hg hs rfl, Or.inr (Or.inr h1.2)⟩
  · exact ⟨_, by unfold ownerships; exact movesOnly_set hg hs rfl,
      Or.inr (Or.inl ⟨i, h1.2⟩)⟩

theorem movesOnly_map_release (l : List GraphicBlockInfo) :
    MovesOnly GBState.OWNED_BY_ACCELERATOR GBState.OWNED_BY_COMPONENT
      (l.map fun (x : GraphicBlockInfo) => x.mState)
      ((l.map fun (info : GraphicBlockInfo) =>
        if info.mState = GBState.OWNED_BY_ACCELERATOR then
          { info with mState := GBState.OWNED_BY_COMPONENT } else info).map
        fun (x : GraphicBlockInfo) => x.mState) := by
  unfold MovesOnly
  induction l with
  | nil => exact List.Forall₂.nil
  | cons x l ih =>
    simp only [List.map_cons]
    refine List.Forall₂.cons ?_ ih
    split
    · rename_i hs; exact Or.inr ⟨hs, rfl⟩
    · exact Or.inl rfl

theorem moves_onOutputFormatChanged {env : BlockPoolEnv} {f : VideoFormat}
    {c c1 : Component} (h : onOutputFormatChanged env f c = some c1) :
    ∃ mid : Component,
      MovesOnly GBState.OWNED_BY_ACCELERATOR GBState.OWNED_BY_COMPONENT
        (ownerships c) (ownerships mid) ∧
      (ownerships c1 = ownerships mid ∨ tryChangeOutputFormat env mid = some c1) := by
  unfold onOutputFormatChanged EXPECT_RUNNING_OR_RETURN_ON_ERROR at h
  repeat' (first | split at h | (dsimp only at h; split at h))
  all_goals try (simp at h; done)
  all_goals try (simp at h; subst h; exact ⟨c, movesOnly_refl _ _ _, Or.inl rfl⟩)
  refine ⟨_, ?_, Or.inr h⟩
  exact movesOnly_map_release c.mGraphicBlocks

theorem moves_other {e : Event} {c c1 : Component} (he : assignsOwnership e = false)
    (h : step e c = some c1) : ownerships c1 = ownerships c ∨ ownerships c1 = [] := by
  cases e <;> simp only [step] at h
  · exact Or.inl (ownerships_of_same (sameRegistry_onStart h))
  · exact Or.inl (ownerships_of_same (sameRegistry_onStop h))
  · exact Or.inl (ownerships_of_same (sameRegistry_onQueueWork h))
  · exact Or.inl (ownerships_of_same (sameRegistry_onDequeueWork h))
  · exact Or.inl (ownerships_of_same (sameRegistry_onInputBufferDone h))
  · simp [assignsOwnership] at he
  · simp [assignsOwnership] at he
  · exact Or.inl (ownerships_of_same (sameRegistry_onDrain h))
  · exact Or.inl (ownerships_of_same (sameRegistry_onDrainDone h))
  · exact Or.inl (ownerships_of_same (sameRegistry_onFlush h))
  · unfold onResetDone at h
    repeat' split at h
    · simp at h; subst h; exact Or.inl rfl
    · exact Or.inl (ownerships_of_same (sameRegistry_onFlushDone h))
    · unfold onStopDone at h
      split at h
      · simp at h
      · simp only [Option.some.injEq] at h
        subst h
        exact Or.inr (by simp [ownerships, emit, blocks_stopDequeueThread])
    · simp at h; subst h; exact Or.inl (ownerships_reportError _ _)
  · simp [assignsOwnership] at he
  · unfold onVisibleRectChanged EXPECT_RUNNING_OR_RETURN_ON_ERROR at h
    repeat' split at h
    all_goals try (simp at h; done)
    all_goals simp at h
    all_goals subst h
    all_goals exact Or.inl rfl
  · simp at h; subst h
    cases ‹VDAResult› <;> exact Or.inl rfl
  · split at h <;> simp at h <;> subst h
    · refine Or.inl ?_
      unfold dequeueThreadLoopIteration
      repeat' split
      all_goals rfl
    · exact Or.inl rfl

/-- C7: the ownership state of an existing registry record changes only along the legal
edges.  `sendOutputBufferToAccelerator` moves records only from COMPONENT to ACCELERATOR;
`onOutputBufferDone` only from ACCELERATOR to CLIENT; `onOutputBufferReturned` only from
CLIENT to COMPONENT, after which it leaves the registry alone, or calls
`sendOutputBufferToAccelerator`, or calls `tryChangeOutputFormat`; `onOutputFormatChanged`
only from ACCELERATOR to COMPONENT, after which it leaves the registry alone or calls
`tryChangeOutputFormat`; `tryChangeOutputFormat` leaves the ownership states alone or
replaces the registry by the newly allocated records, all owned by the component, which
only move from COMPONENT to ACCELERATOR; the handler of every other event leaves the
ownership states alone or empties the registry. -/
theorem legal_ownership_transitions :
    (∀ (i : Nat) (c c1 : Component), sendOutputBufferToAccelerator i c = some c1 →
      MovesOnly GBState.OWNED_BY_COMPONENT GBState.OWNED_BY_ACCELERATOR
        (ownerships c) (ownerships c1)) ∧
    (∀ (pictureBufferId bitstreamId : Int) (c c1 : Component),
      onOutputBufferDone pictureBufferId bitstreamId c = some c1 →
      MovesOnly GBState.OWNED_BY_ACCELERATOR GBState.OWNED_BY_CLIENT
        (ownerships c) (ownerships c1)) ∧
    (∀ (env : BlockPoolEnv) (block : C2GraphicBlock) (poolId : Nat) (c c1 : Component),
      onOutputBufferReturned env block poolId c = some c1 →
      ∃ mid : Component,
        MovesOnly GBState.OWNED_BY_CLIENT GBState.OWNED_BY_COMPONENT
          (ownerships c) (ownerships mid) ∧
        (ownerships c1 = ownerships mid ∨
          (∃ i, sendOutputBufferToAccelerator i mid = some c1) ∨
          tryChangeOutputFormat env mid = some c1)) ∧
    (∀ (env : BlockPoolEnv) (format : VideoFormat) (c c1 : Component),
      onOutputFormatChanged env format c = some c1 →
      ∃ mid : Component,
        MovesOnly GBState.OWNED_BY_ACCELERATOR GBState.OWNED_BY_COMPONENT
          (ownerships c) (ownerships mid) ∧
        (ownerships c1 = ownerships mid ∨ tryChangeOutputFormat env mid = some c1)) ∧
    (∀ (env : BlockPoolEnv) (c c1 : Component), tryChangeOutputFormat env c = some c1 →
      ownerships c1 = ownerships c ∨
        ∃ (c2 fresh : Component) (err : c2_status_t),
          allocateBuffersFromBlockAllocator env c2 = some (err, fresh) ∧
          (∀ s ∈ ownerships fresh, s = GBState.OWNED_BY_COMPONENT) ∧
          MovesOnly GBState.OWNED_BY_COMPONENT GBState.OWNED_BY_ACCELERATOR
            (ownerships fresh) (ownerships c1)) ∧
    (∀ (e : Event) (c c1 : Component), assignsOwnership e = false → step e c = some c1 →
      ownerships c1 = ownerships c ∨ ownerships c1 = []) :=
  ⟨fun _ _ _ h => moves_sendOutputBufferToAccelerator h,
    fun _ _ _ _ h => moves_onOutputBufferDone h,
    fun _ _ _ _ _ h => moves_onOutputBufferReturned h,
    fun _ _ _ _ h => moves_onOutputFormatChanged h,
    fun _ _ _ h => moves_tryChangeOutputFormat h,
    fun _ _ _ he h => moves_other he h⟩

theorem legal_ownership_transitions_witness :
    onOutputBufferDone 0 0 exampleDispatchedState = some exampleDoneState ∧
      ownerships exampleDispatchedState =
        [GBState.OWNED_BY_ACCELERATOR, GBState.OWNED_BY_ACCELERATOR,
          GBState.OWNED_BY_ACCELERATOR] ∧
      ownerships exampleDoneState =
        [GBState.OWNED_BY_CLIENT, GBState.OWNED_BY_ACCELERATOR,
          GBState.OWNED_BY_ACCELERATOR] ∧
      MovesOnly GBState.OWNED_BY_ACCELERATOR GBState.OWNED_BY_CLIENT
        (ownerships exampleDispatchedState) (ownerships exampleDoneState) :=
  ⟨by decide, by decide, by decide,
    legal_ownership_transitions.2.1 0 0 exampleDispatchedState exampleDoneState (by decide)⟩

/-! ## Order of the queue -/

theorem decodedIds_append (l l1 : List Effect) :
    decodedIds (l ++ l1) = decodedIds l ++ decodedIds l1 := by
  induction l with
  | nil => rfl
  | cons e l ih => cases e <;> simp [decodedIds, ih]

theorem dequeueInput_decodes {d : Int} {m : DrainMode} {w w1 : C2Work} {c c1 : Component}
    (h : dequeueInput d m w c = some (w1, c1)) :
    w1 = { w with input := { w.input with
      buffers := if w.input.buffers = [] then [none] else w.input.buffers } } ∧
    c1.mPendingWorks = c.mPendingWorks ∧ c1.mQueue = c.mQueue ∧
    decodedIds c1.log = decodedIds c.log ++
      (if w.input.buffers ≠ [] ∧ 0 ≤ d then [frameIndexToBitstreamId w.input.ordinal.frameIndex]
        else []) := by
  unfold dequeueInput at h
  split at h
  · simp at h
  · split at h
    · rename_i hb
      split at h
      · simp at h
        obtain ⟨rfl, rfl⟩ := h
        simp [hb]
      · simp at h
    · rename_i blk tl hb
      split at h
      · simp at h
        obtain ⟨rfl, rfl⟩ := h
        refine ⟨by simp only [hb, reduceCtorEq, if_false]; rw [← hb], ?_⟩
        unfold sendInputBufferToAccelerator
        by_cases hd : d < 0
        · have hd1 : ¬ 0 ≤ d := by omega
          simp [hd, hd1, reportError, emit, decodedIds_append, decodedIds]
        · have hd1 : 0 ≤ d := by omega
          simp [hd, hd1, hb, emit, decodedIds_append, decodedIds]
      · simp at h
    · simp at h

theorem dequeueOutput_spec {m : DrainMode} {w : C2Work} {c c1 : Component}
    (h : dequeueOutput m w c = some c1) :
    c1.mQueue = c.mQueue ∧ decodedIds c1.log = decodedIds c.log ∧
    ∃ wl, w.worklets = [wl] ∧
      c1.mPendingWorks = c.mPendingWorks ++ [{ w with worklets := [{ wl with
        output := { flags := 0, buffers := [], ordinal := w.input.ordinal } }] }] := by
  unfold dequeueOutput at h
  split at h
  · rename_i wl hw
    dsimp only at h
    repeat' split at h
    all_goals simp at h
    all_goals subst h
    all_goals simp [emit, decodedIds_append, decodedIds, hw]
  · simp at h

theorem onDequeueWork_started {d : Int} {c c1 : Component} {entry : WorkEntry}
    {rest : List WorkEntry} (hs : c.mComponentState = ComponentState.STARTED)
    (hq : c.mQueue = entry :: rest) (h : onDequeueWork d c = some c1) :
    c1.mQueue = rest ∧
    ∃ wl, entry.mWork.worklets = [wl] ∧
      c1.mPendingWorks = c.mPendingWorks ++ [{ entry.mWork with
        input := { entry.mWork.input with
          buffers := if entry.mWork.input.buffers = [] then [none]
            else entry.mWork.input.buffers }
        worklets := [{ wl with output :=
          { flags := 0, buffers := [], ordinal := entry.mWork.input.ordinal } }] }] ∧
      decodedIds c1.log = decodedIds c.log ++
        (if entry.mWork.input.buffers ≠ [] ∧ 0 ≤ d then
          [frameIndexToBitstreamId entry.mWork.input.ordinal.frameIndex] else []) := by
  simp only [onDequeueWork, EXPECT_RUNNING_OR_RETURN_ON_ERROR, hs, hq] at h
  simp only [reduceCtorEq, if_false, or_self, ne_eq, not_true_eq_false] at h
  split at h
  · simp at h
  · rename_i w1 c2 h2
    obtain ⟨rfl, a5, a6, a7⟩ := dequeueInput_decodes h2
    obtain ⟨b1, b2, wl, b3, b4⟩ := dequeueOutput_spec h
    exact ⟨by rw [b1, a6], wl, b3, by rw [b4, a5], by rw [b2, a7]⟩

theorem dequeueOutput_isSome (m : DrainMode) {w : C2Work} {wl : C2Worklet} (c : Component)
    (hw : w.worklets = [wl]) : (dequeueOutput m w c).isSome = true := by
  unfold dequeueOutput
  rw [hw]
  dsimp only
  repeat' split
  all_goals rfl

theorem onDequeueWork_returns {d : Int} {c : Component} {entry : WorkEntry}
    {rest : List WorkEntry} {wl : C2Worklet} (hs : c.mComponentState = ComponentState.STARTED)
    (hq : c.mQueue = entry :: rest) (hw : entry.mWork.worklets = [wl])
    (hb : (entry.mWork.input.buffers = [] ∧
        (entry.mDrainMode ≠ DrainMode.NO_DRAIN ∨
          hasFlag entry.mWork.input.flags FLAG_CODEC_CONFIG = true)) ∨
      ∃ blk, entry.mWork.input.buffers = [some (C2Buffer.linear blk)] ∧ 0 < blk.size) :
    (onDequeueWork d c).isSome = true := by
  simp only [onDequeueWork, EXPECT_RUNNING_OR_RETURN_ON_ERROR, hs, hq]
  simp only [reduceCtorEq, if_false, or_self, ne_eq, not_true_eq_false]
  rcases hb with ⟨hb, hm⟩ | ⟨blk, hb, hsz⟩
  · have hm1 : ¬ entry.mDrainMode = DrainMode.NO_DRAIN ∨
        hasFlag entry.mWork.input.flags FLAG_CODEC_CONFIG = true := hm
    simp only [dequeueInput, hb, List.length_nil, Nat.zero_le, not_true_eq_false, if_false,
      ne_eq, hm1, if_true]
    exact dequeueOutput_isSome _ _ hw
  · simp only [dequeueInput, hb, List.length_singleton, Nat.le_refl, not_true_eq_false,
      if_false, gt_iff_lt, hsz, if_true]
    exact dequeueOutput_isSome _ _ hw

/-- C11, the claim as stated fails: a work with an input buffer is queued and dispatched
while `dup` fails (it returns `-1`); the work is moved to the pending list, `C2_CORRUPTED` is
reported, and no `decode` is issued. -/
theorem decode_skipped_when_dup_fails :
    (run [Event.onStart VDAResult.SUCCESS, Event.onQueueWork (exampleWork 0 0),
        Event.onDequeueWork (-1)] (initial false)).map
        (fun c => (c.mPendingWorks.map (fun w => w.input.buffers.map Option.isSome),
          c.mQueue.length, decodedIds c.log,
          c.log.count (Effect.onError_nb c2_status_t.C2_CORRUPTED))) =
      some ([[true]], 0, [], 1) := by
  decide

/-- C11, amended: `onQueueWork` appends the work to the back of the incoming queue.
`onDequeueWork` in `STARTED` with a non-empty queue, when it returns, has removed the front of
the queue and appended it to the back of the pending list with the output of its worklet
reset (flags `0`, no buffers, the ordinal of the input) and a placeholder in an empty input;
it has issued one `decode` with the low 30 bits of the frame index when the work has an input
buffer and its descriptor could be duplicated, and none otherwise; it does return for a work
with one worklet and either one non-empty linear input buffer or no input and a drain mode or
the `CODEC_CONFIG` flag.  Hence after every execution the works of the pending list followed
by those of the incoming queue are in the order in which they were queued. -/
theorem queue_order :
    (∀ (w : C2Work) (c : Component), c.mComponentState ≠ ComponentState.ERROR →
      c.mComponentState ≠ ComponentState.UNINITIALIZED →
      ∃ c1, onQueueWork w c = some c1 ∧
        c1.mQueue = c.mQueue ++ [{ mWork := w, mDrainMode := queuedDrainMode w }] ∧
        c1.mPendingWorks = c.mPendingWorks) ∧
    (∀ (d : Int) (c c1 : Component) (entry : WorkEntry) (rest : List WorkEntry),
      c.mComponentState = ComponentState.STARTED → c.mQueue = entry :: rest →
      onDequeueWork d c = some c1 →
      c1.mQueue = rest ∧
      ∃ wl, entry.mWork.worklets = [wl] ∧
        c1.mPendingWorks = c.mPendingWorks ++ [{ entry.mWork with
          input := { entry.mWork.input with
            buffers := if entry.mWork.input.buffers = [] then [none]
              else entry.mWork.input.buffers }
          worklets := [{ wl with output :=
            { flags := 0, buffers := [], ordinal := entry.mWork.input.ordinal } }] }] ∧
        decodedIds c1.log = decodedIds c.log ++
          (if entry.mWork.input.buffers ≠ [] ∧ 0 ≤ d then
            [((entry.mWork.input.ordinal.frameIndex % 2 ^ 30 : Nat) : Int)] else [])) ∧
    (∀ (d : Int) (c : Component) (entry : WorkEntry) (rest : List WorkEntry) (wl : C2Worklet),
      c.mComponentState = ComponentState.STARTED → c.mQueue = entry :: rest →
      entry.mWork.worklets = [wl] →
      ((entry.mWork.input.buffers = [] ∧
          (entry.mDrainMode ≠ DrainMode.NO_DRAIN ∨
            hasFlag entry.mWork.input.flags FLAG_CODEC_CONFIG = true)) ∨
        ∃ blk, entry.mWork.input.buffers = [some (C2Buffer.linear blk)] ∧ 0 < blk.size) →
      (onDequeueWork d c).isSome = true) ∧
    (∀ (es : List Event) (secureMode : Bool) (c : Component),
      run es (initial secureMode) = some c →
      (c.mPendingWorks.map workKey ++ c.mQueue.map fun e => workKey e.mWork).Sublist
        ((queuedWorks es).map workKey)) := by
  refine ⟨fun w c h1 h2 => ?_, fun d c c1 entry rest hs hq h => ?_,
    fun d c entry rest wl hs hq hw hb => onDequeueWork_returns hs hq hw hb,
    fun es s c h => ?_⟩
  · simp only [onQueueWork, EXPECT_RUNNING_OR_RETURN_ON_ERROR, h1, h2, if_false]
    exact ⟨_, rfl, by simp [emit, queuedDrainMode], by simp [emit]⟩
  · rw [← frameIndexToBitstreamId_eq]
    exact onDequeueWork_started hs hq h
  · have hi : OrderInvariant [] (workView (initial s)) := by
      simp [OrderInvariant, heldKeys, workView, initial, batches]
    simpa [heldKeys, workView] using (orderInvariant_run h hi).1

theorem queue_order_witness :
    run exampleQueueTrace (initial false) = some (runD exampleQueueTrace (initial false)) ∧
      (runD exampleQueueTrace (initial false)).mPendingWorks.map workKey = [(0, 0)] ∧
      ((runD exampleQueueTrace (initial false)).mQueue.map fun e => workKey e.mWork) =
        [(1, 0), (2, 0)] ∧
      decodedIds (runD exampleQueueTrace (initial false)).log = [0] ∧
      ((runD exampleQueueTrace (initial false)).mPendingWorks.map workKey ++
          (runD exampleQueueTrace (initial false)).mQueue.map fun e => workKey e.mWork).Sublist
        ((queuedWorks exampleQueueTrace).map workKey) :=
  have hr : run exampleQueueTrace (initial false) =
      some (runD exampleQueueTrace (initial false)) := run_eq_some_runD (by decide)
  ⟨hr, by decide, by decide, by decide,
    queue_order.2.2.2 exampleQueueTrace false (runD exampleQueueTrace (initial false)) hr⟩

/-! ## The shape of the pending works -/

theorem pending_reportFinishedWorkIfAny {c c1 : Component}
    (h : reportFinishedWorkIfAny c = some c1) :
    c1.mPendingWorks.Sublist c.mPendingWorks := by
  unfold reportFinishedWorkIfAny at h
  split at h
  · simp at h
  · rename_i kept finished hl
    obtain ⟨ks, fs, h1, -, h3, -, -⟩ := reportFinishedWorkLoop_spec c _ _ _ _ _ hl
    simp only [List.nil_append] at h1
    subst h1
    split at h <;> simp only [Option.some.injEq] at h <;> subst h <;> simpa [emit] using h3

theorem pending_onStart {r : VDAResult} {c c1 : Component} (h : onStart r c = some c1) :
    c1.mPendingWorks = c.mPendingWorks := by
  unfold onStart at h
  repeat' (first | split at h | (dsimp only at h; split at h))
  all_goals try (simp at h; done)
  all_goals simp at h
  all_goals subst h
  all_goals simp [emit]

theorem pending_onStop {c c1 : Component} (h : onStop c = some c1) :
    c1.mPendingWorks = c.mPendingWorks := by
  unfold onStop EXPECT_RUNNING_OR_RETURN_ON_ERROR at h
  repeat' (first | split at h | (dsimp only at h; split at h))
  all_goals try (simp at h; done)
  all_goals simp at h
  all_goals subst h
  all_goals simp [emit, abandonQueue]

theorem pending_onQueueWork {w : C2Work} {c c1 : Component} (h : onQueueWork w c = some c1) :
    c1.mPendingWorks = c.mPendingWorks := by
  unfold onQueueWork EXPECT_RUNNING_OR_RETURN_ON_ERROR at h
  repeat' (first | split at h | (dsimp only at h; split at h))
  all_goals try (simp at h; done)
  all_goals simp at h
  all_goals subst h
  all_goals simp [emit]

theorem pending_onDrain {m : DrainMode} {c c1 : Component} (h : onDrain m c = some c1) :
    c1.mPendingWorks = c.mPendingWorks := by
  unfold onDrain EXPECT_RUNNING_OR_RETURN_ON_ERROR at h
  repeat' (first | split at h | (dsimp only at h; split at h))
  all_goals try (simp at h; done)
  all_goals simp at h
  all_goals subst h
  all_goals simp [emit, reportError]

theorem pending_onFlush {c c1 : Component} (h : onFlush c = some c1) :
    c1.mPendingWorks = c.mPendingWorks := by
  unfold onFlush EXPECT_RUNNING_OR_RETURN_ON_ERROR at h
  repeat' (first | split at h | (dsimp only at h; split at h))
  all_goals try (simp at h; done)
  all_goals simp at h
  all_goals subst h
  all_goals simp [emit, abandonQueue]

theorem shape_set {l : List C2Work} {i : Nat} {w1 : C2Work}
    (hl : ∀ x ∈ l, PendingShape x) (hw : PendingShape w1) :
    ∀ x ∈ l.set i w1, PendingShape x := by
  intro x hx
  rcases List.mem_or_eq_of_mem_set hx with hx | rfl
  · exact hl x hx
  · exact hw

theorem shape_onDequeueWork {d : Int} {c c1 : Component} (h : onDequeueWork d c = some c1)
    (hi : ∀ w ∈ c.mPendingWorks, PendingShape w) : ∀ w ∈ c1.mPendingWorks, PendingShape w := by
  have h0 := h
  unfold onDequeueWork EXPECT_RUNNING_OR_RETURN_ON_ERROR at h
  repeat' split at h
  all_goals try (simp at h; done)
  all_goals try (simp at h; subst h; exact hi)
  rename_i entry rest hq _ hs _ w1 c2 h2
  obtain ⟨-, wl, hw, hp, -⟩ := onDequeueWork_started (not_not.mp hs) hq h0
  have hlen : entry.mWork.input.buffers.length ≤ 1 := by
    unfold dequeueInput at h2
    split at h2
    · simp at h2
    · rename_i hl; exact not_not.mp hl
  intro w hm
  rw [hp, List.mem_append, List.mem_singleton] at hm
  rcases hm with hm | rfl
  · exact hi w hm
  · refine ⟨?_, _, rfl, rfl, rfl⟩
    dsimp only
    split
    · rfl
    · rename_i hne
      have : entry.mWork.input.buffers.length ≠ 0 := by
        simpa using hne
      omega

theorem shape_onInputBufferDone {b : Int} {c c1 : Component}
    (h : onInputBufferDone b c = some c1)
    (hi : ∀ w ∈ c.mPendingWorks, PendingShape w) : ∀ w ∈ c1.mPendingWorks, PendingShape w := by
  unfold onInputBufferDone EXPECT_RUNNING_OR_RETURN_ON_ERROR at h
  repeat' split at h
  all_goals try (simp at h; done)
  all_goals try (simp at h; subst h; simpa [reportError, emit] using hi)
  rename_i _ _ _ i _ _ work hg _ bs hb
  have hwork : PendingShape work := hi work (List.getElem?_mem hg)
  have hlen : bs.length = work.input.buffers.length := by
    unfold resetFront at hb
    split at hb
    · simp at hb
    · rename_i hbb
      simp at hb; subst hb; simp [hbb]
  intro w hm
  have hm1 := (pending_reportFinishedWorkIfAny h).subset hm
  refine shape_set hi ?_ w hm1
  obtain ⟨a1, wl, a2, a3, a4⟩ := hwork
  exact ⟨by dsimp only; rw [hlen, a1], wl, a2, a3, a4⟩

theorem shape_onOutputBufferDone {p b : Int} {c c1 : Component}
    (h : onOutputBufferDone p b c = some c1)
    (hi : ∀ w ∈ c.mPendingWorks, PendingShape w) : ∀ w ∈ c1.mPendingWorks, PendingShape w := by
  rcases onOutputBufferDone_cases h with rfl | rfl | ⟨w, i, info, work, gb, wl, wls, -, -,
    -, hw, -, -, hwl, h1⟩
  · exact hi
  · simpa [reportError, emit] using hi
  · have hwork : PendingShape work := hi work (List.getElem?_mem hw)
    intro x hm
    have hm1 := (pending_reportFinishedWorkIfAny h1).subset hm
    refine shape_set hi ?_ x hm1
    obtain ⟨a1, wl0, a2, a3, a4⟩ := hwork
    rw [hwl] at a2
    simp only [List.cons.injEq] at a2
    obtain ⟨rfl, rfl⟩ := a2
    exact ⟨a1, _, rfl, a3, a4⟩

theorem pending_onDrainDoneTail {c c1 : Component} (h : onDrainDoneTail c = some c1) :
    c1.mPendingWorks = [] := by
  unfold onDrainDoneTail at h
  split at h
  · simp at h
  · split at h
    · simp at h
    · rename_i he
      simp only [Option.some.injEq] at h
      subst h
      simpa [emit] using he

theorem pending_onDrainDone {c c1 : Component} (h : onDrainDone c = some c1) :
    c1.mPendingWorks = c.mPendingWorks ∨ c1.mPendingWorks = [] := by
  unfold onDrainDone at h
  repeat' split at h
  · exact Or.inr (pending_onDrainDoneTail h)
  · simp at h; subst h; exact Or.inl rfl
  · simp at h; subst h; exact Or.inl (by simp [reportError, emit])
  · exact Or.inr (pending_onDrainDoneTail h)

theorem pending_onResetDone {c c1 : Component} (h : onResetDone c = some c1) :
    c1.mPendingWorks = c.mPendingWorks ∨ c1.mPendingWorks = [] := by
  unfold onResetDone at h
  repeat' split at h
  · simp at h; subst h; exact Or.inl rfl
  · unfold onFlushDone at h
    simp only [Option.some.injEq] at h
    subst h
    have := congrArg WorkView.pending (workView_reportAbandonedWorks c)
    exact Or.inr (by simpa [workView, emit] using this)
  · unfold onStopDone at h
    split at h
    · simp at h
    · simp only [Option.some.injEq] at h
      subst h
      have := congrArg WorkView.pending (workView_reportAbandonedWorks c)
      simp only [workView] at this
      refine Or.inr ?_
      have hsd : ∀ x : Component, (stopDequeueThread x).mPendingWorks = x.mPendingWorks := by
        intro x; unfold stopDequeueThread; split <;> simp
      simp only [emit, hsd]
      split <;> simp [emit, this]
  · simp at h; subst h; exact Or.inl (by simp [reportError, emit])

theorem shape_of_pending {c c1 : Component}
    (h : c1.mPendingWorks = c.mPendingWorks ∨ c1.mPendingWorks = [])
    (hi : ∀ w ∈ c.mPendingWorks, PendingShape w) : ∀ w ∈ c1.mPendingWorks, PendingShape w := by
  rcases h with h | h <;> rw [h]
  · exact hi
  · simp

theorem shape_step {e : Event} {c c1 : Component} (h : step e c = some c1)
    (hi : ∀ w ∈ c.mPendingWorks, PendingShape w) : ∀ w ∈ c1.mPendingWorks, PendingShape w := by
  cases e <;> simp only [step] at h
  · exact shape_of_pending (Or.inl (pending_onStart h)) hi
  · exact shape_of_pending (Or.inl (pending_onStop h)) hi
  · exact shape_of_pending (Or.inl (pending_onQueueWork h)) hi
  · exact shape_onDequeueWork h hi
  · exact shape_onInputBufferDone h hi
  · exact shape_of_pending (Or.inl (sameWorks_onOutputBufferReturned h).2.2.1) hi
  · exact shape_onOutputBufferDone h hi
  · exact shape_of_pending (Or.inl (pending_onDrain h)) hi
  · exact shape_of_pending (pending_onDrainDone h) hi
  · exact shape_of_pending (Or.inl (pending_onFlush h)) hi
  · exact shape_of_pending (pending_onResetDone h) hi
  · exact shape_of_pending (Or.inl (sameWorks_onOutputFormatChanged h).2.2.1) hi
  · exact shape_of_pending (Or.inl (sameWorks_onVisibleRectChanged h).2.2.1) hi
  · simp at h; subst h
    exact shape_of_pending (Or.inl (sameWorks_notifyError _ _).2.2.1) hi
  · split at h <;> simp at h <;> subst h
    · exact shape_of_pending (Or.inl (sameWorks_dequeueThreadLoopIteration _ _ _).2.2.1) hi
    · exact hi

theorem shape_of_reachable {c : Component} (h : Reachable c) :
    ∀ w ∈ c.mPendingWorks, PendingShape w := by
  induction h with
  | init s => simp [initial]
  | step e _ hs ih => exact shape_step hs ih

/-! ## Completion of drain, flush and stop -/

theorem abandonInvariant_workStep {q hist : List C2Work} {v v1 : WorkView}
    (h : WorkStep q v v1) (hi : AbandonInvariant hist v) :
    AbandonInvariant (hist ++ q) v1 := by
  obtain ⟨i1, i2⟩ := hi
  have hnil : v.state ≠ ComponentState.FLUSHING → v.state ≠ ComponentState.STOPPING →
      v.abandoned = [] := by
    intro h1 h2
    by_contra hne
    rcases i2 hne with h3 | h3
    · exact h1 h3
    · exact h2 h3
  have hsub : ∀ l : List (Nat × Nat), l.Sublist (pipelineKeys v) →
      l.Sublist ((hist ++ q).map workKey) := by
    intro l hl
    rw [List.map_append]
    exact (hl.trans i1).trans (List.sublist_append_left _ _)
  cases h with
  | same => exact ⟨hsub _ (List.Sublist.refl _), i2⟩
  | ignored => exact ⟨hsub _ (List.Sublist.refl _), i2⟩
  | start _ hs =>
    have ha := hnil (by simp [hs]) (by simp [hs])
    exact ⟨hsub _ (List.Sublist.refl _), by simp [ha]⟩
  | queue _ w h1 h2 =>
    refine ⟨?_, i2⟩
    rw [List.map_append]
    simp only [pipelineKeys, List.map_append, List.map_cons, List.map_nil, ← List.append_assoc]
    exact List.Sublist.append i1 (List.Sublist.refl _)
  | dispatch _ entry rest w2 hs hq hk hl hd =>
    have ha := hnil (by simp [hs]) (by simp [hs])
    refine ⟨hsub _ ?_, by simp [ha]⟩
    simp [pipelineKeys, ha, hq, hk]
  | dispatchDrain _ entry rest w2 hs hq hk hl hd =>
    have ha := hnil (by simp [hs]) (by simp [hs])
    refine ⟨hsub _ ?_, by simp [ha]⟩
    simp [pipelineKeys, ha, hq, hk]
  | report _ updated kept finished h1 h2 hf hk hfin hok =>
    refine ⟨hsub _ ?_, i2⟩
    simp only [pipelineKeys]
    rw [forall₂_workKey_map hf]
    exact List.Sublist.append (List.Sublist.append (hk.map _) (List.Sublist.refl _))
      (List.Sublist.refl _)
  | drainMark _ front back m hq hd =>
    refine ⟨hsub _ ?_, i2⟩
    simp [pipelineKeys, hq]
  | drainNow _ m hs hq hp =>
    have ha := hnil (by simp [hs]) (by simp [hs])
    exact ⟨hsub _ (List.Sublist.refl _), by simp [ha]⟩
  | drainDone _ hs hp =>
    refine ⟨hsub _ (List.Sublist.refl _), ?_⟩
    intro hne
    rcases hs with hs | hs
    · have ha := hnil (by simp [hs]) (by simp [hs])
      exact absurd ha hne
    · simp [afterDrain, hs]
  | drainDoneEOS _ w w1 hs hp he hk hr =>
    refine ⟨hsub _ ?_, ?_⟩
    · simp [pipelineKeys]
    · intro hne
      rcases hs with hs | hs
      · have ha := hnil (by simp [hs]) (by simp [hs])
        exact absurd ha hne
      · simp [afterDrain, hs]
  | flush _ hs =>
    refine ⟨hsub _ ?_, fun _ => Or.inl rfl⟩
    simp [pipelineKeys, Function.comp_def]
  | stop _ h1 h2 =>
    refine ⟨hsub _ ?_, fun _ => Or.inr rfl⟩
    simp [pipelineKeys, Function.comp_def]
  | resetDone _ hs =>
    refine ⟨hsub _ ?_, by simp⟩
    simp [pipelineKeys]

theorem abandonInvariant_run {es : List Event} {hist : List C2Work} {c c1 : Component}
    (h : run es c = some c1) (hi : AbandonInvariant hist (workView c)) :
    AbandonInvariant (hist ++ queuedWorks es) (workView c1) := by
  induction es generalizing c hist with
  | nil => simp [run] at h; subst h; simpa [queuedWorks] using hi
  | cons e es ih =>
    simp only [run, Option.bind_eq_some] at h
    obtain ⟨c2, h2, h3⟩ := h
    have := ih h3 (abandonInvariant_workStep (workStep_step h2) hi)
    simpa [queuedWorks, List.append_assoc] using this

theorem log_reportAbandonedWorks (c : Component) :
    (reportAbandonedWorks c).log = c.log ++
      (batchOf (c.mPendingWorks.map abandonWork ++ c.mAbandonedWorks.map abandonWork)).map
        Effect.onWorkDone_nb := by
  unfold reportAbandonedWorks batchOf
  dsimp only
  split
  · rename_i hne
    rw [if_neg (by simpa using hne)]
    simp [emit]
  · rename_i hne
    rw [if_pos (by simpa using hne)]
    simp

theorem abandonWork_spec (w : C2Work) :
    (abandonWork w).result = c2_status_t.C2_NOT_FOUND ∧
    (∀ b, (abandonWork w).input.buffers.head? = some b → b = none) ∧
    (abandonWork w).input.buffers.length = w.input.buffers.length ∧
    (abandonWork w).input.buffers.tail = w.input.buffers.tail ∧
    (abandonWork w).input.flags = w.input.flags ∧
    (abandonWork w).input.ordinal = w.input.ordinal ∧
    (abandonWork w).worklets = w.worklets := by
  unfold abandonWork
  cases h : w.input.buffers <;> simp

theorem onResetDone_flushing (c : Component)
    (hs : c.mComponentState = ComponentState.FLUSHING) :
    ∃ c1, onResetDone c = some c1 ∧
      c1.mComponentState = ComponentState.STARTED ∧ c1.mPendingWorks = [] ∧
      c1.mAbandonedWorks = [] ∧ c1.mPendingOutputEOS = false ∧ c1.mQueue = c.mQueue ∧
      c1.log = c.log ++
        (batchOf ((c.mPendingWorks ++ c.mAbandonedWorks).map abandonWork)).map
          Effect.onWorkDone_nb ++ [Effect.postTask Task.onDequeueWork] := by
  simp only [onResetDone, hs, onFlushDone, reduceCtorEq, if_false, if_true]
  refine ⟨_, rfl, rfl, ?_, ?_, ?_, ?_, ?_⟩
  · simpa [workView, emit] using congrArg WorkView.pending (workView_reportAbandonedWorks c)
  · simpa [workView, emit] using congrArg WorkView.abandoned (workView_reportAbandonedWorks c)
  · simpa [workView, emit] using congrArg WorkView.eos (workView_reportAbandonedWorks c)
  · simpa [workView, emit] using congrArg WorkView.queue (workView_reportAbandonedWorks c)
  · simp [emit, log_reportAbandonedWorks]

/-- C13: in every state in `FLUSHING`, `onResetDone` returns, delivers to the listener
exactly one batch made of the works of the pending list followed by the works of the
abandoned list, and no batch when both lists are empty; afterwards both lists are empty,
`mPendingOutputEOS` is false and the inner state is `STARTED`.  Every delivered work has
result `C2_NOT_FOUND` and a cleared first input slot and is otherwise as it was.  After every
execution the works of the pending list followed by those of the abandoned list are in the
order in which they were queued. -/
theorem flush_completion :
    (∀ c : Component, c.mComponentState = ComponentState.FLUSHING →
      ∃ c1, onResetDone c = some c1 ∧
        c1.mComponentState = ComponentState.STARTED ∧ c1.mPendingWorks = [] ∧
        c1.mAbandonedWorks = [] ∧ c1.mPendingOutputEOS = false ∧
        c1.log = c.log ++
          (batchOf ((c.mPendingWorks ++ c.mAbandonedWorks).map abandonWork)).map
            Effect.onWorkDone_nb ++ [Effect.postTask Task.onDequeueWork]) ∧
    (batchOf ([] : List C2Work) = [] ∧ ∀ works : List C2Work, works ≠ [] →
      batchOf works = [works]) ∧
    (∀ w : C2Work,
      (abandonWork w).result = c2_status_t.C2_NOT_FOUND ∧
      (∀ b, (abandonWork w).input.buffers.head? = some b → b = none) ∧
      (abandonWork w).input.buffers.length = w.input.buffers.length ∧
      (abandonWork w).input.buffers.tail = w.input.buffers.tail ∧
      (abandonWork w).input.flags = w.input.flags ∧
      (abandonWork w).input.ordinal = w.input.ordinal ∧
      (abandonWork w).worklets = w.worklets) ∧
    (∀ (es : List Event) (secureMode : Bool) (c : Component),
      run es (initial secureMode) = some c →
      ((c.mPendingWorks ++ c.mAbandonedWorks).map workKey).Sublist
        ((queuedWorks es).map workKey)) := by
  refine ⟨fun c hs => ?_, ⟨rfl, fun works hne => ?_⟩, abandonWork_spec, fun es s c h => ?_⟩
  · obtain ⟨c1, a1, a2, a3, a4, a5, -, a7⟩ := onResetDone_flushing c hs
    exact ⟨c1, a1, a2, a3, a4, a5, a7⟩
  · cases works with
    | nil => exact absurd rfl hne
    | cons a l => rfl
  · have hi : AbandonInvariant [] (workView (initial s)) := by
      simp [AbandonInvariant, pipelineKeys, workView, initial]
    have h1 := (abandonInvariant_run h hi).1
    simp only [pipelineKeys, workView, List.nil_append] at h1
    rw [List.map_append]
    exact (List.sublist_append_left _ _).trans h1

theorem flush_completion_witness :
    (runD exampleFlushTrace (initial false)).mComponentState = ComponentState.FLUSHING ∧
      ((runD exampleFlushTrace (initial false)).mPendingWorks ++
        (runD exampleFlushTrace (initial false)).mAbandonedWorks).map workKey =
        [(0, 0), (1, 0), (2, 0)] ∧
      ∃ c1, onResetDone (runD exampleFlushTrace (initial false)) = some c1 ∧
        c1.mComponentState = ComponentState.STARTED ∧
        c1.log = (runD exampleFlushTrace (initial false)).log ++
          (batchOf (((runD exampleFlushTrace (initial false)).mPendingWorks ++
            (runD exampleFlushTrace (initial false)).mAbandonedWorks).map abandonWork)).map
            Effect.onWorkDone_nb ++ [Effect.postTask Task.onDequeueWork] :=
  ⟨by decide, by decide,
    (flush_completion.1 (runD exampleFlushTrace (initial false)) (by decide)).elim
      fun c1 h => ⟨c1, h.1, h.2.1, h.2.2.2.2.2⟩⟩

theorem onFlush_started {c : Component} (hs : c.mComponentState = ComponentState.STARTED) :
    onFlush c = some { abandonQueue (emit Effect.vdaReset c) with
      mComponentState := ComponentState.FLUSHING } := by
  simp [onFlush, EXPECT_RUNNING_OR_RETURN_ON_ERROR, hs]

theorem onFlush_flushing {c : Component} (hs : c.mComponentState = ComponentState.FLUSHING) :
    onFlush c = some c := by
  simp [onFlush, hs]

/-- C14: from `STARTED`, with any incoming queue and any pending list, the sequence
`onFlush`, `onFlush`, `onResetDone` runs to its end, calls `reset` of the VDA exactly once and
leaves the inner state `STARTED` with incoming queue, pending list and abandoned list empty;
the state after the two flushes is the state after one. -/
theorem idempotent_flush (c : Component) (hs : c.mComponentState = ComponentState.STARTED) :
    run [Event.onFlush, Event.onFlush] c = run [Event.onFlush] c ∧
    ∃ c2, run [Event.onFlush, Event.onFlush, Event.onResetDone] c = some c2 ∧
      c2.mComponentState = ComponentState.STARTED ∧ c2.mQueue = [] ∧
      c2.mPendingWorks = [] ∧ c2.mAbandonedWorks = [] ∧
      c2.log.count Effect.vdaReset = c.log.count Effect.vdaReset + 1 := by
  have h1 := onFlush_started hs
  have h2 : onFlush { abandonQueue (emit Effect.vdaReset c) with
      mComponentState := ComponentState.FLUSHING } =
      some { abandonQueue (emit Effect.vdaReset c) with
        mComponentState := ComponentState.FLUSHING } := onFlush_flushing rfl
  obtain ⟨c2, a1, a2, a3, a4, -, a6, a7⟩ := onResetDone_flushing
    { abandonQueue (emit Effect.vdaReset c) with mComponentState := ComponentState.FLUSHING } rfl
  refine ⟨by simp [run, step, h1, h2], c2, by simp [run, step, h1, h2, a1], a2, ?_, a3, a4, ?_⟩
  · rw [a6]; simp [abandonQueue]
  · rw [a7]
    simp only [List.count_append, abandonQueue, emit]
    have hb : ∀ works : List C2Work,
        ((batchOf works).map Effect.onWorkDone_nb).count Effect.vdaReset = 0 := by
      intro works
      unfold batchOf
      split <;> simp
    rw [hb]
    simp

theorem idempotent_flush_witness :
    (runD exampleQueueTrace (initial false)).mComponentState = ComponentState.STARTED ∧
      (runD exampleQueueTrace (initial false)).mQueue.length = 2 ∧
      (runD exampleQueueTrace (initial false)).mPendingWorks.length = 1 ∧
      run [Event.onFlush, Event.onFlush] (runD exampleQueueTrace (initial false)) =
        run [Event.onFlush] (runD exampleQueueTrace (initial false)) ∧
      ∃ c2, run [Event.onFlush, Event.onFlush, Event.onResetDone]
          (runD exampleQueueTrace (initial false)) = some c2 ∧
        c2.mComponentState = ComponentState.STARTED ∧ c2.mQueue = [] ∧
        c2.mPendingWorks = [] ∧ c2.mAbandonedWorks = [] ∧
        c2.log.count Effect.vdaReset =
          (runD exampleQueueTrace (initial false)).log.count Effect.vdaReset + 1 :=
  ⟨by decide, by decide, by decide,
    idempotent_flush (runD exampleQueueTrace (initial false)) (by decide)⟩

/-! ## Frames of the teardown -/

theorem teardown_reportError (e : c2_status_t) (c : Component) :
    teardownView c = teardownView (reportError e c) := by
  simp [teardownView, reportError, emit]

theorem teardown_stopDequeueThread (c : Component) : teardownView c = teardownView (stopDequeueThread c) := by
  unfold stopDequeueThread; split <;> simp [teardownView]

theorem teardown_appendOutputBuffer {d : Int} {b : C2GraphicBlock} {p : Nat}
    {c c1 : Component} (h : appendOutputBuffer d b p c = some c1) : teardownView c = teardownView c1 := by
  unfold appendOutputBuffer at h
  repeat' split at h
  all_goals try (simp at h; done)
  all_goals simp at h
  all_goals subst h
  all_goals simp [teardownView, reportError, emit]

theorem teardown_appendSecureOutputBuffer {a : Bool} {f : HalPixelFormat} {d : Int}
    {b : C2GraphicBlock} {p : Nat} {c c1 : Component}
    (h : appendSecureOutputBuffer a f d b p c = some c1) : teardownView c = teardownView c1 := by
  unfold appendSecureOutputBuffer at h
  repeat' split at h
  all_goals try (simp at h; done)
  all_goals simp at h
  all_goals subst h
  all_goals simp [teardownView, reportError, emit]

theorem teardown_sendOutputBufferToAccelerator {i : Nat} {c c1 : Component}
    (h : sendOutputBufferToAccelerator i c = some c1) : teardownView c = teardownView c1 := by
  unfold sendOutputBufferToAccelerator at h
  repeat' (first | split at h | (dsimp only at h; split at h))
  all_goals try (simp at h; done)
  all_goals simp at h
  all_goals subst h
  all_goals simp [teardownView, reportError, emit]

theorem teardown_sendAllFrom {n i : Nat} {c c1 : Component}
    (h : sendAllFrom n i c = some c1) : teardownView c = teardownView c1 := by
  induction n generalizing i c with
  | zero => simp [sendAllFrom] at h; subst h; exact rfl
  | succ n ih =>
    simp only [sendAllFrom, Option.bind_eq_some] at h
    obtain ⟨c2, h2, h3⟩ := h
    exact (teardown_sendOutputBufferToAccelerator h2).trans (ih h3)

theorem teardown_startDequeueThread {s r : Bool} {c c1 : Component}
    (h : startDequeueThread s c = some (r, c1)) : teardownView c = teardownView c1 := by
  unfold startDequeueThread at h
  repeat' split at h
  all_goals try (simp at h; done)
  all_goals simp at h
  all_goals obtain ⟨-, rfl⟩ := h
  all_goals simp [teardownView]

theorem teardown_allocateLoop {env : BlockPoolEnv} {n i k : Nat} {c c1 : Component}
    {err : c2_status_t} (h : allocateLoop env n i k c = some (err, c1)) : teardownView c = teardownView c1 := by
  induction n generalizing i k c with
  | zero => simp [allocateLoop] at h; obtain ⟨-, rfl⟩ := h; exact rfl
  | succ n ih =>
    unfold allocateLoop at h
    dsimp only at h
    split at h
    · simp at h; obtain ⟨-, rfl⟩ := h
      simp [teardownView, reportError, emit]
    · split at h
      · simp at h; obtain ⟨-, rfl⟩ := h
        simp [teardownView, reportError, emit]
      · simp only [Option.bind_eq_some] at h
        obtain ⟨c2, h2, h3⟩ := h
        refine Eq.trans ?_ (ih h3)
        split at h2
        · exact teardown_appendSecureOutputBuffer h2
        · exact teardown_appendOutputBuffer h2

theorem teardown_allocateBuffersFromBlockAllocator {env : BlockPoolEnv} {c c1 : Component}
    {err : c2_status_t} (h : allocateBuffersFromBlockAllocator env c = some (err, c1)) :
    teardownView c = teardownView c1 := by
  unfold allocateBuffersFromBlockAllocator at h
  dsimp only at h
  have h0 : ∀ e, teardownView c = teardownView (emit (Effect.vdaAssignPictureBuffers e) (stopDequeueThread c)) :=
    fun e => (teardown_stopDequeueThread c).trans
      (by simp [teardownView, emit])
  have h00 : ∀ e, teardownView c = teardownView { emit (Effect.vdaAssignPictureBuffers e) (stopDequeueThread c) with
      mGraphicBlocks := [] } := fun e => (h0 e).trans (by simp [teardownView])
  repeat' split at h
  all_goals try (simp at h; done)
  all_goals simp at h
  all_goals obtain ⟨-, rfl⟩ := h
  · exact (h0 _).trans (teardown_reportError _ _)
  · exact (h00 _).trans (teardown_reportError _ _)
  · exact (h00 _).trans (teardown_reportError _ _)
  · rename_i h1 _
    exact (h00 _).trans (teardown_allocateLoop h1 :)
  · rename_i h1 _ _ _ h2
    exact ((h00 _).trans (teardown_allocateLoop h1 :)).trans
      ((Eq.trans (by simp [teardownView]) (teardown_startDequeueThread h2 :)))
  · rename_i h1 _ _ _ h2
    exact (((h00 _).trans (teardown_allocateLoop h1 :)).trans
      ((Eq.trans (by simp [teardownView]) (teardown_startDequeueThread h2 :)))).trans
      (teardown_reportError _ _)

theorem teardown_tryChangeOutputFormat {env : BlockPoolEnv} {c c1 : Component}
    (h : tryChangeOutputFormat env c = some c1) : teardownView c = teardownView c1 := by
  unfold tryChangeOutputFormat at h
  repeat' (first | split at h | (dsimp only at h; split at h))
  all_goals try (simp at h; done)
  · rename_i h1 _
    simp at h; subst h
    exact (Eq.trans (by simp [teardownView, setOutputFormatCrop])
      (teardown_allocateBuffersFromBlockAllocator h1 :)).trans (teardown_reportError _ _)
  · rename_i h1 _
    simp only [Option.map_eq_some'] at h
    obtain ⟨c4, h4, rfl⟩ := h
    exact ((Eq.trans (by simp [teardownView, setOutputFormatCrop])
      (teardown_allocateBuffersFromBlockAllocator h1 :)).trans
      (teardown_sendAllFrom h4 :)).trans (by simp [teardownView])

theorem teardown_onOutputBufferReturned {env : BlockPoolEnv} {b : C2GraphicBlock} {p : Nat}
    {c c1 : Component} (h : onOutputBufferReturned env b p c = some c1) : teardownView c = teardownView c1 := by
  unfold onOutputBufferReturned at h
  repeat' (first | split at h | (dsimp only at h; split at h))
  all_goals try (simp at h; done)
  all_goals try (simp at h; subst h; first | exact rfl | exact teardown_reportError _ _)
  · exact Eq.trans (by simp [teardownView]) (teardown_tryChangeOutputFormat h :)
  · exact Eq.trans (by simp [teardownView]) (teardown_sendOutputBufferToAccelerator h :)

theorem teardown_onOutputFormatChanged {env : BlockPoolEnv} {f : VideoFormat}
    {c c1 : Component} (h : onOutputFormatChanged env f c = some c1) : teardownView c = teardownView c1 := by
  unfold onOutputFormatChanged EXPECT_RUNNING_OR_RETURN_ON_ERROR at h
  repeat' (first | split at h | (dsimp only at h; split at h))
  all_goals try (simp at h; done)
  all_goals try (simp at h; subst h; exact rfl)
  exact Eq.trans (by simp [teardownView]) (teardown_tryChangeOutputFormat h :)

theorem teardown_onVisibleRectChanged {r : Rect} {c c1 : Component}
    (h : onVisibleRectChanged r c = some c1) : teardownView c = teardownView c1 := by
  unfold onVisibleRectChanged EXPECT_RUNNING_OR_RETURN_ON_ERROR at h
  repeat' split at h
  all_goals try (simp at h; done)
  all_goals simp at h
  all_goals subst h
  all_goals simp [teardownView, setOutputFormatCrop]

theorem teardown_notifyError (r : VDAResult) (c : Component) :
    teardownView c = teardownView (notifyError r c) := by
  cases r <;> simp [notifyError, teardownView, reportError, emit]

theorem teardown_reportFinishedWorkIfAny {c c1 : Component}
    (h : reportFinishedWorkIfAny c = some c1) : teardownView c = teardownView c1 := by
  unfold reportFinishedWorkIfAny at h
  split at h
  · simp at h
  · split at h <;> simp at h <;> subst h <;> simp [teardownView, emit]

theorem teardown_reportAbandonedWorks (c : Component) :
    teardownView c = teardownView (reportAbandonedWorks c) := by
  unfold reportAbandonedWorks
  simp only []
  split <;> simp [teardownView, emit]

theorem teardown_reportEOSWork {c c1 : Component}
    (h : reportEOSWork c = some c1) : teardownView c = teardownView c1 := by
  unfold reportEOSWork at h
  split at h
  · split at h
    · simp at h
    · simp at h; subst h; simp [teardownView, emit]
  · simp at h; subst h; simp [teardownView, reportError, emit]

theorem teardown_onQueueWork {w : C2Work} {c c1 : Component}
    (h : onQueueWork w c = some c1) : teardownView c = teardownView c1 := by
  unfold onQueueWork EXPECT_RUNNING_OR_RETURN_ON_ERROR at h
  repeat' split at h
  all_goals try (simp at h; done)
  all_goals simp at h
  all_goals subst h
  all_goals simp [teardownView, emit]

theorem teardown_dequeueInput {d : Int} {m : DrainMode} {w w1 : C2Work} {c c1 : Component}
    (h : dequeueInput d m w c = some (w1, c1)) : teardownView c = teardownView c1 := by
  unfold dequeueInput at h
  repeat' split at h
  all_goals simp at h
  all_goals obtain ⟨-, rfl⟩ := h
  · exact rfl
  · unfold sendInputBufferToAccelerator
    split <;> simp [teardownView, reportError, emit]

theorem teardown_dequeueOutput {m : DrainMode} {w : C2Work} {c c1 : Component}
    (h : dequeueOutput m w c = some c1) : teardownView c = teardownView c1 := by
  unfold dequeueOutput at h
  split at h
  · dsimp only at h
    repeat' split at h
    all_goals simp at h
    all_goals subst h
    all_goals simp [teardownView, emit]
  · simp at h

theorem teardown_onDequeueWork {d : Int} {c c1 : Component}
    (h : onDequeueWork d c = some c1) : teardownView c = teardownView c1 := by
  unfold onDequeueWork EXPECT_RUNNING_OR_RETURN_ON_ERROR at h
  repeat' split at h
  all_goals try (simp at h; done)
  all_goals try (simp at h; subst h; exact rfl)
  rename_i _ h2
  exact Eq.trans
    (Eq.trans (by simp [teardownView]) (teardown_dequeueInput h2 :))
    (teardown_dequeueOutput h)

theorem teardown_onInputBufferDone {b : Int} {c c1 : Component}
    (h : onInputBufferDone b c = some c1) : teardownView c = teardownView c1 := by
  unfold onInputBufferDone EXPECT_RUNNING_OR_RETURN_ON_ERROR at h
  repeat' split at h
  all_goals try (simp at h; done)
  all_goals try (simp at h; subst h; first | exact rfl | exact teardown_reportError _ _)
  exact Eq.trans (by simp [teardownView]) (teardown_reportFinishedWorkIfAny h :)

theorem teardown_onDrain {m : DrainMode} {c c1 : Component}
    (h : onDrain m c = some c1) : teardownView c = teardownView c1 := by
  unfold onDrain EXPECT_RUNNING_OR_RETURN_ON_ERROR at h
  repeat' split at h
  all_goals try (simp at h; done)
  all_goals simp at h
  all_goals subst h
  all_goals simp [teardownView, emit]

theorem teardown_onDrainDoneTail {c c1 : Component}
    (h : onDrainDoneTail c = some c1) : teardownView c = teardownView c1 := by
  unfold onDrainDoneTail at h
  split at h
  · simp at h
  · rename_i c2 h2
    split at h
    · simp at h
    · simp at h
      subst h
      have h3 : teardownView c = teardownView c2 := by
        split at h2
        · exact teardown_reportEOSWork h2
        · simp at h2; subst h2; exact rfl
      exact Eq.trans h3 (by simp [teardownView, emit])

theorem teardown_onDrainDone {c c1 : Component}
    (h : onDrainDone c = some c1) : teardownView c = teardownView c1 := by
  unfold onDrainDone at h
  repeat' split at h
  all_goals try (simp at h; subst h; first | exact rfl | exact teardown_reportError _ _)
  all_goals exact Eq.trans (by simp [teardownView]) (teardown_onDrainDoneTail h :)

theorem teardown_onFlush {c c1 : Component}
    (h : onFlush c = some c1) : teardownView c = teardownView c1 := by
  unfold onFlush EXPECT_RUNNING_OR_RETURN_ON_ERROR at h
  repeat' split at h
  all_goals try (simp at h; done)
  all_goals simp at h
  all_goals subst h
  all_goals simp [teardownView, abandonQueue, emit]

theorem teardown_onFlushDone {c c1 : Component}
    (h : onFlushDone c = some c1) : teardownView c = teardownView c1 := by
  unfold onFlushDone at h
  simp at h
  subst h
  exact Eq.trans (teardown_reportAbandonedWorks c) (by simp [teardownView, emit])

theorem teardown_dequeueThreadLoopIteration (f : c2_status_t × C2GraphicBlock)
    (p : c2_status_t × Nat) (c : Component) :
    teardownView c = teardownView (dequeueThreadLoopIteration f p c).1 := by
  unfold dequeueThreadLoopIteration
  repeat' split
  all_goals simp [teardownView, emit]

theorem teardown_onStart {r : VDAResult} {c c1 : Component} (h : onStart r c = some c1) :
    c1.mStopDoneEvent = c.mStopDoneEvent ∧ c1.mVDAAdaptor = true ∧
    c1.log.count Effect.signalStopDone = c.log.count Effect.signalStopDone := by
  unfold onStart at h
  split at h
  · simp at h
  · simp only [Option.some.injEq] at h
    subst h
    split <;> simp [emit]

theorem teardown_onStop {c c1 : Component} (h : onStop c = some c1) :
    (c1 = c ∨ (c1.mStopDoneEvent = true ∧ c1.mComponentState = ComponentState.STOPPING)) ∧
    c1.mVDAAdaptor = c.mVDAAdaptor ∧
    c1.log.count Effect.signalStopDone = c.log.count Effect.signalStopDone := by
  unfold onStop EXPECT_RUNNING_OR_RETURN_ON_ERROR at h
  repeat' (first | split at h | (dsimp only at h; split at h))
  all_goals try (simp at h; done)
  all_goals simp at h
  all_goals subst h
  all_goals simp [abandonQueue, emit]

theorem state_reportFinishedWorkIfAny {c c1 : Component}
    (h : reportFinishedWorkIfAny c = some c1) : c1.mComponentState = c.mComponentState := by
  unfold reportFinishedWorkIfAny at h
  split at h
  · simp at h
  · split at h <;> simp at h <;> subst h <;> simp [emit]

theorem runningMove_of_same {c c1 : Component} (h : SameWorks c c1) : RunningMove c c1 :=
  Or.inl h.1

theorem runningMove_onQueueWork {w : C2Work} {c c1 : Component}
    (h : onQueueWork w c = some c1) : RunningMove c c1 := by
  unfold onQueueWork EXPECT_RUNNING_OR_RETURN_ON_ERROR at h
  repeat' split at h
  all_goals try (simp at h; done)
  all_goals simp at h
  all_goals subst h
  all_goals exact Or.inl (by simp [emit])

theorem runningMove_onDequeueWork {d : Int} {c c1 : Component}
    (h : onDequeueWork d c = some c1) : RunningMove c c1 := by
  by_cases hu : c.mComponentState = ComponentState.UNINITIALIZED
  · simp [onDequeueWork, EXPECT_RUNNING_OR_RETURN_ON_ERROR, hu] at h
  unfold onDequeueWork EXPECT_RUNNING_OR_RETURN_ON_ERROR at h
  repeat' split at h
  all_goals try (simp at h; done)
  all_goals try (simp at h; subst h; exact Or.inl rfl)
  rename_i c2 h2
  have hs2 := (dequeueInput_spec h2).2.2.2.1
  unfold dequeueOutput at h
  split at h
  · dsimp only at h
    repeat' split at h
    all_goals simp at h
    all_goals subst h
    all_goals first
      | (refine Or.inl ?_; simpa [emit] using hs2)
      | (refine Or.inr ⟨hu, ?_, ?_⟩ <;> simp [emit])
  · simp at h

theorem runningMove_onInputBufferDone {b : Int} {c c1 : Component}
    (h : onInputBufferDone b c = some c1) : RunningMove c c1 := by
  unfold onInputBufferDone EXPECT_RUNNING_OR_RETURN_ON_ERROR at h
  repeat' split at h
  all_goals try (simp at h; done)
  all_goals try (simp at h; subst h; exact Or.inl (by simp [reportError, emit]))
  exact Or.inl (state_reportFinishedWorkIfAny h :)

theorem runningMove_onOutputBufferDone {p b : Int} {c c1 : Component}
    (h : onOutputBufferDone p b c = some c1) : RunningMove c c1 := by
  rcases onOutputBufferDone_cases h with rfl | rfl | ⟨w, i, info, work, gb, wl, wls, -, -,
    -, -, -, -, -, h1⟩
  · exact Or.inl rfl
  · exact Or.inl (by simp [reportError, emit])
  · exact Or.inl (state_reportFinishedWorkIfAny h1 :)

theorem runningMove_onDrain {m : DrainMode} {c c1 : Component}
    (h : onDrain m c = some c1) : RunningMove c c1 := by
  unfold onDrain EXPECT_RUNNING_OR_RETURN_ON_ERROR at h
  repeat' split at h
  all_goals try (simp at h; done)
  all_goals simp at h
  all_goals subst h
  all_goals first
    | (refine Or.inl ?_; simp [emit]; done)
    | (refine Or.inr ⟨by assumption, ?_, ?_⟩ <;> simp [emit])

theorem state_onDrainDoneTail {c c1 : Component} (h : onDrainDoneTail c = some c1) :
    c1.mComponentState = c.mComponentState := by
  unfold onDrainDoneTail at h
  repeat' split at h
  all_goals try (simp at h; done)
  all_goals simp at h
  all_goals subst h
  rename_i c2 h2 _
  unfold reportEOSWork at h2
  repeat' split at h2
  all_goals try (simp at h2; done)
  all_goals simp at h2
  all_goals subst h2
  all_goals simp [emit, reportError]

theorem runningMove_onDrainDone {c c1 : Component}
    (h : onDrainDone c = some c1) : RunningMove c c1 := by
  unfold onDrainDone at h
  repeat' split at h
  · rename_i hs
    have h1 := state_onDrainDoneTail h
    exact Or.inr ⟨by simp [hs], by simp [h1], by simp [h1]⟩
  · simp at h; subst h; exact Or.inl rfl
  · simp at h; subst h; exact Or.inl (by simp [reportError, emit])
  · exact Or.inl (state_onDrainDoneTail h)

theorem runningMove_onFlush {c c1 : Component} (h : onFlush c = some c1) :
    RunningMove c c1 := by
  unfold onFlush EXPECT_RUNNING_OR_RETURN_ON_ERROR at h
  repeat' split at h
  all_goals try (simp at h; done)
  all_goals simp at h
  all_goals subst h
  all_goals first
    | exact Or.inl rfl
    | (refine Or.inr ⟨by assumption, ?_, ?_⟩ <;> simp [abandonQueue, emit])

theorem stopInvariant_of_frame {c c1 : Component} (hv : teardownView c = teardownView c1)
    (hm : RunningMove c c1) (hi : StopInvariant c) : StopInvariant c1 := by
  simp only [teardownView, Prod.mk.injEq] at hv
  obtain ⟨v1, v2, -⟩ := hv
  obtain ⟨i1, i2⟩ := hi
  refine ⟨fun hs => ?_, fun hs => ?_⟩
  · rw [← v1]
    rcases hm with hm | ⟨-, hm, -⟩
    · exact i1 (hm ▸ hs)
    · exact absurd hs hm
  · rw [← v2]
    rcases hm with hm | ⟨hm, -, -⟩
    · exact i2 (hm ▸ hs)
    · exact i2 hm

theorem stopInvariant_step {e : Event} {c c1 : Component} (h : step e c = some c1)
    (hi : StopInvariant c) : StopInvariant c1 := by
  cases e <;> simp only [step] at h
  · obtain ⟨-, a2, -⟩ := teardown_onStart h
    refine ⟨fun hs => ?_, fun _ => a2⟩
    unfold onStart at h
    split at h
    · simp at h
    · rename_i hu
      simp only [Option.some.injEq] at h
      subst h
      have hu1 : c.mComponentState = ComponentState.UNINITIALIZED := not_not.mp hu
      split at hs <;> simp [emit, hu1] at hs
  · obtain ⟨a1, a2, -⟩ := teardown_onStop h
    by_cases hu : c.mComponentState = ComponentState.UNINITIALIZED
    · simp [onStop, EXPECT_RUNNING_OR_RETURN_ON_ERROR, hu] at h
    · refine ⟨fun hs => ?_, fun _ => by rw [a2]; exact hi.2 hu⟩
      rcases a1 with rfl | ⟨a1, -⟩
      · exact hi.1 hs
      · exact a1
  · exact stopInvariant_of_frame (teardown_onQueueWork h) (runningMove_onQueueWork h) hi
  · exact stopInvariant_of_frame (teardown_onDequeueWork h) (runningMove_onDequeueWork h) hi
  · exact stopInvariant_of_frame (teardown_onInputBufferDone h)
      (runningMove_onInputBufferDone h) hi
  · exact stopInvariant_of_frame (teardown_onOutputBufferReturned h)
      (runningMove_of_same (sameWorks_onOutputBufferReturned h)) hi
  · have hv : teardownView c = teardownView c1 := by
      rcases onOutputBufferDone_cases h with rfl | rfl | ⟨w, i, info, work, gb, wl, wls, -, -,
        -, -, -, -, -, h1⟩
      · rfl
      · exact teardown_reportError _ _
      · exact (teardown_reportFinishedWorkIfAny h1 :)
    exact stopInvariant_of_frame hv (runningMove_onOutputBufferDone h) hi
  · exact stopInvariant_of_frame (teardown_onDrain h) (runningMove_onDrain h) hi
  · exact stopInvariant_of_frame (teardown_onDrainDone h) (runningMove_onDrainDone h) hi
  · exact stopInvariant_of_frame (teardown_onFlush h) (runningMove_onFlush h) hi
  · unfold onResetDone at h
    repeat' split at h
    · simp at h; subst h; exact hi
    · rename_i hs
      refine stopInvariant_of_frame (teardown_onFlushDone h) ?_ hi
      unfold onFlushDone at h
      simp only [Option.some.injEq] at h
      subst h
      exact Or.inr ⟨by simp [hs], by simp [emit], by simp [emit]⟩
    · unfold onStopDone at h
      split at h
      · simp at h
      · simp only [Option.some.injEq] at h
        subst h
        exact ⟨by simp, by simp⟩
    · simp at h; subst h
      exact stopInvariant_of_frame (teardown_reportError _ _)
        (runningMove_of_same (sameWorks_reportError _ _)) hi
  · exact stopInvariant_of_frame (teardown_onOutputFormatChanged h)
      (runningMove_of_same (sameWorks_onOutputFormatChanged h)) hi
  · exact stopInvariant_of_frame (teardown_onVisibleRectChanged h)
      (runningMove_of_same (sameWorks_onVisibleRectChanged h)) hi
  · simp at h; subst h
    exact stopInvariant_of_frame (teardown_notifyError _ _)
      (runningMove_of_same (sameWorks_notifyError _ _)) hi
  · split at h <;> simp at h <;> subst h
    · exact stopInvariant_of_frame (teardown_dequeueThreadLoopIteration _ _ _)
        (runningMove_of_same (sameWorks_dequeueThreadLoopIteration _ _ _)) hi
    · exact hi

theorem stopInvariant_of_reachable {c : Component} (h : Reachable c) : StopInvariant c := by
  induction h with
  | init s => simp [StopInvariant, initial]
  | step e _ hs ih => exact stopInvariant_step hs ih

/-! ## Completion of a stop -/

theorem stopSignals_step {e : Event} {c c1 : Component} (he : e ≠ Event.onResetDone)
    (h : step e c = some c1) :
    c1.log.count Effect.signalStopDone = c.log.count Effect.signalStopDone := by
  have hv : ∀ {a b : Component}, teardownView a = teardownView b →
      b.log.count Effect.signalStopDone = a.log.count Effect.signalStopDone := by
    intro a b hab
    simp only [teardownView, Prod.mk.injEq] at hab
    exact hab.2.2.symm
  cases e <;> simp only [step] at h
  · exact (teardown_onStart h).2.2
  · exact (teardown_onStop h).2.2
  · exact hv (teardown_onQueueWork h)
  · exact hv (teardown_onDequeueWork h)
  · exact hv (teardown_onInputBufferDone h)
  · exact hv (teardown_onOutputBufferReturned h)
  · rcases onOutputBufferDone_cases h with rfl | rfl | ⟨w, i, info, work, gb, wl, wls, -, -,
      -, -, -, -, -, h1⟩
    · rfl
    · exact hv (teardown_reportError _ _)
    · exact hv (teardown_reportFinishedWorkIfAny h1 :)
  · exact hv (teardown_onDrain h)
  · exact hv (teardown_onDrainDone h)
  · exact hv (teardown_onFlush h)
  · exact absurd rfl he
  · exact hv (teardown_onOutputFormatChanged h)
  · exact hv (teardown_onVisibleRectChanged h)
  · simp at h; subst h; exact hv (teardown_notifyError _ _)
  · split at h <;> simp at h <;> subst h
    · exact hv (teardown_dequeueThreadLoopIteration _ _ _)
    · rfl

theorem stopSignals_onResetDone {c c1 : Component}
    (hs : c.mComponentState ≠ ComponentState.STOPPING) (h : onResetDone c = some c1) :
    c1.log.count Effect.signalStopDone = c.log.count Effect.signalStopDone := by
  have hv : ∀ {a b : Component}, teardownView a = teardownView b →
      b.log.count Effect.signalStopDone = a.log.count Effect.signalStopDone := by
    intro a b hab
    simp only [teardownView, Prod.mk.injEq] at hab
    exact hab.2.2.symm
  unfold onResetDone at h
  split at h
  · simp at h; subst h; rfl
  · split at h
    · exact hv (teardown_onFlushDone h)
    · simp at h; subst h; exact hv (teardown_reportError _ _)

theorem onResetDone_stopping_spec (c : Component)
    (hs : c.mComponentState = ComponentState.STOPPING) (he : c.mStopDoneEvent = true)
    (ha : c.mVDAAdaptor = true) :
    ∃ c1, onResetDone c = some c1 ∧
      c1.mComponentState = ComponentState.UNINITIALIZED ∧ c1.mPendingOutputEOS = false ∧
      c1.mPendingWorks = [] ∧ c1.mAbandonedWorks = [] ∧ c1.mGraphicBlocks = [] ∧
      c1.mPendingOutputFormat = none ∧ c1.mVDAAdaptor = false ∧ c1.mStopDoneEvent = false ∧
      c1.log = c.log ++
        (batchOf ((c.mPendingWorks ++ c.mAbandonedWorks).map abandonWork)).map
          Effect.onWorkDone_nb ++ [Effect.vdaDestroy, Effect.signalStopDone] := by
  have hw := workView_reportAbandonedWorks c
  simp only [workView, WorkView.mk.injEq] at hw
  obtain ⟨-, -, t3, t4, t5, -⟩ := hw
  have hr : (reportAbandonedWorks c).mVDAAdaptor = true := by
    unfold reportAbandonedWorks
    dsimp only
    split <;> simp [emit, ha]
  have hsd : ∀ x : Component, (stopDequeueThread x).mPendingWorks = x.mPendingWorks ∧
      (stopDequeueThread x).mAbandonedWorks = x.mAbandonedWorks ∧
      (stopDequeueThread x).mPendingOutputEOS = x.mPendingOutputEOS ∧
      (stopDequeueThread x).mGraphicBlocks = x.mGraphicBlocks ∧
      (stopDequeueThread x).mPendingOutputFormat = x.mPendingOutputFormat ∧
      (stopDequeueThread x).mVDAAdaptor = x.mVDAAdaptor ∧
      (stopDequeueThread x).log = x.log := by
    intro x; unfold stopDequeueThread; split <;> simp
  simp only [onResetDone, hs, onStopDone, he, reduceCtorEq, if_false, if_true, Bool.not_true,
    Bool.false_eq_true, hr]
  refine ⟨_, rfl, rfl, ?_⟩
  simp [emit, hsd, t3, t4, t5, log_reportAbandonedWorks]

/-- C15, the claim as stated fails: in `exampleFlaggedStopTrace` a work is queued whose
worklet carries `END_OF_STREAM` in its output flags, and a stop completes before the work is
dispatched; the work is reported with result `C2_NOT_FOUND` and with `END_OF_STREAM` still
in its output flags. -/
theorem stop_reports_queued_output_flags :
    (run exampleFlaggedStopTrace (initial false)).map
        (fun c => (batches c.log).map (List.map fun w =>
          (w.result, w.worklets.map fun wl => hasFlag wl.output.flags FLAG_END_OF_STREAM))) =
      some [[(c2_status_t.C2_NOT_FOUND, [true])]] := by
  decide

/-- C15, amended: in every reachable state in `STOPPING`, `onResetDone` returns, reports the
works of the pending list followed by those of the abandoned list in one batch (no batch for
no work), destroys the VDA, clears the buffer registry and the pending output format, signals
the stop event exactly once and leaves the inner state `UNINITIALIZED` with
`mPendingOutputEOS` false.  Every reported work has result `C2_NOT_FOUND` and the worklets it
had: the output flags are `0` for the works of the pending list, also when a drain with end
of stream was in progress, and are those that the work was queued with for the works of the
abandoned list.  No other event signals the stop event, nor does `onResetDone` outside
`STOPPING`. -/
theorem stop_completion :
    (∀ c : Component, Reachable c → c.mComponentState = ComponentState.STOPPING →
      ∃ c1, onResetDone c = some c1 ∧
        c1.mComponentState = ComponentState.UNINITIALIZED ∧ c1.mPendingOutputEOS = false ∧
        c1.mPendingWorks = [] ∧ c1.mAbandonedWorks = [] ∧ c1.mGraphicBlocks = [] ∧
        c1.mPendingOutputFormat = none ∧ c1.mVDAAdaptor = false ∧
        c1.mStopDoneEvent = false ∧
        c1.log = c.log ++
          (batchOf ((c.mPendingWorks ++ c.mAbandonedWorks).map abandonWork)).map
            Effect.onWorkDone_nb ++ [Effect.vdaDestroy, Effect.signalStopDone]) ∧
    (∀ w : C2Work, (abandonWork w).result = c2_status_t.C2_NOT_FOUND ∧
      (abandonWork w).worklets = w.worklets) ∧
    (∀ c : Component, Reachable c → ∀ w ∈ c.mPendingWorks,
      ∀ wl ∈ (abandonWork w).worklets, wl.output.flags = 0) ∧
    (∀ (e : Event) (c c1 : Component), e ≠ Event.onResetDone → step e c = some c1 →
      c1.log.count Effect.signalStopDone = c.log.count Effect.signalStopDone) ∧
    (∀ c c1 : Component, c.mComponentState ≠ ComponentState.STOPPING →
      onResetDone c = some c1 →
      c1.log.count Effect.signalStopDone = c.log.count Effect.signalStopDone) := by
  refine ⟨fun c hr hs => ?_, fun w => ⟨(abandonWork_spec w).1, (abandonWork_spec w).2.2.2.2.2.2⟩,
    fun c hr w hw wl hwl => ?_, fun e c c1 he h => stopSignals_step he h,
    fun c c1 hs h => stopSignals_onResetDone hs h⟩
  · obtain ⟨i1, i2⟩ := stopInvariant_of_reachable hr
    exact onResetDone_stopping_spec c hs (i1 hs) (i2 (by simp [hs]))
  · obtain ⟨-, wl0, h1, h2, -⟩ := shape_of_reachable hr w hw
    rw [(abandonWork_spec w).2.2.2.2.2.2, h1, List.mem_singleton] at hwl
    rw [hwl, h2]

theorem stop_completion_witness :
    (runD exampleDrainStopTrace (initial false)).mComponentState = ComponentState.STOPPING ∧
      (runD exampleDrainStopTrace (initial false)).mPendingOutputEOS = true ∧
      (runD exampleDrainStopTrace (initial false)).mPendingWorks.map isEOS = [false, true] ∧
      ∃ c1, onResetDone (runD exampleDrainStopTrace (initial false)) = some c1 ∧
        c1.mComponentState = ComponentState.UNINITIALIZED ∧ c1.mPendingOutputEOS = false :=
  have hr : Reachable (runD exampleDrainStopTrace (initial false)) :=
    reachable_of_run (Reachable.init false) (run_eq_some_runD (by decide))
  ⟨by decide, by decide, by decide,
    (stop_completion.1 (runD exampleDrainStopTrace (initial false)) hr (by decide)).elim
      fun c1 h => ⟨c1, h.1, h.2.1, h.2.2.1⟩⟩

/-! ## Allocation on a format change -/

theorem importedIds_append (l l1 : List Effect) :
    importedIds (l ++ l1) = importedIds l ++ importedIds l1 := by
  induction l with
  | nil => rfl
  | cons e l ih => cases e <;> simp [importedIds, ih]

theorem assignedCounts_append (l l1 : List Effect) :
    assignedCounts (l ++ l1) = assignedCounts l ++ assignedCounts l1 := by
  induction l with
  | nil => rfl
  | cons e l ih => cases e <;> simp [assignedCounts, ih]

theorem fetchWithRetries_ok {fetch : Nat → c2_status_t × C2GraphicBlock} (r call : Nat)
    (h : (fetch call).1 = c2_status_t.C2_OK) :
    fetchWithRetries fetch r call = (c2_status_t.C2_OK, (fetch call).2, call + 1) := by
  unfold fetchWithRetries
  simp [h]

theorem append_succeeds {env : BlockPoolEnv} {i : Nat} {block : C2GraphicBlock} (poolId : Nat)
    (c : Component) (h : appendSucceeds env c.mSecureMode i block = true) :
    ∃ info : GraphicBlockInfo,
      (if c.mSecureMode then
        appendSecureOutputBuffer env.arcBuild env.getPlatformPixelFormat (env.dup i)
          block poolId c
      else appendOutputBuffer (env.dup i) block poolId c) =
        some { c with mGraphicBlocks := c.mGraphicBlocks ++ [info] } ∧
      info.mBlockId = static_cast_int32 c.mGraphicBlocks.length ∧ info.mPoolId = poolId ∧
      info.mGraphicBlock = some block ∧ FreshRecord info := by
  unfold appendSucceeds at h
  simp only [Bool.and_eq_true, decide_eq_true_eq] at h
  obtain ⟨hd, h2⟩ := h
  have hd1 : ¬ env.dup i < 0 := by omega
  by_cases hs : c.mSecureMode = true
  · simp only [hs, if_true, Bool.and_eq_true, Bool.or_eq_true, beq_iff_eq] at h2 ⊢
    obtain ⟨ha, hf⟩ := h2
    have hu : env.getPlatformPixelFormat ≠ HalPixelFormat.UNKNOWN := by
      rcases hf with hf | hf <;> simp [hf]
    refine ⟨{ mBlockId := static_cast_int32 c.mGraphicBlocks.length
              mPoolId := poolId
              mGraphicBlock := some block
              mPixelFormat := env.getPlatformPixelFormat
              mHandle := some (env.dup i)
              mPlanes := [] }, ?_, rfl, rfl, rfl, rfl, rfl, rfl⟩
    simp [appendSecureOutputBuffer, ha, hd1, hu, hf, hs]
  · simp only [hs, Bool.false_eq_true, if_false] at h2 ⊢
    split at h2
    · simp at h2
    · rename_i layout hl
      obtain ⟨planes, hp⟩ := Option.isSome_iff_exists.mp h2
      refine ⟨{ mBlockId := static_cast_int32 c.mGraphicBlocks.length
                mPoolId := poolId
                mGraphicBlock := some block
                mPixelFormat := resolveBufferFormat layout.crcb layout.semiplanar
                mHandle := some (env.dup i)
                mPlanes := planes }, ?_, rfl, rfl, rfl, rfl, rfl, rfl⟩
      simp [appendOutputBuffer, hl, hd1, hp, hs]

theorem numbered_append {P : GraphicBlockInfo → Prop} {l : List GraphicBlockInfo}
    {info : GraphicBlockInfo} (hl : Numbered P l)
    (hi : info.mBlockId = static_cast_int32 l.length) (hp : P info) :
    Numbered P (l ++ [info]) := by
  intro i x hx
  by_cases h : i < l.length
  · rw [List.getElem?_append_left h] at hx
    exact hl i x hx
  · have h1 : l.length ≤ i := by omega
    rw [List.getElem?_append_right h1] at hx
    have h2 : i - l.length = 0 := by
      by_contra hne
      have h3 : ([info] : List GraphicBlockInfo)[i - l.length]? = none := by
        rw [List.getElem?_eq_none]
        simp
        omega
      rw [h3] at hx
      simp at hx
    rw [h2] at hx
    simp only [List.getElem?_cons_zero, Option.some.injEq] at hx
    subst hx
    have h4 : i = l.length := by omega
    rw [h4]
    exact ⟨hi, hp⟩

theorem allocateLoop_succeeds {env : BlockPoolEnv} {secureMode : Bool}
    (hf : ∀ k, (env.fetchGraphicBlock k).1 = c2_status_t.C2_OK)
    (hp : ∀ b, (env.getPoolIdFromGraphicBlock b).1 = c2_status_t.C2_OK)
    (ha : ∀ j k, appendSucceeds env secureMode j (env.fetchGraphicBlock k).2 = true) :
    ∀ (n i call : Nat) (c : Component), c.mSecureMode = secureMode →
      Numbered FreshRecord c.mGraphicBlocks →
      ∃ l, allocateLoop env n i call c = some (c2_status_t.C2_OK, { c with mGraphicBlocks := l }) ∧
        l.length = c.mGraphicBlocks.length + n ∧ Numbered FreshRecord l := by
  intro n
  induction n with
  | zero =>
    intro i call c _ hn
    exact ⟨c.mGraphicBlocks, by simp [allocateLoop], by simp, hn⟩
  | succ n ih =>
    intro i call c hs hn
    obtain ⟨info, h1, h2, -, -, h3⟩ := append_succeeds
      (env.getPoolIdFromGraphicBlock (env.fetchGraphicBlock call).2).2 c
      (by rw [hs]; exact ha i call)
    obtain ⟨l, h4, h5, h6⟩ := ih (i + 1) (call + 1)
      { c with mGraphicBlocks := c.mGraphicBlocks ++ [info] } hs (numbered_append hn h2 h3)
    refine ⟨l, ?_, by simp at h5; omega, h6⟩
    unfold allocateLoop
    simp only [fetchWithRetries_ok _ _ (hf call), ne_eq, not_true_eq_false, if_false, hp]
    rw [h1]
    simpa using h4

theorem sendAllFrom_succeeds :
    ∀ (todo done : List GraphicBlockInfo) (c : Component), c.mGraphicBlocks = done ++ todo →
      (∀ (j : Nat) (info : GraphicBlockInfo), todo[j]? = some info →
        info.mBlockId = static_cast_int32 (done.length + j) ∧ FreshRecord info) →
      ∃ (l : List GraphicBlockInfo) (imports : List Effect),
        sendAllFrom todo.length done.length c =
          some { c with mGraphicBlocks := done ++ l, log := c.log ++ imports } ∧
        l.length = todo.length ∧
        (∀ (j : Nat) (info : GraphicBlockInfo), l[j]? = some info →
          info.mBlockId = static_cast_int32 (done.length + j) ∧ SentRecord info) ∧
        importedIds imports = (List.range' done.length todo.length).map static_cast_int32 ∧
        assignedCounts imports = [] := by
  intro todo
  induction todo with
  | nil =>
    intro done c hc _
    refine ⟨[], [], ?_, rfl, by simp, rfl, rfl⟩
    simp only [List.length_nil, sendAllFrom, List.append_nil] at hc ⊢
    rw [← hc]
  | cons a t ih =>
    intro done c hc hn
    obtain ⟨ha1, ha2, ha3, ha4⟩ := hn 0 a (by simp)
    obtain ⟨fd, hfd⟩ := Option.isSome_iff_exists.mp ha3
    have hg : c.mGraphicBlocks[done.length]? = some a := by
      rw [hc, List.getElem?_append_right (Nat.le_refl _)]; simp
    have hset : c.mGraphicBlocks.set done.length
        { a with mState := GBState.OWNED_BY_ACCELERATOR, mHandle := none } =
        (done ++ [{ a with mState := GBState.OWNED_BY_ACCELERATOR, mHandle := none }]) ++ t := by
      rw [hc]; simp
    have hsend : sendOutputBufferToAccelerator done.length c =
        some (emit (Effect.vdaImportBufferForPicture a.mBlockId a.mPixelFormat fd a.mPlanes)
          { c with mGraphicBlocks :=
            (done ++ [{ a with mState := GBState.OWNED_BY_ACCELERATOR, mHandle := none }]) ++
              t }) := by
      simp only [sendOutputBufferToAccelerator, hg, ha2, ne_eq, not_true_eq_false, if_false, hfd]
      rw [hset]
    obtain ⟨l, imports, h1, h2, h3, h4, h5⟩ := ih
      (done ++ [{ a with mState := GBState.OWNED_BY_ACCELERATOR, mHandle := none }])
      (emit (Effect.vdaImportBufferForPicture a.mBlockId a.mPixelFormat fd a.mPlanes)
        { c with mGraphicBlocks :=
          (done ++ [{ a with mState := GBState.OWNED_BY_ACCELERATOR, mHandle := none }]) ++ t })
      (by simp [emit])
      (by
        intro j info hj
        have := hn (j + 1) info (by simpa using hj)
        simpa [Nat.add_assoc, Nat.add_comm 1 j] using this)
    refine ⟨{ a with mState := GBState.OWNED_BY_ACCELERATOR, mHandle := none } :: l,
      Effect.vdaImportBufferForPicture a.mBlockId a.mPixelFormat fd a.mPlanes :: imports,
      ?_, by simp [h2], ?_, ?_, ?_⟩
    · simp only [List.length_cons, sendAllFrom, hsend, Option.bind_some]
      simp only [List.length_append, List.length_singleton] at h1
      refine h1.trans ?_
      simp [emit]
    · intro j info hj
      cases j with
      | zero =>
        simp only [List.getElem?_cons_zero, Option.some.injEq] at hj
        subst hj
        exact ⟨ha1, rfl, rfl, ha4⟩
      | succ j =>
        simp only [List.getElem?_cons_succ] at hj
        have := h3 j info hj
        simpa [Nat.add_assoc, Nat.add_comm 1 j] using this
    · simp only [importedIds, h4, List.length_append, List.length_singleton, List.length_cons,
        List.range'_succ, List.map_cons, ha1, Nat.add_zero, List.length_nil, Nat.zero_add]
    · simpa [assignedCounts] using h5

theorem running_stopDequeueThread (c : Component) :
    (stopDequeueThread c).mDequeueThreadRunning = false ∧
    (stopDequeueThread c).mSecureMode = c.mSecureMode ∧
    (stopDequeueThread c).mOutputFormat = c.mOutputFormat ∧
    (stopDequeueThread c).mPendingOutputFormat = c.mPendingOutputFormat ∧
    (stopDequeueThread c).log = c.log := by
  unfold stopDequeueThread
  split <;> simp_all

theorem allocate_succeeds {env : BlockPoolEnv} (c : Component)
    (h1 : env.getCodec2BlockPool = c2_status_t.C2_OK) (h2 : env.poolCast = true)
    (h3 : env.requestNewBufferSet = c2_status_t.C2_OK)
    (h4 : env.dequeueThreadStart = true)
    (hf : ∀ k, (env.fetchGraphicBlock k).1 = c2_status_t.C2_OK)
    (hp : ∀ b, (env.getPoolIdFromGraphicBlock b).1 = c2_status_t.C2_OK)
    (ha : ∀ j k, appendSucceeds env c.mSecureMode j (env.fetchGraphicBlock k).2 = true) :
    ∃ c6, allocateBuffersFromBlockAllocator env c = some (c2_status_t.C2_OK, c6) ∧
      c6.log = c.log ++ [Effect.vdaAssignPictureBuffers
        ((c.mOutputFormat.mMinNumBuffers + kDpbOutputBufferExtraCount) % 2 ^ 32)] ∧
      c6.mGraphicBlocks.length =
        (c.mOutputFormat.mMinNumBuffers + kDpbOutputBufferExtraCount) % 2 ^ 32 ∧
      Numbered FreshRecord c6.mGraphicBlocks ∧
      c6.mPendingOutputFormat = c.mPendingOutputFormat := by
  obtain ⟨r1, r2, r3, r4, r5⟩ := running_stopDequeueThread c
  obtain ⟨l, a1, a2, a3⟩ := allocateLoop_succeeds hf hp ha
    ((c.mOutputFormat.mMinNumBuffers + kDpbOutputBufferExtraCount) % 2 ^ 32) 0 0
    { emit (Effect.vdaAssignPictureBuffers
        ((c.mOutputFormat.mMinNumBuffers + kDpbOutputBufferExtraCount) % 2 ^ 32))
        (stopDequeueThread c) with mGraphicBlocks := [] }
    (by simp [emit, r2]) (by intro i info hi; simp at hi)
  unfold allocateBuffersFromBlockAllocator
  simp only [h1, h2, h3, ne_eq, not_true_eq_false, if_false, Bool.not_true, Bool.false_eq_true,
    r3]
  rw [a1]
  simp only [ne_eq, not_true_eq_false, if_false, startDequeueThread, emit, r1,
    Bool.false_eq_true, h4, Bool.not_true]
  refine ⟨_, rfl, ?_, ?_, a3, ?_⟩
  · simp [r5]
  · simpa using a2
  · simp [r4]

theorem tryChangeOutputFormat_succeeds {env : BlockPoolEnv} (c : Component) (p : VideoFormat)
    (hpend : c.mPendingOutputFormat = some p)
    (hacc : ∀ info ∈ c.mGraphicBlocks, info.mState ≠ GBState.OWNED_BY_ACCELERATOR)
    (hfmt : p.mPixelFormat = HalPixelFormat.YCbCr_420_888)
    (h1 : env.getCodec2BlockPool = c2_status_t.C2_OK) (h2 : env.poolCast = true)
    (h3 : env.requestNewBufferSet = c2_status_t.C2_OK)
    (h4 : env.dequeueThreadStart = true)
    (hf : ∀ k, (env.fetchGraphicBlock k).1 = c2_status_t.C2_OK)
    (hp : ∀ b, (env.getPoolIdFromGraphicBlock b).1 = c2_status_t.C2_OK)
    (ha : ∀ j k, appendSucceeds env c.mSecureMode j (env.fetchGraphicBlock k).2 = true) :
    ∃ (c1 : Component) (imports : List Effect), tryChangeOutputFormat env c = some c1 ∧
      c1.mPendingOutputFormat = none ∧
      c1.mGraphicBlocks.length = (p.mMinNumBuffers + kDpbOutputBufferExtraCount) % 2 ^ 32 ∧
      Numbered SentRecord c1.mGraphicBlocks ∧
      c1.log = c.log ++ Effect.vdaAssignPictureBuffers
        ((p.mMinNumBuffers + kDpbOutputBufferExtraCount) % 2 ^ 32) :: imports ∧
      importedIds imports =
        (List.range ((p.mMinNumBuffers + kDpbOutputBufferExtraCount) % 2 ^ 32)).map
          static_cast_int32 ∧
      assignedCounts imports = [] := by
  obtain ⟨c6, a1, a2, a3, a4, a5⟩ := allocate_succeeds
    (setOutputFormatCrop p.mVisibleRect { c with mOutputFormat := { c.mOutputFormat with
        mPixelFormat := p.mPixelFormat
        mMinNumBuffers := p.mMinNumBuffers
        mCodedSize := p.mCodedSize } }) h1 h2 h3 h4 hf hp (by simpa [setOutputFormatCrop] using ha)
  obtain ⟨l, imports, b1, b2, b3, b4, b5⟩ := sendAllFrom_succeeds c6.mGraphicBlocks [] c6
    (by simp) (by
      intro j info hj
      simpa using a4 j info hj)
  have hany : c.mGraphicBlocks.any
      (fun info => info.mState == GBState.OWNED_BY_ACCELERATOR) = false := by
    rw [List.any_eq_false]
    intro info hm
    simpa using hacc info hm
  simp only [List.length_nil, List.nil_append, Nat.zero_add] at b1 b3 b4
  refine ⟨{ c6 with mGraphicBlocks := l, log := c6.log ++ imports, mPendingOutputFormat := none },
    imports, ?_, rfl, ?_, ?_, ?_, ?_, b5⟩
  · simp only [tryChangeOutputFormat, hpend, hany, Bool.false_eq_true, if_false, hfmt, ne_eq,
      not_true_eq_false]
    simp only [hfmt, hpend] at a1
    rw [a1]
    simp only [ne_eq, not_true_eq_false, if_false, b1, Option.map_some']
  · simpa [b2, setOutputFormatCrop] using a3
  · intro i info hi
    exact b3 i info hi
  · simp [a2, setOutputFormatCrop]
  · rw [b4, a3, List.range_eq_range']
    simp [setOutputFormatCrop]

theorem onOutputFormatChanged_succeeds {env : BlockPoolEnv} (c : Component)
    (format : VideoFormat)
    (hs1 : c.mComponentState ≠ ComponentState.ERROR)
    (hs2 : c.mComponentState ≠ ComponentState.UNINITIALIZED)
    (hpend : c.mPendingOutputFormat = none)
    (hfmt : format.mPixelFormat = HalPixelFormat.YCbCr_420_888)
    (h1 : env.getCodec2BlockPool = c2_status_t.C2_OK) (h2 : env.poolCast = true)
    (h3 : env.requestNewBufferSet = c2_status_t.C2_OK)
    (h4 : env.dequeueThreadStart = true)
    (hf : ∀ k, (env.fetchGraphicBlock k).1 = c2_status_t.C2_OK)
    (hp : ∀ b, (env.getPoolIdFromGraphicBlock b).1 = c2_status_t.C2_OK)
    (ha : ∀ j k, appendSucceeds env c.mSecureMode j (env.fetchGraphicBlock k).2 = true) :
    ∃ (c1 : Component) (imports : List Effect), onOutputFormatChanged env format c = some c1 ∧
      c1.mPendingOutputFormat = none ∧
      c1.mGraphicBlocks.length =
        (format.mMinNumBuffers + kDpbOutputBufferExtraCount) % 2 ^ 32 ∧
      Numbered SentRecord c1.mGraphicBlocks ∧
      c1.log = c.log ++ Effect.vdaAssignPictureBuffers
        ((format.mMinNumBuffers + kDpbOutputBufferExtraCount) % 2 ^ 32) :: imports ∧
      importedIds imports =
        (List.range ((format.mMinNumBuffers + kDpbOutputBufferExtraCount) % 2 ^ 32)).map
          static_cast_int32 ∧
      assignedCounts imports = [] := by
  simp only [onOutputFormatChanged, EXPECT_RUNNING_OR_RETURN_ON_ERROR, hs1, hs2, if_false, hpend,
    Option.isSome_none, Bool.false_eq_true]
  exact tryChangeOutputFormat_succeeds _ format rfl
    (by
      intro info hm
      simp only [List.mem_map] at hm
      obtain ⟨x, -, rfl⟩ := hm
      split
      · simp
      · assumption)
    hfmt h1 h2 h3 h4 hf hp ha

theorem static_cast_int32_small {i : Nat} (h : i < 2 ^ 31) : static_cast_int32 i = (i : Int) := by
  unfold static_cast_int32
  have h1 : i % 2 ^ 32 = i := Nat.mod_eq_of_lt (by omega)
  rw [h1, if_pos h]

/-- C16, the claim as stated fails: for `min_num_buffers = 2^32 - 1` the sum with the three
extra buffers wraps in 32-bit unsigned arithmetic: `assignPictureBuffers` is called with `2`
and the registry holds two records. -/
theorem buffer_count_wraps :
    (run [Event.onStart VDAResult.SUCCESS,
        Event.onOutputFormatChanged examplePool exampleLargeFormat] (initial false)).map
        (fun c => (assignedCounts c.log, c.mGraphicBlocks.length,
          c.mPendingOutputFormat.isSome)) =
      some ([2], 2, false) := by
  decide

/-- C16, amended: when `onOutputFormatChanged` runs in a running state without pending
format change, for a format with pixel format `YCbCr_420_888` and `min_num_buffers = m`, and
every call to the pool, every fetch and every descriptor step succeeds, then it returns,
`assignPictureBuffers` was called with `m + 3` reduced modulo `2^32` (which is `m + 3` when
this is below `2^32`), the registry holds exactly that many records, record `i` has block id
`i` as an `int32_t` (which is `i` below `2^31`), every record is owned by the accelerator and
was imported with `importBufferForPicture`, in the order of the records, and no format change
is pending. -/
theorem format_change_allocation (env : BlockPoolEnv) (c : Component) (format : VideoFormat)
    (hs1 : c.mComponentState ≠ ComponentState.ERROR)
    (hs2 : c.mComponentState ≠ ComponentState.UNINITIALIZED)
    (hpend : c.mPendingOutputFormat = none)
    (hfmt : format.mPixelFormat = HalPixelFormat.YCbCr_420_888)
    (h1 : env.getCodec2BlockPool = c2_status_t.C2_OK) (h2 : env.poolCast = true)
    (h3 : env.requestNewBufferSet = c2_status_t.C2_OK)
    (h4 : env.dequeueThreadStart = true)
    (hf : ∀ k, (env.fetchGraphicBlock k).1 = c2_status_t.C2_OK)
    (hp : ∀ b, (env.getPoolIdFromGraphicBlock b).1 = c2_status_t.C2_OK)
    (ha : ∀ j k, appendSucceeds env c.mSecureMode j (env.fetchGraphicBlock k).2 = true) :
    ∃ c1 : Component, onOutputFormatChanged env format c = some c1 ∧
      c1.mPendingOutputFormat = none ∧
      assignedCounts c1.log =
        assignedCounts c.log ++ [(format.mMinNumBuffers + 3) % 2 ^ 32] ∧
      c1.mGraphicBlocks.length = (format.mMinNumBuffers + 3) % 2 ^ 32 ∧
      (∀ (i : Nat) (info : GraphicBlockInfo), c1.mGraphicBlocks[i]? = some info →
        info.mBlockId = static_cast_int32 i ∧ info.mState = GBState.OWNED_BY_ACCELERATOR ∧
        info.mHandle = none) ∧
      importedIds c1.log = importedIds c.log ++
        (List.range ((format.mMinNumBuffers + 3) % 2 ^ 32)).map static_cast_int32 ∧
      (format.mMinNumBuffers + 3 < 2 ^ 32 →
        (format.mMinNumBuffers + 3) % 2 ^ 32 = format.mMinNumBuffers + 3) ∧
      (∀ i : Nat, i < 2 ^ 31 → static_cast_int32 i = (i : Int)) := by
  obtain ⟨c1, imports, a1, a2, a3, a4, a5, a6, a7⟩ :=
    onOutputFormatChanged_succeeds c format hs1 hs2 hpend hfmt h1 h2 h3 h4 hf hp ha
  simp only [kDpbOutputBufferExtraCount] at a3 a5 a6
  refine ⟨c1, a1, a2, ?_, a3, fun i info hi => ?_, ?_, fun h => Nat.mod_eq_of_lt h,
    fun i hi => static_cast_int32_small hi⟩
  · rw [a5, assignedCounts_append]
    simp [assignedCounts, a7]
  · obtain ⟨b1, b2, b3, -⟩ := a4 i info hi
    exact ⟨b1, b2, b3⟩
  · rw [a5, importedIds_append]
    simp [importedIds, a6]

theorem examplePool_appendSucceeds (j k : Nat) :
    appendSucceeds examplePool false j (examplePool.fetchGraphicBlock k).2 = true := by
  have hd : (0 : Int) ≤ examplePool.dup j := by
    show (0 : Int) ≤ 100 + (j : Int)
    omega
  have hl : (match planeLayout (examplePool.fetchGraphicBlock k).2 with
      | none => false
      | some layout =>
        (passedPlanesFrom layout.offsets (examplePool.fetchGraphicBlock k).2.planes
          layout.passedNumPlanes 0).isSome) = true := by
    rfl
  simp only [appendSucceeds, Bool.false_eq_true, if_false, Bool.and_eq_true, decide_eq_true_eq]
  exact ⟨hd, hl⟩

theorem format_change_allocation_witness :
    (stepD (Event.onStart VDAResult.SUCCESS) (initial false)).mComponentState =
        ComponentState.STARTED ∧
      exampleFormat.mMinNumBuffers = 0 ∧
      ∃ c1 : Component, onOutputFormatChanged examplePool exampleFormat
          (stepD (Event.onStart VDAResult.SUCCESS) (initial false)) = some c1 ∧
        c1.mPendingOutputFormat = none ∧
        assignedCounts c1.log =
          assignedCounts (stepD (Event.onStart VDAResult.SUCCESS) (initial false)).log ++
            [(exampleFormat.mMinNumBuffers + 3) % 2 ^ 32] ∧
        c1.mGraphicBlocks.length = (exampleFormat.mMinNumBuffers + 3) % 2 ^ 32 :=
  ⟨by decide, rfl,
    (format_change_allocation examplePool
      (stepD (Event.onStart VDAResult.SUCCESS) (initial false)) exampleFormat
      (by decide) (by decide) (by decide) rfl rfl rfl rfl rfl (fun _ => rfl) (fun _ => rfl)
      examplePool_appendSucceeds).elim
      fun c1 h => ⟨c1, h.1, h.2.1, h.2.2.1, h.2.2.2.1⟩⟩

/-! ## Reallocation is not deferred -/

theorem sent_sendOutputBufferToAccelerator {i : Nat} {c c1 : Component}
    (h : sendOutputBufferToAccelerator i c = some c1) :
    ∃ info1 : GraphicBlockInfo, c1.mGraphicBlocks = c.mGraphicBlocks.set i info1 ∧
      info1.mState = GBState.OWNED_BY_ACCELERATOR ∧ i < c.mGraphicBlocks.length := by
  unfold sendOutputBufferToAccelerator at h
  split at h
  · simp at h
  · rename_i info hg
    have hlt : i < c.mGraphicBlocks.length := by
      by_contra hn
      rw [List.getElem?_eq_none (by omega)] at hg
      simp at hg
    split at h
    · simp at h
    · split at h
      all_goals simp at h
      all_goals subst h
      all_goals exact ⟨_, rfl, rfl, hlt⟩

theorem sent_sendAllFrom {n i : Nat} {c c1 : Component} (h : sendAllFrom n i c = some c1) :
    c1.mGraphicBlocks.length = c.mGraphicBlocks.length ∧
    (∀ (j : Nat) (info : GraphicBlockInfo), i ≤ j → j < i + n →
      c1.mGraphicBlocks[j]? = some info → info.mState = GBState.OWNED_BY_ACCELERATOR) ∧
    (∀ j : Nat, j < i ∨ i + n ≤ j → c1.mGraphicBlocks[j]? = c.mGraphicBlocks[j]?) := by
  induction n generalizing i c with
  | zero =>
    simp [sendAllFrom] at h; subst h
    exact ⟨rfl, fun j info h1 h2 => by omega, fun j _ => rfl⟩
  | succ n ih =>
    simp only [sendAllFrom, Option.bind_eq_some] at h
    obtain ⟨c2, h2, h3⟩ := h
    obtain ⟨info1, a1, a2, a3⟩ := sent_sendOutputBufferToAccelerator h2
    obtain ⟨b1, b2, b3⟩ := ih h3
    have hlen : c2.mGraphicBlocks.length = c.mGraphicBlocks.length := by
      rw [a1]; simp
    refine ⟨b1.trans hlen, fun j info h4 h5 h6 => ?_, fun j hj => ?_⟩
    · by_cases hji : j = i
      · subst hji
        rw [b3 j (Or.inl (by omega)), a1] at h6
        rw [List.getElem?_set_self a3] at h6
        simp only [Option.some.injEq] at h6
        subst h6
        exact a2
      · exact b2 j info (by omega) (by omega) h6
    · rw [b3 j (by omega), a1]
      exact List.getElem?_set_ne (by omega)

theorem tryChangeOutputFormat_outcome {env : BlockPoolEnv} {c c1 : Component}
    {p : VideoFormat} (hp : c.mPendingOutputFormat = some p)
    (h : tryChangeOutputFormat env c = some c1) :
    (c1.mPendingOutputFormat = none ∧
      (∀ s ∈ ownerships c1, s = GBState.OWNED_BY_ACCELERATOR) ∧
      c1.mGraphicBlocks.length < 2 ^ 32) ∨
    (c1.mPendingOutputFormat = some p ∧
      (∃ err, err ≠ c2_status_t.C2_OK ∧ c1.log.getLast? = some (Effect.onError_nb err)) ∧
      (ownerships c1 = ownerships c ∨ ∀ s ∈ ownerships c1, s = GBState.OWNED_BY_COMPONENT)) := by
  unfold tryChangeOutputFormat at h
  repeat' (first | split at h | (dsimp only at h; split at h))
  all_goals try (simp at h; done)
  · rename_i pend hpd _ _ _ err c3 h1 herr
    simp at h; subst h
    rw [hp] at hpd
    simp only [Option.some.injEq] at hpd
    subst hpd
    refine Or.inr ⟨?_, ⟨err, herr, by simp [reportError, emit]⟩, ?_⟩
    · have h2 := (alloc_allocateBuffersFromBlockAllocator h1).1
      simpa [reportError, emit, setOutputFormatCrop, hp] using h2
    · rcases fresh_allocateBuffersFromBlockAllocator h1 with hf | hf
      · exact Or.inl (by simpa [ownerships, reportError, emit, setOutputFormatCrop] using hf)
      · exact Or.inr (by simpa [ownerships, reportError, emit] using hf)
  · rename_i h1 herr
    simp only [Option.map_eq_some'] at h
    obtain ⟨c4, h4, rfl⟩ := h
    have herr1 : _ = c2_status_t.C2_OK := not_not.mp herr
    obtain ⟨-, a2, -⟩ := (alloc_allocateBuffersFromBlockAllocator h1).2 herr1
    obtain ⟨b1, b2, -⟩ := sent_sendAllFrom h4
    refine Or.inl ⟨rfl, ?_, by simpa [b1] using a2⟩
    intro s hs
    simp only [ownerships, List.mem_map] at hs
    obtain ⟨info, hm, rfl⟩ := hs
    obtain ⟨j, hj⟩ := List.getElem?_of_mem hm
    have hlt : j < c4.mGraphicBlocks.length := by
      by_contra hn
      rw [List.getElem?_eq_none (by omega)] at hj
      simp at hj
    exact b2 j info (Nat.zero_le _) (by omega) hj

/-- C17, the claim as stated fails: in `exampleDoneState` the client holds one buffer of the
registry and the accelerator two; `onOutputFormatChanged` reallocates at once: afterwards the
registry holds four new records, all owned by the accelerator, and no format change is
pending, although the client has not returned its buffer. -/
theorem reallocation_is_not_deferred :
    ownerships exampleDoneState =
        [GBState.OWNED_BY_CLIENT, GBState.OWNED_BY_ACCELERATOR,
          GBState.OWNED_BY_ACCELERATOR] ∧
      (onOutputFormatChanged examplePool exampleNewFormat exampleDoneState).map
          (fun c => (ownerships c, c.mPendingOutputFormat.isSome, assignedCounts c.log)) =
        some ([GBState.OWNED_BY_ACCELERATOR, GBState.OWNED_BY_ACCELERATOR,
          GBState.OWNED_BY_ACCELERATOR, GBState.OWNED_BY_ACCELERATOR], false, [3, 4]) := by
  decide

/-- C17, amended: `onOutputFormatChanged` flips the records owned by the accelerator to the
component and reallocates the registry at once, whether or not the client holds buffers.
When it returns outside `ERROR`, either no format change is pending and every record of the
registry is a new one owned by the accelerator, or the allocation failed: an error was
reported last, the format change stays pending, and the registry holds the old records with
the flipped ownerships or only records owned by the component.  It does return in the first
way when every call to the pool, every fetch and every descriptor step succeeds. -/
theorem immediate_reallocation :
    (∀ (env : BlockPoolEnv) (format : VideoFormat) (c c1 : Component),
      c.mComponentState ≠ ComponentState.ERROR →
      onOutputFormatChanged env format c = some c1 →
      (c1.mPendingOutputFormat = none ∧
        ∀ s ∈ ownerships c1, s = GBState.OWNED_BY_ACCELERATOR) ∨
      (c1.mPendingOutputFormat = some format ∧
        (∃ err, err ≠ c2_status_t.C2_OK ∧
          c1.log.getLast? = some (Effect.onError_nb err)) ∧
        (ownerships c1 = (ownerships c).map
            (fun s => if s = GBState.OWNED_BY_ACCELERATOR then GBState.OWNED_BY_COMPONENT
              else s) ∨
          ∀ s ∈ ownerships c1, s = GBState.OWNED_BY_COMPONENT))) ∧
    (∀ (env : BlockPoolEnv) (format : VideoFormat) (c : Component),
      c.mComponentState ≠ ComponentState.ERROR →
      c.mComponentState ≠ ComponentState.UNINITIALIZED →
      c.mPendingOutputFormat = none →
      format.mPixelFormat = HalPixelFormat.YCbCr_420_888 →
      env.getCodec2BlockPool = c2_status_t.C2_OK → env.poolCast = true →
      env.requestNewBufferSet = c2_status_t.C2_OK → env.dequeueThreadStart = true →
      (∀ k, (env.fetchGraphicBlock k).1 = c2_status_t.C2_OK) →
      (∀ b, (env.getPoolIdFromGraphicBlock b).1 = c2_status_t.C2_OK) →
      (∀ j k, appendSucceeds env c.mSecureMode j (env.fetchGraphicBlock k).2 = true) →
      ∃ c1, onOutputFormatChanged env format c = some c1 ∧
        c1.mPendingOutputFormat = none ∧
        c1.mGraphicBlocks.length = (format.mMinNumBuffers + 3) % 2 ^ 32 ∧
        ∀ s ∈ ownerships c1, s = GBState.OWNED_BY_ACCELERATOR) := by
  refine ⟨fun env format c c1 hs h => ?_,
    fun env format c hs1 hs2 hpend hfmt h1 h2 h3 h4 hf hp ha => ?_⟩
  · unfold onOutputFormatChanged EXPECT_RUNNING_OR_RETURN_ON_ERROR at h
    rw [if_neg hs] at h
    repeat' (first | split at h | (dsimp only at h; split at h))
    all_goals try (simp at h; done)
    rcases tryChangeOutputFormat_outcome rfl h with ⟨a1, a2, -⟩ | ⟨a1, a2, a3⟩
    · exact Or.inl ⟨a1, a2⟩
    · refine Or.inr ⟨a1, a2, ?_⟩
      rcases a3 with a3 | a3
      · refine Or.inl ?_
        rw [a3]
        simp only [ownerships, List.map_map]
        congr 1
        funext info
        simp only [Function.comp]
        split <;> simp_all
      · exact Or.inr a3
  · obtain ⟨c1, imports, a1, a2, a3, a4, -, -, -⟩ :=
      onOutputFormatChanged_succeeds c format hs1 hs2 hpend hfmt h1 h2 h3 h4 hf hp ha
    refine ⟨c1, a1, a2, a3, ?_⟩
    intro s hs
    simp only [ownerships, List.mem_map] at hs
    obtain ⟨info, hm, rfl⟩ := hs
    obtain ⟨j, hj⟩ := List.getElem?_of_mem hm
    exact (a4 j info hj).2.1

theorem immediate_reallocation_witness :
    exampleDoneState.mComponentState = ComponentState.STARTED ∧
      GBState.OWNED_BY_CLIENT ∈ ownerships exampleDoneState ∧
      ∃ c1, onOutputFormatChanged examplePool exampleNewFormat exampleDoneState = some c1 ∧
        c1.mPendingOutputFormat = none ∧
        c1.mGraphicBlocks.length = (exampleNewFormat.mMinNumBuffers + 3) % 2 ^ 32 ∧
        ∀ s ∈ ownerships c1, s = GBState.OWNED_BY_ACCELERATOR :=
  ⟨by decide, by decide,
    immediate_reallocation.2 examplePool exampleNewFormat exampleDoneState
      (by decide) (by decide) (by decide) rfl rfl rfl rfl rfl (fun _ => rfl) (fun _ => rfl)
      examplePool_appendSucceeds⟩

/-! ## The retry loop of the allocation -/

theorem fetchWithRetries_timeouts {fetch : Nat → c2_status_t × C2GraphicBlock} :
    ∀ (r k call : Nat), k ≤ r →
      (∀ j, j < k → (fetch (call + j)).1 = c2_status_t.C2_TIMED_OUT) →
      (fetch (call + k)).1 = c2_status_t.C2_OK →
      fetchWithRetries fetch r call = (c2_status_t.C2_OK, (fetch (call + k)).2, call + k + 1) := by
  intro r
  induction r with
  | zero =>
    intro k call hk _ hok
    have hk0 : k = 0 := by omega
    subst hk0
    exact fetchWithRetries_ok 0 call hok
  | succ r ih =>
    intro k call hk ht hok
    cases k with
    | zero => exact fetchWithRetries_ok _ call hok
    | succ k =>
      have h0 : (fetch call).1 = c2_status_t.C2_TIMED_OUT := ht 0 (by omega)
      have h1 := ih k (call + 1) (by omega)
        (fun j hj => by
          have := ht (j + 1) (by omega)
          rwa [show call + (j + 1) = call + 1 + j by omega] at this)
        (by rwa [show call + 1 + k = call + (k + 1) by omega])
      unfold fetchWithRetries
      simp only [h0, reduceCtorEq, if_false, if_true]
      rw [h1]
      rw [show call + 1 + k = call + (k + 1) by omega]

theorem fetchWithRetries_exhausted {fetch : Nat → c2_status_t × C2GraphicBlock} :
    ∀ (r call : Nat),
      (∀ j, j ≤ r → (fetch (call + j)).1 = c2_status_t.C2_TIMED_OUT) →
      fetchWithRetries fetch r call =
        (c2_status_t.C2_TIMED_OUT, (fetch (call + r)).2, call + r + 1) := by
  intro r
  induction r with
  | zero =>
    intro call ht
    have h0 : (fetch call).1 = c2_status_t.C2_TIMED_OUT := ht 0 (by omega)
    unfold fetchWithRetries
    simp [h0]
  | succ r ih =>
    intro call ht
    have h0 : (fetch call).1 = c2_status_t.C2_TIMED_OUT := ht 0 (by omega)
    have h1 := ih (call + 1) (fun j hj => by
      have := ht (j + 1) (by omega)
      rwa [show call + (j + 1) = call + 1 + j by omega] at this)
    unfold fetchWithRetries
    simp only [h0, reduceCtorEq, if_false, if_true]
    rw [h1]
    rw [show call + 1 + r = call + (r + 1) by omega]

theorem allocateLoop_registers {env : BlockPoolEnv} (i call k : Nat) (c : Component)
    (hk : k ≤ kAllocateBufferMaxRetries)
    (ht : ∀ j, j < k → (env.fetchGraphicBlock (call + j)).1 = c2_status_t.C2_TIMED_OUT)
    (hok : (env.fetchGraphicBlock (call + k)).1 = c2_status_t.C2_OK)
    (hp : (env.getPoolIdFromGraphicBlock (env.fetchGraphicBlock (call + k)).2).1 =
      c2_status_t.C2_OK)
    (ha : appendSucceeds env c.mSecureMode i (env.fetchGraphicBlock (call + k)).2 = true) :
    ∃ info : GraphicBlockInfo,
      (∀ n, allocateLoop env (n + 1) i call c =
        allocateLoop env n (i + 1) (call + k + 1)
          { c with mGraphicBlocks := c.mGraphicBlocks ++ [info] }) ∧
      info.mGraphicBlock = some (env.fetchGraphicBlock (call + k)).2 ∧
      info.mBlockId = static_cast_int32 c.mGraphicBlocks.length ∧
      info.mState = GBState.OWNED_BY_COMPONENT := by
  obtain ⟨info, h1, h2, -, h3, h4, -⟩ := append_succeeds
    (env.getPoolIdFromGraphicBlock (env.fetchGraphicBlock (call + k)).2).2 c ha
  refine ⟨info, fun n => ?_, h3, h2, h4⟩
  have hfw := @fetchWithRetries_timeouts env.fetchGraphicBlock
    kAllocateBufferMaxRetries k call hk ht hok
  rw [allocateLoop]
  simp only [hfw, ne_eq, not_true_eq_false, if_false, hp]
  rw [h1]
  rfl

/-- C18, the claim as stated fails: with `exampleFailingDupPool` the first fetch of a buffer
succeeds (no timeout at all), but `dup` fails in `appendOutputBuffer`: the buffer is not
registered and `C2_CORRUPTED` is reported. -/
theorem fetched_buffer_not_registered :
    (exampleFailingDupPool.fetchGraphicBlock 0).1 = c2_status_t.C2_OK ∧
      (allocateLoop exampleFailingDupPool 1 0 0 exampleStartedState).map
          (fun r => (r.2.mGraphicBlocks.length,
            r.2.log.count (Effect.onError_nb c2_status_t.C2_CORRUPTED))) =
        some (0, 1) := by
  decide

/-- C18, amended: for every buffer slot and every `k` from `0` to `9`, if
`fetchGraphicBlock` times out `k` times in a row and then succeeds, and the lookup of the pool
id and the descriptor steps of that block succeed, then the allocation loop registers that
block as a new record owned by the component, reports nothing, and goes on with the next
slot; for the last slot it ends with `C2_OK`. -/
theorem allocation_retry_success (env : BlockPoolEnv) (i call k : Nat) (c : Component)
    (hk : k ≤ 9)
    (ht : ∀ j, j < k → (env.fetchGraphicBlock (call + j)).1 = c2_status_t.C2_TIMED_OUT)
    (hok : (env.fetchGraphicBlock (call + k)).1 = c2_status_t.C2_OK)
    (hp : (env.getPoolIdFromGraphicBlock (env.fetchGraphicBlock (call + k)).2).1 =
      c2_status_t.C2_OK)
    (ha : appendSucceeds env c.mSecureMode i (env.fetchGraphicBlock (call + k)).2 = true) :
    ∃ info : GraphicBlockInfo,
      (∀ n, allocateLoop env (n + 1) i call c =
        allocateLoop env n (i + 1) (call + k + 1)
          { c with mGraphicBlocks := c.mGraphicBlocks ++ [info] }) ∧
      allocateLoop env 1 i call c =
        some (c2_status_t.C2_OK, { c with mGraphicBlocks := c.mGraphicBlocks ++ [info] }) ∧
      ({ c with mGraphicBlocks := c.mGraphicBlocks ++ [info] } : Component).log = c.log ∧
      info.mGraphicBlock = some (env.fetchGraphicBlock (call + k)).2 ∧
      info.mBlockId = static_cast_int32 c.mGraphicBlocks.length ∧
      info.mState = GBState.OWNED_BY_COMPONENT := by
  have hk1 : k ≤ kAllocateBufferMaxRetries := by
    unfold kAllocateBufferMaxRetries; omega
  obtain ⟨info, h1, h2, h3, h4⟩ := allocateLoop_registers i call k c hk1 ht hok hp ha
  exact ⟨info, h1, by rw [h1 0]; rfl, rfl, h2, h3, h4⟩

theorem allocation_retry_success_witness :
    (∀ j, j < 9 → ((exampleSlowPool 9).fetchGraphicBlock (0 + j)).1 =
        c2_status_t.C2_TIMED_OUT) ∧
      ((exampleSlowPool 9).fetchGraphicBlock (0 + 9)).1 = c2_status_t.C2_OK ∧
      ∃ info : GraphicBlockInfo,
        allocateLoop (exampleSlowPool 9) 1 0 0 exampleStartedState =
          some (c2_status_t.C2_OK, { exampleStartedState with
            mGraphicBlocks := exampleStartedState.mGraphicBlocks ++ [info] }) ∧
        info.mGraphicBlock = some ((exampleSlowPool 9).fetchGraphicBlock (0 + 9)).2 :=
  ⟨by decide, by decide,
    (allocation_retry_success (exampleSlowPool 9) 0 0 9 exampleStartedState (by decide)
      (by decide) (by decide) (by decide) (by decide)).elim
      fun info h => ⟨info, h.2.1, h.2.2.2.1⟩⟩

/-! ## Allocation retry, failure side (C19) -/

/-- C19, the claim as stated fails: when `fetchGraphicBlock` times out ten times in a row for
a slot and then succeeds, the allocation does not stop: the block is registered and nothing is
reported. When it times out eleven times in a row, the listener gets `C2_TIMED_OUT`, never
`C2_NO_MEMORY`, and the component state is still `STARTED`. -/
theorem ten_timeouts_are_retried :
    (∀ j, j < 10 → ((exampleSlowPool 10).fetchGraphicBlock j).1 = c2_status_t.C2_TIMED_OUT) ∧
      (allocateLoop (exampleSlowPool 10) 1 0 0 exampleStartedState).map
          (fun r => (r.1, r.2.mGraphicBlocks.length,
            decide (r.2.log = exampleStartedState.log))) =
        some (c2_status_t.C2_OK, 1, true) ∧
      (allocateLoop (exampleSlowPool 11) 1 0 0 exampleStartedState).map
          (fun r => (r.1, r.2.log.count (Effect.onError_nb c2_status_t.C2_NO_MEMORY),
            r.2.log.count (Effect.onError_nb c2_status_t.C2_TIMED_OUT),
            r.2.mComponentState)) =
        some (c2_status_t.C2_TIMED_OUT, 0, 1, ComponentState.STARTED) := by
  decide

/-- C19, amended: if `fetchGraphicBlock` returns `C2_TIMED_OUT` on the first attempt and on
all ten retries (eleven consecutive times) for one buffer slot, then exactly eleven fetches
are made for that slot, allocation stops there with `C2_TIMED_OUT`, the registry is cleared
and the listener receives `onError_nb` with the code `C2_TIMED_OUT`. -/
theorem allocation_retry_exhausted (env : BlockPoolEnv) (n i call : Nat) (c : Component)
    (ht : ∀ j, j ≤ 10 → (env.fetchGraphicBlock (call + j)).1 = c2_status_t.C2_TIMED_OUT) :
    (fetchWithRetries env.fetchGraphicBlock kAllocateBufferMaxRetries call).2.2 = call + 11 ∧
      ∃ c1 : Component,
        allocateLoop env (n + 1) i call c = some (c2_status_t.C2_TIMED_OUT, c1) ∧
        c1.mGraphicBlocks = [] ∧
        c1.log = c.log ++ [Effect.onError_nb c2_status_t.C2_TIMED_OUT] := by
  have hfw := @fetchWithRetries_exhausted env.fetchGraphicBlock
    kAllocateBufferMaxRetries call ht
  refine ⟨by rw [hfw]; rfl, reportError c2_status_t.C2_TIMED_OUT { c with mGraphicBlocks := [] },
    ?_, rfl, rfl⟩
  rw [allocateLoop]
  simp [hfw]

theorem allocation_retry_exhausted_witness :
    (∀ j, j ≤ 10 → ((exampleSlowPool 11).fetchGraphicBlock (0 + j)).1 =
        c2_status_t.C2_TIMED_OUT) ∧
      ∃ c1 : Component,
        allocateLoop (exampleSlowPool 11) (0 + 1) 0 0 exampleStartedState =
          some (c2_status_t.C2_TIMED_OUT, c1) ∧
        c1.mGraphicBlocks = [] ∧
        c1.log = exampleStartedState.log ++ [Effect.onError_nb c2_status_t.C2_TIMED_OUT] :=
  ⟨by decide, (allocation_retry_exhausted (exampleSlowPool 11) 0 0 0 exampleStartedState
    (by decide)).2⟩

/-! ## Mapping of the VDA error codes (C20) -/

/-- C20: `notifyError` reports `C2_BAD_STATE` for `ILLEGAL_STATE`, `C2_BAD_VALUE` for
`INVALID_ARGUMENT` and for `UNREADABLE_INPUT`, `C2_CORRUPTED` for `PLATFORM_FAILURE` and
`C2_NO_MEMORY` for `INSUFFICIENT_RESOURCES`, each by exactly one call of `onError_nb` and
with nothing else changed; for `SUCCESS` it does nothing. So every one of the five error codes
is mapped, and whatever the argument, the only codes reported are those four. -/
theorem notifyError_mapping (c : Component) :
    notifyError VDAResult.ILLEGAL_STATE c =
        { c with log := c.log ++ [Effect.onError_nb c2_status_t.C2_BAD_STATE] } ∧
      notifyError VDAResult.INVALID_ARGUMENT c =
        { c with log := c.log ++ [Effect.onError_nb c2_status_t.C2_BAD_VALUE] } ∧
      notifyError VDAResult.UNREADABLE_INPUT c =
        { c with log := c.log ++ [Effect.onError_nb c2_status_t.C2_BAD_VALUE] } ∧
      notifyError VDAResult.PLATFORM_FAILURE c =
        { c with log := c.log ++ [Effect.onError_nb c2_status_t.C2_CORRUPTED] } ∧
      notifyError VDAResult.INSUFFICIENT_RESOURCES c =
        { c with log := c.log ++ [Effect.onError_nb c2_status_t.C2_NO_MEMORY] } ∧
      notifyError VDAResult.SUCCESS c = c ∧
      (∀ error : VDAResult, step (Event.notifyError error) c = some (notifyError error c)) ∧
      ∀ error : VDAResult, error ≠ VDAResult.SUCCESS →
        ∃ code : c2_status_t,
          code ∈ [c2_status_t.C2_BAD_STATE, c2_status_t.C2_BAD_VALUE,
            c2_status_t.C2_CORRUPTED, c2_status_t.C2_NO_MEMORY] ∧
          notifyError error c = { c with log := c.log ++ [Effect.onError_nb code] } := by
  refine ⟨rfl, rfl, rfl, rfl, rfl, rfl, fun _ => rfl, ?_⟩
  intro error he
  cases error
  · exact absurd rfl he
  · exact ⟨c2_status_t.C2_BAD_STATE, by simp, rfl⟩
  · exact ⟨c2_status_t.C2_BAD_VALUE, by simp, rfl⟩
  · exact ⟨c2_status_t.C2_BAD_VALUE, by simp, rfl⟩
  · exact ⟨c2_status_t.C2_CORRUPTED, by simp, rfl⟩
  · exact ⟨c2_status_t.C2_NO_MEMORY, by simp, rfl⟩

/-! ## The error state (C21) -/

theorem state_workStep {q : List C2Work} {v v1 : WorkView} (h : WorkStep q v v1)
    (hi : v.state ≠ ComponentState.ERROR) : v1.state ≠ ComponentState.ERROR := by
  cases h
  all_goals first
    | exact hi
    | (simp only [afterDrain]; split <;> simp_all)
    | (dsimp only; split <;> simp)
    | simp

theorem never_error_of_reachable {c : Component} (h : Reachable c) :
    c.mComponentState ≠ ComponentState.ERROR := by
  induction h with
  | init s => simp [initial]
  | step e _ hs ih => exact state_workStep (workStep_step hs) ih

/-- C21, the claim as stated fails: after a successful `start()`, an error notification of
the VDA and a failed lookup of a bitstream id are both reported to the listener, and then the
outer state is still `RUNNING` and the inner state `STARTED`; a work queued afterwards is
dispatched and sent to the VDA. -/
theorem error_report_keeps_running :
    ((outcomeComponent (start 0 VDAResult.SUCCESS (initial false))).bind
        (run exampleErrorTrace)).map
      (fun c => (c.mState, c.mComponentState, c.mPendingWorks.length,
        errorCodes c.log, decodedIds c.log)) =
      some (State.RUNNING, ComponentState.STARTED, 1,
        [c2_status_t.C2_CORRUPTED, c2_status_t.C2_CORRUPTED], [0]) := by
  decide

/-- C21, amended: an error report calls the listener and leaves the inner and the outer
state as they are (`reportError` and `notifyError` change nothing but the log), and no
execution reaches the inner state `ERROR`, so later callbacks still take effect.  In the
inner state `ERROR` every guarded callback (queue, dequeue, input done, output done, drain,
flush, format change) returns without any effect. -/
theorem error_report_keeps_state :
    (∀ (error : c2_status_t) (c : Component),
      reportError error c = { c with log := c.log ++ [Effect.onError_nb error] }) ∧
    (∀ (error : VDAResult) (c : Component),
      (notifyError error c).mComponentState = c.mComponentState ∧
      (notifyError error c).mState = c.mState) ∧
    (∀ c : Component, Reachable c → c.mComponentState ≠ ComponentState.ERROR) ∧
    (∀ (c : Component) (w : C2Work) (d b p : Int) (m : DrainMode) (env : BlockPoolEnv)
      (f : VideoFormat), c.mComponentState = ComponentState.ERROR →
      onQueueWork w c = some c ∧ onDequeueWork d c = some c ∧
      onInputBufferDone b c = some c ∧ onOutputBufferDone p b c = some c ∧
      onDrain m c = some c ∧ onFlush c = some c ∧
      onOutputFormatChanged env f c = some c) := by
  refine ⟨fun _ _ => rfl, fun error c => ?_, fun _ h => never_error_of_reachable h,
    fun c w d b p m env f hs => ?_⟩
  · cases error <;> exact ⟨rfl, rfl⟩
  · simp [onQueueWork, onDequeueWork, onInputBufferDone, onOutputBufferDone, onDrain,
      onFlush, onOutputFormatChanged, EXPECT_RUNNING_OR_RETURN_ON_ERROR, hs]

theorem error_report_keeps_state_witness :
    Reachable exampleStartedState ∧
      exampleStartedState.mComponentState ≠ ComponentState.ERROR ∧
      onQueueWork (exampleWork 0 0) exampleErrorState = some exampleErrorState :=
  have hr : Reachable exampleStartedState :=
    Reachable.step (Event.onStart VDAResult.SUCCESS) (Reachable.init false) (by decide)
  ⟨hr, error_report_keeps_state.2.2.1 exampleStartedState hr,
    (error_report_keeps_state.2.2.2 exampleErrorState (exampleWork 0 0) 0 0 0
      DrainMode.NO_DRAIN examplePool exampleFormat (by decide)).1⟩

/-! ## How often an error is reported (C22) -/

theorem errorCodes_append (l l1 : List Effect) :
    errorCodes (l ++ l1) = errorCodes l ++ errorCodes l1 := by
  induction l with
  | nil => rfl
  | cons e l ih => cases e <;> simp [errorCodes, ih]

theorem fetchWithRetries_block {fetch : Nat → c2_status_t × C2GraphicBlock} :
    ∀ (r call : Nat), ∃ k, (fetchWithRetries fetch r call).2.1 = (fetch k).2 := by
  intro r
  induction r with
  | zero =>
    intro call
    refine ⟨call, ?_⟩
    unfold fetchWithRetries
    dsimp only
    split <;> rfl
  | succ r ih =>
    intro call
    unfold fetchWithRetries
    dsimp only
    split
    · exact ⟨call, rfl⟩
    · split
      · exact ih (call + 1)
      · exact ⟨call, rfl⟩

theorem log_allocateLoop {env : BlockPoolEnv} {secureMode : Bool}
    (ha : ∀ j k, appendSucceeds env secureMode j (env.fetchGraphicBlock k).2 = true) :
    ∀ (n i call : Nat) (c c1 : Component) (err : c2_status_t), c.mSecureMode = secureMode →
      allocateLoop env n i call c = some (err, c1) →
      c1.log = c.log ++
        (if err = c2_status_t.C2_OK then [] else [Effect.onError_nb err]) := by
  intro n
  induction n with
  | zero =>
    intro i call c c1 err _ h
    simp only [allocateLoop, Option.some.injEq, Prod.mk.injEq] at h
    obtain ⟨rfl, rfl⟩ := h
    simp
  | succ n ih =>
    intro i call c c1 err hs h
    rw [allocateLoop] at h
    dsimp only at h
    split at h
    · rename_i hne
      simp only [Option.some.injEq, Prod.mk.injEq] at h
      obtain ⟨rfl, rfl⟩ := h
      simp [reportError, emit, hne]
    · split at h
      · rename_i hne
        simp only [Option.some.injEq, Prod.mk.injEq] at h
        obtain ⟨rfl, rfl⟩ := h
        simp [reportError, emit, hne]
      · obtain ⟨k, hk⟩ := @fetchWithRetries_block env.fetchGraphicBlock
          kAllocateBufferMaxRetries call
        have hap : appendSucceeds env c.mSecureMode i
            (fetchWithRetries env.fetchGraphicBlock kAllocateBufferMaxRetries call).2.1 =
            true := by
          rw [hk, hs]; exact ha i k
        obtain ⟨info, h1, -⟩ := append_succeeds
          (env.getPoolIdFromGraphicBlock
            (fetchWithRetries env.fetchGraphicBlock kAllocateBufferMaxRetries call).2.1).2
          c hap
        rw [h1, Option.some_bind] at h
        exact ih (i + 1) _ { c with mGraphicBlocks := c.mGraphicBlocks ++ [info] } c1 err hs h

theorem secure_stopDequeueThread (c : Component) :
    (stopDequeueThread c).mSecureMode = c.mSecureMode := by
  unfold stopDequeueThread; split <;> rfl

theorem log_startDequeueThread {s r : Bool} {c c1 : Component}
    (h : startDequeueThread s c = some (r, c1)) : c1.log = c.log := by
  unfold startDequeueThread at h
  repeat' split at h
  all_goals try (simp at h; done)
  all_goals simp at h
  all_goals obtain ⟨-, rfl⟩ := h
  all_goals rfl

theorem log_allocate {env : BlockPoolEnv} {c c1 : Component} {err : c2_status_t}
    (ha : ∀ j k, appendSucceeds env c.mSecureMode j (env.fetchGraphicBlock k).2 = true)
    (h : allocateBuffersFromBlockAllocator env c = some (err, c1)) :
    c1.log = c.log ++
      Effect.vdaAssignPictureBuffers
        ((c.mOutputFormat.mMinNumBuffers + kDpbOutputBufferExtraCount) % 2 ^ 32) ::
      (if err = c2_status_t.C2_OK then [] else [Effect.onError_nb err]) := by
  have hl := log_stopDequeueThread c
  have hm := secure_stopDequeueThread c
  have hf : (stopDequeueThread c).mOutputFormat = c.mOutputFormat := format_stopDequeueThread c
  unfold allocateBuffersFromBlockAllocator at h
  dsimp only at h
  split at h
  · rename_i hne
    simp only [Option.some.injEq, Prod.mk.injEq] at h
    obtain ⟨rfl, rfl⟩ := h
    simp [reportError, emit, hne, hl, hf]
  · split at h
    · simp only [Option.some.injEq, Prod.mk.injEq] at h
      obtain ⟨rfl, rfl⟩ := h
      simp [reportError, emit, hl, hf]
    · split at h
      · rename_i hne
        simp only [Option.some.injEq, Prod.mk.injEq] at h
        obtain ⟨rfl, rfl⟩ := h
        simp [reportError, emit, hne, hl, hf]
      · split at h
        · simp at h
        · rename_i err4 c4 h4
          have hl4 := log_allocateLoop ha _ _ _ _ _ _ (by simpa [emit] using hm) h4
          split at h
          · rename_i hne
            simp only [Option.some.injEq, Prod.mk.injEq] at h
            obtain ⟨rfl, rfl⟩ := h
            rw [hl4]
            simp [emit, hne, hl, hf]
          · rename_i heq
            simp only [ne_eq, not_not] at heq
            subst heq
            simp only [if_true, List.append_nil] at hl4
            split at h
            · simp at h
            · rename_i c6 h6
              have hl6 := log_startDequeueThread h6
              simp only [Option.some.injEq, Prod.mk.injEq] at h
              obtain ⟨rfl, rfl⟩ := h
              simp [hl6, hl4, emit, hl, hf]
            · rename_i c6 h6
              have hl6 := log_startDequeueThread h6
              simp only [Option.some.injEq, Prod.mk.injEq] at h
              obtain ⟨rfl, rfl⟩ := h
              simp [reportError, hl6, hl4, emit, hl, hf]

theorem tryChangeOutputFormat_fails {env : BlockPoolEnv} {c c1 : Component} {p : VideoFormat}
    (hpend : c.mPendingOutputFormat = some p)
    (ha : ∀ j k, appendSucceeds env c.mSecureMode j (env.fetchGraphicBlock k).2 = true)
    (h : tryChangeOutputFormat env c = some c1) (hp : c1.mPendingOutputFormat ≠ none) :
    ∃ err, err ≠ c2_status_t.C2_OK ∧
      c1.log = c.log ++
        [Effect.vdaAssignPictureBuffers
          ((p.mMinNumBuffers + kDpbOutputBufferExtraCount) % 2 ^ 32),
         Effect.onError_nb err, Effect.onError_nb err] := by
  unfold tryChangeOutputFormat at h
  rw [hpend] at h
  dsimp only at h
  split at h
  · simp at h
  · split at h
    · simp at h
    · split at h
      · simp at h
      · rename_i err c3 h3
        have hl := log_allocate (by simpa [setOutputFormatCrop] using ha) h3
        split at h
        · rename_i hne
          simp only [Option.some.injEq] at h
          subst h
          refine ⟨err, hne, ?_⟩
          simp [reportError, emit, hl, hne, setOutputFormatCrop]
        · simp only [Option.map_eq_some'] at h
          obtain ⟨c4, -, rfl⟩ := h
          exact absurd rfl hp

theorem onOutputFormatChanged_fails {env : BlockPoolEnv} {format : VideoFormat}
    {c c1 : Component} (hs : c.mComponentState ≠ ComponentState.ERROR)
    (ha : ∀ j k, appendSucceeds env c.mSecureMode j (env.fetchGraphicBlock k).2 = true)
    (h : onOutputFormatChanged env format c = some c1) (hp : c1.mPendingOutputFormat ≠ none) :
    ∃ err, err ≠ c2_status_t.C2_OK ∧
      c1.log = c.log ++
        [Effect.vdaAssignPictureBuffers
          ((format.mMinNumBuffers + kDpbOutputBufferExtraCount) % 2 ^ 32),
         Effect.onError_nb err, Effect.onError_nb err] := by
  unfold onOutputFormatChanged EXPECT_RUNNING_OR_RETURN_ON_ERROR at h
  rw [if_neg hs] at h
  split at h
  · simp at h
  · dsimp only at h
    split at h
    · simp at h
    · have h1 := fun hr hq => @tryChangeOutputFormat_fails env _ c1 format hr hq h hp
      exact h1 rfl ha

/-! ## Lookup failures -/

theorem onInputBufferDone_unknown {b : Int} {c : Component}
    (hs1 : c.mComponentState ≠ ComponentState.ERROR)
    (hs2 : c.mComponentState ≠ ComponentState.UNINITIALIZED)
    (h : getPendingWorkByBitstreamId b c = none) :
    onInputBufferDone b c = some (reportError c2_status_t.C2_CORRUPTED c) := by
  simp [onInputBufferDone, EXPECT_RUNNING_OR_RETURN_ON_ERROR, hs1, hs2, h]

theorem onOutputBufferDone_unknown {p b : Int} {c : Component}
    (hs1 : c.mComponentState ≠ ComponentState.ERROR)
    (hs2 : c.mComponentState ≠ ComponentState.UNINITIALIZED)
    (h : getPendingWorkByBitstreamId b c = none ∨ getGraphicBlockById p c = none) :
    onOutputBufferDone p b c = some (reportError c2_status_t.C2_CORRUPTED c) := by
  unfold onOutputBufferDone EXPECT_RUNNING_OR_RETURN_ON_ERROR
  rw [if_neg hs1, if_neg hs2]
  rcases h with h | h
  · simp [h]
  · rw [h]
    cases getPendingWorkByBitstreamId b c <;> rfl

theorem onOutputBufferReturned_unknown {env : BlockPoolEnv} {block : C2GraphicBlock}
    {poolId : Nat} {c : Component}
    (hs : c.mComponentState ≠ ComponentState.UNINITIALIZED)
    (hw : block.width = c.mOutputFormat.mCodedSize.width)
    (hh : block.height = c.mOutputFormat.mCodedSize.height)
    (h : getGraphicBlockByPoolId poolId c = none) :
    onOutputBufferReturned env block poolId c =
      some (reportError c2_status_t.C2_CORRUPTED c) := by
  simp [onOutputBufferReturned, hs, hw, hh, h]

theorem exampleSlowPool_appendSucceeds (t j k : Nat) :
    appendSucceeds (exampleSlowPool t) false j ((exampleSlowPool t).fetchGraphicBlock k).2 =
      true := by
  have hb : ((exampleSlowPool t).fetchGraphicBlock k).2 = exampleBlock k := by
    simp only [exampleSlowPool]
    split <;> rfl
  rw [hb]
  exact examplePool_appendSucceeds j k

/-! ## How often an error is reported (C22), continued -/

/-- C22, the claim as stated fails: when the eleven fetches for the first buffer of a format
change all time out, which is one failed allocation, the listener is called twice with
`C2_TIMED_OUT`. -/
theorem allocation_failure_reported_twice :
    (onOutputFormatChanged (exampleSlowPool 11) exampleFormat exampleStartedState).map
        (fun c => (errorCodes c.log, errorCodes exampleStartedState.log)) =
      some ([c2_status_t.C2_TIMED_OUT, c2_status_t.C2_TIMED_OUT], []) := by
  decide

/-- C22, amended: a `notifyError` of the VDA with an error code, and a failed lookup in
`onInputBufferDone` or `onOutputBufferDone` in a running state, call `onError_nb` exactly
once and nothing else.  A failed buffer allocation during an output format change calls it
twice with the same code, once where the allocation fails and once in
`tryChangeOutputFormat`, when the descriptor steps of the blocks fetched before the failure
succeed. -/
theorem error_report_counts :
    (∀ (error : VDAResult) (c : Component), error ≠ VDAResult.SUCCESS →
      ∃ code, (notifyError error c).log = c.log ++ [Effect.onError_nb code]) ∧
    (∀ (b : Int) (c : Component), c.mComponentState ≠ ComponentState.ERROR →
      c.mComponentState ≠ ComponentState.UNINITIALIZED →
      getPendingWorkByBitstreamId b c = none →
      ∃ c1, onInputBufferDone b c = some c1 ∧
        c1.log = c.log ++ [Effect.onError_nb c2_status_t.C2_CORRUPTED]) ∧
    (∀ (p b : Int) (c : Component), c.mComponentState ≠ ComponentState.ERROR →
      c.mComponentState ≠ ComponentState.UNINITIALIZED →
      getPendingWorkByBitstreamId b c = none ∨ getGraphicBlockById p c = none →
      ∃ c1, onOutputBufferDone p b c = some c1 ∧
        c1.log = c.log ++ [Effect.onError_nb c2_status_t.C2_CORRUPTED]) ∧
    (∀ (env : BlockPoolEnv) (format : VideoFormat) (c c1 : Component),
      c.mComponentState ≠ ComponentState.ERROR →
      (∀ j k, appendSucceeds env c.mSecureMode j (env.fetchGraphicBlock k).2 = true) →
      onOutputFormatChanged env format c = some c1 → c1.mPendingOutputFormat ≠ none →
      ∃ err, err ≠ c2_status_t.C2_OK ∧
        c1.log = c.log ++
          [Effect.vdaAssignPictureBuffers ((format.mMinNumBuffers + 3) % 2 ^ 32),
           Effect.onError_nb err, Effect.onError_nb err] ∧
        errorCodes c1.log = errorCodes c.log ++ [err, err]) := by
  refine ⟨fun error c he => ?_, fun b c hs1 hs2 h => ?_, fun p b c hs1 hs2 h => ?_,
    fun env format c c1 hs ha h hp => ?_⟩
  · cases error
    · exact absurd rfl he
    all_goals exact ⟨_, rfl⟩
  · exact ⟨_, onInputBufferDone_unknown hs1 hs2 h, rfl⟩
  · exact ⟨_, onOutputBufferDone_unknown hs1 hs2 h, rfl⟩
  · obtain ⟨err, h1, h2⟩ := onOutputFormatChanged_fails hs ha h hp
    refine ⟨err, h1, h2, ?_⟩
    rw [h2, errorCodes_append]
    rfl

theorem error_report_counts_witness :
    getPendingWorkByBitstreamId 7 exampleStartedState = none ∧
      (∃ c1, onInputBufferDone 7 exampleStartedState = some c1 ∧
        c1.log = exampleStartedState.log ++ [Effect.onError_nb c2_status_t.C2_CORRUPTED]) ∧
      ∃ err, err ≠ c2_status_t.C2_OK ∧
        errorCodes (stepD (Event.onOutputFormatChanged (exampleSlowPool 11) exampleFormat)
            exampleStartedState).log =
          errorCodes exampleStartedState.log ++ [err, err] :=
  ⟨by decide,
    error_report_counts.2.1 7 exampleStartedState (by decide) (by decide) (by decide),
    (error_report_counts.2.2.2 (exampleSlowPool 11) exampleFormat exampleStartedState
      (stepD (Event.onOutputFormatChanged (exampleSlowPool 11) exampleFormat)
        exampleStartedState)
      (by decide) (exampleSlowPool_appendSucceeds 11) (by decide) (by decide)).elim
      fun err h => ⟨err, h.1, h.2.2⟩⟩

/-! ## Lookup failures are reported and change nothing (C24) -/

theorem findFirst_eq_none {α : Type} (p : α → Bool) (l : List α) :
    findFirst p l = none ↔ ∀ a ∈ l, p a = false := by
  induction l with
  | nil => simp [findFirst]
  | cons a l ih =>
    unfold findFirst
    by_cases h : p a = true
    · simp [h]
    · simp [h, ih]

theorem static_cast_int32_le (n : Nat) : static_cast_int32 n ≤ (n : Int) := by
  unfold static_cast_int32
  have h : n % 4294967296 ≤ n := Nat.mod_le _ _
  norm_num
  split <;> omega

theorem getGraphicBlockById_outside {p : Int} {c : Component}
    (h : p < 0 ∨ (c.mGraphicBlocks.length : Int) ≤ p) : getGraphicBlockById p c = none := by
  unfold getGraphicBlockById
  have h1 := static_cast_int32_le c.mGraphicBlocks.length
  rw [if_pos]
  rcases h with h | h
  · exact Or.inl h
  · exact Or.inr (by omega)

/-- C24: in a running state, `onInputBufferDone` with a bitstream id that no pending work
has, and `onOutputBufferDone` with such a bitstream id or with a picture id outside
`[0, N)` for a registry of `N` records, and, outside `UNINITIALIZED` and for a block of the
current coded size, `onOutputBufferReturned` with a pool id that no record has, each return
with one call `onError_nb(C2_CORRUPTED)` as the only change: the registry, the counter of
buffers in the client and all work lists are as before. -/
theorem lookup_failures_atomic :
    (∀ (b : Int) (c : Component), c.mComponentState ≠ ComponentState.ERROR →
      c.mComponentState ≠ ComponentState.UNINITIALIZED →
      (∀ w ∈ c.mPendingWorks, bitstreamIdOf w ≠ b) →
      onInputBufferDone b c =
        some { c with log := c.log ++ [Effect.onError_nb c2_status_t.C2_CORRUPTED] }) ∧
    (∀ (p b : Int) (c : Component), c.mComponentState ≠ ComponentState.ERROR →
      c.mComponentState ≠ ComponentState.UNINITIALIZED →
      (∀ w ∈ c.mPendingWorks, bitstreamIdOf w ≠ b) ∨ p < 0 ∨
        (c.mGraphicBlocks.length : Int) ≤ p →
      onOutputBufferDone p b c =
        some { c with log := c.log ++ [Effect.onError_nb c2_status_t.C2_CORRUPTED] }) ∧
    (∀ (env : BlockPoolEnv) (block : C2GraphicBlock) (poolId : Nat) (c : Component),
      c.mComponentState ≠ ComponentState.UNINITIALIZED →
      block.width = c.mOutputFormat.mCodedSize.width →
      block.height = c.mOutputFormat.mCodedSize.height →
      (∀ info ∈ c.mGraphicBlocks, info.mPoolId ≠ poolId) →
      onOutputBufferReturned env block poolId c =
        some { c with log := c.log ++ [Effect.onError_nb c2_status_t.C2_CORRUPTED] }) := by
  refine ⟨fun b c hs1 hs2 h => ?_, fun p b c hs1 hs2 h => ?_,
    fun env block poolId c hs hw hh h => ?_⟩
  · refine onInputBufferDone_unknown hs1 hs2 ?_
    unfold getPendingWorkByBitstreamId
    rw [findFirst_eq_none]
    intro w hw
    simpa using h w hw
  · refine onOutputBufferDone_unknown hs1 hs2 ?_
    rcases h with h | h
    · left
      unfold getPendingWorkByBitstreamId
      rw [findFirst_eq_none]
      intro w hw
      simpa using h w hw
    · exact Or.inr (getGraphicBlockById_outside h)
  · refine onOutputBufferReturned_unknown hs hw hh ?_
    unfold getGraphicBlockByPoolId
    rw [findFirst_eq_none]
    intro info hi
    simpa using h info hi

theorem lookup_failures_atomic_witness :
    (onInputBufferDone 7 exampleDispatchedState =
        some { exampleDispatchedState with
          log := exampleDispatchedState.log ++
            [Effect.onError_nb c2_status_t.C2_CORRUPTED] }) ∧
      (onOutputBufferDone 3 0 exampleDispatchedState =
        some { exampleDispatchedState with
          log := exampleDispatchedState.log ++
            [Effect.onError_nb c2_status_t.C2_CORRUPTED] }) ∧
      (onOutputBufferReturned examplePool (exampleBlock 0) 9 exampleDispatchedState =
        some { exampleDispatchedState with
          log := exampleDispatchedState.log ++
            [Effect.onError_nb c2_status_t.C2_CORRUPTED] }) ∧
      exampleDispatchedState.mPendingWorks.map bitstreamIdOf = [0] ∧
      exampleDispatchedState.mGraphicBlocks.map (fun info => info.mPoolId) = [0, 1, 2] :=
  ⟨lookup_failures_atomic.1 7 exampleDispatchedState (by decide) (by decide) (by decide),
    lookup_failures_atomic.2.1 3 0 exampleDispatchedState (by decide) (by decide)
      (Or.inr (Or.inr (by decide))),
    lookup_failures_atomic.2.2 examplePool (exampleBlock 0) 9 exampleDispatchedState
      (by decide) (by decide) (by decide) (by decide),
    by decide, by decide⟩

/-! ## The result of `onStop` -/

theorem onStop_spec {c : Component}
    (hs1 : c.mComponentState ≠ ComponentState.ERROR)
    (hs2 : c.mComponentState ≠ ComponentState.UNINITIALIZED) :
    onStop c = some
      { c with
        mQueue := []
        mAbandonedWorks := c.mAbandonedWorks ++ c.mQueue.map (fun e => e.mWork)
        mStopDoneEvent := true
        mComponentState := ComponentState.STOPPING
        log := c.log ++
          (if c.mComponentState = ComponentState.FLUSHING then [] else [Effect.vdaReset]) } := by
  unfold onStop EXPECT_RUNNING_OR_RETURN_ON_ERROR
  rw [if_neg hs1, if_neg hs2]
  by_cases hf : c.mComponentState = ComponentState.FLUSHING
  · simp [hf, abandonQueue]
  · simp [hf, abandonQueue, emit]

/-! ## When a work is done (C25) -/

theorem isWorkDone_eq {c : Component} {w : C2Work} (hb : w.input.buffers ≠ [])
    (hw : w.worklets ≠ []) :
    isWorkDone c w =
      some (readyToReport w && !(c.mPendingOutputEOS && c.mPendingWorks.length == 1)) := by
  unfold isWorkDone readyToReport
  cases hbs : w.input.buffers with
  | nil => exact absurd hbs hb
  | cons b bs =>
    cases hws : w.worklets with
    | nil => exact absurd hws hw
    | cons wl wls =>
      cases b <;> cases hasFlag w.input.flags FLAG_END_OF_STREAM <;>
        cases hasFlag w.input.flags FLAG_CODEC_CONFIG <;>
        cases c.mPendingOutputEOS <;> cases c.mPendingWorks.length == 1 <;> simp

theorem readyToReport_iff (w : C2Work) :
    readyToReport w = true ↔
      hasFlag w.input.flags FLAG_END_OF_STREAM = false ∧
      w.input.buffers.head? = some none ∧
      (hasFlag w.input.flags FLAG_CODEC_CONFIG = true ∨
        ∃ wl, w.worklets.head? = some wl ∧ wl.output.buffers ≠ []) := by
  unfold readyToReport
  cases hws : w.worklets with
  | nil => simp [and_assoc]
  | cons wl wls => simp [and_assoc]

/-- C25: for a work with an input slot and a worklet, `isWorkDone` returns, and it returns
`true` if and only if the work does not carry the `END_OF_STREAM` input flag, its input
buffer slot is null, it carries the `CODEC_CONFIG` flag or its first worklet holds an output
buffer, and it is not the case that `mPendingOutputEOS` is set while the pending list has
exactly one element. -/
theorem is_work_done_iff (c : Component) (w : C2Work) (hb : w.input.buffers ≠ [])
    (hw : w.worklets ≠ []) :
    ∃ b, isWorkDone c w = some b ∧
      (b = true ↔
        hasFlag w.input.flags FLAG_END_OF_STREAM = false ∧
        w.input.buffers.head? = some none ∧
        (hasFlag w.input.flags FLAG_CODEC_CONFIG = true ∨
          ∃ wl, w.worklets.head? = some wl ∧ wl.output.buffers ≠ []) ∧
        ¬ (c.mPendingOutputEOS = true ∧ c.mPendingWorks.length = 1)) := by
  refine ⟨_, isWorkDone_eq hb hw, ?_⟩
  rw [Bool.and_eq_true, readyToReport_iff]
  simp only [Bool.not_eq_true', Bool.and_eq_false_iff, beq_eq_false_iff_ne, ne_eq,
    not_and, and_assoc]
  constructor
  · rintro ⟨h1, h2, h3, h4⟩
    refine ⟨h1, h2, h3, fun he hl => ?_⟩
    rcases h4 with h4 | h4
    · rw [he] at h4; exact Bool.noConfusion h4
    · exact h4 hl
  · rintro ⟨h1, h2, h3, h4⟩
    refine ⟨h1, h2, h3, ?_⟩
    cases he : c.mPendingOutputEOS
    · exact Or.inl rfl
    · exact Or.inr (h4 he)

theorem is_work_done_iff_witness :
    (exampleReturnedWork 0).input.buffers ≠ [] ∧ (exampleReturnedWork 0).worklets ≠ [] ∧
      isWorkDone examplePendingState (exampleReturnedWork 0) = some true ∧
      ∃ b, isWorkDone examplePendingState (exampleReturnedWork 0) = some b ∧
        (b = true ↔
          hasFlag (exampleReturnedWork 0).input.flags FLAG_END_OF_STREAM = false ∧
          (exampleReturnedWork 0).input.buffers.head? = some none ∧
          (hasFlag (exampleReturnedWork 0).input.flags FLAG_CODEC_CONFIG = true ∨
            ∃ wl, (exampleReturnedWork 0).worklets.head? = some wl ∧
              wl.output.buffers ≠ []) ∧
          ¬ (examplePendingState.mPendingOutputEOS = true ∧
            examplePendingState.mPendingWorks.length = 1)) :=
  ⟨by decide, by decide, by decide,
    is_work_done_iff examplePendingState (exampleReturnedWork 0) (by decide) (by decide)⟩

/-! ## The walk of `reportFinishedWorkIfAny` (C26) -/

theorem reportFinishedWorkLoop_walk (c : Component) :
    ∀ (rest kept finished : List C2Work),
      (∀ w ∈ rest, w.input.buffers ≠ [] ∧ w.worklets ≠ []) →
      ∃ ks fs, reportFinishedWorkLoop c kept rest finished =
          some (kept ++ ks, finished ++ fs.map markDone) ∧
        ks.Sublist rest ∧ fs.Sublist rest ∧ (ks ++ fs).Perm rest ∧
        (∀ w ∈ fs, readyToReport w = true) ∧
        (∀ w ∈ ks, readyToReport w = false ∨
          (c.mPendingOutputEOS = true ∧ kept ++ ks = [w])) ∧
        (c.mPendingOutputEOS = true → kept ++ rest ≠ [] → kept ++ ks ≠ []) := by
  intro rest
  induction rest with
  | nil =>
    intro kept finished _
    exact ⟨[], [], by simp [reportFinishedWorkLoop], List.Sublist.refl _, List.Sublist.refl _,
      List.Perm.refl _, by simp, by simp, fun _ h => by simpa using h⟩
  | cons w rest ih =>
    intro kept finished hsh
    have hw := hsh w (List.mem_cons_self _ _)
    have hrest : ∀ x ∈ rest, x.input.buffers ≠ [] ∧ x.worklets ≠ [] :=
      fun x hx => hsh x (List.mem_cons_of_mem _ hx)
    have hd := isWorkDone_eq (c := { c with mPendingWorks := kept ++ w :: rest }) hw.1 hw.2
    rw [reportFinishedWorkLoop, hd]
    cases hval : (readyToReport w &&
        !(c.mPendingOutputEOS && (kept ++ w :: rest).length == 1))
    · obtain ⟨ks, fs, h1, h2, h3, h4, h5, h6, h7⟩ := ih (kept ++ [w]) finished hrest
      refine ⟨w :: ks, fs, ?_, h2.cons₂ w, h3.cons w, h4.cons w, h5, ?_, ?_⟩
      · simp only [hval] at h1 ⊢
        rw [h1]; simp
      · intro x hx
        rcases List.mem_cons.mp hx with rfl | hx
        · rw [Bool.and_eq_false_iff] at hval
          rcases hval with hval | hval
          · exact Or.inl hval
          · right
            simp only [Bool.not_eq_false', Bool.and_eq_true, beq_iff_eq, List.length_append,
              List.length_cons] at hval
            have hk : kept = [] := List.length_eq_zero.mp (by omega)
            have hr : rest = [] := List.length_eq_zero.mp (by omega)
            subst hr
            have hks : ks = [] := List.sublist_nil.mp h2
            subst hks
            exact ⟨hval.1, by simp [hk]⟩
        · rcases h6 x hx with h | ⟨h, h8⟩
          · exact Or.inl h
          · exact Or.inr ⟨h, by simpa using h8⟩
      · intro _ _
        simp
    · obtain ⟨ks, fs, h1, h2, h3, h4, h5, h6, h7⟩ :=
        ih kept (finished ++ [markDone w]) hrest
      rw [Bool.and_eq_true] at hval
      refine ⟨ks, w :: fs, ?_, h2.cons w, h3.cons₂ w, ?_, ?_, h6, ?_⟩
      · simp only [Bool.and_eq_true, hval, and_self] at h1 ⊢
        exact h1.trans (by simp)
      · exact List.perm_middle.trans (h4.cons w)
      · intro x hx
        rcases List.mem_cons.mp hx with rfl | hx
        · exact hval.1
        · exact h5 x hx
      · intro he hne
        refine h7 he ?_
        have h8 := hval.2
        simp only [he, Bool.true_and, Bool.not_eq_true', beq_eq_false_iff_ne, ne_eq,
          List.length_append, List.length_cons] at h8
        intro h9
        have : kept.length + rest.length = 0 := by rw [← List.length_append, h9]; rfl
        omega

/-! ## The walk of `reportFinishedWorkIfAny` in closed form -/

theorem reportFinishedWorkLoop_filter (c : Component) :
    ∀ (rest kept finished : List C2Work),
      (∀ w ∈ rest, w.input.buffers ≠ [] ∧ w.worklets ≠ []) →
      (kept ≠ [] ∨ c.mPendingOutputEOS = false) →
      reportFinishedWorkLoop c kept rest finished =
        some (kept ++ rest.filter (fun w => !readyToReport w),
          finished ++ (rest.filter readyToReport).map markDone) := by
  intro rest
  induction rest with
  | nil => intro kept finished _ _; simp [reportFinishedWorkLoop]
  | cons w rest ih =>
    intro kept finished hsh hk
    have hw := hsh w (List.mem_cons_self _ _)
    have hrest : ∀ x ∈ rest, x.input.buffers ≠ [] ∧ x.worklets ≠ [] :=
      fun x hx => hsh x (List.mem_cons_of_mem _ hx)
    have hd := @isWorkDone_eq { c with mPendingWorks := kept ++ w :: rest } w hw.1 hw.2
    have hsize : (c.mPendingOutputEOS && (kept ++ w :: rest).length == 1) = false := by
      rcases hk with hk | hk
      · have : kept.length ≠ 0 := fun h => hk (List.length_eq_zero.mp h)
        simp only [Bool.and_eq_false_iff, beq_eq_false_iff_ne, ne_eq, List.length_append,
          List.length_cons]
        right; omega
      · simp [hk]
    rw [reportFinishedWorkLoop, hd]
    simp only [hsize, Bool.not_false, Bool.and_true]
    cases hr : readyToReport w
    · simp only
      rw [ih (kept ++ [w]) finished hrest (Or.inl (by simp))]
      simp [List.filter_cons, hr]
    · simp only
      change reportFinishedWorkLoop c kept rest (finished ++ [markDone w]) = _
      rw [ih kept (finished ++ [markDone w]) hrest hk]
      simp [List.filter_cons, hr]

theorem reportFinishedWorkLoop_eos (c : Component) (he : c.mPendingOutputEOS = true) :
    ∀ (rest finished : List C2Work),
      (∀ w ∈ rest, w.input.buffers ≠ [] ∧ w.worklets ≠ []) →
      reportFinishedWorkLoop c [] rest finished =
        some (walkKept true rest, finished ++ (walkDone true rest).map markDone) := by
  intro rest
  induction rest with
  | nil => intro finished _; simp [reportFinishedWorkLoop, walkKept, walkDone]
  | cons w rest ih =>
    intro finished hsh
    have hw := hsh w (List.mem_cons_self _ _)
    have hrest : ∀ x ∈ rest, x.input.buffers ≠ [] ∧ x.worklets ≠ [] :=
      fun x hx => hsh x (List.mem_cons_of_mem _ hx)
    have hd := @isWorkDone_eq { c with mPendingWorks := [] ++ w :: rest } w hw.1 hw.2
    cases rest with
    | nil =>
      rw [reportFinishedWorkLoop, hd]
      simp [he, reportFinishedWorkLoop, walkKept, walkDone]
    | cons x rest =>
      rw [reportFinishedWorkLoop, hd]
      have hsize : (c.mPendingOutputEOS && ([] ++ w :: x :: rest).length == 1) = false := by
        simp
      simp only [hsize, Bool.not_false, Bool.and_true]
      cases hr : readyToReport w
      · simp only
        rw [reportFinishedWorkLoop_filter c (x :: rest) ([] ++ [w]) finished hrest
          (Or.inl (by simp))]
        simp [walkKept, walkDone, List.dropLast, hr, List.filter_cons]
      · simp only
        change reportFinishedWorkLoop c [] (x :: rest) (finished ++ [markDone w]) = _
        rw [ih (finished ++ [markDone w]) hrest]
        simp only [walkKept, walkDone, List.dropLast, Bool.true_and, List.all_cons, hr,
          List.filter_cons, if_true, List.append_assoc, List.singleton_append]
        split <;> simp

theorem reportFinishedWorkLoop_closed (c : Component) (finished : List C2Work)
    (hsh : ∀ w ∈ c.mPendingWorks, w.input.buffers ≠ [] ∧ w.worklets ≠ []) :
    reportFinishedWorkLoop c [] c.mPendingWorks finished =
      some (walkKept c.mPendingOutputEOS c.mPendingWorks,
        finished ++ (walkDone c.mPendingOutputEOS c.mPendingWorks).map markDone) := by
  cases he : c.mPendingOutputEOS
  · rw [reportFinishedWorkLoop_filter c _ _ _ hsh (Or.inr he)]
    simp [walkKept, walkDone]
  · exact reportFinishedWorkLoop_eos c he _ _ hsh

/-- The result of `reportFinishedWorkIfAny` in closed form, for pending works with an input
slot and a worklet. -/
theorem reportFinishedWorkIfAny_closed (c : Component)
    (hsh : ∀ w ∈ c.mPendingWorks, w.input.buffers ≠ [] ∧ w.worklets ≠ []) :
    reportFinishedWorkIfAny c = some { c with
      mPendingWorks := walkKept c.mPendingOutputEOS c.mPendingWorks
      log := c.log ++ (batchOf ((walkDone c.mPendingOutputEOS c.mPendingWorks).map
        markDone)).map Effect.onWorkDone_nb } := by
  unfold reportFinishedWorkIfAny
  rw [reportFinishedWorkLoop_closed c [] hsh]
  cases hd : walkDone c.mPendingOutputEOS c.mPendingWorks with
  | nil => simp [batchOf]
  | cons f fs => simp [batchOf, emit]

theorem getLast?_toList_sublist {α : Type} (l : List α) : l.getLast?.toList.Sublist l := by
  rcases List.eq_nil_or_concat l with rfl | ⟨l1, a, rfl⟩
  · simp
  · simp

theorem walkKept_sublist (eos : Bool) (l : List C2Work) : (walkKept eos l).Sublist l := by
  unfold walkKept
  split
  · exact getLast?_toList_sublist l
  · exact List.filter_sublist l

theorem walkDone_sublist (eos : Bool) (l : List C2Work) : (walkDone eos l).Sublist l := by
  unfold walkDone
  split
  · exact List.dropLast_sublist l
  · exact List.filter_sublist l

theorem walk_perm (eos : Bool) (l : List C2Work) : (walkKept eos l ++ walkDone eos l).Perm l := by
  unfold walkKept walkDone
  split
  · rcases List.eq_nil_or_concat l with rfl | ⟨l1, a, rfl⟩
    · simp
    · simpa using (List.perm_append_comm : ([a] ++ l1).Perm (l1 ++ [a]))
  · exact List.perm_append_comm.trans (List.filter_append_perm readyToReport l)

theorem walkDone_ready (eos : Bool) (l : List C2Work) :
    ∀ w ∈ walkDone eos l, readyToReport w = true := by
  intro w hw
  unfold walkDone at hw
  split at hw
  · rename_i h
    simp only [Bool.and_eq_true, List.all_eq_true] at h
    exact h.2 w hw
  · exact (List.mem_filter.mp hw).2

theorem walkKept_cases (eos : Bool) (l : List C2Work) :
    ∀ w ∈ walkKept eos l, readyToReport w = false ∨ (eos = true ∧ walkKept eos l = [w]) := by
  intro w hw
  by_cases h : (eos && l.dropLast.all readyToReport) = true
  · right
    have hk : walkKept eos l = l.getLast?.toList := by simp only [walkKept, h, if_true]
    rw [hk] at hw ⊢
    simp only [Bool.and_eq_true] at h
    refine ⟨h.1, ?_⟩
    cases hl : l.getLast? with
    | none => simp [hl] at hw
    | some a => simp [hl] at hw; subst hw; rfl
  · left
    have hk : walkKept eos l = l.filter (fun w => !readyToReport w) := by
      simp only [walkKept, h]; rfl
    rw [hk] at hw
    simpa using (List.mem_filter.mp hw).2

theorem walkKept_ne_nil (l : List C2Work) (hl : l ≠ []) : walkKept true l ≠ [] := by
  by_cases h : l.dropLast.all readyToReport = true
  · have hk : walkKept true l = l.getLast?.toList := by simp [walkKept, h]
    rw [hk]
    rcases List.eq_nil_or_concat l with rfl | ⟨l1, a, rfl⟩
    · exact absurd rfl hl
    · simp
  · have hk : walkKept true l = l.filter (fun w => !readyToReport w) := by
      simp only [walkKept, Bool.true_and, h]; rfl
    rw [hk]
    simp only [List.all_eq_true, not_forall] at h
    obtain ⟨x, hx, hr⟩ := h
    intro he
    have : x ∈ l.filter (fun w => !readyToReport w) :=
      List.mem_filter.mpr ⟨(List.dropLast_sublist l).subset hx, by simpa using hr⟩
    rw [he] at this
    simp at this

/-- C26: when every pending work has an input slot and a worklet, `reportFinishedWorkIfAny`
returns, and the walk from front to back, testing `isWorkDone` against the list as it stands
when a work is reached, comes to this: while `mPendingOutputEOS` is set and every work but
the last passes the tests on the work itself, all works but the last are delivered and the
last work remains; otherwise the works that pass these tests are delivered and the others
remain.  So the works `kept` that remain pending and the works `done` that are delivered
are sublists of the pending list (in its order) and together hold each pending work exactly
once; a delivered work is the pending work with result `C2_OK` and `workletsProcessed` set to
its number of worklets, its input slot is null and it carries no `END_OF_STREAM` input flag;
the listener is called once with the batch when the batch is not empty and not at all
otherwise.  A work that remains although it passes the tests on the work itself is the only
remaining work while `mPendingOutputEOS` is set, and then the list does not become empty. -/
theorem report_finished_walk (c : Component)
    (hsh : ∀ w ∈ c.mPendingWorks,
      w.input.buffers ≠ [] ∧ w.worklets ≠ [] ∧ w.worklets.length < 2 ^ 32) :
    ∃ kept done,
      kept =
        (if c.mPendingOutputEOS = true ∧
            ∀ w ∈ c.mPendingWorks.dropLast, readyToReport w = true then
          c.mPendingWorks.getLast?.toList
        else c.mPendingWorks.filter (fun w => !readyToReport w)) ∧
      done =
        (if c.mPendingOutputEOS = true ∧
            ∀ w ∈ c.mPendingWorks.dropLast, readyToReport w = true then
          c.mPendingWorks.dropLast
        else c.mPendingWorks.filter readyToReport) ∧
      reportFinishedWorkIfAny c = some { c with
        mPendingWorks := kept
        log := c.log ++ (batchOf (done.map markDone)).map Effect.onWorkDone_nb } ∧
      kept.Sublist c.mPendingWorks ∧ done.Sublist c.mPendingWorks ∧
      (kept ++ done).Perm c.mPendingWorks ∧
      (∀ w ∈ done,
        (markDone w).result = c2_status_t.C2_OK ∧
        (markDone w).workletsProcessed = w.worklets.length ∧
        (markDone w).worklets = w.worklets ∧ (markDone w).input = w.input ∧
        w.input.buffers.head? = some none ∧
        hasFlag w.input.flags FLAG_END_OF_STREAM = false ∧
        (hasFlag w.input.flags FLAG_CODEC_CONFIG = true ∨
          ∃ wl, w.worklets.head? = some wl ∧ wl.output.buffers ≠ [])) ∧
      (∀ w ∈ kept,
        ¬ (hasFlag w.input.flags FLAG_END_OF_STREAM = false ∧
          w.input.buffers.head? = some none ∧
          (hasFlag w.input.flags FLAG_CODEC_CONFIG = true ∨
            ∃ wl, w.worklets.head? = some wl ∧ wl.output.buffers ≠ [])) ∨
        (c.mPendingOutputEOS = true ∧ kept = [w])) ∧
      (c.mPendingOutputEOS = true → c.mPendingWorks ≠ [] → kept ≠ []) ∧
      (batchOf (done.map markDone) = [] ↔ done = []) ∧
      (done ≠ [] → batchOf (done.map markDone) = [done.map markDone]) := by
  have hk : walkKept c.mPendingOutputEOS c.mPendingWorks =
      (if c.mPendingOutputEOS = true ∧
          ∀ w ∈ c.mPendingWorks.dropLast, readyToReport w = true then
        c.mPendingWorks.getLast?.toList
      else c.mPendingWorks.filter (fun w => !readyToReport w)) := by
    simp [walkKept]
  have hd : walkDone c.mPendingOutputEOS c.mPendingWorks =
      (if c.mPendingOutputEOS = true ∧
          ∀ w ∈ c.mPendingWorks.dropLast, readyToReport w = true then
        c.mPendingWorks.dropLast
      else c.mPendingWorks.filter readyToReport) := by
    simp [walkDone]
  refine ⟨walkKept c.mPendingOutputEOS c.mPendingWorks,
    walkDone c.mPendingOutputEOS c.mPendingWorks, hk, hd,
    reportFinishedWorkIfAny_closed c (fun w hw => ⟨(hsh w hw).1, (hsh w hw).2.1⟩),
    walkKept_sublist _ _, walkDone_sublist _ _, walk_perm _ _, fun w hw => ?_, fun w hw => ?_,
    fun he hne => ?_, ?_, ?_⟩
  · have hr := (readyToReport_iff w).mp (walkDone_ready _ _ w hw)
    have hl := (hsh w ((walkDone_sublist _ _).subset hw)).2.2
    exact ⟨rfl, Nat.mod_eq_of_lt hl, rfl, rfl, hr.2.1, hr.1, hr.2.2⟩
  · rcases walkKept_cases _ _ w hw with h | h
    · left
      rw [← readyToReport_iff, h]
      exact Bool.noConfusion
    · exact Or.inr h
  · rw [he]; exact walkKept_ne_nil _ hne
  · cases walkDone c.mPendingOutputEOS c.mPendingWorks <;> simp [batchOf]
  · intro hne
    cases hd1 : walkDone c.mPendingOutputEOS c.mPendingWorks with
    | nil => exact absurd hd1 hne
    | cons f fs => simp [batchOf]

theorem report_finished_walk_witness :
    (∀ w ∈ exampleDrainingState.mPendingWorks,
        w.input.buffers ≠ [] ∧ w.worklets ≠ [] ∧ w.worklets.length < 2 ^ 32) ∧
      exampleDrainingState.mPendingOutputEOS = true ∧
      exampleDrainingState.mPendingWorks = [exampleReturnedWork 0, exampleReturnedWork 2] ∧
      readyToReport (exampleReturnedWork 0) = true ∧
      readyToReport (exampleReturnedWork 2) = true ∧
      ∃ kept done, kept = [exampleReturnedWork 2] ∧ done = [exampleReturnedWork 0] ∧
        reportFinishedWorkIfAny exampleDrainingState = some { exampleDrainingState with
          mPendingWorks := kept
          log := exampleDrainingState.log ++
            (batchOf (done.map markDone)).map Effect.onWorkDone_nb } :=
  ⟨by decide, by decide, by decide, by decide, by decide,
    (report_finished_walk exampleDrainingState (by decide)).elim
      fun kept h1 => h1.elim fun done h =>
        ⟨kept, done, h.1.trans (by decide), h.2.1.trans (by decide), h.2.2.1⟩⟩

/-! ## Drain requests (C27) -/

/-- C27: in a running state `onDrain(mode)` does exactly one of three things.  If the
incoming queue is not empty, it gives `mode` to the last queued work when that work has the
mark `NO_DRAIN` and leaves the queue as it is otherwise; nothing else changes and no call is
made.  If the queue is empty, the pending list is not and the state is `STARTED`, it calls
`flush` of the VDA once, enters `DRAINING` and sets `mPendingOutputEOS` to whether the mode
is `DRAIN_COMPONENT_WITH_EOS`.  In every other case nothing changes. -/
theorem drain_semantics (mode : DrainMode) (c : Component)
    (hs1 : c.mComponentState ≠ ComponentState.ERROR)
    (hs2 : c.mComponentState ≠ ComponentState.UNINITIALIZED) :
    (∀ (front : List WorkEntry) (back : WorkEntry), c.mQueue = front ++ [back] →
      onDrain mode c = some { c with
        mQueue := front ++ [{ back with
          mDrainMode :=
            if back.mDrainMode = DrainMode.NO_DRAIN then mode else back.mDrainMode }] }) ∧
    (c.mQueue = [] → c.mPendingWorks ≠ [] → c.mComponentState = ComponentState.STARTED →
      onDrain mode c = some { c with
        log := c.log ++ [Effect.vdaFlush]
        mComponentState := ComponentState.DRAINING
        mPendingOutputEOS := decide (mode = DrainMode.DRAIN_COMPONENT_WITH_EOS) }) ∧
    (c.mQueue = [] → c.mPendingWorks = [] ∨ c.mComponentState ≠ ComponentState.STARTED →
      onDrain mode c = some c) := by
  refine ⟨fun front back hq => ?_, fun hq hp hs => ?_, fun hq h => ?_⟩
  · have hl : c.mQueue.getLast? = some back := by rw [hq]; simp
    have hd : c.mQueue.dropLast = front := by rw [hq]; simp
    unfold onDrain EXPECT_RUNNING_OR_RETURN_ON_ERROR
    rw [if_neg hs1, if_neg hs2, hl]
    by_cases hb : back.mDrainMode = DrainMode.NO_DRAIN
    · simp [hb, hd]
    · simp only [hb, if_false]
      congr 1
      cases c
      simp only at hq
      simp [hq]
  · have hl : c.mQueue.getLast? = none := by rw [hq]; rfl
    have hp1 : (!c.mPendingWorks.isEmpty) = true := by
      cases hpw : c.mPendingWorks with
      | nil => exact absurd hpw hp
      | cons w ws => rfl
    unfold onDrain EXPECT_RUNNING_OR_RETURN_ON_ERROR
    rw [if_neg hs1, if_neg hs2, hl]
    simp only [hp1, hs, if_true]
    cases mode <;> rfl
  · have hl : c.mQueue.getLast? = none := by rw [hq]; rfl
    unfold onDrain EXPECT_RUNNING_OR_RETURN_ON_ERROR
    rw [if_neg hs1, if_neg hs2, hl]
    rcases h with h | h
    · simp [h]
    · simp only [h, if_false]
      split <;> rfl

theorem drain_semantics_witness :
    exampleDispatchedState.mQueue = [] ∧ exampleDispatchedState.mPendingWorks ≠ [] ∧
      exampleDispatchedState.mComponentState = ComponentState.STARTED ∧
      onDrain DrainMode.DRAIN_COMPONENT_NO_EOS exampleDispatchedState =
        some { exampleDispatchedState with
          log := exampleDispatchedState.log ++ [Effect.vdaFlush]
          mComponentState := ComponentState.DRAINING
          mPendingOutputEOS :=
            decide (DrainMode.DRAIN_COMPONENT_NO_EOS = DrainMode.DRAIN_COMPONENT_WITH_EOS) } :=
  ⟨by decide, by decide, by decide,
    (drain_semantics DrainMode.DRAIN_COMPONENT_NO_EOS exampleDispatchedState (by decide)
      (by decide)).2.1 (by decide) (by decide) (by decide)⟩

/-! ## Frames of the decode commands -/

theorem decoded_reportError (e : c2_status_t) (c : Component) :
    decodedLog c = decodedLog (reportError e c) := by
  simp [decodedLog, decodedIds_append, decodedIds, reportError, emit]

theorem decoded_stopDequeueThread (c : Component) : decodedLog c = decodedLog (stopDequeueThread c) := by
  unfold stopDequeueThread; split <;> simp [decodedLog, decodedIds_append, decodedIds]

theorem decoded_appendOutputBuffer {d : Int} {b : C2GraphicBlock} {p : Nat}
    {c c1 : Component} (h : appendOutputBuffer d b p c = some c1) : decodedLog c = decodedLog c1 := by
  unfold appendOutputBuffer at h
  repeat' split at h
  all_goals try (simp at h; done)
  all_goals simp at h
  all_goals subst h
  all_goals simp [decodedLog, decodedIds_append, decodedIds, reportError, emit]

theorem decoded_appendSecureOutputBuffer {a : Bool} {f : HalPixelFormat} {d : Int}
    {b : C2GraphicBlock} {p : Nat} {c c1 : Component}
    (h : appendSecureOutputBuffer a f d b p c = some c1) : decodedLog c = decodedLog c1 := by
  unfold appendSecureOutputBuffer at h
  repeat' split at h
  all_goals try (simp at h; done)
  all_goals simp at h
  all_goals subst h
  all_goals simp [decodedLog, decodedIds_append, decodedIds, reportError, emit]

theorem decoded_sendOutputBufferToAccelerator {i : Nat} {c c1 : Component}
    (h : sendOutputBufferToAccelerator i c = some c1) : decodedLog c = decodedLog c1 := by
  unfold sendOutputBufferToAccelerator at h
  repeat' (first | split at h | (dsimp only at h; split at h))
  all_goals try (simp at h; done)
  all_goals simp at h
  all_goals subst h
  all_goals simp [decodedLog, decodedIds_append, decodedIds, reportError, emit]

theorem decoded_sendAllFrom {n i : Nat} {c c1 : Component}
    (h : sendAllFrom n i c = some c1) : decodedLog c = decodedLog c1 := by
  induction n generalizing i c with
  | zero => simp [sendAllFrom] at h; subst h; exact rfl
  | succ n ih =>
    simp only [sendAllFrom, Option.bind_eq_some] at h
    obtain ⟨c2, h2, h3⟩ := h
    exact (decoded_sendOutputBufferToAccelerator h2).trans (ih h3)

theorem decoded_startDequeueThread {s r : Bool} {c c1 : Component}
    (h : startDequeueThread s c = some (r, c1)) : decodedLog c = decodedLog c1 := by
  unfold startDequeueThread at h
  repeat' split at h
  all_goals try (simp at h; done)
  all_goals simp at h
  all_goals obtain ⟨-, rfl⟩ := h
  all_goals simp [decodedLog, decodedIds_append, decodedIds]

theorem decoded_allocateLoop {env : BlockPoolEnv} {n i k : Nat} {c c1 : Component}
    {err : c2_status_t} (h : allocateLoop env n i k c = some (err, c1)) : decodedLog c = decodedLog c1 := by
  induction n generalizing i k c with
  | zero => simp [allocateLoop] at h; obtain ⟨-, rfl⟩ := h; exact rfl
  | succ n ih =>
    unfold allocateLoop at h
    dsimp only at h
    split at h
    · simp at h; obtain ⟨-, rfl⟩ := h
      simp [decodedLog, decodedIds_append, decodedIds, reportError, emit]
    · split at h
      · simp at h; obtain ⟨-, rfl⟩ := h
        simp [decodedLog, decodedIds_append, decodedIds, reportError, emit]
      · simp only [Option.bind_eq_some] at h
        obtain ⟨c2, h2, h3⟩ := h
        refine Eq.trans ?_ (ih h3)
        split at h2
        · exact decoded_appendSecureOutputBuffer h2
        · exact decoded_appendOutputBuffer h2

theorem decoded_allocateBuffersFromBlockAllocator {env : BlockPoolEnv} {c c1 : Component}
    {err : c2_status_t} (h : allocateBuffersFromBlockAllocator env c = some (err, c1)) :
    decodedLog c = decodedLog c1 := by
  unfold allocateBuffersFromBlockAllocator at h
  dsimp only at h
  have h0 : ∀ e, decodedLog c = decodedLog (emit (Effect.vdaAssignPictureBuffers e) (stopDequeueThread c)) :=
    fun e => (decoded_stopDequeueThread c).trans
      (by simp [decodedLog, decodedIds_append, decodedIds, emit])
  have h00 : ∀ e, decodedLog c = decodedLog { emit (Effect.vdaAssignPictureBuffers e) (stopDequeueThread c) with
      mGraphicBlocks := [] } := fun e => (h0 e).trans (by simp [decodedLog, decodedIds_append, decodedIds])
  repeat' split at h
  all_goals try (simp at h; done)
  all_goals simp at h
  all_goals obtain ⟨-, rfl⟩ := h
  · exact (h0 _).trans (decoded_reportError _ _)
  · exact (h00 _).trans (decoded_reportError _ _)
  · exact (h00 _).trans (decoded_reportError _ _)
  · rename_i h1 _
    exact (h00 _).trans (decoded_allocateLoop h1 :)
  · rename_i h1 _ _ _ h2
    exact ((h00 _).trans (decoded_allocateLoop h1 :)).trans
      ((Eq.trans (by simp [decodedLog, decodedIds_append, decodedIds]) (decoded_startDequeueThread h2 :)))
  · rename_i h1 _ _ _ h2
    exact (((h00 _).trans (decoded_allocateLoop h1 :)).trans
      ((Eq.trans (by simp [decodedLog, decodedIds_append, decodedIds]) (decoded_startDequeueThread h2 :)))).trans
      (decoded_reportError _ _)

theorem decoded_tryChangeOutputFormat {env : BlockPoolEnv} {c c1 : Component}
    (h : tryChangeOutputFormat env c = some c1) : decodedLog c = decodedLog c1 := by
  unfold tryChangeOutputFormat at h
  repeat' (first | split at h | (dsimp only at h; split at h))
  all_goals try (simp at h; done)
  · rename_i h1 _
    simp at h; subst h
    exact (Eq.trans (by simp [decodedLog, decodedIds_append, decodedIds, setOutputFormatCrop])
      (decoded_allocateBuffersFromBlockAllocator h1 :)).trans (decoded_reportError _ _)
  · rename_i h1 _
    simp only [Option.map_eq_some'] at h
    obtain ⟨c4, h4, rfl⟩ := h
    exact ((Eq.trans (by simp [decodedLog, decodedIds_append, decodedIds, setOutputFormatCrop])
      (decoded_allocateBuffersFromBlockAllocator h1 :)).trans
      (decoded_sendAllFrom h4 :)).trans (by simp [decodedLog, decodedIds_append, decodedIds])

theorem decoded_onOutputBufferReturned {env : BlockPoolEnv} {b : C2GraphicBlock} {p : Nat}
    {c c1 : Component} (h : onOutputBufferReturned env b p c = some c1) : decodedLog c = decodedLog c1 := by
  unfold onOutputBufferReturned at h
  repeat' (first | split at h | (dsimp only at h; split at h))
  all_goals try (simp at h; done)
  all_goals try (simp at h; subst h; first | exact rfl | exact decoded_reportError _ _)
  · exact Eq.trans (by simp [decodedLog, decodedIds_append, decodedIds]) (decoded_tryChangeOutputFormat h :)
  · exact Eq.trans (by simp [decodedLog, decodedIds_append, decodedIds]) (decoded_sendOutputBufferToAccelerator h :)

theorem decoded_onOutputFormatChanged {env : BlockPoolEnv} {f : VideoFormat}
    {c c1 : Component} (h : onOutputFormatChanged env f c = some c1) : decodedLog c = decodedLog c1 := by
  unfold onOutputFormatChanged EXPECT_RUNNING_OR_RETURN_ON_ERROR at h
  repeat' (first | split at h | (dsimp only at h; split at h))
  all_goals try (simp at h; done)
  all_goals try (simp at h; subst h; exact rfl)
  exact Eq.trans (by simp [decodedLog, decodedIds_append, decodedIds]) (decoded_tryChangeOutputFormat h :)

theorem decoded_onVisibleRectChanged {r : Rect} {c c1 : Component}
    (h : onVisibleRectChanged r c = some c1) : decodedLog c = decodedLog c1 := by
  unfold onVisibleRectChanged EXPECT_RUNNING_OR_RETURN_ON_ERROR at h
  repeat' split at h
  all_goals try (simp at h; done)
  all_goals simp at h
  all_goals subst h
  all_goals simp [decodedLog, decodedIds_append, decodedIds, setOutputFormatCrop]

theorem decoded_notifyError (r : VDAResult) (c : Component) :
    decodedLog c = decodedLog (notifyError r c) := by
  cases r <;> simp [notifyError, decodedLog, decodedIds_append, decodedIds, reportError, emit]

theorem decoded_reportFinishedWorkIfAny {c c1 : Component}
    (h : reportFinishedWorkIfAny c = some c1) : decodedLog c = decodedLog c1 := by
  unfold reportFinishedWorkIfAny at h
  split at h
  · simp at h
  · split at h <;> simp at h <;> subst h <;> simp [decodedLog, decodedIds_append, decodedIds, emit]

theorem decoded_reportAbandonedWorks (c : Component) :
    decodedLog c = decodedLog (reportAbandonedWorks c) := by
  unfold reportAbandonedWorks
  simp only []
  split <;> simp [decodedLog, decodedIds_append, decodedIds, emit]

theorem decoded_reportEOSWork {c c1 : Component}
    (h : reportEOSWork c = some c1) : decodedLog c = decodedLog c1 := by
  unfold reportEOSWork at h
  split at h
  · split at h
    · simp at h
    · simp at h; subst h; simp [decodedLog, decodedIds_append, decodedIds, emit]
  · simp at h; subst h; simp [decodedLog, decodedIds_append, decodedIds, reportError, emit]

theorem decoded_onQueueWork {w : C2Work} {c c1 : Component}
    (h : onQueueWork w c = some c1) : decodedLog c = decodedLog c1 := by
  unfold onQueueWork EXPECT_RUNNING_OR_RETURN_ON_ERROR at h
  repeat' split at h
  all_goals try (simp at h; done)
  all_goals simp at h
  all_goals subst h
  all_goals simp [decodedLog, decodedIds_append, decodedIds, emit]

theorem decoded_dequeueOutput {m : DrainMode} {w : C2Work} {c c1 : Component}
    (h : dequeueOutput m w c = some c1) : decodedLog c = decodedLog c1 := by
  unfold dequeueOutput at h
  split at h
  · dsimp only at h
    repeat' split at h
    all_goals simp at h
    all_goals subst h
    all_goals simp [decodedLog, decodedIds_append, decodedIds, emit]
  · simp at h

theorem decoded_onInputBufferDone {b : Int} {c c1 : Component}
    (h : onInputBufferDone b c = some c1) : decodedLog c = decodedLog c1 := by
  unfold onInputBufferDone EXPECT_RUNNING_OR_RETURN_ON_ERROR at h
  repeat' split at h
  all_goals try (simp at h; done)
  all_goals try (simp at h; subst h; first | exact rfl | exact decoded_reportError _ _)
  exact Eq.trans (by simp [decodedLog, decodedIds_append, decodedIds]) (decoded_reportFinishedWorkIfAny h :)

theorem decoded_onDrain {m : DrainMode} {c c1 : Component}
    (h : onDrain m c = some c1) : decodedLog c = decodedLog c1 := by
  unfold onDrain EXPECT_RUNNING_OR_RETURN_ON_ERROR at h
  repeat' split at h
  all_goals try (simp at h; done)
  all_goals simp at h
  all_goals subst h
  all_goals simp [decodedLog, decodedIds_append, decodedIds, emit]

theorem decoded_onDrainDoneTail {c c1 : Component}
    (h : onDrainDoneTail c = some c1) : decodedLog c = decodedLog c1 := by
  unfold onDrainDoneTail at h
  split at h
  · simp at h
  · rename_i c2 h2
    split at h
    · simp at h
    · simp at h
      subst h
      have h3 : decodedLog c = decodedLog c2 := by
        split at h2
        · exact decoded_reportEOSWork h2
        · simp at h2; subst h2; exact rfl
      exact Eq.trans h3 (by simp [decodedLog, decodedIds_append, decodedIds, emit])

theorem decoded_onDrainDone {c c1 : Component}
    (h : onDrainDone c = some c1) : decodedLog c = decodedLog c1 := by
  unfold onDrainDone at h
  repeat' split at h
  all_goals try (simp at h; subst h; first | exact rfl | exact decoded_reportError _ _)
  all_goals exact Eq.trans (by simp [decodedLog, decodedIds_append, decodedIds]) (decoded_onDrainDoneTail h :)

theorem decoded_onFlush {c c1 : Component}
    (h : onFlush c = some c1) : decodedLog c = decodedLog c1 := by
  unfold onFlush EXPECT_RUNNING_OR_RETURN_ON_ERROR at h
  repeat' split at h
  all_goals try (simp at h; done)
  all_goals simp at h
  all_goals subst h
  all_goals simp [decodedLog, decodedIds_append, decodedIds, abandonQueue, emit]

theorem decoded_onFlushDone {c c1 : Component}
    (h : onFlushDone c = some c1) : decodedLog c = decodedLog c1 := by
  unfold onFlushDone at h
  simp at h
  subst h
  exact Eq.trans (decoded_reportAbandonedWorks c) (by simp [decodedLog, decodedIds_append, decodedIds, emit])

theorem decoded_dequeueThreadLoopIteration (f : c2_status_t × C2GraphicBlock)
    (p : c2_status_t × Nat) (c : Component) :
    decodedLog c = decodedLog (dequeueThreadLoopIteration f p c).1 := by
  unfold dequeueThreadLoopIteration
  repeat' split
  all_goals simp [decodedLog, decodedIds_append, decodedIds, emit]


theorem decoded_onStart {r : VDAResult} {c c1 : Component} (h : onStart r c = some c1) :
    decodedLog c = decodedLog c1 := by
  unfold onStart at h
  split at h
  · simp at h
  · simp only [Option.some.injEq] at h
    subst h
    split <;> simp [decodedLog, decodedIds_append, decodedIds, emit]

theorem decoded_onStop {c c1 : Component} (h : onStop c = some c1) :
    decodedLog c = decodedLog c1 := by
  unfold onStop EXPECT_RUNNING_OR_RETURN_ON_ERROR at h
  repeat' (first | split at h | (dsimp only at h; split at h))
  all_goals try (simp at h; done)
  all_goals simp at h
  all_goals subst h
  all_goals simp [decodedLog, decodedIds_append, decodedIds, abandonQueue, emit]

theorem decoded_onStopDone {c c1 : Component} (h : onStopDone c = some c1) :
    decodedLog c = decodedLog c1 := by
  unfold onStopDone at h
  split at h
  · simp at h
  · simp only [Option.some.injEq] at h
    subst h
    have h1 := decoded_reportAbandonedWorks c
    simp only [decodedLog] at h1 ⊢
    split <;> simp [decodedIds_append, decodedIds, emit, log_stopDequeueThread, h1]

theorem decoded_onResetDone {c c1 : Component} (h : onResetDone c = some c1) :
    decodedLog c = decodedLog c1 := by
  unfold onResetDone at h
  repeat' split at h
  · simp at h; subst h; rfl
  · exact decoded_onFlushDone h
  · exact decoded_onStopDone h
  · simp at h; subst h; exact decoded_reportError _ _

theorem decoded_onOutputBufferDone {p b : Int} {c c1 : Component}
    (h : onOutputBufferDone p b c = some c1) : decodedLog c = decodedLog c1 := by
  rcases onOutputBufferDone_cases h with rfl | rfl | ⟨_, _, _, _, _, _, _, _, _, _, _, _, _, _, h1⟩
  · rfl
  · exact decoded_reportError _ _
  · exact Eq.trans (by simp [decodedLog]) (decoded_reportFinishedWorkIfAny h1 :)

theorem onDequeueWork_idle (d : Int) {c : Component}
    (hs : c.mComponentState = ComponentState.DRAINING ∨
      c.mComponentState = ComponentState.FLUSHING) : onDequeueWork d c = some c := by
  unfold onDequeueWork EXPECT_RUNNING_OR_RETURN_ON_ERROR
  rcases hs with hs | hs <;> simp [hs] <;> split <;> rfl

theorem onDequeueWork_not_started {d : Int} {c c1 : Component}
    (hs : c.mComponentState ≠ ComponentState.STARTED) (h : onDequeueWork d c = some c1) :
    c1 = c := by
  unfold onDequeueWork EXPECT_RUNNING_OR_RETURN_ON_ERROR at h
  repeat' split at h
  all_goals try (simp at h; done)
  all_goals try (simp at h; exact h.symm)
  all_goals simp_all

theorem decoded_step {e : Event} {c c1 : Component} (h : step e c = some c1)
    (hs : c.mComponentState ≠ ComponentState.STARTED) : decodedLog c = decodedLog c1 := by
  cases e <;> simp only [step] at h
  · exact decoded_onStart h
  · exact decoded_onStop h
  · exact decoded_onQueueWork h
  · rw [onDequeueWork_not_started hs h]
  · exact decoded_onInputBufferDone h
  · exact decoded_onOutputBufferReturned h
  · exact decoded_onOutputBufferDone h
  · exact decoded_onDrain h
  · exact decoded_onDrainDone h
  · exact decoded_onFlush h
  · exact decoded_onResetDone h
  · exact decoded_onOutputFormatChanged h
  · exact decoded_onVisibleRectChanged h
  · simp only [Option.some.injEq] at h
    subst h
    exact decoded_notifyError _ _
  · split at h <;> simp only [Option.some.injEq] at h <;> subst h
    · exact decoded_dequeueThreadLoopIteration _ _ _
    · rfl

/-! ## Dispatch and draining (C28) -/

theorem drainMark_workStep {q : List C2Work} {v v1 : WorkView} (h : WorkStep q v v1)
    (hi : DrainMarkInvariant v) : DrainMarkInvariant v1 := by
  unfold DrainMarkInvariant at hi ⊢
  cases h
  case queue w _ _ =>
    intro e he
    simp only [List.mem_append, List.mem_singleton] at he
    rcases he with he | rfl
    · exact hi e he
    · intro h
      simp only [isEOS] at h
      simp [queuedDrainMode, h]
  case dispatch entry rest w2 _ _ _ _ hq =>
    intro e he
    exact hi e (by rw [hq]; exact List.mem_cons_of_mem _ he)
  case dispatchDrain entry rest w2 _ _ _ _ hq =>
    intro e he
    exact hi e (by rw [hq]; exact List.mem_cons_of_mem _ he)
  case drainMark front back m hb hq =>
    intro e he
    simp only [List.mem_append, List.mem_singleton] at he
    rcases he with he | rfl
    · exact hi e (by rw [hq]; exact List.mem_append_left _ he)
    · intro h
      have := hi back (by rw [hq]; simp) h
      rw [hb] at this
      exact DrainMode.noConfusion this
  case flush _ => intro e he; simp at he
  case stop _ _ => intro e he; simp at he
  all_goals exact hi

theorem drainMark_of_reachable {c : Component} (h : Reachable c) :
    DrainMarkInvariant (workView c) := by
  induction h with
  | init s => intro e he; simp [workView, initial] at he
  | step e _ hs ih => exact drainMark_workStep (workStep_step hs) ih

theorem onDequeueWork_drain {d : Int} {c c1 : Component} {entry : WorkEntry}
    {rest : List WorkEntry} (hs : c.mComponentState = ComponentState.STARTED)
    (hq : c.mQueue = entry :: rest) (hm : entry.mDrainMode ≠ DrainMode.NO_DRAIN)
    (h : onDequeueWork d c = some c1) :
    c1.mComponentState = ComponentState.DRAINING ∧
    c1.mPendingOutputEOS = (entry.mDrainMode == DrainMode.DRAIN_COMPONENT_WITH_EOS) ∧
    c1.log.count Effect.vdaFlush = c.log.count Effect.vdaFlush + 1 := by
  unfold onDequeueWork EXPECT_RUNNING_OR_RETURN_ON_ERROR at h
  rw [hq] at h
  simp only [hs, reduceCtorEq, if_false, false_or, ne_eq, not_true_eq_false] at h
  split at h
  · simp at h
  · rename_i w1 c2 h2
    have hc2 : c2.log.count Effect.vdaFlush = c.log.count Effect.vdaFlush := by
      unfold dequeueInput at h2
      repeat' split at h2
      all_goals simp at h2
      all_goals obtain ⟨-, rfl⟩ := h2
      · rfl
      · unfold sendInputBufferToAccelerator
        split <;> simp [reportError, emit]
    unfold dequeueOutput at h
    split at h
    · dsimp only at h
      rw [if_pos hm] at h
      split at h <;> simp only [Option.some.injEq] at h <;> subst h <;> simp [emit, hc2]
    · simp at h

/-- C28: `onDequeueWork` in `DRAINING` or `FLUSHING` changes nothing.  In `STARTED`, when the
work at the front of the queue has a drain mark and passes the checks on its buffers, the
handler returns, has called `flush` of the VDA exactly once, the state is `DRAINING`,
`mPendingOutputEOS` tells whether the mark is `DRAIN_COMPONENT_WITH_EOS`, and a further
`onDequeueWork` changes nothing.  `onQueueWork` marks a work that carries `END_OF_STREAM`
with `DRAIN_COMPONENT_WITH_EOS`, and in every reachable state such a queued work still has
this mark.  No step taken in `DRAINING`, `FLUSHING` or `STOPPING` issues a `decode`. -/
theorem dispatch_and_draining :
    (∀ (d : Int) (c : Component),
      c.mComponentState = ComponentState.DRAINING ∨
        c.mComponentState = ComponentState.FLUSHING →
      onDequeueWork d c = some c) ∧
    (∀ (d : Int) (c : Component) (entry : WorkEntry) (rest : List WorkEntry)
      (wl : C2Worklet),
      c.mComponentState = ComponentState.STARTED → c.mQueue = entry :: rest →
      entry.mDrainMode ≠ DrainMode.NO_DRAIN → entry.mWork.worklets = [wl] →
      (entry.mWork.input.buffers = [] ∨
        ∃ blk, entry.mWork.input.buffers = [some (C2Buffer.linear blk)] ∧ 0 < blk.size) →
      ∃ c1, onDequeueWork d c = some c1 ∧
        c1.log.count Effect.vdaFlush = c.log.count Effect.vdaFlush + 1 ∧
        c1.mComponentState = ComponentState.DRAINING ∧
        c1.mPendingOutputEOS =
          decide (entry.mDrainMode = DrainMode.DRAIN_COMPONENT_WITH_EOS) ∧
        ∀ d1, onDequeueWork d1 c1 = some c1) ∧
    (∀ (w : C2Work) (c : Component), c.mComponentState ≠ ComponentState.ERROR →
      c.mComponentState ≠ ComponentState.UNINITIALIZED →
      hasFlag w.input.flags FLAG_END_OF_STREAM = true →
      ∃ c1, onQueueWork w c = some c1 ∧
        c1.mQueue = c.mQueue ++
          [{ mWork := w, mDrainMode := DrainMode.DRAIN_COMPONENT_WITH_EOS }]) ∧
    (∀ c : Component, Reachable c → ∀ e ∈ c.mQueue,
      hasFlag e.mWork.input.flags FLAG_END_OF_STREAM = true →
      e.mDrainMode = DrainMode.DRAIN_COMPONENT_WITH_EOS) ∧
    (∀ (e : Event) (c c1 : Component),
      c.mComponentState = ComponentState.DRAINING ∨
        c.mComponentState = ComponentState.FLUSHING ∨
        c.mComponentState = ComponentState.STOPPING →
      step e c = some c1 → decodedIds c1.log = decodedIds c.log) := by
  refine ⟨fun d c hs => onDequeueWork_idle d hs, fun d c entry rest wl hs hq hm hw hb => ?_,
    fun w c hs1 hs2 hf => ?_, fun c hr e he hf => drainMark_of_reachable hr e he hf,
    fun e c c1 hs h => ?_⟩
  · have hr := @onDequeueWork_returns d c entry rest wl hs hq hw (by
      rcases hb with hb | hb
      · exact Or.inl ⟨hb, Or.inl hm⟩
      · exact Or.inr hb)
    obtain ⟨c1, h1⟩ := Option.isSome_iff_exists.mp hr
    obtain ⟨a1, a2, a3⟩ := onDequeueWork_drain hs hq hm h1
    refine ⟨c1, h1, a3, a1, ?_, fun d1 => onDequeueWork_idle d1 (Or.inl a1)⟩
    rw [a2]
    cases entry.mDrainMode <;> rfl
  · refine ⟨emit (Effect.postTask Task.onDequeueWork) { c with mQueue := c.mQueue ++
      [{ mWork := w, mDrainMode := DrainMode.DRAIN_COMPONENT_WITH_EOS }] }, ?_, rfl⟩
    simp [onQueueWork, EXPECT_RUNNING_OR_RETURN_ON_ERROR, hs1, hs2, hf]
  · have hne : c.mComponentState ≠ ComponentState.STARTED := by
      rcases hs with h | h | h <;> simp [h]
    exact (decoded_step h hne).symm

theorem dispatch_and_draining_witness :
    exampleQueuedMarkerState.mComponentState = ComponentState.STARTED ∧
      exampleQueuedMarkerState.mQueue =
        [{ mWork := exampleEOSWork 0, mDrainMode := DrainMode.DRAIN_COMPONENT_WITH_EOS }] ∧
      ∃ c1, onDequeueWork 10 exampleQueuedMarkerState = some c1 ∧
        c1.log.count Effect.vdaFlush = exampleQueuedMarkerState.log.count Effect.vdaFlush + 1 ∧
        c1.mComponentState = ComponentState.DRAINING ∧
        c1.mPendingOutputEOS = true :=
  ⟨by decide, by decide,
    (dispatch_and_draining.2.1 10 exampleQueuedMarkerState
      { mWork := exampleEOSWork 0, mDrainMode := DrainMode.DRAIN_COMPONENT_WITH_EOS } []
      { output := { flags := 0
                    ordinal := { frameIndex := 0, timestamp := 0, customOrdinal := 0 }
                    buffers := [] } }
      (by decide) (by decide) (by decide) (by decide)
      (Or.inl (by decide))).elim
      fun c1 h => ⟨c1, h.1, h.2.1, h.2.2.1, h.2.2.2.1⟩⟩

/-! ## A drain completion during a stop or a flush (C29, C30) -/

/-- C29: in `STOPPING`, `onDrainDone` returns at once: the component after the handler is
the component before it, so the inner state, `mPendingOutputEOS`, the pending list, the
incoming queue and the abandoned list are unchanged, and nothing is reported, no error is
raised and no task is posted. -/
theorem drain_done_dropped_in_stopping (c : Component)
    (hs : c.mComponentState = ComponentState.STOPPING) :
    onDrainDone c = some c ∧ step Event.onDrainDone c = some c ∧
    ∀ c1, step Event.onDrainDone c = some c1 →
      c1.mComponentState = ComponentState.STOPPING ∧
      c1.mPendingOutputEOS = c.mPendingOutputEOS ∧ c1.mPendingWorks = c.mPendingWorks ∧
      c1.mQueue = c.mQueue ∧ c1.mAbandonedWorks = c.mAbandonedWorks ∧ c1.log = c.log := by
  have h : onDrainDone c = some c := by simp [onDrainDone, hs]
  refine ⟨h, h, fun c1 h1 => ?_⟩
  simp only [step, h, Option.some.injEq] at h1
  subst h1
  exact ⟨hs, rfl, rfl, rfl, rfl, rfl⟩

theorem drain_done_dropped_in_stopping_witness :
    (runD exampleDrainStopTrace (initial false)).mComponentState = ComponentState.STOPPING ∧
      (runD exampleDrainStopTrace (initial false)).mPendingOutputEOS = true ∧
      (runD exampleDrainStopTrace (initial false)).mPendingWorks.length = 2 ∧
      onDrainDone (runD exampleDrainStopTrace (initial false)) =
        some (runD exampleDrainStopTrace (initial false)) :=
  ⟨by decide, by decide, by decide,
    (drain_done_dropped_in_stopping (runD exampleDrainStopTrace (initial false))
      (by decide)).1⟩

/-- C30, what the code does: a drain request, a flush request and then the flush completion
of the VDA lead to `onDrainDone` in `FLUSHING` with one pending work and `mPendingOutputEOS`
unset; `onDrainDone` does not return there as it does in `STOPPING`, the check that the
pending list is empty fails and the process aborts.  The same requests with a stop in place
of the flush are handled: in `STOPPING` the handler returns and the work stays pending.  With
`mPendingOutputEOS` set and one pending work, `onDrainDone` in `FLUSHING` reports that work
with result `C2_OK` and empties the pending list instead of leaving it to the reset
completion. -/
theorem drain_done_in_flushing_aborts :
    (run exampleDrainFlushTrace (initial false)).map
        (fun c => (c.mComponentState, c.mPendingOutputEOS, c.mPendingWorks.length)) =
      some (ComponentState.FLUSHING, false, 1) ∧
    run (exampleDrainFlushTrace ++ [Event.onDrainDone]) (initial false) = none ∧
    (run (exampleDrainFlushTrace.dropLast ++ [Event.onStop, Event.onDrainDone])
        (initial false)).map
        (fun c => (c.mComponentState, c.mPendingWorks.length, errorCodes c.log)) =
      some (ComponentState.STOPPING, 1, []) ∧
    (run (exampleMarkerTrace ++ [Event.onFlush, Event.onDrainDone]) (initial false)).map
        (fun c => (c.mComponentState, c.mPendingWorks.length,
          (batches c.log).map (fun b => b.map (fun w => w.result)))) =
      some (ComponentState.FLUSHING, 0, [[c2_status_t.C2_OK]]) := by
  refine ⟨by decide, by decide, by decide, by decide⟩

/-! ## Frames of the reset commands -/

theorem resets_reportError (e : c2_status_t) (c : Component) :
    resetCount c = resetCount (reportError e c) := by
  simp [resetCount, reportError, emit]

theorem resets_stopDequeueThread (c : Component) : resetCount c = resetCount (stopDequeueThread c) := by
  unfold stopDequeueThread; split <;> simp [resetCount]

theorem resets_appendOutputBuffer {d : Int} {b : C2GraphicBlock} {p : Nat}
    {c c1 : Component} (h : appendOutputBuffer d b p c = some c1) : resetCount c = resetCount c1 := by
  unfold appendOutputBuffer at h
  repeat' split at h
  all_goals try (simp at h; done)
  all_goals simp at h
  all_goals subst h
  all_goals simp [resetCount, reportError, emit]

theorem resets_appendSecureOutputBuffer {a : Bool} {f : HalPixelFormat} {d : Int}
    {b : C2GraphicBlock} {p : Nat} {c c1 : Component}
    (h : appendSecureOutputBuffer a f d b p c = some c1) : resetCount c = resetCount c1 := by
  unfold appendSecureOutputBuffer at h
  repeat' split at h
  all_goals try (simp at h; done)
  all_goals simp at h
  all_goals subst h
  all_goals simp [resetCount, reportError, emit]

theorem resets_sendOutputBufferToAccelerator {i : Nat} {c c1 : Component}
    (h : sendOutputBufferToAccelerator i c = some c1) : resetCount c = resetCount c1 := by
  unfold sendOutputBufferToAccelerator at h
  repeat' (first | split at h | (dsimp only at h; split at h))
  all_goals try (simp at h; done)
  all_goals simp at h
  all_goals subst h
  all_goals simp [resetCount, reportError, emit]

theorem resets_sendAllFrom {n i : Nat} {c c1 : Component}
    (h : sendAllFrom n i c = some c1) : resetCount c = resetCount c1 := by
  induction n generalizing i c with
  | zero => simp [sendAllFrom] at h; subst h; exact rfl
  | succ n ih =>
    simp only [sendAllFrom, Option.bind_eq_some] at h
    obtain ⟨c2, h2, h3⟩ := h
    exact (resets_sendOutputBufferToAccelerator h2).trans (ih h3)

theorem resets_startDequeueThread {s r : Bool} {c c1 : Component}
    (h : startDequeueThread s c = some (r, c1)) : resetCount c = resetCount c1 := by
  unfold startDequeueThread at h
  repeat' split at h
  all_goals try (simp at h; done)
  all_goals simp at h
  all_goals obtain ⟨-, rfl⟩ := h
  all_goals simp [resetCount]

theorem resets_allocateLoop {env : BlockPoolEnv} {n i k : Nat} {c c1 : Component}
    {err : c2_status_t} (h : allocateLoop env n i k c = some (err, c1)) : resetCount c = resetCount c1 := by
  induction n generalizing i k c with
  | zero => simp [allocateLoop] at h; obtain ⟨-, rfl⟩ := h; exact rfl
  | succ n ih =>
    unfold allocateLoop at h
    dsimp only at h
    split at h
    · simp at h; obtain ⟨-, rfl⟩ := h
      simp [resetCount, reportError, emit]
    · split at h
      · simp at h; obtain ⟨-, rfl⟩ := h
        simp [resetCount, reportError, emit]
      · simp only [Option.bind_eq_some] at h
        obtain ⟨c2, h2, h3⟩ := h
        refine Eq.trans ?_ (ih h3)
        split at h2
        · exact resets_appendSecureOutputBuffer h2
        · exact resets_appendOutputBuffer h2

theorem resets_allocateBuffersFromBlockAllocator {env : BlockPoolEnv} {c c1 : Component}
    {err : c2_status_t} (h : allocateBuffersFromBlockAllocator env c = some (err, c1)) :
    resetCount c = resetCount c1 := by
  unfold allocateBuffersFromBlockAllocator at h
  dsimp only at h
  have h0 : ∀ e, resetCount c = resetCount (emit (Effect.vdaAssignPictureBuffers e) (stopDequeueThread c)) :=
    fun e => (resets_stopDequeueThread c).trans
      (by simp [resetCount, emit])
  have h00 : ∀ e, resetCount c = resetCount { emit (Effect.vdaAssignPictureBuffers e) (stopDequeueThread c) with
      mGraphicBlocks := [] } := fun e => (h0 e).trans (by simp [resetCount])
  repeat' split at h
  all_goals try (simp at h; done)
  all_goals simp at h
  all_goals obtain ⟨-, rfl⟩ := h
  · exact (h0 _).trans (resets_reportError _ _)
  · exact (h00 _).trans (resets_reportError _ _)
  · exact (h00 _).trans (resets_reportError _ _)
  · rename_i h1 _
    exact (h00 _).trans (resets_allocateLoop h1 :)
  · rename_i h1 _ _ _ h2
    exact ((h00 _).trans (resets_allocateLoop h1 :)).trans
      ((Eq.trans (by simp [resetCount]) (resets_startDequeueThread h2 :)))
  · rename_i h1 _ _ _ h2
    exact (((h00 _).trans (resets_allocateLoop h1 :)).trans
      ((Eq.trans (by simp [resetCount]) (resets_startDequeueThread h2 :)))).trans
      (resets_reportError _ _)

theorem resets_tryChangeOutputFormat {env : BlockPoolEnv} {c c1 : Component}
    (h : tryChangeOutputFormat env c = some c1) : resetCount c = resetCount c1 := by
  unfold tryChangeOutputFormat at h
  repeat' (first | split at h | (dsimp only at h; split at h))
  all_goals try (simp at h; done)
  · rename_i h1 _
    simp at h; subst h
    exact (Eq.trans (by simp [resetCount, setOutputFormatCrop])
      (resets_allocateBuffersFromBlockAllocator h1 :)).trans (resets_reportError _ _)
  · rename_i h1 _
    simp only [Option.map_eq_some'] at h
    obtain ⟨c4, h4, rfl⟩ := h
    exact ((Eq.trans (by simp [resetCount, setOutputFormatCrop])
      (resets_allocateBuffersFromBlockAllocator h1 :)).trans
      (resets_sendAllFrom h4 :)).trans (by simp [resetCount])

theorem resets_onOutputBufferReturned {env : BlockPoolEnv} {b : C2GraphicBlock} {p : Nat}
    {c c1 : Component} (h : onOutputBufferReturned env b p c = some c1) : resetCount c = resetCount c1 := by
  unfold onOutputBufferReturned at h
  repeat' (first | split at h | (dsimp only at h; split at h))
  all_goals try (simp at h; done)
  all_goals try (simp at h; subst h; first | exact rfl | exact resets_reportError _ _)
  · exact Eq.trans (by simp [resetCount]) (resets_tryChangeOutputFormat h :)
  · exact Eq.trans (by simp [resetCount]) (resets_sendOutputBufferToAccelerator h :)

theorem resets_onOutputFormatChanged {env : BlockPoolEnv} {f : VideoFormat}
    {c c1 : Component} (h : onOutputFormatChanged env f c = some c1) : resetCount c = resetCount c1 := by
  unfold onOutputFormatChanged EXPECT_RUNNING_OR_RETURN_ON_ERROR at h
  repeat' (first | split at h | (dsimp only at h; split at h))
  all_goals try (simp at h; done)
  all_goals try (simp at h; subst h; exact rfl)
  exact Eq.trans (by simp [resetCount]) (resets_tryChangeOutputFormat h :)

theorem resets_onVisibleRectChanged {r : Rect} {c c1 : Component}
    (h : onVisibleRectChanged r c = some c1) : resetCount c = resetCount c1 := by
  unfold onVisibleRectChanged EXPECT_RUNNING_OR_RETURN_ON_ERROR at h
  repeat' split at h
  all_goals try (simp at h; done)
  all_goals simp at h
  all_goals subst h
  all_goals simp [resetCount, setOutputFormatCrop]

theorem resets_notifyError (r : VDAResult) (c : Component) :
    resetCount c = resetCount (notifyError r c) := by
  cases r <;> simp [notifyError, resetCount, reportError, emit]

theorem resets_reportFinishedWorkIfAny {c c1 : Component}
    (h : reportFinishedWorkIfAny c = some c1) : resetCount c = resetCount c1 := by
  unfold reportFinishedWorkIfAny at h
  split at h
  · simp at h
  · split at h <;> simp at h <;> subst h <;> simp [resetCount, emit]

theorem resets_reportAbandonedWorks (c : Component) :
    resetCount c = resetCount (reportAbandonedWorks c) := by
  unfold reportAbandonedWorks
  simp only []
  split <;> simp [resetCount, emit]

theorem resets_reportEOSWork {c c1 : Component}
    (h : reportEOSWork c = some c1) : resetCount c = resetCount c1 := by
  unfold reportEOSWork at h
  split at h
  · split at h
    · simp at h
    · simp at h; subst h; simp [resetCount, emit]
  · simp at h; subst h; simp [resetCount, reportError, emit]

theorem resets_onQueueWork {w : C2Work} {c c1 : Component}
    (h : onQueueWork w c = some c1) : resetCount c = resetCount c1 := by
  unfold onQueueWork EXPECT_RUNNING_OR_RETURN_ON_ERROR at h
  repeat' split at h
  all_goals try (simp at h; done)
  all_goals simp at h
  all_goals subst h
  all_goals simp [resetCount, emit]

theorem resets_dequeueInput {d : Int} {m : DrainMode} {w w1 : C2Work} {c c1 : Component}
    (h : dequeueInput d m w c = some (w1, c1)) : resetCount c = resetCount c1 := by
  unfold dequeueInput at h
  repeat' split at h
  all_goals simp at h
  all_goals obtain ⟨-, rfl⟩ := h
  · exact rfl
  · unfold sendInputBufferToAccelerator
    split <;> simp [resetCount, reportError, emit]

theorem resets_dequeueOutput {m : DrainMode} {w : C2Work} {c c1 : Component}
    (h : dequeueOutput m w c = some c1) : resetCount c = resetCount c1 := by
  unfold dequeueOutput at h
  split at h
  · dsimp only at h
    repeat' split at h
    all_goals simp at h
    all_goals subst h
    all_goals simp [resetCount, emit]
  · simp at h

theorem resets_onDequeueWork {d : Int} {c c1 : Component}
    (h : onDequeueWork d c = some c1) : resetCount c = resetCount c1 := by
  unfold onDequeueWork EXPECT_RUNNING_OR_RETURN_ON_ERROR at h
  repeat' split at h
  all_goals try (simp at h; done)
  all_goals try (simp at h; subst h; exact rfl)
  rename_i _ h2
  exact Eq.trans
    (Eq.trans (by simp [resetCount]) (resets_dequeueInput h2 :))
    (resets_dequeueOutput h)

theorem resets_onInputBufferDone {b : Int} {c c1 : Component}
    (h : onInputBufferDone b c = some c1) : resetCount c = resetCount c1 := by
  unfold onInputBufferDone EXPECT_RUNNING_OR_RETURN_ON_ERROR at h
  repeat' split at h
  all_goals try (simp at h; done)
  all_goals try (simp at h; subst h; first | exact rfl | exact resets_reportError _ _)
  exact Eq.trans (by simp [resetCount]) (resets_reportFinishedWorkIfAny h :)

theorem resets_onDrain {m : DrainMode} {c c1 : Component}
    (h : onDrain m c = some c1) : resetCount c = resetCount c1 := by
  unfold onDrain EXPECT_RUNNING_OR_RETURN_ON_ERROR at h
  repeat' split at h
  all_goals try (simp at h; done)
  all_goals simp at h
  all_goals subst h
  all_goals simp [resetCount, emit]

theorem resets_onDrainDoneTail {c c1 : Component}
    (h : onDrainDoneTail c = some c1) : resetCount c = resetCount c1 := by
  unfold onDrainDoneTail at h
  split at h
  · simp at h
  · rename_i c2 h2
    split at h
    · simp at h
    · simp at h
      subst h
      have h3 : resetCount c = resetCount c2 := by
        split at h2
        · exact resets_reportEOSWork h2
        · simp at h2; subst h2; exact rfl
      exact Eq.trans h3 (by simp [resetCount, emit])

theorem resets_onDrainDone {c c1 : Component}
    (h : onDrainDone c = some c1) : resetCount c = resetCount c1 := by
  unfold onDrainDone at h
  repeat' split at h
  all_goals try (simp at h; subst h; first | exact rfl | exact resets_reportError _ _)
  all_goals exact Eq.trans (by simp [resetCount]) (resets_onDrainDoneTail h :)

theorem resets_onFlushDone {c c1 : Component}
    (h : onFlushDone c = some c1) : resetCount c = resetCount c1 := by
  unfold onFlushDone at h
  simp at h
  subst h
  exact Eq.trans (resets_reportAbandonedWorks c) (by simp [resetCount, emit])

theorem resets_dequeueThreadLoopIteration (f : c2_status_t × C2GraphicBlock)
    (p : c2_status_t × Nat) (c : Component) :
    resetCount c = resetCount (dequeueThreadLoopIteration f p c).1 := by
  unfold dequeueThreadLoopIteration
  repeat' split
  all_goals simp [resetCount, emit]


theorem resets_onOutputBufferDone {p b : Int} {c c1 : Component}
    (h : onOutputBufferDone p b c = some c1) : resetCount c = resetCount c1 := by
  rcases onOutputBufferDone_cases h with rfl | rfl | ⟨_, _, _, _, _, _, _, _, _, _, _, _, _, _, h1⟩
  · rfl
  · exact resets_reportError _ _
  · exact Eq.trans (by simp [resetCount]) (resets_reportFinishedWorkIfAny h1 :)

theorem resets_onStart {r : VDAResult} {c c1 : Component} (h : onStart r c = some c1) :
    resetCount c = resetCount c1 := by
  unfold onStart at h
  split at h
  · simp at h
  · simp only [Option.some.injEq] at h
    subst h
    split <;> simp [resetCount, emit]

theorem resets_onStopDone {c c1 : Component} (h : onStopDone c = some c1) :
    resetCount c = resetCount c1 := by
  unfold onStopDone at h
  split at h
  · simp at h
  · simp only [Option.some.injEq] at h
    subst h
    have h1 := resets_reportAbandonedWorks c
    simp only [resetCount] at h1 ⊢
    split <;> simp [emit, log_stopDequeueThread, h1]

theorem resets_onResetDone {c c1 : Component} (h : onResetDone c = some c1) :
    resetCount c = resetCount c1 := by
  unfold onResetDone at h
  repeat' split at h
  · simp at h; subst h; rfl
  · exact resets_onFlushDone h
  · exact resets_onStopDone h
  · simp at h; subst h; exact resets_reportError _ _

theorem onFlush_spec {c : Component}
    (hs : c.mComponentState = ComponentState.STARTED ∨
      c.mComponentState = ComponentState.DRAINING) :
    onFlush c = some { c with
      log := c.log ++ [Effect.vdaReset]
      mAbandonedWorks := c.mAbandonedWorks ++ c.mQueue.map (fun e => e.mWork)
      mQueue := []
      mComponentState := ComponentState.FLUSHING } := by
  unfold onFlush EXPECT_RUNNING_OR_RETURN_ON_ERROR
  rcases hs with hs | hs <;> simp [hs, abandonQueue, emit]

theorem onFlush_ignored {c : Component}
    (hs : c.mComponentState = ComponentState.FLUSHING ∨
      c.mComponentState = ComponentState.STOPPING ∨
      c.mComponentState = ComponentState.ERROR) : onFlush c = some c := by
  unfold onFlush EXPECT_RUNNING_OR_RETURN_ON_ERROR
  rcases hs with hs | hs | hs <;> simp [hs]

theorem resets_step {e : Event} {c c1 : Component} (h : step e c = some c1)
    (he : e = Event.onStop → c.mComponentState ≠ ComponentState.STOPPING) :
    resetCount c1 = resetCount c ∨
      (resetCount c1 = resetCount c + 1 ∧ ¬ resetInProgress c ∧ resetInProgress c1) := by
  cases e <;> simp only [step] at h
  · exact Or.inl (resets_onStart h).symm
  · have hne := he rfl
    by_cases hs1 : c.mComponentState = ComponentState.ERROR
    · simp [onStop, EXPECT_RUNNING_OR_RETURN_ON_ERROR, hs1] at h
      subst h; exact Or.inl rfl
    · by_cases hs2 : c.mComponentState = ComponentState.UNINITIALIZED
      · simp [onStop, EXPECT_RUNNING_OR_RETURN_ON_ERROR, hs1, hs2] at h
      · rw [onStop_spec hs1 hs2] at h
        simp only [Option.some.injEq] at h
        subst h
        by_cases hf : c.mComponentState = ComponentState.FLUSHING
        · left; simp [resetCount, hf]
        · right
          refine ⟨by simp [resetCount, hf], ?_, Or.inr rfl⟩
          rintro (h | h)
          · exact hf h
          · exact hne h
  · exact Or.inl (resets_onQueueWork h).symm
  · exact Or.inl (resets_onDequeueWork h).symm
  · exact Or.inl (resets_onInputBufferDone h).symm
  · exact Or.inl (resets_onOutputBufferReturned h).symm
  · exact Or.inl (resets_onOutputBufferDone h).symm
  · exact Or.inl (resets_onDrain h).symm
  · exact Or.inl (resets_onDrainDone h).symm
  · by_cases hs : c.mComponentState = ComponentState.STARTED ∨
        c.mComponentState = ComponentState.DRAINING
    · rw [onFlush_spec hs] at h
      simp only [Option.some.injEq] at h
      subst h
      right
      refine ⟨by simp [resetCount], ?_, Or.inl rfl⟩
      rintro (h | h) <;> rcases hs with hs | hs <;> rw [hs] at h <;>
        exact ComponentState.noConfusion h
    · have hc : c.mComponentState = ComponentState.FLUSHING ∨
          c.mComponentState = ComponentState.STOPPING ∨
          c.mComponentState = ComponentState.ERROR ∨
          c.mComponentState = ComponentState.UNINITIALIZED := by
        cases hcs : c.mComponentState <;> simp_all
      rcases hc with hc | hc | hc | hc
      · rw [onFlush_ignored (Or.inl hc)] at h
        simp only [Option.some.injEq] at h; subst h; exact Or.inl rfl
      · rw [onFlush_ignored (Or.inr (Or.inl hc))] at h
        simp only [Option.some.injEq] at h; subst h; exact Or.inl rfl
      · rw [onFlush_ignored (Or.inr (Or.inr hc))] at h
        simp only [Option.some.injEq] at h; subst h; exact Or.inl rfl
      · simp [onFlush, EXPECT_RUNNING_OR_RETURN_ON_ERROR, hc] at h
  · exact Or.inl (resets_onResetDone h).symm
  · exact Or.inl (resets_onOutputFormatChanged h).symm
  · exact Or.inl (resets_onVisibleRectChanged h).symm
  · simp only [Option.some.injEq] at h
    subst h
    exact Or.inl (resets_notifyError _ _).symm
  · split at h <;> simp only [Option.some.injEq] at h <;> subst h
    · exact Or.inl (resets_dequeueThreadLoopIteration _ _ _).symm
    · exact Or.inl rfl

/-! ## Flush and stop requests (C31, C32) -/

/-- C31: in `FLUSHING` or `STOPPING` `onFlush` changes nothing and makes no call.  In
`STARTED` or `DRAINING` it calls `reset` of the VDA exactly once, moves the works of the
incoming queue, in their order, to the back of the abandoned list, leaves the queue empty and
the pending list as it is, and sets the inner state to `FLUSHING`; nothing else changes. -/
theorem flush_semantics (c : Component) :
    (c.mComponentState = ComponentState.FLUSHING ∨
        c.mComponentState = ComponentState.STOPPING → onFlush c = some c) ∧
    (c.mComponentState = ComponentState.STARTED ∨
        c.mComponentState = ComponentState.DRAINING →
      onFlush c = some { c with
        log := c.log ++ [Effect.vdaReset]
        mAbandonedWorks := c.mAbandonedWorks ++ c.mQueue.map (fun e => e.mWork)
        mQueue := []
        mComponentState := ComponentState.FLUSHING }) := by
  refine ⟨fun hs => onFlush_ignored ?_, fun hs => onFlush_spec hs⟩
  rcases hs with hs | hs
  · exact Or.inl hs
  · exact Or.inr (Or.inl hs)

theorem flush_semantics_witness :
    (runD exampleQueueTrace (initial false)).mComponentState = ComponentState.STARTED ∧
      (runD exampleQueueTrace (initial false)).mQueue.map (fun e => e.mWork) =
        [exampleWork 1 0, exampleWork 2 0] ∧
      onFlush (runD exampleQueueTrace (initial false)) =
        some { runD exampleQueueTrace (initial false) with
          log := (runD exampleQueueTrace (initial false)).log ++ [Effect.vdaReset]
          mAbandonedWorks := (runD exampleQueueTrace (initial false)).mAbandonedWorks ++
            (runD exampleQueueTrace (initial false)).mQueue.map (fun e => e.mWork)
          mQueue := []
          mComponentState := ComponentState.FLUSHING } ∧
      onFlush (runD exampleFlushTrace (initial false)) =
        some (runD exampleFlushTrace (initial false)) :=
  ⟨by decide, by decide,
    (flush_semantics (runD exampleQueueTrace (initial false))).2 (Or.inl (by decide)),
    (flush_semantics (runD exampleFlushTrace (initial false))).1 (Or.inl (by decide))⟩

/-- C32: from `STARTED`, `DRAINING` and `FLUSHING`, `onStop` calls `reset` of the VDA if and
only if the state is not `FLUSHING`, moves the works of the incoming queue, in their order,
to the back of the abandoned list, stores the stop event and sets the inner state to
`STOPPING`; it does not signal the event and changes nothing else.  So a flush request
followed by a stop request sends one reset, and in every step in which `onStop` does not
run in `STOPPING`, a reset is sent only when the state is neither `FLUSHING` nor `STOPPING`
and leaves the state `FLUSHING` or `STOPPING`: at most one reset is in progress. -/
theorem stop_semantics :
    (∀ c : Component,
      c.mComponentState = ComponentState.STARTED ∨
        c.mComponentState = ComponentState.DRAINING ∨
        c.mComponentState = ComponentState.FLUSHING →
      onStop c = some { c with
        mQueue := []
        mAbandonedWorks := c.mAbandonedWorks ++ c.mQueue.map (fun e => e.mWork)
        mStopDoneEvent := true
        mComponentState := ComponentState.STOPPING
        log := c.log ++
          (if c.mComponentState = ComponentState.FLUSHING then [] else [Effect.vdaReset]) }) ∧
    (∀ c : Component,
      c.mComponentState = ComponentState.STARTED ∨
        c.mComponentState = ComponentState.DRAINING →
      ∃ c2, run [Event.onFlush, Event.onStop] c = some c2 ∧
        c2.mComponentState = ComponentState.STOPPING ∧
        c2.log = c.log ++ [Effect.vdaReset]) ∧
    (∀ (e : Event) (c c1 : Component), step e c = some c1 →
      (e = Event.onStop → c.mComponentState ≠ ComponentState.STOPPING) →
      resetCount c1 = resetCount c ∨
        (resetCount c1 = resetCount c + 1 ∧ ¬ resetInProgress c ∧ resetInProgress c1)) := by
  refine ⟨fun c hs => ?_, fun c hs => ?_, fun e c c1 h he => resets_step h he⟩
  · exact onStop_spec (by rcases hs with h | h | h <;> simp [h])
      (by rcases hs with h | h | h <;> simp [h])
  · have h1 := onFlush_spec hs
    have h2 := @onStop_spec { c with
        log := c.log ++ [Effect.vdaReset]
        mAbandonedWorks := c.mAbandonedWorks ++ c.mQueue.map (fun e => e.mWork)
        mQueue := []
        mComponentState := ComponentState.FLUSHING } (by simp) (by simp)
    exact ⟨_, by simp only [run, step, h1, Option.some_bind, h2]; rfl, by simp, by simp⟩

theorem stop_semantics_witness :
    (runD exampleQueueTrace (initial false)).mComponentState = ComponentState.STARTED ∧
      onStop (runD exampleQueueTrace (initial false)) =
        some { runD exampleQueueTrace (initial false) with
          mQueue := []
          mAbandonedWorks := (runD exampleQueueTrace (initial false)).mAbandonedWorks ++
            (runD exampleQueueTrace (initial false)).mQueue.map (fun e => e.mWork)
          mStopDoneEvent := true
          mComponentState := ComponentState.STOPPING
          log := (runD exampleQueueTrace (initial false)).log ++
            (if (runD exampleQueueTrace (initial false)).mComponentState =
              ComponentState.FLUSHING then [] else [Effect.vdaReset]) } ∧
      (runD exampleFlushTrace (initial false)).mComponentState = ComponentState.FLUSHING ∧
      resetCount (stepD Event.onStop (runD exampleFlushTrace (initial false))) =
        resetCount (runD exampleFlushTrace (initial false)) :=
  ⟨by decide, stop_semantics.1 (runD exampleQueueTrace (initial false)) (Or.inl (by decide)),
    by decide, by decide⟩

/-! ## Unexpected completion callbacks (C40) -/

/-- C40: `onDrainDone` in `STARTED` or `UNINITIALIZED` calls `onError_nb(C2_BAD_STATE)`, and
`onResetDone` in a state other than `FLUSHING`, `STOPPING` and `ERROR` calls
`onError_nb(C2_CORRUPTED)`; in both cases this call is the only change, so the inner state,
`mPendingOutputEOS`, the three work lists and the registry are as before, no work is
reported and no task is posted.  `onResetDone` in `ERROR` changes nothing. -/
theorem unexpected_completions_rejected :
    (∀ c : Component,
      c.mComponentState = ComponentState.STARTED ∨
        c.mComponentState = ComponentState.UNINITIALIZED →
      onDrainDone c =
        some { c with log := c.log ++ [Effect.onError_nb c2_status_t.C2_BAD_STATE] }) ∧
    (∀ c : Component, c.mComponentState ≠ ComponentState.FLUSHING →
      c.mComponentState ≠ ComponentState.STOPPING →
      c.mComponentState ≠ ComponentState.ERROR →
      onResetDone c =
        some { c with log := c.log ++ [Effect.onError_nb c2_status_t.C2_CORRUPTED] }) ∧
    (∀ c : Component, c.mComponentState = ComponentState.ERROR → onResetDone c = some c) := by
  refine ⟨fun c hs => ?_, fun c h1 h2 h3 => ?_, fun c hs => ?_⟩
  · rcases hs with hs | hs <;> simp [onDrainDone, hs, reportError, emit]
  · simp [onResetDone, h1, h2, h3, reportError, emit]
  · simp [onResetDone, hs]

theorem unexpected_completions_rejected_witness :
    exampleStartedState.mComponentState = ComponentState.STARTED ∧
      onDrainDone exampleStartedState =
        some { exampleStartedState with
          log := exampleStartedState.log ++
            [Effect.onError_nb c2_status_t.C2_BAD_STATE] } ∧
      onResetDone exampleStartedState =
        some { exampleStartedState with
          log := exampleStartedState.log ++
            [Effect.onError_nb c2_status_t.C2_CORRUPTED] } ∧
      onResetDone exampleErrorState = some exampleErrorState :=
  ⟨by decide, unexpected_completions_rejected.1 exampleStartedState (Or.inl (by decide)),
    unexpected_completions_rejected.2.1 exampleStartedState (by decide) (by decide)
      (by decide),
    unexpected_completions_rejected.2.2 exampleErrorState (by decide)⟩

/-! ## The last work of a drain with end of stream (C39) -/

theorem isWorkDone_eos_single {c : Component} {w : C2Work}
    (he : c.mPendingOutputEOS = true) (hl : c.mPendingWorks.length = 1) :
    isWorkDone c w ≠ some true := by
  unfold isWorkDone
  repeat' split
  all_goals simp_all

theorem reportFinishedWorkLoop_keeps (c : Component) (he : c.mPendingOutputEOS = true) :
    ∀ (rest kept finished kept1 finished1 : List C2Work),
      reportFinishedWorkLoop c kept rest finished = some (kept1, finished1) →
      kept ++ rest ≠ [] → kept1 ≠ [] := by
  intro rest
  induction rest with
  | nil =>
    intro kept finished kept1 finished1 h hne
    simp only [reportFinishedWorkLoop, Option.some.injEq, Prod.mk.injEq] at h
    rw [← h.1]
    simpa using hne
  | cons w rest ih =>
    intro kept finished kept1 finished1 h _
    rw [reportFinishedWorkLoop] at h
    split at h
    · simp at h
    · rename_i hd
      refine ih _ _ _ _ h ?_
      intro hnil
      refine isWorkDone_eos_single (c := { c with mPendingWorks := kept ++ w :: rest })
        he ?_ hd
      have : kept.length + rest.length = 0 := by rw [← List.length_append, hnil]; rfl
      simp only [List.length_append, List.length_cons]
      omega
    · exact ih _ _ _ _ h (by simp)

/-- C39: while `mPendingOutputEOS` is set, `reportFinishedWorkIfAny` does not empty a
pending list that is not empty, whatever the works hold: if it returns, at least one work is
still pending and `mPendingOutputEOS` is still set.  It does return when every pending work
has an input slot and a worklet. -/
theorem eos_keeps_last_work :
    (∀ c c1 : Component, c.mPendingOutputEOS = true → c.mPendingWorks ≠ [] →
      reportFinishedWorkIfAny c = some c1 →
      c1.mPendingWorks ≠ [] ∧ c1.mPendingOutputEOS = true) ∧
    (∀ c : Component,
      (∀ w ∈ c.mPendingWorks, w.input.buffers ≠ [] ∧ w.worklets ≠ []) →
      ∃ c1, reportFinishedWorkIfAny c = some c1) := by
  refine ⟨fun c c1 he hp h => ?_, fun c hsh => ?_⟩
  · unfold reportFinishedWorkIfAny at h
    split at h
    · simp at h
    · rename_i kept finished hl
      have hk := reportFinishedWorkLoop_keeps c he _ _ _ _ _ hl (by simpa using hp)
      split at h <;> simp only [Option.some.injEq] at h <;> subst h
      · exact ⟨hk, he⟩
      · exact ⟨hk, he⟩
  · obtain ⟨ks, fs, h1, -⟩ := reportFinishedWorkLoop_walk c c.mPendingWorks [] [] hsh
    unfold reportFinishedWorkIfAny
    rw [h1]
    dsimp only
    split <;> exact ⟨_, rfl⟩

theorem eos_keeps_last_work_witness :
    exampleDrainingState.mPendingOutputEOS = true ∧
      exampleDrainingState.mPendingWorks.length = 2 ∧
      reportFinishedWorkIfAny exampleDrainingState =
        some ((reportFinishedWorkIfAny exampleDrainingState).getD exampleDrainingState) ∧
      ((reportFinishedWorkIfAny exampleDrainingState).getD exampleDrainingState).mPendingWorks ≠
          [] ∧
      ((reportFinishedWorkIfAny exampleDrainingState).getD
        exampleDrainingState).mPendingOutputEOS = true :=
  ⟨by decide, by decide, by decide,
    eos_keeps_last_work.1 exampleDrainingState
      ((reportFinishedWorkIfAny exampleDrainingState).getD exampleDrainingState)
      (by decide) (by decide) (by decide)⟩

/-! ## The input slot of a pending work (C38) -/

theorem findFirst_eq_some {α : Type} (p : α → Bool) :
    ∀ (l : List α) (i : Nat), findFirst p l = some i ↔
      (∃ a, l[i]? = some a ∧ p a = true) ∧ ∀ j, j < i → ∀ a, l[j]? = some a → p a = false := by
  intro l
  induction l with
  | nil => intro i; simp [findFirst]
  | cons a l ih =>
    intro i
    unfold findFirst
    by_cases h : p a = true
    · simp only [h, if_true, Option.some.injEq]
      constructor
      · rintro rfl
        exact ⟨⟨a, by simp, h⟩, fun j hj => absurd hj (Nat.not_lt_zero _)⟩
      · rintro ⟨-, h2⟩
        cases i with
        | zero => rfl
        | succ i =>
          have := h2 0 (Nat.succ_pos _) a (by simp)
          rw [h] at this
          exact Bool.noConfusion this
    · simp only [h, Bool.false_eq_true, if_false, Option.map_eq_some']
      have hf : p a = false := by simpa using h
      constructor
      · rintro ⟨k, hk, rfl⟩
        obtain ⟨h1, h2⟩ := (ih k).mp hk
        refine ⟨by simpa using h1, fun j hj b hb => ?_⟩
        cases j with
        | zero => simp at hb; rw [← hb]; exact hf
        | succ j => exact h2 j (by omega) b (by simpa using hb)
      · rintro ⟨⟨b, hb, hp⟩, h2⟩
        cases i with
        | zero => simp at hb; rw [hb] at hf; rw [hf] at hp; exact Bool.noConfusion hp
        | succ i =>
          refine ⟨i, (ih i).mpr ⟨⟨b, by simpa using hb, hp⟩, fun j hj x hx => ?_⟩, rfl⟩
          exact h2 (j + 1) (by omega) x (by simpa using hx)

theorem reportFinishedWorkIfAny_returns {c : Component}
    (h : ∀ w ∈ c.mPendingWorks, PendingShape w) :
    (reportFinishedWorkIfAny c).isSome = true := by
  obtain ⟨ks, fs, h1, -⟩ := reportFinishedWorkLoop_walk c c.mPendingWorks [] []
    (fun w hw => by
      obtain ⟨h2, wl, h3, -⟩ := h w hw
      exact ⟨fun hn => by simp [hn] at h2, fun hn => by simp [hn] at h3⟩)
  unfold reportFinishedWorkIfAny
  rw [h1]
  dsimp only
  split <;> rfl

theorem onInputBufferDone_returns (b : Int) {c : Component}
    (hs1 : c.mComponentState ≠ ComponentState.ERROR)
    (hs2 : c.mComponentState ≠ ComponentState.UNINITIALIZED)
    (hsh : ∀ w ∈ c.mPendingWorks, PendingShape w) :
    (onInputBufferDone b c).isSome = true := by
  unfold onInputBufferDone EXPECT_RUNNING_OR_RETURN_ON_ERROR
  rw [if_neg hs1, if_neg hs2]
  cases hl : getPendingWorkByBitstreamId b c with
  | none => rfl
  | some i =>
    obtain ⟨⟨work, hw, -⟩, -⟩ := (findFirst_eq_some _ _ _).mp hl
    have hm : work ∈ c.mPendingWorks := List.getElem?_mem hw
    obtain ⟨h1, wl, h2, h3, h4⟩ := hsh work hm
    obtain ⟨x, hx⟩ : ∃ x, work.input.buffers = [x] := List.length_eq_one.mp h1
    simp only [hw, hx, resetFront]
    refine reportFinishedWorkIfAny_returns ?_
    exact shape_set hsh ⟨rfl, wl, h2, h3, h4⟩

theorem onDequeueWork_le_one {d : Int} {c c1 : Component} {entry : WorkEntry}
    {rest : List WorkEntry} (hs : c.mComponentState = ComponentState.STARTED)
    (hq : c.mQueue = entry :: rest) (h : onDequeueWork d c = some c1) :
    entry.mWork.input.buffers.length ≤ 1 := by
  unfold onDequeueWork EXPECT_RUNNING_OR_RETURN_ON_ERROR at h
  rw [hq] at h
  simp only [hs, reduceCtorEq, if_false, false_or, ne_eq, not_true_eq_false] at h
  split at h
  · simp at h
  · rename_i w1 c2 h2
    unfold dequeueInput at h2
    split at h2
    · simp at h2
    · rename_i hle
      exact not_not.mp hle

/-- C38: in every reachable state every pending work has exactly one input buffer slot.
`onDequeueWork` only goes on with a work that has at most one input buffer and puts it into
the pending list with its buffer, or with one null slot when it has none.  So `isWorkDone`
returns for every pending work, and `onInputBufferDone` returns in every reachable state
outside `UNINITIALIZED`. -/
theorem pending_input_slot :
    (∀ c : Component, Reachable c → ∀ w ∈ c.mPendingWorks, w.input.buffers.length = 1) ∧
    (∀ (d : Int) (c c1 : Component) (entry : WorkEntry) (rest : List WorkEntry),
      c.mComponentState = ComponentState.STARTED → c.mQueue = entry :: rest →
      onDequeueWork d c = some c1 →
      entry.mWork.input.buffers.length ≤ 1 ∧
      ∃ w, c1.mPendingWorks = c.mPendingWorks ++ [w] ∧
        w.input.buffers =
          if entry.mWork.input.buffers = [] then [none] else entry.mWork.input.buffers) ∧
    (∀ c : Component, Reachable c → ∀ w ∈ c.mPendingWorks, ∀ c2 : Component,
      (isWorkDone c2 w).isSome = true) ∧
    (∀ c : Component, Reachable c → c.mComponentState ≠ ComponentState.UNINITIALIZED →
      ∀ b : Int, (onInputBufferDone b c).isSome = true) := by
  refine ⟨fun c hr w hw => (shape_of_reachable hr w hw).1,
    fun d c c1 entry rest hs hq h => ?_, fun c hr w hw c2 => ?_, fun c hr hs b => ?_⟩
  · obtain ⟨-, wl, -, h2, -⟩ := onDequeueWork_started hs hq h
    exact ⟨onDequeueWork_le_one hs hq h, _, h2, rfl⟩
  · obtain ⟨h1, wl, h2, -⟩ := shape_of_reachable hr w hw
    rw [isWorkDone_eq (fun hn => by simp [hn] at h1) (fun hn => by simp [hn] at h2)]
    rfl
  · exact onInputBufferDone_returns b (never_error_of_reachable hr) hs
      (shape_of_reachable hr)

theorem pending_input_slot_witness :
    Reachable exampleDispatchedState ∧
      exampleDispatchedState.mPendingWorks.length = 1 ∧
      (∀ w ∈ exampleDispatchedState.mPendingWorks, w.input.buffers.length = 1) ∧
      (onInputBufferDone 0 exampleDispatchedState).isSome = true :=
  have hr : Reachable exampleDispatchedState :=
    reachable_of_run (Reachable.init false)
      (by decide : run [Event.onStart VDAResult.SUCCESS,
        Event.onOutputFormatChanged examplePool exampleFormat,
        Event.onQueueWork (exampleWork 0 0), Event.onDequeueWork 10] (initial false) =
        some exampleDispatchedState)
  ⟨hr, by decide, pending_input_slot.1 exampleDispatchedState hr,
    pending_input_slot.2.2.2 exampleDispatchedState hr (by decide) 0⟩

/-! ## The effect of `onOutputBufferDone` (C33) -/

theorem ownershipInvariant_of_reachable {c : Component} (h : Reachable c) :
    OwnershipInvariant c := by
  induction h with
  | init s => exact ownership_cleared rfl
  | step e _ hs ih => exact ownership_step hs ih

theorem getGraphicBlockById_inside {p : Int} {c : Component} (h0 : 0 ≤ p)
    (h1 : p < (c.mGraphicBlocks.length : Int)) (h2 : c.mGraphicBlocks.length < 2 ^ 31) :
    getGraphicBlockById p c = some p.toNat := by
  unfold getGraphicBlockById
  rw [static_cast_int32_small h2, if_neg]
  omega

/-- C33: in a reachable state outside `UNINITIALIZED`, when a pending work has the bitstream
id, the picture id lies in `[0, N)` for a registry of `N` records (`N` below `2^31`), the
record with that id is owned by the accelerator and the counter of buffers in the client is
below its maximum, `onOutputBufferDone` moves exactly that record to the client and drops its
graphic block, adds one to the counter, appends one output buffer, cropped to the width and
height of the current visible rectangle, to the first worklet of the first pending work with
the bitstream id, and then runs `reportFinishedWorkIfAny`, which returns and leaves
registry and counter alone; every other record is as before. -/
theorem output_buffer_done_effects (c : Component) (p b : Int) (info : GraphicBlockInfo)
    (hr : Reachable c) (hs : c.mComponentState ≠ ComponentState.UNINITIALIZED)
    (hex : ∃ x ∈ c.mPendingWorks, bitstreamIdOf x = b)
    (hp0 : 0 ≤ p) (hpN : p < (c.mGraphicBlocks.length : Int))
    (hN : c.mGraphicBlocks.length < 2 ^ 31)
    (hi : c.mGraphicBlocks[p.toNat]? = some info)
    (ha : info.mState = GBState.OWNED_BY_ACCELERATOR)
    (hc : c.mBuffersInClient + 1 < 2 ^ 32) :
    ∃ (w : Nat) (work : C2Work) (wl : C2Worklet) (g : C2GraphicBlock) (mid c1 : Component),
      c.mPendingWorks[w]? = some work ∧ bitstreamIdOf work = b ∧
      (∀ j, j < w → ∀ x, c.mPendingWorks[j]? = some x → bitstreamIdOf x ≠ b) ∧
      work.worklets = [wl] ∧ info.mGraphicBlock = some g ∧
      mid = { c with
        mGraphicBlocks := c.mGraphicBlocks.set p.toNat
          { info with mState := GBState.OWNED_BY_CLIENT, mGraphicBlock := none }
        mBuffersInClient := c.mBuffersInClient + 1
        mPendingWorks := c.mPendingWorks.set w { work with
          worklets := [{ wl with output := { wl.output with
            buffers := wl.output.buffers ++ [some (C2Buffer.graphic
              { block := g
                cropWidth := c.mOutputFormat.mVisibleRect.width
                cropHeight := c.mOutputFormat.mVisibleRect.height })] } }] } } ∧
      onOutputBufferDone p b c = reportFinishedWorkIfAny mid ∧
      reportFinishedWorkIfAny mid = some c1 ∧
      c1.mGraphicBlocks = mid.mGraphicBlocks ∧
      c1.mBuffersInClient = c.mBuffersInClient + 1 ∧
      (∀ j, j ≠ p.toNat → c1.mGraphicBlocks[j]? = c.mGraphicBlocks[j]?) := by
  have hs1 := never_error_of_reachable hr
  have hsh := shape_of_reachable hr
  obtain ⟨w, hw⟩ : ∃ w, getPendingWorkByBitstreamId b c = some w := by
    cases hl : getPendingWorkByBitstreamId b c with
    | some w => exact ⟨w, rfl⟩
    | none =>
      obtain ⟨x, hx, hb⟩ := hex
      have := (findFirst_eq_none _ _).mp hl x hx
      simp [hb] at this
  obtain ⟨⟨work, hwork, hwb⟩, hfirst⟩ := (findFirst_eq_some _ _ _).mp hw
  obtain ⟨h1, wl, h2, h3, h4⟩ := hsh work (List.getElem?_mem hwork)
  obtain ⟨g, hg⟩ : ∃ g, info.mGraphicBlock = some g :=
    Option.ne_none_iff_exists'.mp
      ((ownershipInvariant_of_reachable hr info (List.getElem?_mem hi)).2 (Or.inr ha))
  have hfn : ∀ mid : Component, mid = { c with
      mGraphicBlocks := c.mGraphicBlocks.set p.toNat
        { info with mState := GBState.OWNED_BY_CLIENT, mGraphicBlock := none }
      mBuffersInClient := c.mBuffersInClient + 1
      mPendingWorks := c.mPendingWorks.set w { work with
        worklets := [{ wl with output := { wl.output with
          buffers := wl.output.buffers ++ [some (C2Buffer.graphic
            { block := g
              cropWidth := c.mOutputFormat.mVisibleRect.width
              cropHeight := c.mOutputFormat.mVisibleRect.height })] } }] } } →
      onOutputBufferDone p b c = reportFinishedWorkIfAny mid := by
    intro mid hmid
    unfold onOutputBufferDone EXPECT_RUNNING_OR_RETURN_ON_ERROR
    rw [if_neg hs1, if_neg hs, hw]
    simp only [getGraphicBlockById_inside hp0 hpN hN, hi, hwork, ha, ne_eq, not_true_eq_false,
      if_false, hg, h2, Nat.mod_eq_of_lt hc]
    rw [hmid]
  obtain ⟨mid, hmid⟩ : ∃ mid : Component, mid = { c with
      mGraphicBlocks := c.mGraphicBlocks.set p.toNat
        { info with mState := GBState.OWNED_BY_CLIENT, mGraphicBlock := none }
      mBuffersInClient := c.mBuffersInClient + 1
      mPendingWorks := c.mPendingWorks.set w { work with
        worklets := [{ wl with output := { wl.output with
          buffers := wl.output.buffers ++ [some (C2Buffer.graphic
            { block := g
              cropWidth := c.mOutputFormat.mVisibleRect.width
              cropHeight := c.mOutputFormat.mVisibleRect.height })] } }] } } := ⟨_, rfl⟩
  have hshape : ∀ x ∈ mid.mPendingWorks, PendingShape x := by
    rw [hmid]
    exact shape_set hsh ⟨h1, _, rfl, h3, h4⟩
  obtain ⟨c1, hc1⟩ := Option.isSome_iff_exists.mp (reportFinishedWorkIfAny_returns hshape)
  obtain ⟨r1, r2, -⟩ := sameRegistry_reportFinishedWorkIfAny hc1
  refine ⟨w, work, wl, g, mid, c1, hwork, by simpa [bitstreamIdOf] using hwb,
    fun j hj x hx => by simpa using hfirst j hj x hx, h2, hg, hmid, hfn mid hmid, hc1, r1,
    by rw [r2, hmid], fun j hj => ?_⟩
  rw [r1, hmid]
  simp only
  rw [List.getElem?_set_ne (Ne.symm hj)]

theorem exampleDispatchedState_reachable : Reachable exampleDispatchedState :=
  reachable_of_run (Reachable.init false)
    (by decide : run [Event.onStart VDAResult.SUCCESS,
      Event.onOutputFormatChanged examplePool exampleFormat,
      Event.onQueueWork (exampleWork 0 0), Event.onDequeueWork 10] (initial false) =
      some exampleDispatchedState)

theorem output_buffer_done_effects_witness :
    exampleFirstRecord.mState = GBState.OWNED_BY_ACCELERATOR ∧
      exampleDispatchedState.mBuffersInClient = 0 ∧
      ∃ mid c1 : Component,
        onOutputBufferDone 0 0 exampleDispatchedState = reportFinishedWorkIfAny mid ∧
        reportFinishedWorkIfAny mid = some c1 ∧
        c1.mBuffersInClient = exampleDispatchedState.mBuffersInClient + 1 :=
  ⟨by decide, by decide,
    (output_buffer_done_effects exampleDispatchedState 0 0 exampleFirstRecord
      exampleDispatchedState_reachable (by decide) ⟨exampleDispatchedState.mPendingWorks.getD 0
        (exampleWork 0 0), by decide, by decide⟩ (by decide) (by decide) (by decide)
      (by decide) (by decide) (by decide)).elim
      fun w h1 => h1.elim fun work h2 => h2.elim fun wl h3 => h3.elim fun g h4 =>
        h4.elim fun mid h5 => h5.elim fun c1 h =>
          ⟨mid, c1, h.2.2.2.2.2.2.1, h.2.2.2.2.2.2.2.1, h.2.2.2.2.2.2.2.2.2.1⟩⟩

/-! ## The return of an output buffer (C34) and its submission (C35) -/

theorem sendOutputBufferToAccelerator_spec {i : Nat} {c : Component}
    {info : GraphicBlockInfo} (hi : c.mGraphicBlocks[i]? = some info)
    (hs : info.mState = GBState.OWNED_BY_COMPONENT) :
    sendOutputBufferToAccelerator i c = some { c with
      mGraphicBlocks := c.mGraphicBlocks.set i
        { info with mState := GBState.OWNED_BY_ACCELERATOR, mHandle := none }
      log := c.log ++ [match info.mHandle with
        | some fd =>
          Effect.vdaImportBufferForPicture info.mBlockId info.mPixelFormat fd info.mPlanes
        | none => Effect.vdaReusePictureBuffer info.mBlockId] } := by
  unfold sendOutputBufferToAccelerator
  simp only [hi, hs, ne_eq, not_true_eq_false, if_false]
  cases hh : info.mHandle with
  | none => simp only [emit]
  | some fd => simp [emit]

theorem getGraphicBlockByPoolId_first {poolId i : Nat} {c : Component}
    {info : GraphicBlockInfo} (hi : c.mGraphicBlocks[i]? = some info)
    (hp : info.mPoolId = poolId)
    (hf : ∀ j, j < i → ∀ x, c.mGraphicBlocks[j]? = some x → x.mPoolId ≠ poolId) :
    getGraphicBlockByPoolId poolId c = some i := by
  unfold getGraphicBlockByPoolId
  rw [findFirst_eq_some]
  exact ⟨⟨info, hi, by simpa using hp⟩, fun j hj x hx => by simpa using hf j hj x hx⟩

/-- C34: `onOutputBufferReturned` changes nothing and makes no call in `UNINITIALIZED` and
when the width or the height of the block differs from the current coded size.  Otherwise,
for the first record with the pool id, which has to be owned by the client (the check aborts
if it is not): the record takes the block and is owned by the component; then, when no
format change is pending, it is sent to the accelerator, imported the first time and reused
afterwards, and ends owned by the accelerator with every other record unchanged; when a
format change is pending, `tryChangeOutputFormat` runs on the state with that record
updated. -/
theorem output_buffer_returned_semantics (env : BlockPoolEnv) (block : C2GraphicBlock)
    (poolId : Nat) (c : Component) :
    (c.mComponentState = ComponentState.UNINITIALIZED ∨
        block.width ≠ c.mOutputFormat.mCodedSize.width ∨
        block.height ≠ c.mOutputFormat.mCodedSize.height →
      onOutputBufferReturned env block poolId c = some c) ∧
    (∀ (i : Nat) (info : GraphicBlockInfo),
      c.mComponentState ≠ ComponentState.UNINITIALIZED →
      block.width = c.mOutputFormat.mCodedSize.width →
      block.height = c.mOutputFormat.mCodedSize.height →
      c.mGraphicBlocks[i]? = some info → info.mPoolId = poolId →
      (∀ j, j < i → ∀ x, c.mGraphicBlocks[j]? = some x → x.mPoolId ≠ poolId) →
      (info.mState ≠ GBState.OWNED_BY_CLIENT →
        onOutputBufferReturned env block poolId c = none) ∧
      (info.mState = GBState.OWNED_BY_CLIENT → c.mPendingOutputFormat = none →
        onOutputBufferReturned env block poolId c = some { c with
          mGraphicBlocks := c.mGraphicBlocks.set i
            { info with
              mGraphicBlock := some block
              mState := GBState.OWNED_BY_ACCELERATOR
              mHandle := none }
          log := c.log ++ [match info.mHandle with
            | some fd =>
              Effect.vdaImportBufferForPicture info.mBlockId info.mPixelFormat fd
                info.mPlanes
            | none => Effect.vdaReusePictureBuffer info.mBlockId] }) ∧
      (info.mState = GBState.OWNED_BY_CLIENT → c.mPendingOutputFormat ≠ none →
        onOutputBufferReturned env block poolId c =
          tryChangeOutputFormat env { c with
            mGraphicBlocks := c.mGraphicBlocks.set i
              { info with
                mGraphicBlock := some block
                mState := GBState.OWNED_BY_COMPONENT } })) := by
  refine ⟨fun h => ?_, fun i info hs hw hh hi hp hf => ?_⟩
  · unfold onOutputBufferReturned
    by_cases hu : c.mComponentState = ComponentState.UNINITIALIZED
    · simp [hu]
    · rcases h with h | h
      · exact absurd h hu
      · simp [hu, h]
  · have hl := getGraphicBlockByPoolId_first hi hp hf
    have hlt : i < c.mGraphicBlocks.length := by
      rcases Nat.lt_or_ge i c.mGraphicBlocks.length with h | h
      · exact h
      · rw [List.getElem?_eq_none h] at hi
        exact Option.noConfusion hi
    refine ⟨fun hne => ?_, fun hc hpend => ?_, fun hc hpend => ?_⟩
    · simp [onOutputBufferReturned, hs, hw, hh, hl, hi, hne]
    · simp only [onOutputBufferReturned, hs, hw, hh, hl, hi, hc, hpend, if_false, ne_eq,
        not_true_eq_false, not_false_eq_true, or_self, Option.isSome_none,
        Bool.false_eq_true]
      rw [@sendOutputBufferToAccelerator_spec i _
        { info with
          mGraphicBlock := some block, mState := GBState.OWNED_BY_COMPONENT }
        (by simp [List.getElem?_set_self hlt]) rfl]
      simp
    · obtain ⟨f, hf1⟩ := Option.ne_none_iff_exists'.mp hpend
      simp [onOutputBufferReturned, hs, hw, hh, hl, hi, hc, hf1]

theorem output_buffer_returned_semantics_witness :
    exampleClientRecord.mState = GBState.OWNED_BY_CLIENT ∧
      exampleClientRecord.mHandle = none ∧
      onOutputBufferReturned examplePool (exampleBlock 0) 0 exampleDoneState =
        some { exampleDoneState with
          mGraphicBlocks := exampleDoneState.mGraphicBlocks.set 0
            { exampleClientRecord with
              mGraphicBlock := some (exampleBlock 0)
              mState := GBState.OWNED_BY_ACCELERATOR
              mHandle := none }
          log := exampleDoneState.log ++ [match exampleClientRecord.mHandle with
            | some fd =>
              Effect.vdaImportBufferForPicture exampleClientRecord.mBlockId
                exampleClientRecord.mPixelFormat fd exampleClientRecord.mPlanes
            | none => Effect.vdaReusePictureBuffer exampleClientRecord.mBlockId] } :=
  ⟨by decide, by decide,
    ((output_buffer_returned_semantics examplePool (exampleBlock 0) 0 exampleDoneState).2 0
      exampleClientRecord (by decide) (by decide) (by decide) (by decide) (by decide)
      (fun j hj => absurd hj (Nat.not_lt_zero j))).2.1 (by decide) (by decide)⟩

theorem releasesOnly_refl (l : List (Option Int)) : ReleasesOnly l l := by
  unfold ReleasesOnly
  induction l with
  | nil => exact List.Forall₂.nil
  | cons x l ih => exact List.Forall₂.cons (Or.inl rfl) ih

theorem releasesOnly_of_eq {l l1 : List (Option Int)} (h : l1 = l) : ReleasesOnly l l1 := by
  subst h; exact releasesOnly_refl _

theorem releasesOnly_trans {l1 l2 l3 : List (Option Int)}
    (h1 : ReleasesOnly l1 l2) (h2 : ReleasesOnly l2 l3) : ReleasesOnly l1 l3 := by
  unfold ReleasesOnly at *
  induction h1 generalizing l3 with
  | nil => exact h2
  | cons hx _ ih =>
    cases h2 with
    | cons hy ht =>
      refine List.Forall₂.cons ?_ (ih ht)
      rcases hx with rfl | rfl
      · exact hy
      · rcases hy with rfl | rfl
        · exact Or.inr rfl
        · exact Or.inr rfl

theorem releasesOnly_set {l : List GraphicBlockInfo} {i : Nat}
    {info info1 : GraphicBlockInfo} (hg : l[i]? = some info)
    (hh : info1.mHandle = info.mHandle ∨ info1.mHandle = none) :
    ReleasesOnly (l.map fun (x : GraphicBlockInfo) => x.mHandle)
      ((l.set i info1).map fun (x : GraphicBlockInfo) => x.mHandle) := by
  unfold ReleasesOnly
  induction l generalizing i with
  | nil => simp at hg
  | cons x l ih =>
    cases i with
    | zero =>
      simp at hg; subst hg
      simp only [List.set_cons_zero, List.map_cons]
      exact List.Forall₂.cons hh (releasesOnly_refl _)
    | succ i =>
      simp only [List.getElem?_cons_succ] at hg
      simp only [List.set_cons_succ, List.map_cons]
      exact List.Forall₂.cons (Or.inl rfl) (ih hg)

theorem handles_of_same {c c1 : Component} (h : SameRegistry c c1) :
    handles c1 = handles c := by
  unfold handles; rw [h.1]

theorem releases_sendOutputBufferToAccelerator {i : Nat} {c c1 : Component}
    (h : sendOutputBufferToAccelerator i c = some c1) :
    ReleasesOnly (handles c) (handles c1) := by
  unfold sendOutputBufferToAccelerator at h
  split at h
  · simp at h
  · rename_i info hg
    split at h
    · simp at h
    · split at h
      all_goals simp at h
      all_goals subst h
      · exact releasesOnly_set hg (Or.inr rfl)
      · exact releasesOnly_set hg (Or.inl rfl)

theorem releases_step {e : Event} {c c1 : Component} (he : reallocates e c = false)
    (h : step e c = some c1) :
    c1.mGraphicBlocks = [] ∨ ReleasesOnly (handles c) (handles c1) := by
  cases e <;> simp only [step] at h
  · exact Or.inr (releasesOnly_of_eq (handles_of_same (sameRegistry_onStart h)))
  · exact Or.inr (releasesOnly_of_eq (handles_of_same (sameRegistry_onStop h)))
  · exact Or.inr (releasesOnly_of_eq (handles_of_same (sameRegistry_onQueueWork h)))
  · exact Or.inr (releasesOnly_of_eq (handles_of_same (sameRegistry_onDequeueWork h)))
  · exact Or.inr (releasesOnly_of_eq (handles_of_same (sameRegistry_onInputBufferDone h)))
  · simp only [reallocates] at he
    rcases onOutputBufferReturned_cases h with ⟨-, rfl⟩ | ⟨-, rfl⟩ | ⟨-, rfl⟩ |
      ⟨i, info, -, hg, hs, h1 | h1⟩
    · exact Or.inr (releasesOnly_refl _)
    · exact Or.inr (releasesOnly_refl _)
    · exact Or.inr (releasesOnly_refl _)
    · rw [h1.1] at he; exact Bool.noConfusion he
    · exact Or.inr (releasesOnly_trans
        (by unfold handles; exact releasesOnly_set hg (Or.inl rfl))
        (releases_sendOutputBufferToAccelerator h1.2))
  · rcases onOutputBufferDone_cases h with rfl | rfl | ⟨w, i, info, work, g, wl, wls, -, -,
      hg, -, hs, -, -, hr⟩
    · exact Or.inr (releasesOnly_refl _)
    · exact Or.inr (releasesOnly_refl _)
    · rw [handles_of_same (sameRegistry_reportFinishedWorkIfAny hr)]
      exact Or.inr (by unfold handles; exact releasesOnly_set hg (Or.inl rfl))
  · exact Or.inr (releasesOnly_of_eq (handles_of_same (sameRegistry_onDrain h)))
  · exact Or.inr (releasesOnly_of_eq (handles_of_same (sameRegistry_onDrainDone h)))
  · exact Or.inr (releasesOnly_of_eq (handles_of_same (sameRegistry_onFlush h)))
  · unfold onResetDone at h
    repeat' split at h
    · simp at h; subst h; exact Or.inr (releasesOnly_refl _)
    · exact Or.inr (releasesOnly_of_eq (handles_of_same (sameRegistry_onFlushDone h)))
    · unfold onStopDone at h
      split at h
      · simp at h
      · simp only [Option.some.injEq] at h
        subst h
        exact Or.inl (by simp [emit, blocks_stopDequeueThread])
    · simp at h; subst h; exact Or.inr (releasesOnly_refl _)
  · simp [reallocates] at he
  · unfold onVisibleRectChanged EXPECT_RUNNING_OR_RETURN_ON_ERROR at h
    repeat' split at h
    all_goals try (simp at h; done)
    all_goals simp at h
    all_goals subst h
    all_goals exact Or.inr (releasesOnly_refl _)
  · simp at h; subst h
    cases ‹VDAResult› <;> exact Or.inr (releasesOnly_refl _)
  · split at h <;> simp at h <;> subst h
    · refine Or.inr (releasesOnly_of_eq ?_)
      unfold dequeueThreadLoopIteration
      repeat' split
      all_goals rfl
    · exact Or.inr (releasesOnly_refl _)

theorem fresh_appendOutputBuffer {d : Int} {b : C2GraphicBlock} {p : Nat}
    {c c1 : Component} (h : appendOutputBuffer d b p c = some c1) :
    c1.mGraphicBlocks = c.mGraphicBlocks ∨
      ∃ info : GraphicBlockInfo, c1.mGraphicBlocks = c.mGraphicBlocks ++ [info] ∧
        info.mHandle = some d ∧ info.mState = GBState.OWNED_BY_COMPONENT := by
  unfold appendOutputBuffer at h
  repeat' split at h
  all_goals try (simp at h; done)
  all_goals simp only [Option.some.injEq] at h
  all_goals subst h
  · exact Or.inl rfl
  · exact Or.inr ⟨_, rfl, rfl, rfl⟩

theorem fresh_appendSecureOutputBuffer {a : Bool} {f : HalPixelFormat} {d : Int}
    {b : C2GraphicBlock} {p : Nat} {c c1 : Component}
    (h : appendSecureOutputBuffer a f d b p c = some c1) :
    c1.mGraphicBlocks = c.mGraphicBlocks ∨
      ∃ info : GraphicBlockInfo, c1.mGraphicBlocks = c.mGraphicBlocks ++ [info] ∧
        info.mHandle = some d ∧ info.mState = GBState.OWNED_BY_COMPONENT := by
  unfold appendSecureOutputBuffer at h
  repeat' split at h
  all_goals try (simp at h; done)
  all_goals simp only [Option.some.injEq] at h
  all_goals subst h
  all_goals first
    | exact Or.inl rfl
    | exact Or.inr ⟨_, rfl, rfl, rfl⟩

/-! ## The plane descriptors of an output buffer (C37) -/

theorem passedPlanesFrom_spec (offsets : List Nat) (planes : List C2PlaneInfo) :
    ∀ (n i : Nat), i + n ≤ offsets.length →
      (∀ k, i ≤ k → k < i + n → 0 < (planes.getD k { colInc := 0, rowInc := 0 }).rowInc) →
      ∃ l, passedPlanesFrom offsets planes n i = some l ∧ l.length = n ∧
        ∀ k, k < n → l[k]? = some
          { mOffset := offsets.getD (i + k) 0
            mStride := (planes.getD (i + k) { colInc := 0, rowInc := 0 }).rowInc.toNat %
              2 ^ 32 } := by
  intro n
  induction n with
  | zero => intro i _ _; exact ⟨[], rfl, rfl, fun k hk => absurd hk (Nat.not_lt_zero k)⟩
  | succ n ih =>
    intro i hl hr
    obtain ⟨l, h1, h2, h3⟩ := ih (i + 1) (by omega) (fun k hk1 hk2 => hr k (by omega) (by omega))
    have ho : offsets[i]? = some (offsets.getD i 0) := by
      rw [List.getD_eq_getElem?_getD, List.getElem?_eq_getElem (by omega)]
      rfl
    have hpos := hr i (Nat.le_refl i) (by omega)
    refine ⟨{ mOffset := offsets.getD i 0
              mStride := (planes.getD i { colInc := 0, rowInc := 0 }).rowInc.toNat %
                2 ^ 32 } :: l, ?_, by simp [h2], fun k hk => ?_⟩
    · rw [passedPlanesFrom, ho]
      simp only [gt_iff_lt, hpos, if_true, h1, Option.map_some']
    · cases k with
      | zero => simp
      | succ k =>
        have := h3 k (by omega)
        simp only [List.getElem?_cons_succ, this]
        rw [show i + 1 + k = i + (k + 1) by omega]

/-- C37, the claim as stated fails: for a layout with four planes whose U plane has a
greater offset than its V plane, the offsets are passed on as they are (the U offset
`96000` before the V offset `76800`) and the layout is not flagged `CrCb`. -/
theorem four_planes_are_not_swapped :
    (planeLayout exampleFourPlaneBlock).map
        (fun layout => (layout.offsets, layout.crcb, layout.semiplanar,
          layout.passedNumPlanes)) =
      some ([0, 96000, 76800, 115200], false, false, 4) ∧
    (appendOutputBuffer 9 exampleFourPlaneBlock 0 exampleStartedState).map
        (fun c => c.mGraphicBlocks.map
          (fun info => (info.mPixelFormat, info.mPlanes.map (fun p => p.mOffset)))) =
      some [(resolveBufferFormat false false, [0, 96000, 76800, 115200])] := by
  decide

theorem length_swapUV (l : List Nat) : (swapUV l).length = l.length := by
  unfold swapUV
  split <;> rfl

theorem swapUV_ordered (l : List Nat) (h3 : l.length = 3) :
    (if decide (l.getD PLANE_U 0 > l.getD PLANE_V 0) = true then swapUV l else l).getD 1 0 ≤
      (if decide (l.getD PLANE_U 0 > l.getD PLANE_V 0) = true then swapUV l else l).getD 2 0 := by
  match l, h3 with
  | [y, u, v], _ =>
    simp only [PLANE_U, PLANE_V, List.getD_cons_succ, List.getD_cons_zero, gt_iff_lt,
      decide_eq_true_eq]
    by_cases h : v < u
    · simp only [h, if_true, swapUV, List.getD_cons_succ, List.getD_cons_zero]
      omega
    · simp only [h, if_false, List.getD_cons_succ, List.getD_cons_zero]
      omega

theorem planeOffsets_spec (a0 : Int) (rest : List Int) (n : Nat)
    (hn : n ≤ (a0 :: rest).length) :
    planeOffsets (a0 :: rest) n =
        some (((a0 :: rest).take n).map fun a => ((a - a0) % 2 ^ 32).toNat) ∧
      (((a0 :: rest).take n).map fun a => ((a - a0) % 2 ^ 32).toNat).length = n ∧
      ∀ i a, i < n → (a0 :: rest)[i]? = some a →
        (((a0 :: rest).take n).map fun a => ((a - a0) % 2 ^ 32).toNat)[i]? =
          some ((a - a0) % 2 ^ 32).toNat := by
  refine ⟨by simp only [planeOffsets, hn, if_true], by simpa using hn, fun i a hi ha => ?_⟩
  rw [List.getElem?_map, List.getElem?_take_of_lt hi, ha]
  rfl

/-- C37, amended: for a mapped layout with `n ≥ 1` planes at the addresses `a_0 ..`, the
offsets are `(a_i - a_0) mod 2^32`.  The layout is flagged `CrCb`, and the offsets of U and
V are swapped, exactly when `n = 3` and the offset of U is greater than the offset of V; so
for `n = 3` the offsets passed on satisfy `offset(U) ≤ offset(V)`.  The layout is flagged
semi-planar exactly when the column increment of the U plane is `2`; the passed descriptor
then has `n - 1` entries and otherwise `n`.  When `dup` succeeds and the row increments of
the passed planes are positive, the new record has the pixel format resolved from the two
flags, and entry `i` of its planes is the offset `i` passed on with the row increment of
plane `i`. -/
theorem plane_descriptors (block : C2GraphicBlock) (a0 : Int) (rest : List Int)
    (hd : block.data = some (a0 :: rest)) (hn : block.numPlanes ≤ (a0 :: rest).length)
    (h1 : 1 ≤ block.numPlanes) :
    ∃ layout : PlaneLayout, planeLayout block = some layout ∧
      (∀ i a, i < block.numPlanes → (a0 :: rest)[i]? = some a →
        (specOffsets (a0 :: rest) block.numPlanes)[i]? = some ((a - a0) % 2 ^ 32).toNat) ∧
      (layout.crcb = true ↔ block.numPlanes = 3 ∧
        (specOffsets (a0 :: rest) block.numPlanes).getD 1 0 >
          (specOffsets (a0 :: rest) block.numPlanes).getD 2 0) ∧
      layout.offsets =
        (if layout.crcb = true then swapUV (specOffsets (a0 :: rest) block.numPlanes)
          else specOffsets (a0 :: rest) block.numPlanes) ∧
      (block.numPlanes = 3 → layout.offsets.getD 1 0 ≤ layout.offsets.getD 2 0) ∧
      (layout.semiplanar = true ↔
        (block.planes.getD 1 { colInc := 0, rowInc := 0 }).colInc = 2) ∧
      layout.passedNumPlanes =
        (if layout.semiplanar = true then block.numPlanes - 1 else block.numPlanes) ∧
      ∀ (dupFd : Int) (poolId : Nat) (c : Component), 0 ≤ dupFd →
        (∀ k, k < layout.passedNumPlanes → 0 < rowIncOf block k ∧ rowIncOf block k < 2 ^ 32) →
        ∃ info : GraphicBlockInfo,
          appendOutputBuffer dupFd block poolId c =
            some { c with mGraphicBlocks := c.mGraphicBlocks ++ [info] } ∧
          info.mPixelFormat = resolveBufferFormat layout.crcb layout.semiplanar ∧
          info.mPlanes.length = layout.passedNumPlanes ∧
          ∀ k, k < layout.passedNumPlanes →
            ∃ pl : VideoFramePlane, info.mPlanes[k]? = some pl ∧
              pl.mOffset = layout.offsets.getD k 0 ∧ (pl.mStride : Int) = rowIncOf block k := by
  obtain ⟨p1, p2, p3⟩ := planeOffsets_spec a0 rest block.numPlanes hn
  have hso : specOffsets (a0 :: rest) block.numPlanes =
      ((a0 :: rest).take block.numPlanes).map fun a => ((a - a0) % 2 ^ 32).toNat := rfl
  rw [← hso] at p1 p2 p3
  generalize specOffsets (a0 :: rest) block.numPlanes = off0 at p1 p2 p3
  obtain ⟨offs, hoffs⟩ : ∃ offs : List Nat, offs =
      if (block.numPlanes == 3 &&
        decide (off0.getD PLANE_U 0 > off0.getD PLANE_V 0)) = true then swapUV off0
      else off0 := ⟨_, rfl⟩
  obtain ⟨np, hnp⟩ : ∃ np : Nat, np =
      if ((block.planes.getD PLANE_U { colInc := 0, rowInc := 0 }).colInc == 2) = true
      then uint32_pred block.numPlanes else block.numPlanes := ⟨_, rfl⟩
  have hl : planeLayout block = some
      { offsets := offs
        crcb := block.numPlanes == 3 && decide (off0.getD PLANE_U 0 > off0.getD PLANE_V 0)
        semiplanar := (block.planes.getD PLANE_U { colInc := 0, rowInc := 0 }).colInc == 2
        passedNumPlanes := np } := by
    rw [hoffs, hnp]
    simp only [planeLayout, hd, p1]
  have hlen : offs.length = block.numPlanes := by
    rw [hoffs]
    split
    · rw [length_swapUV, p2]
    · exact p2
  have hpass : np ≤ block.numPlanes := by
    rw [hnp]
    split
    · unfold uint32_pred
      split <;> omega
    · exact Nat.le_refl _
  refine ⟨_, hl, p3, ?_, ?_, ?_, ?_, ?_, ?_⟩
  · simp [PLANE_U, PLANE_V]
  · rw [hoffs]
  · intro h3
    simp only [hoffs, h3, beq_self_eq_true, Bool.true_and]
    exact swapUV_ordered off0 (by rw [p2, h3])
  · simp [PLANE_U]
  · simp only [hnp, uint32_pred]
    have : block.numPlanes ≠ 0 := by omega
    simp [this]
  · intro dupFd poolId c hdup hrow
    obtain ⟨l, q1, q2, q3⟩ := passedPlanesFrom_spec offs block.planes np 0
      (by rw [hlen, Nat.zero_add]; exact hpass)
      (fun k _ hk => (hrow k (by simpa using hk)).1)
    refine ⟨{ mBlockId := static_cast_int32 c.mGraphicBlocks.length
              mPoolId := poolId
              mGraphicBlock := some block
              mPixelFormat := resolveBufferFormat
                (block.numPlanes == 3 && decide (off0.getD PLANE_U 0 > off0.getD PLANE_V 0))
                ((block.planes.getD PLANE_U { colInc := 0, rowInc := 0 }).colInc == 2)
              mHandle := some dupFd
              mPlanes := l }, ?_, rfl, q2, fun k hk => ?_⟩
    · simp only [appendOutputBuffer, hl, not_lt.mpr hdup, if_false, q1]
    · refine ⟨_, q3 k hk, by simp, ?_⟩
      have hr := hrow k hk
      simp only [rowIncOf] at hr
      simp only [Nat.zero_add, rowIncOf]
      have h2 : (block.planes.getD k { colInc := 0, rowInc := 0 }).rowInc.toNat < 2 ^ 32 := by
        omega
      rw [Nat.mod_eq_of_lt h2]
      omega

theorem plane_descriptors_witness :
    exampleYV12Block.data = some (4096 :: [100096, 80896]) ∧
      (planeLayout exampleYV12Block).map
          (fun layout => (layout.offsets, layout.crcb, layout.semiplanar,
            layout.passedNumPlanes)) =
        some ([0, 76800, 96000], true, false, 3) ∧
      ∃ layout : PlaneLayout, planeLayout exampleYV12Block = some layout ∧
        (exampleYV12Block.numPlanes = 3 →
          layout.offsets.getD 1 0 ≤ layout.offsets.getD 2 0) :=
  ⟨rfl, by decide,
    (plane_descriptors exampleYV12Block 4096 [100096, 80896] rfl (by decide)
      (by decide)).elim fun layout h => ⟨layout, h.1, h.2.2.2.2.1⟩⟩

/-! ## A failed descriptor duplication during allocation (C36) -/

/-- C36, what the code does: when `dup` fails for the second of the three buffers of a
format change, `appendOutputBuffer` reports `C2_CORRUPTED` and returns, and the allocation
loop goes on with the next buffer: the allocation ends with success, the registry holds two
records, both are imported by the accelerator, which was told to expect three, and no format
change stays pending.  When instead the fetch of the first buffer times out eleven times,
the registry is left empty, the format change stays pending and nothing is imported. -/
theorem allocation_goes_on_after_dup_failure :
    (onOutputFormatChanged examplePartialDupPool exampleFormat exampleStartedState).map
        (fun c => (errorCodes c.log, assignedCounts c.log, importedIds c.log,
          ownerships c, c.mPendingOutputFormat.isSome)) =
      some ([c2_status_t.C2_CORRUPTED], [3], [0, 1],
        [GBState.OWNED_BY_ACCELERATOR, GBState.OWNED_BY_ACCELERATOR], false) ∧
    (allocateBuffersFromBlockAllocator examplePartialDupPool
        { exampleStartedState with mOutputFormat := exampleFormat }).map
        (fun r => (r.1, r.2.mGraphicBlocks.length)) =
      some (c2_status_t.C2_OK, 2) ∧
    (onOutputFormatChanged (exampleSlowPool 11) exampleFormat exampleStartedState).map
        (fun c => (c.mGraphicBlocks.length, importedIds c.log,
          c.mPendingOutputFormat.isSome)) =
      some (0, [], true) := by
  refine ⟨by decide, by decide, by decide⟩

/-! ## The order of completion (C10) -/

theorem noPicture_of_pending {b : Int} {c c1 : Component}
    (h : c1.mPendingWorks = c.mPendingWorks ∨ c1.mPendingWorks = [])
    (hi : NoPicture b c) : NoPicture b c1 := by
  unfold NoPicture at *
  rcases h with h | h <;> rw [h]
  · exact hi
  · simp

theorem noPicture_onDequeueWork {b : Int} {d : Int} {c c1 : Component}
    (h : onDequeueWork d c = some c1) (hi : NoPicture b c) : NoPicture b c1 := by
  have h0 := h
  unfold onDequeueWork EXPECT_RUNNING_OR_RETURN_ON_ERROR at h
  repeat' split at h
  all_goals try (simp at h; done)
  all_goals try (simp at h; subst h; exact hi)
  rename_i entry rest hq _ hs _ w1 c2 h2
  obtain ⟨-, wl, hw, hp, -⟩ := onDequeueWork_started (not_not.mp hs) hq h0
  intro w hm
  rw [hp, List.mem_append, List.mem_singleton] at hm
  rcases hm with hm | rfl
  · exact hi w hm
  · intro _ wl1 hwl1
    simp only [List.mem_singleton] at hwl1
    subst hwl1
    rfl

theorem noPicture_set {b : Int} {c : Component} {i : Nat} {w1 : C2Work}
    (hi : NoPicture b c)
    (hw : bitstreamIdOf w1 = b → ∀ wl ∈ w1.worklets, wl.output.buffers = []) :
    ∀ w ∈ c.mPendingWorks.set i w1, bitstreamIdOf w = b →
      ∀ wl ∈ w.worklets, wl.output.buffers = [] := by
  intro x hx
  rcases List.mem_or_eq_of_mem_set hx with hx | rfl
  · exact hi x hx
  · exact hw

theorem noPicture_onInputBufferDone {b : Int} {b1 : Int} {c c1 : Component}
    (h : onInputBufferDone b1 c = some c1) (hi : NoPicture b c) : NoPicture b c1 := by
  unfold onInputBufferDone EXPECT_RUNNING_OR_RETURN_ON_ERROR at h
  repeat' split at h
  all_goals try (simp at h; done)
  all_goals try (simp at h; subst h; simpa [NoPicture, reportError, emit] using hi)
  rename_i _ _ _ i _ _ work hg _ bs hb
  intro w hm
  have hm1 := (pending_reportFinishedWorkIfAny h).subset hm
  refine noPicture_set hi ?_ w hm1
  exact fun hid wl hwl => hi work (List.getElem?_mem hg) hid wl hwl

theorem noPicture_onOutputBufferDone {b : Int} {p b1 : Int} {c c1 : Component}
    (h : onOutputBufferDone p b1 c = some c1) (hb : b1 ≠ b) (hi : NoPicture b c) :
    NoPicture b c1 := by
  rcases onOutputBufferDone_cases h with rfl | rfl | ⟨i, j, info, work, gb, wl, wls, hf, -,
    -, hw, -, -, hwl, h1⟩
  · exact hi
  · simpa [NoPicture, reportError, emit] using hi
  · intro x hm
    have hm1 := (pending_reportFinishedWorkIfAny h1).subset hm
    refine noPicture_set hi (fun hid => ?_) x hm1
    unfold getPendingWorkByBitstreamId at hf
    obtain ⟨⟨a, ha, hpa⟩, -⟩ := (findFirst_eq_some _ _ _).mp hf
    rw [hw] at ha
    simp only [Option.some.injEq] at ha
    subst ha
    have : bitstreamIdOf work = b1 := by simpa using hpa
    exact absurd (this.symm.trans hid) hb

theorem noPicture_step {b : Int} {e : Event} {c c1 : Component} (h : step e c = some c1)
    (he : deliversPicture b e = false) (hi : NoPicture b c) : NoPicture b c1 := by
  cases e <;> simp only [step] at h
  · exact noPicture_of_pending (Or.inl (pending_onStart h)) hi
  · exact noPicture_of_pending (Or.inl (pending_onStop h)) hi
  · exact noPicture_of_pending (Or.inl (pending_onQueueWork h)) hi
  · exact noPicture_onDequeueWork h hi
  · exact noPicture_onInputBufferDone h hi
  · exact noPicture_of_pending (Or.inl (sameWorks_onOutputBufferReturned h).2.2.1) hi
  · exact noPicture_onOutputBufferDone h (by simpa [deliversPicture] using he) hi
  · exact noPicture_of_pending (Or.inl (pending_onDrain h)) hi
  · exact noPicture_of_pending (pending_onDrainDone h) hi
  · exact noPicture_of_pending (Or.inl (pending_onFlush h)) hi
  · exact noPicture_of_pending (pending_onResetDone h) hi
  · exact noPicture_of_pending (Or.inl (sameWorks_onOutputFormatChanged h).2.2.1) hi
  · exact noPicture_of_pending (Or.inl (sameWorks_onVisibleRectChanged h).2.2.1) hi
  · simp at h; subst h
    exact noPicture_of_pending (Or.inl (sameWorks_notifyError _ _).2.2.1) hi
  · split at h <;> simp at h <;> subst h
    · exact noPicture_of_pending
        (Or.inl (sameWorks_dequeueThreadLoopIteration _ _ _).2.2.1) hi
    · exact hi

theorem noPicture_run {b : Int} {es : List Event} {c c1 : Component} (h : run es c = some c1)
    (he : ∀ e ∈ es, deliversPicture b e = false) (hi : NoPicture b c) : NoPicture b c1 := by
  induction es generalizing c with
  | nil => simp [run] at h; subst h; exact hi
  | cons e es ih =>
    simp only [run, Option.bind_eq_some] at h
    obtain ⟨c2, h2, h3⟩ := h
    exact ih h3 (fun x hx => he x (List.mem_cons_of_mem _ hx))
      (noPicture_step h2 (he e (List.mem_cons_self _ _)) hi)

/-- C12, the claim as stated fails: an end-of-stream marker without input is queued and
dispatched, and the VDA delivers a picture with the bitstream id of the marker.  The state
is in `DRAINING` with `mPendingOutputEOS` set and the marker as the only pending work, and
`onDrainDone` delivers the marker with result `C2_OK` and one output buffer. -/
theorem eos_marker_delivered_with_picture :
    (exampleEOSWork 0).input.buffers = [] ∧
    (run exampleMarkerPictureTrace (initial false)).map
        (fun c => (c.mComponentState, c.mPendingOutputEOS, c.mPendingWorks.map workKey)) =
      some (ComponentState.DRAINING, true, [(0, FLAG_END_OF_STREAM)]) ∧
    (run (exampleMarkerPictureTrace ++ [Event.onDrainDone]) (initial false)).map
        (fun c => (batches c.log).map (List.map fun w =>
          (workKey w, w.result, w.worklets.map fun wl => wl.output.buffers.length))) =
      some [[((0, FLAG_END_OF_STREAM), c2_status_t.C2_OK, [1])]] := by
  refine ⟨by decide, by decide, by decide⟩

/-- C12, amended: in a reachable state in `DRAINING` with `mPendingOutputEOS` set and exactly
one pending work, `onDrainDone` returns, sets the inner state to `STARTED`, clears
`mPendingOutputEOS`, empties the pending list and delivers exactly one batch that holds
exactly that work with result `C2_OK`, `workletsProcessed` equal to its number of worklets,
its input slot cleared and its output flags set to `END_OF_STREAM`; the output buffers are
those the work had, and they are empty when, in the execution that led to the state, the VDA
has delivered no picture with the bitstream id of the work, as it is for an end-of-stream
marker without input, which is never sent to the VDA. -/
theorem eos_delivery (c : Component) (w : C2Work) (hr : Reachable c)
    (hs : c.mComponentState = ComponentState.DRAINING) (he : c.mPendingOutputEOS = true)
    (hp : c.mPendingWorks = [w]) :
    ∃ c1 w1, onDrainDone c = some c1 ∧
      c1.mComponentState = ComponentState.STARTED ∧ c1.mPendingOutputEOS = false ∧
      c1.mPendingWorks = [] ∧
      c1.log = c.log ++ [Effect.onWorkDone_nb [w1], Effect.postTask Task.onDequeueWork] ∧
      w1.result = c2_status_t.C2_OK ∧ w1.workletsProcessed = w.worklets.length ∧
      w1.input = { w.input with buffers := [none] } ∧
      (∃ wl, w.worklets = [wl] ∧
        w1.worklets = [{ wl with output := { wl.output with flags := FLAG_END_OF_STREAM } }]) ∧
      (∀ wl1 ∈ w1.worklets, hasFlag wl1.output.flags FLAG_END_OF_STREAM = true) ∧
      (∀ (es : List Event) (secureMode : Bool), run es (initial secureMode) = some c →
        (∀ e ∈ es, deliversPicture (bitstreamIdOf w) e = false) →
        ∀ wl1 ∈ w1.worklets, wl1.output.buffers = []) := by
  obtain ⟨hlen, wl, hwl, -, -⟩ := shape_of_reachable hr w (by rw [hp]; simp)
  obtain ⟨b, hb⟩ : ∃ b, w.input.buffers = [b] := by
    cases hbs : w.input.buffers with
    | nil => rw [hbs] at hlen; simp at hlen
    | cons b bs =>
      rw [hbs] at hlen
      simp only [List.length_cons, Nat.add_eq_right, List.length_eq_zero] at hlen
      exact ⟨b, by rw [hlen]⟩
  have hq : ∀ (es : List Event) (secureMode : Bool), run es (initial secureMode) = some c →
      (∀ e ∈ es, deliversPicture (bitstreamIdOf w) e = false) → wl.output.buffers = [] := by
    intro es s hrun hes
    have h0 : NoPicture (bitstreamIdOf w) (initial s) := by simp [NoPicture, initial]
    exact noPicture_run hrun hes h0 w (by rw [hp]; simp) rfl wl (by rw [hwl]; simp)
  obtain ⟨w1, hw1⟩ : ∃ w1 : C2Work, w1 =
      { input := { w.input with buffers := [none] }
        result := c2_status_t.C2_OK
        workletsProcessed := 1
        worklets := [{ wl with output := { wl.output with flags := FLAG_END_OF_STREAM } }] } :=
    ⟨_, rfl⟩
  refine ⟨{ c with
      mComponentState := ComponentState.STARTED
      mPendingOutputEOS := false
      mPendingWorks := []
      log := c.log ++ [Effect.onWorkDone_nb [w1], Effect.postTask Task.onDequeueWork] },
    w1, ?_, rfl, rfl, rfl, rfl, by rw [hw1], by rw [hw1, hwl]; rfl, by rw [hw1],
    ⟨wl, hwl, by rw [hw1]⟩, ?_, ?_⟩
  · rw [hw1]
    simp only [onDrainDone, hs, onDrainDoneTail, he, reportEOSWork, hp, hwl, hb, if_true]
    simp [emit]
  · rw [hw1]
    simp [hasFlag, FLAG_END_OF_STREAM]
  · intro es s hrun hes wl1 hwl1
    rw [hw1] at hwl1
    simp only [List.mem_singleton] at hwl1
    subst hwl1
    exact hq es s hrun hes

theorem eos_delivery_witness :
    (runD exampleMarkerTrace (initial false)).mComponentState = ComponentState.DRAINING ∧
      (runD exampleMarkerTrace (initial false)).mPendingOutputEOS = true ∧
      (runD exampleMarkerTrace (initial false)).mPendingWorks =
        [(runD exampleMarkerTrace (initial false)).mPendingWorks.getD 0 (exampleWork 0 0)] ∧
      (∀ e ∈ exampleMarkerTrace, deliversPicture (bitstreamIdOf
        ((runD exampleMarkerTrace (initial false)).mPendingWorks.getD 0 (exampleWork 0 0)))
          e = false) ∧
      ∃ c1 w1, onDrainDone (runD exampleMarkerTrace (initial false)) = some c1 ∧
        c1.log = (runD exampleMarkerTrace (initial false)).log ++
          [Effect.onWorkDone_nb [w1], Effect.postTask Task.onDequeueWork] ∧
        w1.result = c2_status_t.C2_OK ∧ ∀ wl1 ∈ w1.worklets, wl1.output.buffers = [] :=
  have hrun : run exampleMarkerTrace (initial false) =
      some (runD exampleMarkerTrace (initial false)) := run_eq_some_runD (by decide)
  have hr : Reachable (runD exampleMarkerTrace (initial false)) :=
    reachable_of_run (Reachable.init false) hrun
  have hq : ∀ e ∈ exampleMarkerTrace, deliversPicture (bitstreamIdOf
      ((runD exampleMarkerTrace (initial false)).mPendingWorks.getD 0 (exampleWork 0 0)))
        e = false := by
    intro e he
    simp only [exampleMarkerTrace, List.mem_cons, List.mem_singleton, List.mem_nil_iff,
      or_false] at he
    rcases he with rfl | rfl | rfl <;> rfl
  have h := eos_delivery (runD exampleMarkerTrace (initial false))
    ((runD exampleMarkerTrace (initial false)).mPendingWorks.getD 0 (exampleWork 0 0))
    hr (by decide) (by decide) (by decide)
  ⟨by decide, by decide, by decide, hq,
    h.elim fun c1 h1 => h1.elim fun w1 h2 =>
      ⟨c1, w1, h2.1, h2.2.2.2.2.1, h2.2.2.2.2.2.1,
        h2.2.2.2.2.2.2.2.2.2.2 exampleMarkerTrace false hrun hq⟩⟩

/-! ## Stop after an error (C23) -/

theorem importedAfter_append (l l1 : List Effect) :
    ∀ imported, importedAfter imported (l ++ l1) =
      importedAfter (importedAfter imported l) l1 := by
  induction l with
  | nil => intro imported; rfl
  | cons e l ih => intro imported; cases e <;> simp [importedAfter, ih]

theorem submissionsOk_append (l l1 : List Effect) :
    ∀ imported, submissionsOk imported (l ++ l1) =
      (submissionsOk imported l && submissionsOk (importedAfter imported l) l1) := by
  induction l with
  | nil => intro imported; simp [submissionsOk, importedAfter]
  | cons e l ih =>
    intro imported
    cases e <;> simp [submissionsOk, importedAfter, ih, Bool.and_assoc]

theorem pics_reportError (e : c2_status_t) (c : Component) :
    picView c = picView (reportError e c) := by
  simp [picView, importedAfter_append, submissionsOk_append, importedAfter, submissionsOk, reportError, emit]

theorem pics_stopDequeueThread (c : Component) : picView c = picView (stopDequeueThread c) := by
  unfold stopDequeueThread; split <;> simp [picView, importedAfter_append, submissionsOk_append, importedAfter, submissionsOk]

theorem pics_appendOutputBuffer {d : Int} {b : C2GraphicBlock} {p : Nat}
    {c c1 : Component} (h : appendOutputBuffer d b p c = some c1) : picView c = picView c1 := by
  unfold appendOutputBuffer at h
  repeat' split at h
  all_goals try (simp at h; done)
  all_goals simp at h
  all_goals subst h
  all_goals simp [picView, importedAfter_append, submissionsOk_append, importedAfter, submissionsOk, reportError, emit]

theorem pics_appendSecureOutputBuffer {a : Bool} {f : HalPixelFormat} {d : Int}
    {b : C2GraphicBlock} {p : Nat} {c c1 : Component}
    (h : appendSecureOutputBuffer a f d b p c = some c1) : picView c = picView c1 := by
  unfold appendSecureOutputBuffer at h
  repeat' split at h
  all_goals try (simp at h; done)
  all_goals simp at h
  all_goals subst h
  all_goals simp [picView, importedAfter_append, submissionsOk_append, importedAfter, submissionsOk, reportError, emit]

theorem pics_startDequeueThread {s r : Bool} {c c1 : Component}
    (h : startDequeueThread s c = some (r, c1)) : picView c = picView c1 := by
  unfold startDequeueThread at h
  repeat' split at h
  all_goals try (simp at h; done)
  all_goals simp at h
  all_goals obtain ⟨-, rfl⟩ := h
  all_goals simp [picView, importedAfter_append, submissionsOk_append, importedAfter, submissionsOk]

theorem pics_allocateLoop {env : BlockPoolEnv} {n i k : Nat} {c c1 : Component}
    {err : c2_status_t} (h : allocateLoop env n i k c = some (err, c1)) : picView c = picView c1 := by
  induction n generalizing i k c with
  | zero => simp [allocateLoop] at h; obtain ⟨-, rfl⟩ := h; exact rfl
  | succ n ih =>
    unfold allocateLoop at h
    dsimp only at h
    split at h
    · simp at h; obtain ⟨-, rfl⟩ := h
      simp [picView, importedAfter_append, submissionsOk_append, importedAfter, submissionsOk, reportError, emit]
    · split at h
      · simp at h; obtain ⟨-, rfl⟩ := h
        simp [picView, importedAfter_append, submissionsOk_append, importedAfter, submissionsOk, reportError, emit]
      · simp only [Option.bind_eq_some] at h
        obtain ⟨c2, h2, h3⟩ := h
        refine Eq.trans ?_ (ih h3)
        split at h2
        · exact pics_appendSecureOutputBuffer h2
        · exact pics_appendOutputBuffer h2

theorem pics_onVisibleRectChanged {r : Rect} {c c1 : Component}
    (h : onVisibleRectChanged r c = some c1) : picView c = picView c1 := by
  unfold onVisibleRectChanged EXPECT_RUNNING_OR_RETURN_ON_ERROR at h
  repeat' split at h
  all_goals try (simp at h; done)
  all_goals simp at h
  all_goals subst h
  all_goals simp [picView, importedAfter_append, submissionsOk_append, importedAfter, submissionsOk, setOutputFormatCrop]

theorem pics_notifyError (r : VDAResult) (c : Component) :
    picView c = picView (notifyError r c) := by
  cases r <;> simp [notifyError, picView, importedAfter_append, submissionsOk_append, importedAfter, submissionsOk, reportError, emit]

theorem pics_reportFinishedWorkIfAny {c c1 : Component}
    (h : reportFinishedWorkIfAny c = some c1) : picView c = picView c1 := by
  unfold reportFinishedWorkIfAny at h
  split at h
  · simp at h
  · split at h <;> simp at h <;> subst h <;> simp [picView, importedAfter_append, submissionsOk_append, importedAfter, submissionsOk, emit]

theorem pics_reportAbandonedWorks (c : Component) :
    picView c = picView (reportAbandonedWorks c) := by
  unfold reportAbandonedWorks
  simp only []
  split <;> simp [picView, importedAfter_append, submissionsOk_append, importedAfter, submissionsOk, emit]

theorem pics_reportEOSWork {c c1 : Component}
    (h : reportEOSWork c = some c1) : picView c = picView c1 := by
  unfold reportEOSWork at h
  split at h
  · split at h
    · simp at h
    · simp at h; subst h; simp [picView, importedAfter_append, submissionsOk_append, importedAfter, submissionsOk, emit]
  · simp at h; subst h; simp [picView, importedAfter_append, submissionsOk_append, importedAfter, submissionsOk, reportError, emit]

theorem pics_onQueueWork {w : C2Work} {c c1 : Component}
    (h : onQueueWork w c = some c1) : picView c = picView c1 := by
  unfold onQueueWork EXPECT_RUNNING_OR_RETURN_ON_ERROR at h
  repeat' split at h
  all_goals try (simp at h; done)
  all_goals simp at h
  all_goals subst h
  all_goals simp [picView, importedAfter_append, submissionsOk_append, importedAfter, submissionsOk, emit]

theorem pics_dequeueInput {d : Int} {m : DrainMode} {w w1 : C2Work} {c c1 : Component}
    (h : dequeueInput d m w c = some (w1, c1)) : picView c = picView c1 := by
  unfold dequeueInput at h
  repeat' split at h
  all_goals simp at h
  all_goals obtain ⟨-, rfl⟩ := h
  · exact rfl
  · unfold sendInputBufferToAccelerator
    split <;> simp [picView, importedAfter_append, submissionsOk_append, importedAfter, submissionsOk, reportError, emit]

theorem pics_dequeueOutput {m : DrainMode} {w : C2Work} {c c1 : Component}
    (h : dequeueOutput m w c = some c1) : picView c = picView c1 := by
  unfold dequeueOutput at h
  split at h
  · dsimp only at h
    repeat' split at h
    all_goals simp at h
    all_goals subst h
    all_goals simp [picView, importedAfter_append, submissionsOk_append, importedAfter, submissionsOk, emit]
  · simp at h

theorem pics_onDequeueWork {d : Int} {c c1 : Component}
    (h : onDequeueWork d c = some c1) : picView c = picView c1 := by
  unfold onDequeueWork EXPECT_RUNNING_OR_RETURN_ON_ERROR at h
  repeat' split at h
  all_goals try (simp at h; done)
  all_goals try (simp at h; subst h; exact rfl)
  rename_i _ h2
  exact Eq.trans
    (Eq.trans (by simp [picView, importedAfter_append, submissionsOk_append, importedAfter, submissionsOk]) (pics_dequeueInput h2 :))
    (pics_dequeueOutput h)

theorem pics_onInputBufferDone {b : Int} {c c1 : Component}
    (h : onInputBufferDone b c = some c1) : picView c = picView c1 := by
  unfold onInputBufferDone EXPECT_RUNNING_OR_RETURN_ON_ERROR at h
  repeat' split at h
  all_goals try (simp at h; done)
  all_goals try (simp at h; subst h; first | exact rfl | exact pics_reportError _ _)
  exact Eq.trans (by simp [picView, importedAfter_append, submissionsOk_append, importedAfter, submissionsOk]) (pics_reportFinishedWorkIfAny h :)

theorem pics_onDrain {m : DrainMode} {c c1 : Component}
    (h : onDrain m c = some c1) : picView c = picView c1 := by
  unfold onDrain EXPECT_RUNNING_OR_RETURN_ON_ERROR at h
  repeat' split at h
  all_goals try (simp at h; done)
  all_goals simp at h
  all_goals subst h
  all_goals simp [picView, importedAfter_append, submissionsOk_append, importedAfter, submissionsOk, emit]

theorem pics_onDrainDoneTail {c c1 : Component}
    (h : onDrainDoneTail c = some c1) : picView c = picView c1 := by
  unfold onDrainDoneTail at h
  split at h
  · simp at h
  · rename_i c2 h2
    split at h
    · simp at h
    · simp at h
      subst h
      have h3 : picView c = picView c2 := by
        split at h2
        · exact pics_reportEOSWork h2
        · simp at h2; subst h2; exact rfl
      exact Eq.trans h3 (by simp [picView, importedAfter_append, submissionsOk_append, importedAfter, submissionsOk, emit])

theorem pics_onDrainDone {c c1 : Component}
    (h : onDrainDone c = some c1) : picView c = picView c1 := by
  unfold onDrainDone at h
  repeat' split at h
  all_goals try (simp at h; subst h; first | exact rfl | exact pics_reportError _ _)
  all_goals exact Eq.trans (by simp [picView, importedAfter_append, submissionsOk_append, importedAfter, submissionsOk]) (pics_onDrainDoneTail h :)

theorem pics_onFlushDone {c c1 : Component}
    (h : onFlushDone c = some c1) : picView c = picView c1 := by
  unfold onFlushDone at h
  simp at h
  subst h
  exact Eq.trans (pics_reportAbandonedWorks c) (by simp [picView, importedAfter_append, submissionsOk_append, importedAfter, submissionsOk, emit])

theorem pics_dequeueThreadLoopIteration (f : c2_status_t × C2GraphicBlock)
    (p : c2_status_t × Nat) (c : Component) :
    picView c = picView (dequeueThreadLoopIteration f p c).1 := by
  unfold dequeueThreadLoopIteration
  repeat' split
  all_goals simp [picView, importedAfter_append, submissionsOk_append, importedAfter, submissionsOk, emit]

theorem pics_onOutputBufferDone {p b : Int} {c c1 : Component}
    (h : onOutputBufferDone p b c = some c1) : picView c = picView c1 := by
  rcases onOutputBufferDone_cases h with rfl | rfl | ⟨_, _, _, _, _, _, _, _, _, _, _, _, _, _, h1⟩
  · rfl
  · exact pics_reportError _ _
  · exact Eq.trans (by simp [picView, importedAfter_append, submissionsOk_append, importedAfter, submissionsOk]) (pics_reportFinishedWorkIfAny h1 :)

theorem pics_onStart {r : VDAResult} {c c1 : Component} (h : onStart r c = some c1) :
    picView c = picView c1 := by
  unfold onStart at h
  split at h
  · simp at h
  · simp only [Option.some.injEq] at h
    subst h
    split <;> simp [picView, importedAfter_append, submissionsOk_append, importedAfter, submissionsOk, emit]

theorem pics_onFlush {c c1 : Component}
    (h : onFlush c = some c1) : picView c = picView c1 := by
  unfold onFlush EXPECT_RUNNING_OR_RETURN_ON_ERROR at h
  repeat' split at h
  all_goals try (simp at h; done)
  all_goals simp at h
  all_goals subst h
  all_goals simp [picView, importedAfter_append, submissionsOk_append, importedAfter, submissionsOk, abandonQueue, emit]

theorem pics_onStop {c c1 : Component} (h : onStop c = some c1) :
    picView c = picView c1 := by
  unfold onStop EXPECT_RUNNING_OR_RETURN_ON_ERROR at h
  repeat' (first | split at h | (dsimp only at h; split at h))
  all_goals try (simp at h; done)
  all_goals simp at h
  all_goals subst h
  all_goals simp [picView, importedAfter_append, submissionsOk_append, importedAfter, submissionsOk, abandonQueue, emit]

theorem pics_onStopDone {c c1 : Component} (h : onStopDone c = some c1) :
    picView c = picView c1 := by
  unfold onStopDone at h
  split at h
  · simp at h
  · simp only [Option.some.injEq] at h
    subst h
    have h1 := pics_reportAbandonedWorks c
    simp only [picView, Prod.mk.injEq] at h1 ⊢
    split <;>
      simp [importedAfter_append, submissionsOk_append, importedAfter, submissionsOk, emit,
        log_stopDequeueThread, h1]

theorem pics_onResetDone {c c1 : Component} (h : onResetDone c = some c1) :
    picView c = picView c1 := by
  unfold onResetDone at h
  repeat' split at h
  · simp at h; subst h; rfl
  · exact pics_onFlushDone h
  · exact pics_onStopDone h
  · simp at h; subst h; exact pics_reportError _ _

theorem static_cast_int32_inj {i j : Nat} (hi : i < 2 ^ 32) (hj : j < 2 ^ 32)
    (h : static_cast_int32 i = static_cast_int32 j) : i = j := by
  unfold static_cast_int32 at h
  rw [Nat.mod_eq_of_lt hi, Nat.mod_eq_of_lt hj] at h
  split at h <;> split at h <;> omega

theorem numbered_appendOutputBuffer {d : Int} {b : C2GraphicBlock} {p : Nat}
    {c c1 : Component} (h : appendOutputBuffer d b p c = some c1)
    (hn : Numbered FreshRecord c.mGraphicBlocks) : Numbered FreshRecord c1.mGraphicBlocks := by
  unfold appendOutputBuffer at h
  repeat' split at h
  all_goals try (simp at h; done)
  all_goals simp only [Option.some.injEq] at h
  all_goals subst h
  · exact hn
  · exact numbered_append hn rfl ⟨rfl, rfl, rfl⟩

theorem numbered_appendSecureOutputBuffer {a : Bool} {f : HalPixelFormat} {d : Int}
    {b : C2GraphicBlock} {p : Nat} {c c1 : Component}
    (h : appendSecureOutputBuffer a f d b p c = some c1)
    (hn : Numbered FreshRecord c.mGraphicBlocks) : Numbered FreshRecord c1.mGraphicBlocks := by
  unfold appendSecureOutputBuffer at h
  repeat' split at h
  all_goals try (simp at h; done)
  all_goals simp only [Option.some.injEq] at h
  all_goals subst h
  all_goals first
    | exact hn
    | exact numbered_append hn rfl ⟨rfl, rfl, rfl⟩

theorem numbered_nil (P : GraphicBlockInfo → Prop) : Numbered P [] := by
  intro i info h
  simp at h

theorem numbered_allocateLoop {env : BlockPoolEnv} {n i k : Nat} {c c1 : Component}
    {err : c2_status_t} (h : allocateLoop env n i k c = some (err, c1))
    (hn : Numbered FreshRecord c.mGraphicBlocks) : Numbered FreshRecord c1.mGraphicBlocks := by
  induction n generalizing i k c with
  | zero =>
    simp [allocateLoop] at h; obtain ⟨-, rfl⟩ := h
    exact hn
  | succ n ih =>
    unfold allocateLoop at h
    dsimp only at h
    split at h
    · simp at h; obtain ⟨-, rfl⟩ := h
      exact numbered_nil _
    · split at h
      · simp at h; obtain ⟨-, rfl⟩ := h
        exact numbered_nil _
      · simp only [Option.bind_eq_some] at h
        obtain ⟨c2, h2, h3⟩ := h
        refine ih h3 ?_
        split at h2
        · exact numbered_appendSecureOutputBuffer h2 hn
        · exact numbered_appendOutputBuffer h2 hn

/-- What an allocation leaves: the registry counts as assigned anew, the submissions before
it are as they were, the pending format is as it was, and after a successful allocation the
registry holds fewer than `2^32` records, each with its position as block id and with its
descriptor. -/
theorem import_allocate {env : BlockPoolEnv} {c c1 : Component} {err : c2_status_t}
    (h : allocateBuffersFromBlockAllocator env c = some (err, c1)) :
    importedAfter [] c1.log = [] ∧ submissionsOk [] c1.log = submissionsOk [] c.log ∧
    c1.mPendingOutputFormat = c.mPendingOutputFormat ∧
    (err = c2_status_t.C2_OK →
      Numbered FreshRecord c1.mGraphicBlocks ∧ c1.mGraphicBlocks.length < 2 ^ 32) := by
  have hp := alloc_allocateBuffersFromBlockAllocator h
  refine ⟨?_, ?_, hp.1, fun he => ?_⟩
  all_goals unfold allocateBuffersFromBlockAllocator at h
  all_goals dsimp only at h
  · have h0 : ∀ e, picView (emit (Effect.vdaAssignPictureBuffers e) (stopDequeueThread c)) =
        ([], submissionsOk [] c.log) := fun e => by
      simp [picView, emit, log_stopDequeueThread, importedAfter_append, submissionsOk_append,
        importedAfter, submissionsOk]
    have h00 : ∀ e, picView { emit (Effect.vdaAssignPictureBuffers e) (stopDequeueThread c) with
        mGraphicBlocks := [] } = ([], submissionsOk [] c.log) := fun e => h0 e
    suffices hs : picView c1 = ([], submissionsOk [] c.log) by
      simpa [picView] using congrArg Prod.fst hs
    repeat' split at h
    all_goals try (simp at h; done)
    all_goals simp at h
    all_goals obtain ⟨-, rfl⟩ := h
    · exact (pics_reportError _ _).symm.trans (h0 _)
    · exact (pics_reportError _ _).symm.trans (h00 _)
    · exact (pics_reportError _ _).symm.trans (h00 _)
    · rename_i h1 _
      exact (pics_allocateLoop h1).symm.trans (h00 _)
    · rename_i h1 _ _ _ h2
      exact ((pics_startDequeueThread h2).symm.trans
        (Eq.trans (by simp [picView]) ((pics_allocateLoop h1).symm))).trans (h00 _)
    · rename_i h1 _ _ _ h2
      exact (((pics_reportError _ _).symm.trans (pics_startDequeueThread h2).symm).trans
        (Eq.trans (by simp [picView]) ((pics_allocateLoop h1).symm))).trans (h00 _)
  · have h0 : ∀ e, picView (emit (Effect.vdaAssignPictureBuffers e) (stopDequeueThread c)) =
        ([], submissionsOk [] c.log) := fun e => by
      simp [picView, emit, log_stopDequeueThread, importedAfter_append, submissionsOk_append,
        importedAfter, submissionsOk]
    have h00 : ∀ e, picView { emit (Effect.vdaAssignPictureBuffers e) (stopDequeueThread c) with
        mGraphicBlocks := [] } = ([], submissionsOk [] c.log) := fun e => h0 e
    suffices hs : picView c1 = ([], submissionsOk [] c.log) by
      simpa [picView] using congrArg Prod.snd hs
    repeat' split at h
    all_goals try (simp at h; done)
    all_goals simp at h
    all_goals obtain ⟨-, rfl⟩ := h
    · exact (pics_reportError _ _).symm.trans (h0 _)
    · exact (pics_reportError _ _).symm.trans (h00 _)
    · exact (pics_reportError _ _).symm.trans (h00 _)
    · rename_i h1 _
      exact (pics_allocateLoop h1).symm.trans (h00 _)
    · rename_i h1 _ _ _ h2
      exact ((pics_startDequeueThread h2).symm.trans
        (Eq.trans (by simp [picView]) ((pics_allocateLoop h1).symm))).trans (h00 _)
    · rename_i h1 _ _ _ h2
      exact (((pics_reportError _ _).symm.trans (pics_startDequeueThread h2).symm).trans
        (Eq.trans (by simp [picView]) ((pics_allocateLoop h1).symm))).trans (h00 _)
  · refine ⟨?_, (hp.2 he).2.1⟩
    subst he
    repeat' split at h
    all_goals try (simp at h; done)
    all_goals simp only [Option.some.injEq, Prod.mk.injEq] at h
    all_goals try (exact absurd h.1.symm ‹_›)
    all_goals try (exact absurd h.1 ‹_›)
    all_goals try (exact absurd h.1 (by decide))
    rename_i h1 _ _ _ h2
    obtain ⟨-, rfl⟩ := h
    obtain ⟨b1, -, -⟩ := alloc_startDequeueThread h2
    rw [b1]
    have h3 := numbered_allocateLoop h1 (numbered_nil _)
    exact h3

theorem import_sendAllFrom : ∀ (n i : Nat) (c c1 : Component),
    sendAllFrom n i c = some c1 → i + n = c.mGraphicBlocks.length →
    c.mGraphicBlocks.length < 2 ^ 32 →
    (∀ (j : Nat) (info : GraphicBlockInfo), c.mGraphicBlocks[j]? = some info →
      info.mBlockId = static_cast_int32 j ∧ (j < i → info.mHandle = none) ∧
      (i ≤ j → info.mHandle.isSome = true)) →
    (∀ b, b ∈ importedAfter [] c.log ↔ ∃ j, j < i ∧ b = static_cast_int32 j) →
    submissionsOk [] c.log = true →
    (∀ (j : Nat) (info : GraphicBlockInfo), c1.mGraphicBlocks[j]? = some info →
      info.mBlockId = static_cast_int32 j ∧ info.mHandle = none ∧
      info.mBlockId ∈ importedAfter [] c1.log) ∧
    submissionsOk [] c1.log = true ∧ c1.mPendingOutputFormat = c.mPendingOutputFormat := by
  intro n
  induction n with
  | zero =>
    intro i c c1 h hl _ hreg himp hok
    simp only [sendAllFrom, Option.some.injEq] at h
    subst h
    refine ⟨fun j info hj => ?_, hok, rfl⟩
    have hlt : j < i := by
      have := (List.getElem?_eq_some_iff.mp hj).1
      omega
    obtain ⟨h1, h2, -⟩ := hreg j info hj
    exact ⟨h1, h2 hlt, (himp _).mpr ⟨j, hlt, h1⟩⟩
  | succ n ih =>
    intro i c c1 h hl hlen hreg himp hok
    simp only [sendAllFrom, Option.bind_eq_some] at h
    obtain ⟨c2, h2, h3⟩ := h
    have hi : i < c.mGraphicBlocks.length := by omega
    obtain ⟨info, hinfo⟩ : ∃ info, c.mGraphicBlocks[i]? = some info :=
      ⟨_, List.getElem?_eq_getElem hi⟩
    obtain ⟨a1, -, a3⟩ := hreg i info hinfo
    obtain ⟨fd, hfd⟩ := Option.isSome_iff_exists.mp (a3 (Nat.le_refl _))
    have hs : info.mState = GBState.OWNED_BY_COMPONENT := by
      by_contra hne
      simp [sendOutputBufferToAccelerator, hinfo, hne] at h2
    rw [sendOutputBufferToAccelerator_spec hinfo hs] at h2
    simp only [Option.some.injEq, hfd] at h2
    have hreg2 : c2.mGraphicBlocks = c.mGraphicBlocks.set i
        { info with mState := GBState.OWNED_BY_ACCELERATOR, mHandle := none } := by
      rw [← h2]
    have hlog2 : c2.log = c.log ++
        [Effect.vdaImportBufferForPicture info.mBlockId info.mPixelFormat fd info.mPlanes] := by
      rw [← h2]
    have hp2 : c2.mPendingOutputFormat = c.mPendingOutputFormat := by rw [← h2]
    have hnot : static_cast_int32 i ∉ importedAfter [] c.log := by
      intro hm
      obtain ⟨j, hj, hjj⟩ := (himp _).mp hm
      have := static_cast_int32_inj (by omega) (by omega) hjj
      omega
    have hlog : importedAfter [] c2.log = info.mBlockId :: importedAfter [] c.log := by
      rw [hlog2]
      simp [importedAfter_append, importedAfter]
    have hlen2 : c2.mGraphicBlocks.length = c.mGraphicBlocks.length := by
      rw [hreg2, List.length_set]
    obtain ⟨r1, r2, r3⟩ := ih (i + 1) c2 c1 h3 (by rw [hlen2]; omega) (by rw [hlen2]; exact hlen)
      (by
        intro j x hx
        rw [hreg2] at hx
        by_cases hji : j = i
        · subst hji
          rw [List.getElem?_set_self hi] at hx
          simp only [Option.some.injEq] at hx
          subst hx
          exact ⟨a1, fun _ => rfl, fun h => by omega⟩
        · rw [List.getElem?_set_ne (Ne.symm hji)] at hx
          obtain ⟨b1, b2, b3⟩ := hreg j x hx
          exact ⟨b1, fun h => b2 (by omega), fun h => b3 (by omega)⟩)
      (by
        intro b
        rw [hlog, List.mem_cons, himp, a1]
        constructor
        · rintro (rfl | ⟨j, hj, rfl⟩)
          · exact ⟨i, by omega, rfl⟩
          · exact ⟨j, by omega, rfl⟩
        · rintro ⟨j, hj, rfl⟩
          by_cases hji : j = i
          · exact Or.inl (by rw [hji])
          · exact Or.inr ⟨j, by omega, rfl⟩)
      (by
        rw [hlog2, submissionsOk_append, hok, a1]
        simpa [submissionsOk] using hnot)
    exact ⟨r1, r2, r3.trans hp2⟩

theorem import_tryChangeOutputFormat {env : BlockPoolEnv} {c c1 : Component}
    (h : tryChangeOutputFormat env c = some c1) (hok : submissionsOk [] c.log = true) :
    ImportInvariant c1 := by
  unfold tryChangeOutputFormat at h
  repeat' (first | split at h | (dsimp only at h; split at h))
  all_goals try (simp at h; done)
  · rename_i pending hc _ _ _ _ _ h1 _
    simp at h; subst h
    obtain ⟨-, a2, a3, -⟩ := import_allocate h1
    refine ⟨?_, fun hp => ?_⟩
    · have := pics_reportError ‹c2_status_t› ‹Component›
      simp only [picView, Prod.mk.injEq] at this
      rw [← this.2, a2]
      simpa [setOutputFormatCrop] using hok
    · simp only [reportError, emit, setOutputFormatCrop] at hp a3
      rw [a3, hc] at hp
      simp at hp
  · rename_i h1 herr
    simp only [Option.map_eq_some'] at h
    obtain ⟨c4, h4, rfl⟩ := h
    have herr1 : _ = c2_status_t.C2_OK := not_not.mp herr
    obtain ⟨a1, a2, -, a4⟩ := import_allocate h1
    obtain ⟨a5, a6⟩ := a4 herr1
    have hok3 : submissionsOk [] _ = true := a2.trans (by simpa [setOutputFormatCrop] using hok)
    obtain ⟨b1, b2, -⟩ := import_sendAllFrom _ 0 _ c4 h4 (by simp) a6
      (fun j info hj => ⟨(a5 j info hj).1, fun hlt => absurd hlt (Nat.not_lt_zero _),
        fun _ => (a5 j info hj).2.2.1⟩)
      (fun b => by rw [a1]; simp) hok3
    exact ⟨b2, fun _ => b1⟩

theorem import_send {i : Nat} {c c1 : Component} {info : GraphicBlockInfo}
    (hinfo : c.mGraphicBlocks[i]? = some info)
    (hid : info.mBlockId = static_cast_int32 i) (hh : info.mHandle = none)
    (hm : info.mBlockId ∈ importedAfter [] c.log)
    (hrest : ∀ (j : Nat) (x : GraphicBlockInfo), j ≠ i → c.mGraphicBlocks[j]? = some x →
      x.mBlockId = static_cast_int32 j ∧ x.mHandle = none ∧
      x.mBlockId ∈ importedAfter [] c.log)
    (hok : submissionsOk [] c.log = true)
    (h : sendOutputBufferToAccelerator i c = some c1) : ImportInvariant c1 := by
  have hs : info.mState = GBState.OWNED_BY_COMPONENT := by
    by_contra hne
    simp [sendOutputBufferToAccelerator, hinfo, hne] at h
  have hi : i < c.mGraphicBlocks.length := (List.getElem?_eq_some_iff.mp hinfo).1
  rw [sendOutputBufferToAccelerator_spec hinfo hs] at h
  simp only [Option.some.injEq] at h
  subst h
  simp only [hh]
  have hlog : importedAfter [] (c.log ++ [Effect.vdaReusePictureBuffer info.mBlockId]) =
      importedAfter [] c.log := by
    simp [importedAfter_append, importedAfter]
  refine ⟨?_, fun _ j x hx => ?_⟩
  · dsimp only
    rw [submissionsOk_append, hok]
    simpa [submissionsOk] using hm
  · dsimp only at hx ⊢
    rw [hlog]
    by_cases hji : j = i
    · subst hji
      rw [List.getElem?_set_self hi] at hx
      simp only [Option.some.injEq] at hx
      subst hx
      exact ⟨hid, rfl, hm⟩
    · rw [List.getElem?_set_ne (Ne.symm hji)] at hx
      exact hrest j x hji hx

theorem import_onOutputBufferReturned {env : BlockPoolEnv} {b : C2GraphicBlock} {p : Nat}
    {c c1 : Component} (h : onOutputBufferReturned env b p c = some c1)
    (hi : ImportInvariant c) : ImportInvariant c1 := by
  rcases onOutputBufferReturned_cases h with h1 | h1 | h1 | ⟨i, info, -, hg, hs, h1⟩
  · rw [h1.2]; exact hi
  · rw [h1.2]; exact hi
  · rw [h1.2]
    have := pics_reportError c2_status_t.C2_CORRUPTED c
    simp only [picView, Prod.mk.injEq] at this
    refine ⟨this.2 ▸ hi.1, fun hp j x hx => ?_⟩
    rw [← this.1]
    exact hi.2 hp j x hx
  · rcases h1 with ⟨-, h1⟩ | ⟨hp, h1⟩
    · exact import_tryChangeOutputFormat h1 hi.1
    · have hp0 : c.mPendingOutputFormat = none := by
        cases hpf : c.mPendingOutputFormat with
        | none => rfl
        | some f => rw [hpf] at hp; simp at hp
      have hlt : i < c.mGraphicBlocks.length := (List.getElem?_eq_some_iff.mp hg).1
      obtain ⟨a1, a2, a3⟩ := hi.2 hp0 i info hg
      obtain ⟨c2, hc2⟩ : ∃ c2 : Component, c2 = { c with
          mGraphicBlocks := c.mGraphicBlocks.set i
            { info with mGraphicBlock := some b, mState := GBState.OWNED_BY_COMPONENT } } :=
        ⟨_, rfl⟩
      rw [← hc2] at h1
      have hreg2 : c2.mGraphicBlocks = c.mGraphicBlocks.set i
          { info with mGraphicBlock := some b, mState := GBState.OWNED_BY_COMPONENT } := by
        rw [hc2]
      have hlog2 : c2.log = c.log := by rw [hc2]
      refine @import_send i c2 c1
        { info with mGraphicBlock := some b, mState := GBState.OWNED_BY_COMPONENT }
        (by rw [hreg2, List.getElem?_set_self hlt]) a1 a2 (by rw [hlog2]; exact a3)
        (fun j x hji hx => ?_) (by rw [hlog2]; exact hi.1) h1
      rw [hreg2, List.getElem?_set_ne (Ne.symm hji)] at hx
      rw [hlog2]
      exact hi.2 hp0 j x hx

theorem import_onOutputFormatChanged {env : BlockPoolEnv} {f : VideoFormat}
    {c c1 : Component} (h : onOutputFormatChanged env f c = some c1)
    (hi : ImportInvariant c) : ImportInvariant c1 := by
  unfold onOutputFormatChanged EXPECT_RUNNING_OR_RETURN_ON_ERROR at h
  repeat' (first | split at h | (dsimp only at h; split at h))
  all_goals try (simp at h; done)
  all_goals try (simp at h; subst h; exact hi)
  exact import_tryChangeOutputFormat h hi.1

/-- A handler that leaves the submissions, the pending format and the block ids and
descriptors of the registry as they are keeps the invariant. -/
theorem import_of_frame {c c1 : Component} (hv : picView c = picView c1)
    (hp : c1.mPendingOutputFormat = c.mPendingOutputFormat)
    (hr : ∀ (j : Nat) (x : GraphicBlockInfo), c1.mGraphicBlocks[j]? = some x →
      ∃ y, c.mGraphicBlocks[j]? = some y ∧ y.mBlockId = x.mBlockId ∧ y.mHandle = x.mHandle)
    (hi : ImportInvariant c) : ImportInvariant c1 := by
  simp only [picView, Prod.mk.injEq] at hv
  refine ⟨hv.2 ▸ hi.1, fun hp1 j x hx => ?_⟩
  obtain ⟨y, hy, h1, h2⟩ := hr j x hx
  obtain ⟨a1, a2, a3⟩ := hi.2 (hp ▸ hp1) j y hy
  rw [← hv.1, ← h1, ← h2]
  exact ⟨a1, a2, a3⟩

theorem import_of_same {c c1 : Component} (hv : picView c = picView c1)
    (hs : SameRegistry c c1) (hi : ImportInvariant c) : ImportInvariant c1 :=
  import_of_frame hv hs.2.2.2.1 (fun j x hx => ⟨x, by rw [← hs.1]; exact hx, rfl, rfl⟩) hi

theorem import_onOutputBufferDone {p b : Int} {c c1 : Component}
    (h : onOutputBufferDone p b c = some c1) (hi : ImportInvariant c) :
    ImportInvariant c1 := by
  have hv := pics_onOutputBufferDone h
  rcases onOutputBufferDone_cases h with rfl | rfl | ⟨w, i, info, work, gb, wl, wls, -, -, hg,
    -, -, -, -, h1⟩
  · exact hi
  · exact import_of_same hv (sameRegistry_reportError _ _) hi
  · obtain ⟨s1, -, -, s4, -, -⟩ := sameRegistry_reportFinishedWorkIfAny h1
    refine import_of_frame hv (by rw [s4]) (fun j x hx => ?_) hi
    rw [s1] at hx
    dsimp only at hx
    have hlt : i < c.mGraphicBlocks.length := (List.getElem?_eq_some_iff.mp hg).1
    by_cases hji : j = i
    · subst hji
      rw [List.getElem?_set_self hlt] at hx
      simp only [Option.some.injEq] at hx
      subst hx
      exact ⟨info, hg, rfl, rfl⟩
    · rw [List.getElem?_set_ne (Ne.symm hji)] at hx
      exact ⟨x, hx, rfl, rfl⟩

theorem import_onResetDone {c c1 : Component} (h : onResetDone c = some c1)
    (hi : ImportInvariant c) : ImportInvariant c1 := by
  have hv := pics_onResetDone h
  unfold onResetDone at h
  repeat' split at h
  · simp at h; subst h; exact hi
  · exact import_of_same hv (sameRegistry_onFlushDone h) hi
  · simp only [picView, Prod.mk.injEq] at hv
    refine ⟨hv.2 ▸ hi.1, fun _ j x hx => ?_⟩
    unfold onStopDone at h
    split at h
    · simp at h
    · simp only [Option.some.injEq] at h
      subst h
      have hsd : ∀ y : Component, (stopDequeueThread y).mGraphicBlocks = y.mGraphicBlocks := by
        intro y; unfold stopDequeueThread; split <;> rfl
      simp [emit, hsd] at hx
  · simp at h; subst h; exact import_of_same hv (sameRegistry_reportError _ _) hi

theorem import_step {e : Event} {c c1 : Component} (h : step e c = some c1)
    (hi : ImportInvariant c) : ImportInvariant c1 := by
  cases e <;> simp only [step] at h
  · exact import_of_same (pics_onStart h) (sameRegistry_onStart h) hi
  · exact import_of_same (pics_onStop h) (sameRegistry_onStop h) hi
  · exact import_of_same (pics_onQueueWork h) (sameRegistry_onQueueWork h) hi
  · exact import_of_same (pics_onDequeueWork h) (sameRegistry_onDequeueWork h) hi
  · exact import_of_same (pics_onInputBufferDone h) (sameRegistry_onInputBufferDone h) hi
  · exact import_onOutputBufferReturned h hi
  · exact import_onOutputBufferDone h hi
  · exact import_of_same (pics_onDrain h) (sameRegistry_onDrain h) hi
  · exact import_of_same (pics_onDrainDone h) (sameRegistry_onDrainDone h) hi
  · exact import_of_same (pics_onFlush h) (sameRegistry_onFlush h) hi
  · exact import_onResetDone h hi
  · exact import_onOutputFormatChanged h hi
  · have hv := pics_onVisibleRectChanged h
    unfold onVisibleRectChanged EXPECT_RUNNING_OR_RETURN_ON_ERROR at h
    repeat' split at h
    all_goals try (simp at h; done)
    all_goals simp at h
    all_goals subst h
    · exact hi
    · exact import_of_frame hv rfl (fun j x hx => ⟨x, hx, rfl, rfl⟩) hi
  · simp only [Option.some.injEq] at h
    subst h
    have hv := pics_notifyError ‹VDAResult› c
    cases ‹VDAResult› <;>
      first
        | exact hi
        | exact import_of_same hv (sameRegistry_reportError _ _) hi
  · split at h <;> simp only [Option.some.injEq] at h <;> subst h
    · have hv := pics_dequeueThreadLoopIteration ‹_› ‹_› c
      refine import_of_frame hv ?_ (fun j x hx => ⟨x, ?_, rfl, rfl⟩) hi
      · unfold dequeueThreadLoopIteration
        repeat' split
        all_goals rfl
      · revert hx
        unfold dequeueThreadLoopIteration
        repeat' split
        all_goals exact id
    · exact hi

theorem importInvariant_of_reachable {c : Component} (h : Reachable c) :
    ImportInvariant c := by
  induction h with
  | init s => exact ⟨rfl, fun _ j x hx => by simp [initial] at hx⟩
  | step e _ hs ih => exact import_step hs ih

theorem importedAfter_mono {b : Int} :
    ∀ (m : List Effect) (imported : List Int),
      (∀ n, Effect.vdaAssignPictureBuffers n ∉ m) → b ∈ imported →
      b ∈ importedAfter imported m := by
  intro m
  induction m with
  | nil => intro imported _ h; exact h
  | cons e m ih =>
    intro imported hm h
    have hm1 : ∀ n, Effect.vdaAssignPictureBuffers n ∉ m :=
      fun n hn => hm n (List.mem_cons_of_mem _ hn)
    cases e with
    | vdaAssignPictureBuffers n => exact absurd (List.mem_cons_self _ _) (hm n)
    | vdaImportBufferForPicture b1 f d p =>
      exact ih _ hm1 (List.mem_cons_of_mem _ h)
    | _ => exact ih _ hm1 h

theorem mem_importedAfter {b : Int} :
    ∀ (l : List Effect) (imported : List Int), b ∈ importedAfter imported l →
      (b ∈ imported ∧ ∀ n, Effect.vdaAssignPictureBuffers n ∉ l) ∨
      ∃ (p q : List Effect) (f : HalPixelFormat) (d : Int) (pl : List VideoFramePlane),
        l = p ++ Effect.vdaImportBufferForPicture b f d pl :: q ∧
        ∀ n, Effect.vdaAssignPictureBuffers n ∉ q := by
  intro l
  induction l with
  | nil => intro imported h; exact Or.inl ⟨h, fun n hn => by simp at hn⟩
  | cons e l ih =>
    intro imported h
    have hright : ∀ imp1, b ∈ importedAfter imp1 l →
        (b ∈ imp1 → (b ∈ imported ∧ ∀ n, Effect.vdaAssignPictureBuffers n ≠ e) ∨
          ∃ f d pl, e = Effect.vdaImportBufferForPicture b f d pl) →
        (b ∈ imported ∧ ∀ n, Effect.vdaAssignPictureBuffers n ∉ e :: l) ∨
        ∃ (p q : List Effect) (f : HalPixelFormat) (d : Int) (pl : List VideoFramePlane),
          e :: l = p ++ Effect.vdaImportBufferForPicture b f d pl :: q ∧
          ∀ n, Effect.vdaAssignPictureBuffers n ∉ q := by
      intro imp1 h1 hcase
      rcases ih imp1 h1 with ⟨h2, h3⟩ | ⟨p, q, f, d, pl, h2, h3⟩
      · rcases hcase h2 with ⟨h4, h5⟩ | ⟨f, d, pl, h4⟩
        · refine Or.inl ⟨h4, fun n hn => ?_⟩
          rcases List.mem_cons.mp hn with hn | hn
          · exact h5 n hn
          · exact h3 n hn
        · exact Or.inr ⟨[], l, f, d, pl, by rw [h4]; rfl, h3⟩
      · exact Or.inr ⟨e :: p, q, f, d, pl, by rw [h2]; rfl, h3⟩
    cases e with
    | vdaAssignPictureBuffers n =>
      exact hright [] h (fun hb => by simp at hb)
    | vdaImportBufferForPicture b1 f d p =>
      refine hright (b1 :: imported) h (fun hb => ?_)
      rcases List.mem_cons.mp hb with rfl | hb
      · exact Or.inr ⟨f, d, p, rfl⟩
      · exact Or.inl ⟨hb, fun n hn => by cases hn⟩
    | _ => exact hright imported h (fun hb => Or.inl ⟨hb, fun n hn => by cases hn⟩)

theorem no_second_import {l1 m r : List Effect} {b : Int} {f f1 : HalPixelFormat}
    {d d1 : Int} {p p1 : List VideoFramePlane}
    (hok : submissionsOk [] (l1 ++ Effect.vdaImportBufferForPicture b f d p ::
      (m ++ Effect.vdaImportBufferForPicture b f1 d1 p1 :: r)) = true) :
    ∃ n, Effect.vdaAssignPictureBuffers n ∈ m := by
  by_contra hne
  have hm : ∀ n, Effect.vdaAssignPictureBuffers n ∉ m := fun n hn => hne ⟨n, hn⟩
  rw [submissionsOk_append] at hok
  simp only [Bool.and_eq_true, submissionsOk, submissionsOk_append, Bool.not_eq_true',
    List.contains_eq_any_beq, List.any_eq_false, beq_iff_eq] at hok
  have h1 := hok.2.2.2.1
  have h2 := @importedAfter_mono b m (b :: importedAfter [] l1) hm (List.mem_cons_self _ _)
  exact h1 b h2 rfl

theorem no_import_after_reuse {l1 m r : List Effect} {b : Int} {f : HalPixelFormat}
    {d : Int} {p : List VideoFramePlane}
    (hok : submissionsOk [] (l1 ++ Effect.vdaReusePictureBuffer b ::
      (m ++ Effect.vdaImportBufferForPicture b f d p :: r)) = true) :
    ∃ n, Effect.vdaAssignPictureBuffers n ∈ m := by
  by_contra hne
  have hm : ∀ n, Effect.vdaAssignPictureBuffers n ∉ m := fun n hn => hne ⟨n, hn⟩
  rw [submissionsOk_append] at hok
  simp only [Bool.and_eq_true, submissionsOk, submissionsOk_append, Bool.not_eq_true',
    List.contains_eq_any_beq, List.any_eq_false, List.any_eq_true, beq_iff_eq] at hok
  obtain ⟨x, hx, hbx⟩ := hok.2.1
  have hb : b ∈ importedAfter [] l1 := by
    have : x = b := by first | exact hbx | exact hbx.symm
    rw [← this]; exact hx
  have h1 := hok.2.2.2.1
  have h2 := @importedAfter_mono b m (importedAfter [] l1) hm hb
  exact h1 b h2 rfl

theorem import_before_reuse {l1 r : List Effect} {b : Int}
    (hok : submissionsOk [] (l1 ++ Effect.vdaReusePictureBuffer b :: r) = true) :
    ∃ (p q : List Effect) (f : HalPixelFormat) (d : Int) (pl : List VideoFramePlane),
      l1 = p ++ Effect.vdaImportBufferForPicture b f d pl :: q ∧
      ∀ n, Effect.vdaAssignPictureBuffers n ∉ q := by
  rw [submissionsOk_append] at hok
  simp only [Bool.and_eq_true, submissionsOk, List.contains_eq_any_beq, List.any_eq_true,
    beq_iff_eq] at hok
  obtain ⟨x, hx, hbx⟩ := hok.2.1
  have hb : b ∈ importedAfter [] l1 := by
    have : x = b := by first | exact hbx | exact hbx.symm
    rw [← this]; exact hx
  rcases mem_importedAfter l1 [] hb with ⟨h, -⟩ | h
  · simp at h
  · exact h

/-- C35: `sendOutputBufferToAccelerator` aborts at its check unless the record is owned by
the component, and leaves it owned by the accelerator.  When the record still holds its
descriptor it calls `importBufferForPicture` with the block id, the pixel format, the
descriptor and the planes of the record and the record gives the descriptor away; when it
holds none it calls `reusePictureBuffer` with the block id.  A record is created holding a
descriptor, and no handler that does not allocate the registry anew gives a descriptor to a
record.  In every execution, where the records of one registry are those submitted between
two `assignPictureBuffers` calls and a record is known by its block id: two imports of the
same block id are separated by a new registry, so a record is imported at most once; a
reuse and a later import of the same block id are separated by a new registry, so no record
is imported after it was reused; and every reuse of a block id comes after an import of it
in the same registry, so the first submission of a record is the import.  While no
format change is pending every record has its position as block id and has given its
descriptor away, so that a returned buffer is always reused. -/
theorem import_once :
    (∀ (i : Nat) (c : Component) (info : GraphicBlockInfo),
      c.mGraphicBlocks[i]? = some info → info.mState ≠ GBState.OWNED_BY_COMPONENT →
      sendOutputBufferToAccelerator i c = none) ∧
    (∀ (i : Nat) (c : Component) (info : GraphicBlockInfo),
      c.mGraphicBlocks[i]? = some info → info.mState = GBState.OWNED_BY_COMPONENT →
      sendOutputBufferToAccelerator i c = some { c with
        mGraphicBlocks := c.mGraphicBlocks.set i
          { info with mState := GBState.OWNED_BY_ACCELERATOR, mHandle := none }
        log := c.log ++ [match info.mHandle with
          | some fd =>
            Effect.vdaImportBufferForPicture info.mBlockId info.mPixelFormat fd info.mPlanes
          | none => Effect.vdaReusePictureBuffer info.mBlockId] }) ∧
    (∀ (d : Int) (b : C2GraphicBlock) (p : Nat) (c c1 : Component),
      appendOutputBuffer d b p c = some c1 →
      c1.mGraphicBlocks = c.mGraphicBlocks ∨
        ∃ info : GraphicBlockInfo, c1.mGraphicBlocks = c.mGraphicBlocks ++ [info] ∧
          info.mHandle = some d ∧ info.mState = GBState.OWNED_BY_COMPONENT) ∧
    (∀ (a : Bool) (f : HalPixelFormat) (d : Int) (b : C2GraphicBlock) (p : Nat)
      (c c1 : Component), appendSecureOutputBuffer a f d b p c = some c1 →
      c1.mGraphicBlocks = c.mGraphicBlocks ∨
        ∃ info : GraphicBlockInfo, c1.mGraphicBlocks = c.mGraphicBlocks ++ [info] ∧
          info.mHandle = some d ∧ info.mState = GBState.OWNED_BY_COMPONENT) ∧
    (∀ (e : Event) (c c1 : Component), reallocates e c = false → step e c = some c1 →
      c1.mGraphicBlocks = [] ∨ ReleasesOnly (handles c) (handles c1)) ∧
    (∀ (c : Component), Reachable c →
      ∀ (l1 m r : List Effect) (b : Int) (f f1 : HalPixelFormat) (d d1 : Int)
        (p p1 : List VideoFramePlane),
      c.log = l1 ++ Effect.vdaImportBufferForPicture b f d p ::
        (m ++ Effect.vdaImportBufferForPicture b f1 d1 p1 :: r) →
      ∃ n, Effect.vdaAssignPictureBuffers n ∈ m) ∧
    (∀ (c : Component), Reachable c →
      ∀ (l1 m r : List Effect) (b : Int) (f : HalPixelFormat) (d : Int)
        (p : List VideoFramePlane),
      c.log = l1 ++ Effect.vdaReusePictureBuffer b ::
        (m ++ Effect.vdaImportBufferForPicture b f d p :: r) →
      ∃ n, Effect.vdaAssignPictureBuffers n ∈ m) ∧
    (∀ (c : Component), Reachable c → ∀ (l1 r : List Effect) (b : Int),
      c.log = l1 ++ Effect.vdaReusePictureBuffer b :: r →
      ∃ (p q : List Effect) (f : HalPixelFormat) (d : Int) (pl : List VideoFramePlane),
        l1 = p ++ Effect.vdaImportBufferForPicture b f d pl :: q ∧
        ∀ n, Effect.vdaAssignPictureBuffers n ∉ q) ∧
    (∀ (c : Component), Reachable c → c.mPendingOutputFormat = none →
      ∀ (i : Nat) (info : GraphicBlockInfo), c.mGraphicBlocks[i]? = some info →
        info.mBlockId = static_cast_int32 i ∧ info.mHandle = none) := by
  refine ⟨fun i c info hi hs => ?_, fun i c info hi hs => sendOutputBufferToAccelerator_spec hi hs,
    fun d b p c c1 h => fresh_appendOutputBuffer h,
    fun a f d b p c c1 h => fresh_appendSecureOutputBuffer h,
    fun e c c1 he h => releases_step he h,
    fun c hr l1 m r b f f1 d d1 p p1 hl => ?_, fun c hr l1 m r b f d p hl => ?_,
    fun c hr l1 r b hl => ?_, fun c hr hp i info hi => ?_⟩
  · simp [sendOutputBufferToAccelerator, hi, hs]
  · exact no_second_import (hl ▸ (importInvariant_of_reachable hr).1)
  · exact no_import_after_reuse (hl ▸ (importInvariant_of_reachable hr).1)
  · exact import_before_reuse (hl ▸ (importInvariant_of_reachable hr).1)
  · obtain ⟨h1, h2, -⟩ := (importInvariant_of_reachable hr).2 hp i info hi
    exact ⟨h1, h2⟩

theorem import_once_witness :
    exampleClientRecord.mState ≠ GBState.OWNED_BY_COMPONENT ∧
      sendOutputBufferToAccelerator 0 exampleDoneState = none ∧
      Reachable (stepD (Event.onOutputBufferReturned examplePool (exampleBlock 0) 0)
        exampleDoneState) ∧
      (stepD (Event.onOutputBufferReturned examplePool (exampleBlock 0) 0)
          exampleDoneState).log =
        (stepD (Event.onOutputBufferReturned examplePool (exampleBlock 0) 0)
          exampleDoneState).log.dropLast ++ Effect.vdaReusePictureBuffer 0 :: [] ∧
      importedIds (stepD (Event.onOutputBufferReturned examplePool (exampleBlock 0) 0)
        exampleDoneState).log = [0, 1, 2] ∧
      ∃ (p q : List Effect) (f : HalPixelFormat) (d : Int) (pl : List VideoFramePlane),
        (stepD (Event.onOutputBufferReturned examplePool (exampleBlock 0) 0)
          exampleDoneState).log.dropLast =
          p ++ Effect.vdaImportBufferForPicture 0 f d pl :: q ∧
        ∀ n, Effect.vdaAssignPictureBuffers n ∉ q :=
  have hr : Reachable (stepD (Event.onOutputBufferReturned examplePool (exampleBlock 0) 0)
      exampleDoneState) :=
    Reachable.step (Event.onOutputBufferReturned examplePool (exampleBlock 0) 0)
      (reachable_of_run (Reachable.init false)
        (by decide : run [Event.onStart VDAResult.SUCCESS,
          Event.onOutputFormatChanged examplePool exampleFormat,
          Event.onQueueWork (exampleWork 0 0), Event.onDequeueWork 10,
          Event.onOutputBufferDone 0 0] (initial false) = some exampleDoneState))
      (by decide)
  have hl : (stepD (Event.onOutputBufferReturned examplePool (exampleBlock 0) 0)
        exampleDoneState).log =
      (stepD (Event.onOutputBufferReturned examplePool (exampleBlock 0) 0)
        exampleDoneState).log.dropLast ++ Effect.vdaReusePictureBuffer 0 :: [] := by
    decide
  ⟨by decide, import_once.1 0 exampleDoneState exampleClientRecord (by decide) (by decide),
    hr, hl, by decide, import_once.2.2.2.2.2.2.2.1 _ hr _ [] 0 hl⟩

end C2VDA
